import Mathlib

/-!
# bdbm_drv: fine-grained-mapping FTL (`ftl/algo/fgm_ftl.c`)

A shallow embedding of the dual-grain mapping tables, the three-stream
active-block allocator, the recycle engine and the garbage collector of
`fgm_ftl.c`, of the per-die gate of `ftl/llm_noq.c` and of the open and
release handlers of `frontend/hybrid/host_blkio_proxy.c`, followed by the
properties proved about them.

Conventions of the embedding.

* `uint64_t` values are `Nat`; arithmetic that can wrap is reduced modulo
  `2^64` explicitly.  `int64_t` values (the logical addresses of a
  `bdbm_logaddr_t`) are `Int`; `to_u64` is the C conversion to `uint64_t`.
* A pointer to a `bdbm_abm_block_t` is the index of the block in the block
  array of the ABM; `NULL` is `none`.
* A function that can hit `bdbm_bug_on`, dereference `NULL` or index an array
  out of bounds returns an `Option`; `none` is the abort.
* `int count` is an `Int`: signed overflow is undefined in C, and the
  statements about `count` carry the bound that keeps it inside `int`.
-/

namespace BdbmFgm

/-! ## Machine integers -/

/-- Conversion of an `int64_t` to `uint64_t`. -/
def to_u64 (x : Int) : Nat := (x % 18446744073709551616).toNat

/-- The value `(uint64_t)-1`. -/
def U64_MAX : Nat := 18446744073709551615

/-! ## Device geometry and addresses -/

/-- Fields of `bdbm_device_params_t` read by `fgm_ftl.c`. -/
structure bdbm_device_params_t where
  nr_channels : Nat
  nr_chips_per_channel : Nat
  nr_blocks_per_chip : Nat
  nr_pages_per_block : Nat
  nr_subpages_per_page : Nat
  nr_subpages_per_block : Nat
  nr_blocks_per_ssd : Nat
  nr_pages_per_ssd : Nat
  nr_subpages_per_ssd : Nat
deriving DecidableEq, Repr

/-- Physical address `bdbm_phyaddr_t` (all fields `uint64_t`). -/
structure bdbm_phyaddr_t where
  punit_id : Nat
  channel_no : Nat
  chip_no : Nat
  block_no : Nat
  page_no : Nat
deriving DecidableEq, Repr

/-- Logical address `bdbm_logaddr_t`: `lpa[k]` per sub-page slot, the coarse
page number or stream tag `lpa_cg`, and the slot index `ofs`. -/
structure bdbm_logaddr_t where
  lpa : Nat → Int
  lpa_cg : Int
  ofs : Nat

/-- Modelled from the spec: the macro `BDBM_GET_PUNIT_ID` is declared outside
the given sources; section 3 of the spec gives
`punit_id = channel_no * chips_per_channel + chip_no`. -/
def BDBM_GET_PUNIT_ID (np : bdbm_device_params_t) (ppa : bdbm_phyaddr_t) : Nat :=
  ppa.channel_no * np.nr_chips_per_channel + ppa.chip_no

/-! ## Active block manager

`algo/abm.c` is not among the given sources.  The definitions of this section
are modelled from section 4.1 of the spec. -/

/-- Sub-page state held in `pst[]`. -/
inductive bdbm_abm_subpage_t where
  | NOT_INVALID
  | VALID
  | INVALID
deriving DecidableEq, Repr

/-- Block state. -/
inductive bdbm_abm_blk_status_t where
  | FREE
  | CLEAN
  | DIRTY
  | DIRTY_4KB
  | BAD
deriving DecidableEq, Repr

/-- Fields of `bdbm_abm_block_t` read by `fgm_ftl.c`. -/
structure bdbm_abm_block_t where
  status : bdbm_abm_blk_status_t
  channel_no : Nat
  chip_no : Nat
  block_no : Nat
  nr_invalid_subpages : Nat
  pst : List bdbm_abm_subpage_t
deriving DecidableEq, Repr

/-- A call made by the FTL across the ABM interface, with its arguments. -/
inductive abm_call_t where
  | invalidate_page (channel_no chip_no block_no page_no subpage_no : Nat)
  | validate_page_4kb (channel_no chip_no block_no page_no subpage_no : Nat)
  | get_free_block_commit (blk : Nat)
  | erase_block (channel_no chip_no block_no : Nat) (is_bad : Bool)
deriving DecidableEq, Repr

/-- Modelled from the spec: `bdbm_abm_info_t` of the absent `algo/abm.c`.
`blocks` is the block array (index
`((ch * chips_per_ch) + chip) * blocks_per_chip + blk`); the four
`list_head_*` fields are the per-die state lists, one list of block indices
per parallel unit `ch * chips_per_ch + chip`, head first; `calls` records, in
order, the calls received across the interface. -/
structure bdbm_abm_info_t where
  blocks : List bdbm_abm_block_t
  list_head_free : List (List Nat)
  list_head_clean : List (List Nat)
  list_head_dirty : List (List Nat)
  list_head_dirty_4kb : List (List Nat)
  nr_total_blks : Nat
  nr_free_blks : Nat
  nr_clean_blks : Nat
  nr_dirty_blks : Nat
  nr_dirty_4kb_blks : Nat
  nr_bad_blks : Nat
  calls : List abm_call_t
deriving DecidableEq, Repr

/-- Index of the die `(channel_no, chip_no)` in the per-die lists. -/
def abm_die (np : bdbm_device_params_t) (channel_no chip_no : Nat) : Nat :=
  channel_no * np.nr_chips_per_channel + chip_no

/-- Modelled from the spec: `bdbm_abm_get_block`, the block handle at index
`((ch * chips_per_ch) + chip) * blocks_per_chip + blk`. -/
def bdbm_abm_get_block (np : bdbm_device_params_t) (bai : bdbm_abm_info_t)
    (channel_no chip_no block_no : Nat) : Option Nat :=
  let i := (channel_no * np.nr_chips_per_channel + chip_no) * np.nr_blocks_per_chip + block_no
  if i < bai.blocks.length then some i else none

/-- Removes block index `b` from the list of die `d`. -/
def abm_list_del (ls : List (List Nat)) (d b : Nat) : List (List Nat) :=
  ls.set d ((ls.getD d []).filter (fun x => x != b))

/-- Appends block index `b` to the list of die `d`. -/
def abm_list_add_tail (ls : List (List Nat)) (d b : Nat) : List (List Nat) :=
  ls.set d (ls.getD d [] ++ [b])

/-- Modelled from the spec: `bdbm_abm_invalidate_page` flips
`pst[pg * K + sub]` from VALID to INVALID and increments
`nr_invalid_subpages`; it is idempotent on an INVALID sub-page.  The spec
does not say what happens to a NOT_INVALID sub-page, which is left as it is
here; no statement below depends on that case. -/
def bdbm_abm_invalidate_page (np : bdbm_device_params_t) (bai : bdbm_abm_info_t)
    (channel_no chip_no block_no page_no subpage_no : Nat) : bdbm_abm_info_t :=
  let bai1 := { bai with calls := bai.calls ++
    [abm_call_t.invalidate_page channel_no chip_no block_no page_no subpage_no] }
  match bdbm_abm_get_block np bai channel_no chip_no block_no with
  | none => bai1
  | some i =>
    match bai.blocks[i]? with
    | none => bai1
    | some b =>
      let off := page_no * np.nr_subpages_per_page + subpage_no
      if b.pst[off]? = some bdbm_abm_subpage_t.VALID then
        { bai1 with blocks := bai.blocks.set i ({ b with
            pst := b.pst.set off bdbm_abm_subpage_t.INVALID,
            nr_invalid_subpages := b.nr_invalid_subpages + 1 }) }
      else bai1

/-- Modelled from the spec: `bdbm_abm_validate_page_4kb` flips
`pst[pg * K + sub]` from NOT_INVALID to VALID, and on the first 4KB write of
a block (state neither DIRTY nor DIRTY_4KB) turns the block DIRTY_4KB and
moves it into the dirty_4kb list of its die. -/
def bdbm_abm_validate_page_4kb (np : bdbm_device_params_t) (bai : bdbm_abm_info_t)
    (channel_no chip_no block_no page_no subpage_no : Nat) : bdbm_abm_info_t :=
  let bai1 := { bai with calls := bai.calls ++
    [abm_call_t.validate_page_4kb channel_no chip_no block_no page_no subpage_no] }
  match bdbm_abm_get_block np bai channel_no chip_no block_no with
  | none => bai1
  | some i =>
    match bai.blocks[i]? with
    | none => bai1
    | some b =>
      let off := page_no * np.nr_subpages_per_page + subpage_no
      let pst1 := if b.pst[off]? = some bdbm_abm_subpage_t.NOT_INVALID
                  then b.pst.set off bdbm_abm_subpage_t.VALID else b.pst
      if b.status = bdbm_abm_blk_status_t.DIRTY ∨ b.status = bdbm_abm_blk_status_t.DIRTY_4KB then
        { bai1 with blocks := bai.blocks.set i { b with pst := pst1 } }
      else
        let d := abm_die np channel_no chip_no
        { bai1 with
          blocks := bai.blocks.set i ({ b with
            pst := pst1, status := bdbm_abm_blk_status_t.DIRTY_4KB }),
          list_head_free := abm_list_del bai.list_head_free d i,
          list_head_clean := abm_list_del bai.list_head_clean d i,
          list_head_dirty_4kb := abm_list_add_tail bai.list_head_dirty_4kb d i,
          nr_clean_blks :=
            if b.status = bdbm_abm_blk_status_t.CLEAN then bai.nr_clean_blks - 1
            else bai.nr_clean_blks,
          nr_free_blks :=
            if b.status = bdbm_abm_blk_status_t.FREE then bai.nr_free_blks - 1
            else bai.nr_free_blks,
          nr_dirty_4kb_blks := bai.nr_dirty_4kb_blks + 1 }

/-- Modelled from the spec: `bdbm_abm_get_free_block_prepare` reserves the
head FREE block of the die, `NULL` when none remains, and changes no state. -/
def bdbm_abm_get_free_block_prepare (np : bdbm_device_params_t) (bai : bdbm_abm_info_t)
    (channel_no chip_no : Nat) : Option Nat :=
  (bai.list_head_free.getD (abm_die np channel_no chip_no) []).head?

/-- Modelled from the spec: `bdbm_abm_get_free_block_commit` turns the
reserved FREE block CLEAN and inserts it into the CLEAN list of its die. -/
def bdbm_abm_get_free_block_commit (np : bdbm_device_params_t) (bai : bdbm_abm_info_t)
    (blk : Nat) : bdbm_abm_info_t :=
  let bai1 := { bai with calls := bai.calls ++ [abm_call_t.get_free_block_commit blk] }
  match bai.blocks[blk]? with
  | none => bai1
  | some b =>
    let d := abm_die np b.channel_no b.chip_no
    { bai1 with
      blocks := bai.blocks.set blk { b with status := bdbm_abm_blk_status_t.CLEAN },
      list_head_free := abm_list_del bai.list_head_free d blk,
      list_head_clean := abm_list_add_tail bai.list_head_clean d blk,
      nr_free_blks := bai.nr_free_blks - 1,
      nr_clean_blks := bai.nr_clean_blks + 1 }

/-- Modelled from the spec: `bdbm_abm_erase_block` clears `pst` to
NOT_INVALID, resets `nr_invalid_subpages` and turns the block FREE, or BAD
when `is_bad` is set. -/
def bdbm_abm_erase_block (np : bdbm_device_params_t) (bai : bdbm_abm_info_t)
    (channel_no chip_no block_no : Nat) (is_bad : Bool) : bdbm_abm_info_t :=
  let bai1 := { bai with calls := bai.calls ++
    [abm_call_t.erase_block channel_no chip_no block_no is_bad] }
  match bdbm_abm_get_block np bai channel_no chip_no block_no with
  | none => bai1
  | some i =>
    match bai.blocks[i]? with
    | none => bai1
    | some b =>
      let d := abm_die np channel_no chip_no
      let dec (st : bdbm_abm_blk_status_t) (n : Nat) : Nat := if b.status = st then n - 1 else n
      { bai1 with
        blocks := bai.blocks.set i ({ b with
          pst := b.pst.map (fun _ => bdbm_abm_subpage_t.NOT_INVALID),
          nr_invalid_subpages := 0,
          status := if is_bad then bdbm_abm_blk_status_t.BAD
                    else bdbm_abm_blk_status_t.FREE }),
        list_head_free :=
          if is_bad then abm_list_del bai.list_head_free d i
          else abm_list_add_tail (abm_list_del bai.list_head_free d i) d i,
        list_head_clean := abm_list_del bai.list_head_clean d i,
        list_head_dirty := abm_list_del bai.list_head_dirty d i,
        list_head_dirty_4kb := abm_list_del bai.list_head_dirty_4kb d i,
        nr_free_blks :=
          if is_bad then dec bdbm_abm_blk_status_t.FREE bai.nr_free_blks
          else dec bdbm_abm_blk_status_t.FREE bai.nr_free_blks + 1,
        nr_clean_blks := dec bdbm_abm_blk_status_t.CLEAN bai.nr_clean_blks,
        nr_dirty_blks := dec bdbm_abm_blk_status_t.DIRTY bai.nr_dirty_blks,
        nr_dirty_4kb_blks := dec bdbm_abm_blk_status_t.DIRTY_4KB bai.nr_dirty_4kb_blks,
        nr_bad_blks :=
          if is_bad then dec bdbm_abm_blk_status_t.BAD bai.nr_bad_blks + 1
          else dec bdbm_abm_blk_status_t.BAD bai.nr_bad_blks }

/-- Modelled from the spec: `bdbm_abm_create` allocates every block in FREE
state with an all-NOT_INVALID `pst`, every block on the free list of its die
in block order, and the other lists empty. -/
def bdbm_abm_create (np : bdbm_device_params_t) : bdbm_abm_info_t :=
  let nr_punits := np.nr_channels * np.nr_chips_per_channel
  let nr_blks := nr_punits * np.nr_blocks_per_chip
  { blocks := (List.range nr_blks).map (fun i =>
      { status := bdbm_abm_blk_status_t.FREE,
        channel_no := (i / np.nr_blocks_per_chip) / np.nr_chips_per_channel,
        chip_no := (i / np.nr_blocks_per_chip) % np.nr_chips_per_channel,
        block_no := i % np.nr_blocks_per_chip,
        nr_invalid_subpages := 0,
        pst := List.replicate (np.nr_pages_per_block * np.nr_subpages_per_page)
                 bdbm_abm_subpage_t.NOT_INVALID }),
    list_head_free := (List.range nr_punits).map (fun d =>
      (List.range np.nr_blocks_per_chip).map (fun b => d * np.nr_blocks_per_chip + b)),
    list_head_clean := List.replicate nr_punits [],
    list_head_dirty := List.replicate nr_punits [],
    list_head_dirty_4kb := List.replicate nr_punits [],
    nr_total_blks := nr_blks,
    nr_free_blks := nr_blks,
    nr_clean_blks := 0,
    nr_dirty_blks := 0,
    nr_dirty_4kb_blks := 0,
    nr_bad_blks := 0,
    calls := [] }

/-! ## Request descriptors -/

/-- Per-slot state `kp_stt[]` of the main buffer of a request. -/
inductive kp_stt_t where
  | KP_STT_DONE
  | KP_STT_HOLE
  | KP_STT_DATA
deriving DecidableEq, Repr

/-- Request types named in `fgm_ftl.c`; `REQTYPE_DONE` stands for the zeroed
field of a fresh descriptor. -/
inductive reqtype_t where
  | REQTYPE_DONE
  | REQTYPE_GC_READ
  | REQTYPE_GC_WRITE
  | REQTYPE_GCREC_WRITE
  | REQTYPE_REC_READ
  | REQTYPE_REC_WRITE
  | REQTYPE_GC_ERASE
deriving DecidableEq, Repr

/-- Fields of `bdbm_llm_req_t` used by `fgm_ftl.c`: request type, completion
code, logical address (`lpa[]`, `lpa_cg`, `ofs`), physical address, the
per-slot state and buffer of `fmain`, and the per-slot out-of-band tags
`((int64_t*)foob.data)[]`. -/
structure bdbm_llm_req_t where
  req_type : reqtype_t
  ret : Nat
  lpa : List Int
  lpa_cg : Int
  ofs : Nat
  phyaddr : bdbm_phyaddr_t
  kp_stt : List kp_stt_t
  kp_ptr : List Nat
  foob : List Int
deriving DecidableEq, Repr

/-- Batch `bdbm_hlm_req_gc_t`: type, size and descriptor pool. -/
structure bdbm_hlm_req_gc_t where
  req_type : reqtype_t
  nr_llm_reqs : Nat
  llm_reqs : List bdbm_llm_req_t
deriving DecidableEq, Repr

/-! ## Mapping tables -/

/-- Value `PFTL_PAGE_NOT_ALLOCATED` of `enum BDBM_PFTL_PAGE_STATUS`. -/
abbrev PFTL_PAGE_NOT_ALLOCATED : Nat := 0

/-- Value `PFTL_PAGE_VALID` of `enum BDBM_PFTL_PAGE_STATUS`. -/
abbrev PFTL_PAGE_VALID : Nat := 1

/-- Value `PFTL_PAGE_INVALID` of `enum BDBM_PFTL_PAGE_STATUS`. -/
abbrev PFTL_PAGE_INVALID : Nat := 2

/-- Value `PFTL_PAGE_INVALID_ADDR = -1ULL`. -/
abbrev PFTL_PAGE_INVALID_ADDR : Nat := 18446744073709551615

/-- Entry `bdbm_fgm_mapping_entry_t` of the 16KB forward table. -/
structure bdbm_fgm_mapping_entry_t where
  status : Nat
  phyaddr : bdbm_phyaddr_t
  sp_off : Nat
deriving DecidableEq, Repr

/-- Entry `bdbm_fgm_sp_mapping_entry_t` of the 4KB sub-page hash table. -/
structure bdbm_fgm_sp_mapping_entry_t where
  lpa : Nat
  count : Int
  ppa : bdbm_phyaddr_t
  sp_off : Nat
deriving DecidableEq, Repr

/-- Private data `bdbm_fgm_ftl_private_t` of the FTL, without its locks.  The
file-scope globals `zerogc` and `POOL_SIZE` of `fgm_ftl.c` are carried in the
same record, and `llm_reqs_made` records, in order, the descriptors handed to
`bdi->ptr_llm_inf->make_req`, as they were at the call. -/
structure bdbm_fgm_ftl_private_t where
  bai : bdbm_abm_info_t
  ptr_mapping_table : List bdbm_fgm_mapping_entry_t
  ptr_sp_hash_table : List bdbm_fgm_sp_mapping_entry_t
  nr_punits : Nat
  nr_punits_pages : Nat
  nr_max_dirty_4kb_blks : Nat
  curr_puid : Nat
  curr_page_ofs : Nat
  ac_bab : List (Option Nat)
  curr_puid_4kb : Nat
  curr_page_ofs_4kb : Nat
  ac_bab_4kb : List (Option Nat)
  gc_bab_4kb : List (Option Nat)
  rec_hlm : bdbm_hlm_req_gc_t
  rec_hlm_w : bdbm_hlm_req_gc_t
  curr_puid_cmp : Nat
  curr_page_ofs_cmp : Nat
  ac_bab_cmp : List (Option Nat)
  cmp_hlm : bdbm_hlm_req_gc_t
  cmp_hlm_w : bdbm_hlm_req_gc_t
  gc_bab : List (Option Nat)
  gc_hlm : bdbm_hlm_req_gc_t
  gc_hlm_w : bdbm_hlm_req_gc_t
  zerogc : Int
  POOL_SIZE : Nat
  llm_reqs_made : List bdbm_llm_req_t
deriving DecidableEq, Repr

/-- Key bytes compared by the uthash macros `HASH_FIND_INT` and
`HASH_ADD_INT`.  Both fix the key length to `sizeof(int)`, four bytes, and are
applied in `fgm_ftl.c` to the `uint64_t` field `lpa`: only the first four
bytes of the field take part in hashing and comparison, which on the
little-endian targets of the driver are the low 32 bits. -/
def HASH_KEY_INT (lpa : Nat) : Nat := lpa % 4294967296

/-- Lookup `HASH_FIND_INT(head, &lpa, s)`: the entry whose key bytes equal
those of `lpa`, or `NULL`. -/
def HASH_FIND_INT : List bdbm_fgm_sp_mapping_entry_t → Nat → Option bdbm_fgm_sp_mapping_entry_t
  | [], _ => none
  | s :: t, lpa =>
    if HASH_KEY_INT s.lpa = HASH_KEY_INT lpa then some s else HASH_FIND_INT t lpa

/-- Store through the pointer returned by `HASH_FIND_INT(head, &lpa, s)`:
the entry found is replaced by `f` of it, in place. -/
def hash_store (f : bdbm_fgm_sp_mapping_entry_t → bdbm_fgm_sp_mapping_entry_t) :
    List bdbm_fgm_sp_mapping_entry_t → Nat → List bdbm_fgm_sp_mapping_entry_t
  | [], _ => []
  | s :: t, lpa =>
    if HASH_KEY_INT s.lpa = HASH_KEY_INT lpa then f s :: t else s :: hash_store f t lpa

/-- Number of entries, `count_hash_entry`. -/
def count_hash_entry (p : bdbm_fgm_ftl_private_t) : Nat := p.ptr_sp_hash_table.length

/-- Lookup `find_lpa_4kb`: the entry found by `HASH_FIND_INT`, or `NULL` when
there is none or its `ppa.punit_id` is `-1`. -/
def find_lpa_4kb (p : bdbm_fgm_ftl_private_t) (lpa : Nat) : Option bdbm_fgm_sp_mapping_entry_t :=
  match HASH_FIND_INT p.ptr_sp_hash_table lpa with
  | none => none
  | some s => if s.ppa.punit_id = U64_MAX then none else some s

/-- The stores of `update_lpa_4kb` into the entry `s`. -/
def update_entry (zerogc : Int) (ppa : bdbm_phyaddr_t) (sp_off : Nat)
    (s : bdbm_fgm_sp_mapping_entry_t) : bdbm_fgm_sp_mapping_entry_t :=
  { s with
    ppa := { punit_id := ppa.punit_id, channel_no := ppa.channel_no, chip_no := ppa.chip_no,
             block_no := ppa.block_no, page_no := ppa.page_no },
    sp_off := sp_off % 256,
    count := if zerogc ≠ 2 then (s.count.natAbs : Int) + 1 else s.count }

/-- Function `update_lpa_4kb`: creates the entry with `count = 0` when
`HASH_FIND_INT` finds none, then stores `ppa` and `sp_off` (a `uint8_t`) and,
unless `zerogc == 2`, sets `count = abs(count) + 1`. -/
def update_lpa_4kb (p : bdbm_fgm_ftl_private_t) (lpa : Nat) (ppa : bdbm_phyaddr_t)
    (sp_off : Nat) : bdbm_fgm_ftl_private_t :=
  let tbl :=
    match HASH_FIND_INT p.ptr_sp_hash_table lpa with
    | none => p.ptr_sp_hash_table ++ [{ lpa := lpa, count := 0, ppa := ppa, sp_off := 0 }]
    | some _ => p.ptr_sp_hash_table
  { p with ptr_sp_hash_table := hash_store (update_entry p.zerogc ppa sp_off) tbl lpa }

/-- The stores of `invalidate_lpa_4kb` into the entry `s`. -/
def invalidate_entry (s : bdbm_fgm_sp_mapping_entry_t) : bdbm_fgm_sp_mapping_entry_t :=
  { s with ppa := { s.ppa with punit_id := U64_MAX }, count := -s.count }

/-- Function `invalidate_lpa_4kb`: on the entry found by `HASH_FIND_INT`,
sets `ppa.punit_id = -1` and negates `count`; the entry stays in the table. -/
def invalidate_lpa_4kb (p : bdbm_fgm_ftl_private_t) (lpa : Nat) : bdbm_fgm_ftl_private_t :=
  { p with ptr_sp_hash_table := hash_store invalidate_entry p.ptr_sp_hash_table lpa }

/-- Function `__bdbm_fgm_ftl_create_mapping_table`; the table is allocated
with `nr_subpages_per_ssd / nr_subpages_per_page` entries (zeroed) and the
first `nr_pages_per_ssd` are initialised. -/
def __bdbm_fgm_ftl_create_mapping_table (np : bdbm_device_params_t) :
    List bdbm_fgm_mapping_entry_t :=
  (List.range (np.nr_subpages_per_ssd / np.nr_subpages_per_page)).map (fun i =>
    if i < np.nr_pages_per_ssd then
      { status := PFTL_PAGE_NOT_ALLOCATED,
        phyaddr := { punit_id := 0, channel_no := PFTL_PAGE_INVALID_ADDR,
                     chip_no := PFTL_PAGE_INVALID_ADDR, block_no := PFTL_PAGE_INVALID_ADDR,
                     page_no := PFTL_PAGE_INVALID_ADDR },
        sp_off := 255 }
    else
      { status := 0,
        phyaddr := { punit_id := 0, channel_no := 0, chip_no := 0, block_no := 0, page_no := 0 },
        sp_off := 0 })

/-! ## Facade: mapping commit, lookup and invalidation -/

/-- Invalidation of the physical sub-page a 4KB entry points to, as done
before the entry is overwritten or tombstoned. -/
def abm_invalidate_spme (np : bdbm_device_params_t) (bai : bdbm_abm_info_t)
    (spme : bdbm_fgm_sp_mapping_entry_t) : bdbm_abm_info_t :=
  bdbm_abm_invalidate_page np bai spme.ppa.channel_no spme.ppa.chip_no spme.ppa.block_no
    spme.ppa.page_no spme.sp_off

/-- The slot search of `__bdbm_fgm_ftl_map_lpa_to_ppa_4kb`: the first `k` of
the list with `b->pst[page_no * K + k] == NOT_INVALID`.  Running off the list
is the `bdbm_bug_on (k >= nr_subpages_per_page)`. -/
def map_4kb_find_slot (pst : List bdbm_abm_subpage_t) (base : Nat) : List Nat → Option Nat
  | [] => none
  | k :: ks =>
    match pst[base + k]? with
    | none => none
    | some bdbm_abm_subpage_t.NOT_INVALID => some k
    | some _ => map_4kb_find_slot pst base ks

/-- Function `__bdbm_fgm_ftl_map_lpa_to_ppa_4kb` (fine path).  Returns the
return value, the new private state and the new `logaddr->ofs`. -/
def __bdbm_fgm_ftl_map_lpa_to_ppa_4kb (np : bdbm_device_params_t) (p : bdbm_fgm_ftl_private_t)
    (logaddr : bdbm_logaddr_t) (phyaddr : bdbm_phyaddr_t) :
    Option (Nat × bdbm_fgm_ftl_private_t × Nat) :=
  if to_u64 (logaddr.lpa logaddr.ofs) ≥ np.nr_subpages_per_ssd then
    some (1, p, logaddr.ofs)
  else
    match bdbm_abm_get_block np p.bai phyaddr.channel_no phyaddr.chip_no phyaddr.block_no with
    | none => none
    | some bi =>
      match p.bai.blocks[bi]? with
      | none => none
      | some b =>
        match map_4kb_find_slot b.pst (phyaddr.page_no * np.nr_subpages_per_page)
            (List.range np.nr_subpages_per_page) with
        | none => none
        | some k =>
          let lpa := to_u64 (logaddr.lpa logaddr.ofs)
          let p1 :=
            match find_lpa_4kb p lpa with
            | some spme => { p with bai := abm_invalidate_spme np p.bai spme }
            | none => p
          let p2 := update_lpa_4kb p1 lpa phyaddr k
          let p3 := { p2 with bai := (bdbm_abm_validate_page_4kb np p2.bai phyaddr.channel_no
                        phyaddr.chip_no phyaddr.block_no phyaddr.page_no k) }
          some (0, p3, k)

/-- The loop of `__bdbm_fgm_ftl_map_lpa_to_ppa_4kb_normal` over the slots of
the list; the result is the return value so far (1 after the range check
failed) and the state reached. -/
def map_4kb_normal_loop (np : bdbm_device_params_t) (logaddr : bdbm_logaddr_t)
    (phyaddr : bdbm_phyaddr_t) : List Nat → bdbm_fgm_ftl_private_t → Nat × bdbm_fgm_ftl_private_t
  | [], p => (0, p)
  | k :: ks, p =>
    if logaddr.lpa k = -1 then
      map_4kb_normal_loop np logaddr phyaddr ks
        { p with bai := (bdbm_abm_invalidate_page np p.bai phyaddr.channel_no phyaddr.chip_no
                          phyaddr.block_no phyaddr.page_no k) }
    else if to_u64 (logaddr.lpa k) ≥ np.nr_subpages_per_ssd then
      (1, p)
    else
      let lpa := to_u64 (logaddr.lpa k)
      let p1 :=
        match find_lpa_4kb p lpa with
        | some spme => { p with bai := abm_invalidate_spme np p.bai spme }
        | none => p
      map_4kb_normal_loop np logaddr phyaddr ks (update_lpa_4kb p1 lpa phyaddr k)

/-- Function `__bdbm_fgm_ftl_map_lpa_to_ppa_4kb_normal` (compacted path). -/
def __bdbm_fgm_ftl_map_lpa_to_ppa_4kb_normal (np : bdbm_device_params_t)
    (p : bdbm_fgm_ftl_private_t) (logaddr : bdbm_logaddr_t) (phyaddr : bdbm_phyaddr_t) :
    Nat × bdbm_fgm_ftl_private_t :=
  map_4kb_normal_loop np logaddr phyaddr (List.range np.nr_subpages_per_page) p

/-- The first loop of `__bdbm_fgm_ftl_map_lpa_to_ppa`: `is_gc` counts the
leading `k` in the list with `lpa[k - 1] == lpa[k]` and stops at the first
that differs. -/
def map_is_gc (logaddr : bdbm_logaddr_t) : List Nat → Nat
  | [] => 0
  | k :: ks => if logaddr.lpa (k - 1) = logaddr.lpa k then map_is_gc logaddr ks + 1 else 0

/-- The second loop of `__bdbm_fgm_ftl_map_lpa_to_ppa`: every `lpa[k] != -1`
with a live 4KB entry has the entry's sub-page invalidated in the ABM and the
entry tombstoned. -/
def map_invalidate_4kb_loop (np : bdbm_device_params_t) (logaddr : bdbm_logaddr_t) :
    List Nat → bdbm_fgm_ftl_private_t → bdbm_fgm_ftl_private_t
  | [], p => p
  | k :: ks, p =>
    if logaddr.lpa k ≠ -1 then
      match find_lpa_4kb p (to_u64 (logaddr.lpa k)) with
      | some spme =>
        map_invalidate_4kb_loop np logaddr ks
          (invalidate_lpa_4kb { p with bai := abm_invalidate_spme np p.bai spme }
            (to_u64 (logaddr.lpa k)))
      | none => map_invalidate_4kb_loop np logaddr ks p
    else map_invalidate_4kb_loop np logaddr ks p

/-- Invalidation of the sub-pages in the list of the physical page a 16KB
entry points to. -/
def abm_invalidate_me (np : bdbm_device_params_t) (me : bdbm_fgm_mapping_entry_t) :
    List Nat → bdbm_abm_info_t → bdbm_abm_info_t
  | [], bai => bai
  | k :: ks, bai =>
    abm_invalidate_me np me ks
      (bdbm_abm_invalidate_page np bai me.phyaddr.channel_no me.phyaddr.chip_no
        me.phyaddr.block_no me.phyaddr.page_no k)

/-- Function `__bdbm_fgm_ftl_map_lpa_to_ppa` (16KB path). -/
def __bdbm_fgm_ftl_map_lpa_to_ppa (np : bdbm_device_params_t) (p : bdbm_fgm_ftl_private_t)
    (logaddr : bdbm_logaddr_t) (phyaddr : bdbm_phyaddr_t) :
    Option (Nat × bdbm_fgm_ftl_private_t) :=
  if to_u64 logaddr.lpa_cg ≥ np.nr_pages_per_ssd then
    some (1, p)
  else
    match p.ptr_mapping_table[to_u64 logaddr.lpa_cg]? with
    | none => none
    | some me =>
      let is_gc := map_is_gc logaddr (List.range' 1 (np.nr_subpages_per_page - 1))
      let p1 :=
        if is_gc ≠ np.nr_subpages_per_page - 1 then
          map_invalidate_4kb_loop np logaddr (List.range np.nr_subpages_per_page) p
        else p
      let p2 :=
        if me.status = PFTL_PAGE_VALID then
          { p1 with bai := abm_invalidate_me np me (List.range np.nr_subpages_per_page) p1.bai }
        else p1
      let me1 : bdbm_fgm_mapping_entry_t :=
        { status := PFTL_PAGE_VALID,
          phyaddr := { me.phyaddr with channel_no := phyaddr.channel_no,
                                       chip_no := phyaddr.chip_no,
                                       block_no := phyaddr.block_no,
                                       page_no := phyaddr.page_no },
          sp_off := 0 }
      some (0, { p2 with
                 ptr_mapping_table := p2.ptr_mapping_table.set (to_u64 logaddr.lpa_cg) me1 })

/-- Function `bdbm_fgm_ftl_map_lpa_to_ppa`: dispatch on `lpa_cg`.  Returns
the return value, the new private state and the new `logaddr->ofs`. -/
def bdbm_fgm_ftl_map_lpa_to_ppa (np : bdbm_device_params_t) (p : bdbm_fgm_ftl_private_t)
    (logaddr : bdbm_logaddr_t) (phyaddr : bdbm_phyaddr_t) :
    Option (Nat × bdbm_fgm_ftl_private_t × Nat) :=
  if logaddr.lpa_cg = -1 then
    __bdbm_fgm_ftl_map_lpa_to_ppa_4kb np p logaddr phyaddr
  else if logaddr.lpa_cg = -2 ∨ logaddr.lpa_cg = -3 then
    let r := __bdbm_fgm_ftl_map_lpa_to_ppa_4kb_normal np p logaddr phyaddr
    some (r.1, r.2, logaddr.ofs)
  else
    match __bdbm_fgm_ftl_map_lpa_to_ppa np p logaddr phyaddr with
    | none => none
    | some r => some (r.1, r.2, logaddr.ofs)

/-- Output of a lookup: return value, `logaddr->ofs`, `*phyaddr`, `*sp_off`. -/
structure get_ppa_result where
  ret : Nat
  ofs : Nat
  phyaddr : bdbm_phyaddr_t
  sp_off : Nat
deriving DecidableEq, Repr

/-- Function `__bdbm_fgm_ftl_get_ppa` (16KB lookup); `phyaddr` and `sp_off`
are the values of the output parameters at the call. -/
def __bdbm_fgm_ftl_get_ppa (np : bdbm_device_params_t) (p : bdbm_fgm_ftl_private_t)
    (lpa : Int) (ofs : Nat) (phyaddr : bdbm_phyaddr_t) (sp_off : Nat) : Option get_ppa_result :=
  if to_u64 lpa ≥ np.nr_pages_per_ssd then
    some { ret := 1, ofs := ofs, phyaddr := phyaddr, sp_off := sp_off }
  else
    match p.ptr_mapping_table[to_u64 lpa]? with
    | none => none
    | some me =>
      if me.status ≠ PFTL_PAGE_VALID then
        some { ret := 1, ofs := ofs,
               phyaddr := { punit_id := 0, channel_no := 0, chip_no := 0, block_no := 0,
                            page_no := 0 },
               sp_off := 0 }
      else
        let ph : bdbm_phyaddr_t :=
          { phyaddr with channel_no := me.phyaddr.channel_no, chip_no := me.phyaddr.chip_no,
                         block_no := me.phyaddr.block_no, page_no := me.phyaddr.page_no }
        some { ret := 0, ofs := ofs,
               phyaddr := { ph with punit_id := BDBM_GET_PUNIT_ID np ph },
               sp_off := me.sp_off }

/-- The loop of `bdbm_fgm_ftl_get_ppa` over the slots of the list, followed
by the 16KB lookup when no slot has a live 4KB entry. -/
def get_ppa_loop (np : bdbm_device_params_t) (p : bdbm_fgm_ftl_private_t)
    (logaddr : bdbm_logaddr_t) (phyaddr : bdbm_phyaddr_t) (sp_off : Nat) :
    List Nat → Option get_ppa_result
  | [] => __bdbm_fgm_ftl_get_ppa np p logaddr.lpa_cg 0 phyaddr sp_off
  | k :: ks =>
    if logaddr.lpa k ≠ -1 then
      if to_u64 (logaddr.lpa k) ≥ np.nr_subpages_per_ssd then
        some { ret := 1, ofs := logaddr.ofs, phyaddr := phyaddr, sp_off := sp_off }
      else
        match find_lpa_4kb p (to_u64 (logaddr.lpa k)) with
        | some spme =>
          some { ret := 0, ofs := logaddr.ofs,
                 phyaddr := { phyaddr with channel_no := spme.ppa.channel_no,
                                           chip_no := spme.ppa.chip_no,
                                           block_no := spme.ppa.block_no,
                                           page_no := spme.ppa.page_no },
                 sp_off := spme.sp_off }
        | none => get_ppa_loop np p logaddr phyaddr sp_off ks
    else get_ppa_loop np p logaddr phyaddr sp_off ks

/-- Function `bdbm_fgm_ftl_get_ppa`. -/
def bdbm_fgm_ftl_get_ppa (np : bdbm_device_params_t) (p : bdbm_fgm_ftl_private_t)
    (logaddr : bdbm_logaddr_t) (phyaddr : bdbm_phyaddr_t) (sp_off : Nat) :
    Option get_ppa_result :=
  get_ppa_loop np p logaddr phyaddr sp_off (List.range np.nr_subpages_per_page)

/-- Function `bdbm_fgm_ftl_invalidate_lpa_4kb` (facade). -/
def bdbm_fgm_ftl_invalidate_lpa_4kb (np : bdbm_device_params_t) (p : bdbm_fgm_ftl_private_t)
    (lpa : Int) : Nat × bdbm_fgm_ftl_private_t :=
  if to_u64 lpa > np.nr_subpages_per_ssd then (1, p)
  else
    match find_lpa_4kb p (to_u64 lpa) with
    | some spme =>
      (0, invalidate_lpa_4kb { p with bai := abm_invalidate_spme np p.bai spme } (to_u64 lpa))
    | none => (0, p)

/-- The inner loop of `bdbm_fgm_ftl_invalidate_lpa` over the sub-pages
`lpa4kb + k` of one logical page. -/
def invalidate_lpa_sub_loop (np : bdbm_device_params_t) (lpa4kb : Nat) :
    List Nat → bdbm_fgm_ftl_private_t → bdbm_fgm_ftl_private_t
  | [], p => p
  | k :: ks, p =>
    let l := (lpa4kb + k) % 18446744073709551616
    match find_lpa_4kb p l with
    | some spme =>
      invalidate_lpa_sub_loop np lpa4kb ks
        (invalidate_lpa_4kb { p with bai := abm_invalidate_spme np p.bai spme } l)
    | none => invalidate_lpa_sub_loop np lpa4kb ks p

/-- The outer loop of `bdbm_fgm_ftl_invalidate_lpa` over the logical pages of
the list. -/
def invalidate_lpa_loop (np : bdbm_device_params_t) :
    List Nat → bdbm_fgm_ftl_private_t → Option bdbm_fgm_ftl_private_t
  | [], p => some p
  | loop :: rest, p =>
    let lpa4kb := (loop * np.nr_subpages_per_page) % 18446744073709551616
    let p1 := invalidate_lpa_sub_loop np lpa4kb (List.range np.nr_subpages_per_page) p
    match p1.ptr_mapping_table[loop]? with
    | none => none
    | some me =>
      if me.status = PFTL_PAGE_VALID then
        let bai1 := abm_invalidate_me np me (List.range np.nr_subpages_per_page) p1.bai
        let me1 := if np.nr_subpages_per_page = 0 then me
                   else { me with status := PFTL_PAGE_INVALID }
        invalidate_lpa_loop np rest
          { p1 with bai := bai1, ptr_mapping_table := p1.ptr_mapping_table.set loop me1 }
      else invalidate_lpa_loop np rest p1

/-- Function `bdbm_fgm_ftl_invalidate_lpa`: `lpa + len` is computed in
`uint64_t`, and `loop` runs from `lpa` while `loop < lpa + len`. -/
def bdbm_fgm_ftl_invalidate_lpa (np : bdbm_device_params_t) (p : bdbm_fgm_ftl_private_t)
    (lpa : Int) (len : Nat) : Option (Nat × bdbm_fgm_ftl_private_t) :=
  let last := (to_u64 lpa + len) % 18446744073709551616
  if last > np.nr_pages_per_ssd then some (1, p)
  else
    match invalidate_lpa_loop np (List.range' (to_u64 lpa) (last - to_u64 lpa)) p with
    | none => none
    | some p1 => some (0, p1)

/-! ## Active-block allocator -/

/-- The dies in the order of the nested loops
`for (i < nr_channels) for (j < nr_chips_per_channel)`. -/
def die_list (np : bdbm_device_params_t) : List (Nat × Nat) :=
  (List.range np.nr_channels).flatMap (fun i =>
    (List.range np.nr_chips_per_channel).map (fun j => (i, j)))

/-- The loop of `__bdbm_fgm_ftl_get_active_blocks`; `n` is the offset of the
running pointer `bab` in the vector. -/
def get_active_blocks_loop (np : bdbm_device_params_t) :
    List (Nat × Nat) → Nat → bdbm_abm_info_t → List (Option Nat) →
      Nat × bdbm_abm_info_t × List (Option Nat)
  | [], _, bai, bab => (0, bai, bab)
  | (i, j) :: rest, n, bai, bab =>
    match bdbm_abm_get_free_block_prepare np bai i j with
    | some b =>
      get_active_blocks_loop np rest (n + 1) (bdbm_abm_get_free_block_commit np bai b)
        (bab.set n (some b))
    | none => (1, bai, bab.set n none)

/-- Function `__bdbm_fgm_ftl_get_active_blocks`: one FREE block per die is
prepared and committed into `bab`; returns 1 at the first die without one. -/
def __bdbm_fgm_ftl_get_active_blocks (np : bdbm_device_params_t) (bai : bdbm_abm_info_t)
    (bab : List (Option Nat)) : Nat × bdbm_abm_info_t × List (Option Nat) :=
  get_active_blocks_loop np (die_list np) 0 bai bab

/-- The part shared by the three stream allocators: the physical address
read from the active block of the die under the cursor, after the three
`bdbm_bug_on` checks. -/
def stream_ppa (np : bdbm_device_params_t) (bai : bdbm_abm_info_t) (bab : List (Option Nat))
    (curr_puid curr_page_ofs : Nat) : Option bdbm_phyaddr_t :=
  if np.nr_channels = 0 then none
  else
    let curr_channel := curr_puid % np.nr_channels
    let curr_chip := curr_puid / np.nr_channels
    match bab[curr_channel * np.nr_chips_per_channel + curr_chip]? with
    | none => none
    | some none => none
    | some (some bi) =>
      match bai.blocks[bi]? with
      | none => none
      | some b =>
        let ppa0 : bdbm_phyaddr_t :=
          { punit_id := 0, channel_no := b.channel_no, chip_no := b.chip_no,
            block_no := b.block_no, page_no := curr_page_ofs }
        let ppa := { ppa0 with punit_id := BDBM_GET_PUNIT_ID np ppa0 }
        if ppa.channel_no ≠ curr_channel ∨ ppa.chip_no ≠ curr_chip ∨
            ppa.page_no ≥ np.nr_pages_per_block then none
        else some ppa

/-- Function `__bdbm_fgm_ftl_get_free_ppa` (normal stream). -/
def __bdbm_fgm_ftl_get_free_ppa (np : bdbm_device_params_t) (p : bdbm_fgm_ftl_private_t) :
    Option (Nat × bdbm_fgm_ftl_private_t × bdbm_phyaddr_t) :=
  match stream_ppa np p.bai p.ac_bab p.curr_puid p.curr_page_ofs with
  | none => none
  | some ppa =>
    if (p.curr_puid + 1) % 18446744073709551616 = p.nr_punits then
      let p1 := { p with curr_puid := 0,
                         curr_page_ofs := (p.curr_page_ofs + 1) % 18446744073709551616 }
      if p1.curr_page_ofs = np.nr_pages_per_block then
        let r := __bdbm_fgm_ftl_get_active_blocks np p1.bai p1.ac_bab
        if r.1 ≠ 0 then some (1, { p1 with bai := r.2.1, ac_bab := r.2.2 }, ppa)
        else some (0, { p1 with bai := r.2.1, ac_bab := r.2.2, curr_page_ofs := 0 }, ppa)
      else some (0, p1, ppa)
    else some (0, { p with curr_puid := (p.curr_puid + 1) % 18446744073709551616 }, ppa)

/-- Function `__bdbm_fgm_ftl_get_free_ppa_cmp` (compaction stream). -/
def __bdbm_fgm_ftl_get_free_ppa_cmp (np : bdbm_device_params_t) (p : bdbm_fgm_ftl_private_t) :
    Option (Nat × bdbm_fgm_ftl_private_t × bdbm_phyaddr_t) :=
  match stream_ppa np p.bai p.ac_bab_cmp p.curr_puid_cmp p.curr_page_ofs_cmp with
  | none => none
  | some ppa =>
    if (p.curr_puid_cmp + 1) % 18446744073709551616 = p.nr_punits then
      let p1 := { p with curr_puid_cmp := 0,
                         curr_page_ofs_cmp := (p.curr_page_ofs_cmp + 1) % 18446744073709551616 }
      if p1.curr_page_ofs_cmp = np.nr_pages_per_block then
        let r := __bdbm_fgm_ftl_get_active_blocks np p1.bai p1.ac_bab_cmp
        if r.1 ≠ 0 then some (1, { p1 with bai := r.2.1, ac_bab_cmp := r.2.2 }, ppa)
        else some (0, { p1 with bai := r.2.1, ac_bab_cmp := r.2.2, curr_page_ofs_cmp := 0 }, ppa)
      else some (0, p1, ppa)
    else some (0, { p with curr_puid_cmp := (p.curr_puid_cmp + 1) % 18446744073709551616 }, ppa)

/-- Function `__bdbm_fgm_ftl_get_free_ppa_4kb` (fine stream).  `recycle` is
the callee `bdbm_fgm_ftl_get_reusable_active_blks`, whose return value the
caller drops. -/
def __bdbm_fgm_ftl_get_free_ppa_4kb (np : bdbm_device_params_t)
    (recycle : bdbm_fgm_ftl_private_t → Option (Nat × bdbm_fgm_ftl_private_t))
    (p : bdbm_fgm_ftl_private_t) :
    Option (Nat × bdbm_fgm_ftl_private_t × bdbm_phyaddr_t) :=
  match stream_ppa np p.bai p.ac_bab_4kb p.curr_puid_4kb p.curr_page_ofs_4kb with
  | none => none
  | some ppa =>
    if (p.curr_puid_4kb + 1) % 18446744073709551616 = p.nr_punits then
      let p1 := { p with curr_puid_4kb := 0,
                         curr_page_ofs_4kb := (p.curr_page_ofs_4kb + 1) % 18446744073709551616 }
      if p1.curr_page_ofs_4kb = np.nr_pages_per_block then
        if p1.bai.nr_dirty_4kb_blks > p1.nr_max_dirty_4kb_blks then
          match recycle { p1 with curr_page_ofs_4kb := 0 } with
          | none => none
          | some r => some (0, r.2, ppa)
        else
          let r := __bdbm_fgm_ftl_get_active_blocks np p1.bai p1.ac_bab_4kb
          if r.1 ≠ 0 then some (1, { p1 with bai := r.2.1, ac_bab_4kb := r.2.2 }, ppa)
          else some (0, { p1 with bai := r.2.1, ac_bab_4kb := r.2.2, curr_page_ofs_4kb := 0 }, ppa)
      else some (0, p1, ppa)
    else some (0, { p with curr_puid_4kb := (p.curr_puid_4kb + 1) % 18446744073709551616 }, ppa)

/-! ## Recycle engine

The helpers of `hlm_reqs_pool.c` and the device manager behind
`bdi->ptr_llm_inf->make_req` lie outside the given sources; the engine is
embedded over an environment `fgm_env_t` that supplies them. -/

/-- The logical address held in a request descriptor. -/
def req_logaddr (r : bdbm_llm_req_t) : bdbm_logaddr_t :=
  { lpa := fun k => r.lpa.getD k 0, lpa_cg := r.lpa_cg, ofs := r.ofs }

/-- Collaborators of the engine that lie outside the given sources.
`llm_make_req` is a submission to the device manager followed by the wait for
its completion: it yields the return value of `make_req` and the descriptor
as the completion leaves it (`foob` filled by a read, `ret` set). -/
structure fgm_env_t where
  hlm_reqs_pool_allocate_llm_reqs : List bdbm_llm_req_t → Nat → List bdbm_llm_req_t
  hlm_reqs_pool_reset_fmain : bdbm_llm_req_t → bdbm_llm_req_t
  hlm_reqs_pool_reset_logaddr : bdbm_llm_req_t → bdbm_llm_req_t
  hlm_reqs_pool_relocate_write_req_ofs : bdbm_llm_req_t → bdbm_llm_req_t
  hlm_reqs_pool_write_compaction :
    bdbm_hlm_req_gc_t → bdbm_hlm_req_gc_t → bdbm_device_params_t → Int × bdbm_hlm_req_gc_t
  llm_make_req : bdbm_llm_req_t → Nat × bdbm_llm_req_t

/-- Function `compare_blks`. -/
def compare_blks (left right : Int) : Int :=
  if left = 3 ∧ right = 0 then -1
  else if left = 0 ∧ right = 3 then 1
  else if left < right then -1
  else if left > right then 1
  else 0

/-- Running state of the loop of
`__bdbm_fgm_ftl_reusable_blk_selection_greedy`. -/
structure reusable_sel_t where
  cnt : Nat
  v : Option Nat
  max_nr_invalid : Nat
  proper_column_idx : Nat
deriving DecidableEq, Repr

/-- The values `column_idx` and `nr_invalid_pg` the loop of
`__bdbm_fgm_ftl_reusable_blk_selection_greedy` computes for the block `b`:
`nr_invalid_subpages / nr_pages_per_block` and
`nr_invalid_subpages % nr_pages_per_block`, stepped back to the full previous
column when the count stands on a column boundary and either the column is
`nr_subpages_per_page` or `pst[column_idx]` is still NOT_INVALID.  `none` is
a read beyond `pst`. -/
def reusable_blk_column (np : bdbm_device_params_t) (b : bdbm_abm_block_t) :
    Option (Nat × Nat) :=
  let column_idx0 := b.nr_invalid_subpages / np.nr_pages_per_block
  let nr_invalid_pg0 := b.nr_invalid_subpages % np.nr_pages_per_block
  if nr_invalid_pg0 = 0 ∧ column_idx0 = np.nr_subpages_per_page then
    some (column_idx0 - 1, np.nr_pages_per_block)
  else if nr_invalid_pg0 = 0 ∧ column_idx0 > 0 then
    match b.pst[column_idx0]? with
    | none => none
    | some bdbm_abm_subpage_t.NOT_INVALID => some (column_idx0 - 1, np.nr_pages_per_block)
    | some _ => some (column_idx0, nr_invalid_pg0)
  else some (column_idx0, nr_invalid_pg0)

/-- The loop of `__bdbm_fgm_ftl_reusable_blk_selection_greedy` over the
dirty_4kb list of a die. -/
def reusable_blk_selection_loop (np : bdbm_device_params_t) (bai : bdbm_abm_info_t) :
    List Nat → reusable_sel_t → Option reusable_sel_t
  | [], st => some st
  | bi :: rest, st =>
    match bai.blocks[bi]? with
    | none => none
    | some b =>
      if np.nr_pages_per_block = 0 then none
      else
        let cnt := st.cnt + 1
        match reusable_blk_column np b with
        | none => none
        | some (column_idx, nr_invalid_pg) =>
          let take : reusable_sel_t :=
            { cnt := cnt, v := some bi, max_nr_invalid := nr_invalid_pg,
              proper_column_idx := column_idx }
          let keep : reusable_sel_t := { st with cnt := cnt }
          if cnt = 1 then reusable_blk_selection_loop np bai rest take
          else
            let ret := compare_blks st.proper_column_idx column_idx
            if ret = -1 then reusable_blk_selection_loop np bai rest keep
            else if ret = 1 then reusable_blk_selection_loop np bai rest take
            else if st.max_nr_invalid < nr_invalid_pg then
              reusable_blk_selection_loop np bai rest take
            else reusable_blk_selection_loop np bai rest keep

/-- Function `__bdbm_fgm_ftl_reusable_blk_selection_greedy`. -/
def __bdbm_fgm_ftl_reusable_blk_selection_greedy (np : bdbm_device_params_t)
    (p : bdbm_fgm_ftl_private_t) (channel_no chip_no : Nat) : Option (Option Nat) :=
  match reusable_blk_selection_loop np p.bai
      (p.bai.list_head_dirty_4kb.getD (abm_die np channel_no chip_no) [])
      { cnt := 0, v := none, max_nr_invalid := 0, proper_column_idx := 0 } with
  | none => none
  | some st => some st.v

/-- The selection loop of `bdbm_fgm_ftl_get_reusable_active_blks` over the
dies; `n` is `nr_reusable_blks`. -/
def rec_select_loop (np : bdbm_device_params_t) :
    List (Nat × Nat) → Nat → bdbm_fgm_ftl_private_t → Option (Nat × bdbm_fgm_ftl_private_t)
  | [], n, p => some (n, p)
  | (i, j) :: rest, n, p =>
    match __bdbm_fgm_ftl_reusable_blk_selection_greedy np p i j with
    | none => none
    | some none => rec_select_loop np rest n p
    | some (some b) =>
      rec_select_loop np rest (n + 1)
        { p with ac_bab_4kb := p.ac_bab_4kb.set n (some b),
                 gc_bab_4kb := p.gc_bab_4kb.set n (some b) }

/-- The loop `for (j < K) if (ac_bab_4kb[0]->pst[j] == NOT_INVALID) break`;
the result is the `j` the loop ends with. -/
def rec_column_scan (pst : List bdbm_abm_subpage_t) (K : Nat) : List Nat → Option Nat
  | [] => some K
  | j :: js =>
    match pst[j]? with
    | none => none
    | some bdbm_abm_subpage_t.NOT_INVALID => some j
    | some _ => rec_column_scan pst K js

/-- One page `j` of one block in the read-building loop; the state is the
read pool and `nr_llm_reqs`. -/
def rec_build_read (env : fgm_env_t) (np : bdbm_device_params_t) (b : bdbm_abm_block_t)
    (column_idx : Int) (j : Nat) (st : List bdbm_llm_req_t × Nat) :
    Option (List bdbm_llm_req_t × Nat) :=
  match st.1[st.2]? with
  | none => none
  | some r0 =>
    let r1 := env.hlm_reqs_pool_reset_logaddr (env.hlm_reqs_pool_reset_fmain r0)
    match b.pst[(j * np.nr_subpages_per_page + to_u64 column_idx) % 18446744073709551616]? with
    | none => none
    | some v =>
      if column_idx < 0 then none
      else
        let c := column_idx.toNat
        if v = bdbm_abm_subpage_t.VALID then
          let ph0 : bdbm_phyaddr_t :=
            { punit_id := r1.phyaddr.punit_id, channel_no := b.channel_no, chip_no := b.chip_no,
              block_no := b.block_no, page_no := j }
          let r2 := { r1 with
            lpa := r1.lpa.set c (-1),
            kp_stt := r1.kp_stt.set c kp_stt_t.KP_STT_DATA,
            req_type := reqtype_t.REQTYPE_REC_READ,
            phyaddr := { ph0 with punit_id := BDBM_GET_PUNIT_ID np ph0 },
            ret := 0 }
          some (st.1.set st.2 r2, st.2 + 1)
        else
          let r2 := { r1 with
            lpa := r1.lpa.set c (-1),
            kp_stt := r1.kp_stt.set c kp_stt_t.KP_STT_HOLE }
          some (st.1.set st.2 r2, st.2)

/-- The pages of one block in the read-building loop. -/
def rec_build_reads_blk (env : fgm_env_t) (np : bdbm_device_params_t) (b : bdbm_abm_block_t)
    (column_idx : Int) : List Nat → List bdbm_llm_req_t × Nat → Option (List bdbm_llm_req_t × Nat)
  | [], st => some st
  | j :: js, st =>
    match rec_build_read env np b column_idx j st with
    | none => none
    | some st1 => rec_build_reads_blk env np b column_idx js st1

/-- The read-building loop over `gc_bab_4kb[i]`, stopping at a `NULL`. -/
def rec_build_reads (env : fgm_env_t) (np : bdbm_device_params_t) (bai : bdbm_abm_info_t)
    (column_idx : Int) : List (Option Nat) → List bdbm_llm_req_t × Nat →
      Option (List bdbm_llm_req_t × Nat)
  | [], st => some st
  | none :: _, st => some st
  | some bi :: rest, st =>
    match bai.blocks[bi]? with
    | none => none
    | some b =>
      match rec_build_reads_blk env np b column_idx (List.range np.nr_pages_per_block) st with
      | none => none
      | some st1 => rec_build_reads env np bai column_idx rest st1

/-- Submission of the descriptors with the indices of the list, each followed
to completion; a non-zero `make_req` is the `bdbm_bug_on (1)`. -/
def llm_submit (env : fgm_env_t) : List Nat → List bdbm_llm_req_t → Option (List bdbm_llm_req_t)
  | [], reqs => some reqs
  | i :: is, reqs =>
    match reqs[i]? with
    | none => none
    | some r =>
      let c := env.llm_make_req r
      if c.1 ≠ 0 then none else llm_submit env is (reqs.set i c.2)

/-- The descriptors a submission of the indices of the list hands to
`make_req`, in order. -/
def llm_made (is : List Nat) (reqs : List bdbm_llm_req_t) : List bdbm_llm_req_t :=
  is.filterMap (fun i => reqs[i]?)

/-- The fix-up loop after the packer, over `k = 1 .. K - 2`: a DATA slot `k`
of the last output `reqs[ri]` moves into the descriptor `reqs[next]`.  The
state is the write pool and the offset of `next`. -/
def rec_fixup_loop (ri : Nat) : List Nat → List bdbm_llm_req_t × Nat →
    Option (List bdbm_llm_req_t × Nat)
  | [], st => some st
  | k :: ks, st =>
    match st.1[ri]? with
    | none => none
    | some r =>
      match r.kp_stt[k]? with
      | none => none
      | some kp_stt_t.KP_STT_DATA =>
        match st.1[st.2]? with
        | none => none
        | some nx =>
          let nx1 := { nx with
            kp_stt := nx.kp_stt.set k kp_stt_t.KP_STT_DATA,
            kp_ptr := nx.kp_ptr.set k (r.kp_ptr.getD k 0),
            foob := nx.foob.set k (r.foob.getD k 0),
            lpa_cg := -1,
            ofs := k }
          let reqs1 := st.1.set st.2 nx1
          match reqs1[ri]? with
          | none => none
          | some r1 =>
            rec_fixup_loop ri ks
              (reqs1.set ri { r1 with kp_stt := r1.kp_stt.set k kp_stt_t.KP_STT_HOLE }, st.2 + 1)
      | some _ => rec_fixup_loop ri ks st

/-- The loop `for (k < K)` that copies the out-of-band tag of every DATA slot
into `lpa[k]` and writes `-1` into both for every HOLE slot; any other slot
state is the `bdbm_bug_on (1)`. -/
def rec_tag_slots : List Nat → bdbm_llm_req_t → Option bdbm_llm_req_t
  | [], r => some r
  | k :: ks, r =>
    match r.kp_stt[k]? with
    | none => none
    | some kp_stt_t.KP_STT_DATA => rec_tag_slots ks { r with lpa := r.lpa.set k (r.foob.getD k 0) }
    | some kp_stt_t.KP_STT_HOLE =>
      rec_tag_slots ks { r with foob := r.foob.set k (-1), lpa := r.lpa.set k (-1) }
    | some kp_stt_t.KP_STT_DONE => none

/-- The physical address a call of `bdbm_fgm_ftl_get_free_ppa` stores through
its output pointer: the stream picked by `lpa_cg` stores it before it moves
its cursor. -/
def stream_peek_ppa (np : bdbm_device_params_t) (p : bdbm_fgm_ftl_private_t)
    (logaddr : bdbm_logaddr_t) : Option bdbm_phyaddr_t :=
  if logaddr.lpa_cg = -1 then
    stream_ppa np p.bai p.ac_bab_4kb p.curr_puid_4kb p.curr_page_ofs_4kb
  else if logaddr.lpa_cg = -2 then
    stream_ppa np p.bai p.ac_bab_cmp p.curr_puid_cmp p.curr_page_ofs_cmp
  else stream_ppa np p.bai p.ac_bab p.curr_puid p.curr_page_ofs

/-- The tail shared by both write-building loops, for the descriptor `r` at
index `i` of the write pool: `get_free_ppa` on `&r->logaddr` and
`&r->phyaddr`, then `map_lpa_to_ppa`, each `bdbm_bug_on` a non-zero return,
then the relocation of the buffers when `lpa_cg == -1`.  The descriptor lives
in the pool, so the address is stored there at the start of the allocation
and the descriptor is read again after it. -/
def rec_alloc_and_map (env : fgm_env_t) (np : bdbm_device_params_t)
    (get_free_ppa : bdbm_fgm_ftl_private_t → bdbm_logaddr_t →
      Option (Nat × bdbm_fgm_ftl_private_t × bdbm_phyaddr_t))
    (p : bdbm_fgm_ftl_private_t) (i : Nat) (r : bdbm_llm_req_t) :
    Option bdbm_fgm_ftl_private_t :=
  match stream_peek_ppa np p (req_logaddr r) with
  | none => none
  | some ppa =>
    let p0 := { p with
      rec_hlm_w := { p.rec_hlm_w with
        llm_reqs := p.rec_hlm_w.llm_reqs.set i { r with phyaddr := ppa } } }
    match get_free_ppa p0 (req_logaddr r) with
    | none => none
    | some (ret, p1, _) =>
      if ret ≠ 0 then none
      else
        match p1.rec_hlm_w.llm_reqs[i]? with
        | none => none
        | some r1 =>
          match bdbm_fgm_ftl_map_lpa_to_ppa np p1 (req_logaddr r1) r1.phyaddr with
          | none => none
          | some (ret2, p2, ofs) =>
            if ret2 ≠ 0 then none
            else
              let r2 := { r1 with ofs := ofs }
              let r3 := if r2.lpa_cg = -1 then env.hlm_reqs_pool_relocate_write_req_ofs r2
                        else r2
              some { p2 with
                     rec_hlm_w := { p2.rec_hlm_w with
                       llm_reqs := p2.rec_hlm_w.llm_reqs.set i r3 } }

/-- The write-building loop of the compaction branch. -/
def rec_cmp_writes (env : fgm_env_t) (np : bdbm_device_params_t)
    (get_free_ppa : bdbm_fgm_ftl_private_t → bdbm_logaddr_t →
      Option (Nat × bdbm_fgm_ftl_private_t × bdbm_phyaddr_t)) :
    List Nat → bdbm_fgm_ftl_private_t → Option bdbm_fgm_ftl_private_t
  | [], p => some p
  | i :: is, p =>
    match p.rec_hlm_w.llm_reqs[i]? with
    | none => none
    | some r =>
      match rec_tag_slots (List.range np.nr_subpages_per_page)
          { r with req_type := reqtype_t.REQTYPE_REC_WRITE } with
      | none => none
      | some r1 =>
        match rec_alloc_and_map env np get_free_ppa p i r1 with
        | none => none
        | some p1 => rec_cmp_writes env np get_free_ppa is p1

/-- The write-building loop of the one-for-one branch. -/
def rec_one_writes (env : fgm_env_t) (np : bdbm_device_params_t)
    (get_free_ppa : bdbm_fgm_ftl_private_t → bdbm_logaddr_t →
      Option (Nat × bdbm_fgm_ftl_private_t × bdbm_phyaddr_t)) (c : Nat) :
    List Nat → bdbm_fgm_ftl_private_t → Option bdbm_fgm_ftl_private_t
  | [], p => some p
  | i :: is, p =>
    match p.rec_hlm_w.llm_reqs[i]?, p.rec_hlm.llm_reqs[i]? with
    | some r, some rr =>
      let r0 := env.hlm_reqs_pool_reset_logaddr (env.hlm_reqs_pool_reset_fmain
        { r with req_type := reqtype_t.REQTYPE_REC_WRITE })
      let r1 := { r0 with
        kp_stt := r0.kp_stt.set c kp_stt_t.KP_STT_DATA,
        kp_ptr := r0.kp_ptr.set c (rr.kp_ptr.getD c 0),
        lpa := r0.lpa.set c (rr.foob.getD c 0),
        foob := r0.foob.set c (rr.foob.getD c 0),
        ofs := c }
      let step : Option (bdbm_fgm_ftl_private_t × bdbm_llm_req_t) :=
        if c + 1 = np.nr_subpages_per_page then
          match find_lpa_4kb p (to_u64 (r1.lpa.getD c 0)) with
          | none => none
          | some spme =>
            if spme.count = 1 then
              some (p, { r1 with lpa_cg := -2, req_type := reqtype_t.REQTYPE_GCREC_WRITE })
            else
              some ({ p with ptr_sp_hash_table :=
                        (hash_store (fun s => { s with count := 1 }) p.ptr_sp_hash_table
                          (to_u64 (r1.lpa.getD c 0))) }, r1)
        else some (p, r1)
      match step with
      | none => none
      | some (p1, r2) =>
        match rec_alloc_and_map env np get_free_ppa p1 i r2 with
        | none => none
        | some p2 => rec_one_writes env np get_free_ppa c is p2
    | _, _ => none

/-- The loop that turns `rec_hlm.llm_reqs[i]` into the erase request of
`gc_bab_4kb[i]`. -/
def rec_build_erases (np : bdbm_device_params_t) (bai : bdbm_abm_info_t)
    (gc_bab_4kb : List (Option Nat)) : List Nat → List bdbm_llm_req_t →
      Option (List bdbm_llm_req_t)
  | [], reqs => some reqs
  | i :: is, reqs =>
    match gc_bab_4kb[i]?, reqs[i]? with
    | some (some bi), some r =>
      match bai.blocks[bi]? with
      | none => none
      | some b =>
        let ph0 : bdbm_phyaddr_t :=
          { punit_id := r.phyaddr.punit_id, channel_no := b.channel_no, chip_no := b.chip_no,
            block_no := b.block_no, page_no := 0 }
        rec_build_erases np bai gc_bab_4kb is
          (reqs.set i { r with
            req_type := reqtype_t.REQTYPE_GC_ERASE,
            lpa := r.lpa.set 0 (-1),
            phyaddr := { ph0 with punit_id := BDBM_GET_PUNIT_ID np ph0 },
            ret := 0 })
    | _, _ => none

/-- The loop that hands every erased block back to the ABM, bad when the
erase request completed with a non-zero `ret`. -/
def rec_erase_blks (np : bdbm_device_params_t) (gc_bab_4kb : List (Option Nat))
    (reqs : List bdbm_llm_req_t) : List Nat → bdbm_abm_info_t → Option bdbm_abm_info_t
  | [], bai => some bai
  | i :: is, bai =>
    match gc_bab_4kb[i]?, reqs[i]? with
    | some (some bi), some r =>
      match bai.blocks[bi]? with
      | none => none
      | some b =>
        rec_erase_blks np gc_bab_4kb reqs is
          (bdbm_abm_erase_block np bai b.channel_no b.chip_no b.block_no (decide (r.ret ≠ 0)))
    | _, _ => none

/-- The part of `bdbm_fgm_ftl_get_reusable_active_blks` from the label
`endrec` on. -/
def rec_endrec (env : fgm_env_t) (np : bdbm_device_params_t) (column_idx : Int)
    (nr_reusable_blks : Nat) (p : bdbm_fgm_ftl_private_t) :
    Option (Nat × bdbm_fgm_ftl_private_t) :=
  let p1 := { p with zerogc := -1 }
  if to_u64 (column_idx + 1) = np.nr_subpages_per_page then
    match rec_build_erases np p1.bai p1.gc_bab_4kb (List.range nr_reusable_blks)
        p1.rec_hlm.llm_reqs with
    | none => none
    | some reqs =>
      match llm_submit env (List.range nr_reusable_blks) reqs with
      | none => none
      | some reqs1 =>
        match rec_erase_blks np p1.gc_bab_4kb reqs1 (List.range nr_reusable_blks) p1.bai with
        | none => none
        | some bai1 =>
          some (0, { p1 with
            bai := bai1,
            rec_hlm := { req_type := reqtype_t.REQTYPE_GC_ERASE, nr_llm_reqs := p1.nr_punits,
                         llm_reqs := reqs1 },
            llm_reqs_made := p1.llm_reqs_made ++ llm_made (List.range nr_reusable_blks) reqs })
  else some (0, p1)

/-- The test of the validity ratio in `bdbm_fgm_ftl_get_reusable_active_blks`,
`nr_llm_reqs * 100 / (np->nr_pages_per_block * nr_reusable_blks) > 95`, in
`uint64_t`; `none` is the division by zero. -/
def rec_compaction_due (np : bdbm_device_params_t) (nr_reusable_blks nr_llm_reqs : Nat) :
    Option Bool :=
  if (np.nr_pages_per_block * nr_reusable_blks) % 18446744073709551616 = 0 then none
  else
    some (decide ((nr_llm_reqs * 100) % 18446744073709551616 /
      ((np.nr_pages_per_block * nr_reusable_blks) % 18446744073709551616) > 95))

/-- The compaction pass of `bdbm_fgm_ftl_get_reusable_active_blks`: the
packer, the fix-up of its last output and the write-building loop.  The
result is the number of write requests and the state reached. -/
def rec_cmp_build (env : fgm_env_t) (np : bdbm_device_params_t)
    (get_free_ppa : bdbm_fgm_ftl_private_t → bdbm_logaddr_t →
      Option (Nat × bdbm_fgm_ftl_private_t × bdbm_phyaddr_t))
    (p : bdbm_fgm_ftl_private_t) : Option (Nat × bdbm_fgm_ftl_private_t) :=
  let c := env.hlm_reqs_pool_write_compaction p.rec_hlm_w p.rec_hlm np
  let nr_valid := c.1
  let w := c.2
  let nr_llm_reqs_cmp := w.nr_llm_reqs
  let fixed : Option (List bdbm_llm_req_t × Nat) :=
    if nr_valid > 0 then
      if nr_llm_reqs_cmp = 0 ∨ np.nr_subpages_per_page = 0 then none
      else
        match w.llm_reqs[nr_llm_reqs_cmp - 1]? with
        | none => none
        | some r =>
          rec_fixup_loop (nr_llm_reqs_cmp - 1)
            (List.range' 1 (np.nr_subpages_per_page - 1 - 1))
            (w.llm_reqs.set (nr_llm_reqs_cmp - 1) { r with lpa_cg := -1, ofs := 0 },
             nr_llm_reqs_cmp)
    else some (w.llm_reqs, nr_llm_reqs_cmp)
  match fixed with
  | none => none
  | some (reqs, n) =>
    match rec_cmp_writes env np get_free_ppa (List.range n)
        { p with rec_hlm_w := { w with llm_reqs := reqs } } with
    | none => none
    | some p1 => some (n, p1)

/-- The one-for-one pass of `bdbm_fgm_ftl_get_reusable_active_blks`: a write
into column `column_idx` for each of the `nr_llm_reqs` reads. -/
def rec_one_build (env : fgm_env_t) (np : bdbm_device_params_t)
    (get_free_ppa : bdbm_fgm_ftl_private_t → bdbm_logaddr_t →
      Option (Nat × bdbm_fgm_ftl_private_t × bdbm_phyaddr_t))
    (column_idx : Int) (nr_llm_reqs : Nat) (p : bdbm_fgm_ftl_private_t) :
    Option (Nat × bdbm_fgm_ftl_private_t) :=
  match rec_one_writes env np get_free_ppa column_idx.toNat (List.range nr_llm_reqs) p with
  | none => none
  | some p1 => some (nr_llm_reqs, p1)

/-- The submission of the write requests one of the two passes has built. -/
def rec_write_submit (env : fgm_env_t) (built : Option (Nat × bdbm_fgm_ftl_private_t)) :
    Option bdbm_fgm_ftl_private_t :=
  match built with
  | none => none
  | some (n, p1) =>
    match llm_submit env (List.range n) p1.rec_hlm_w.llm_reqs with
    | none => none
    | some reqs =>
      some { p1 with
             rec_hlm_w := { req_type := reqtype_t.REQTYPE_REC_WRITE, nr_llm_reqs := n,
                            llm_reqs := reqs },
             llm_reqs_made := p1.llm_reqs_made ++ llm_made (List.range n) p1.rec_hlm_w.llm_reqs }

/-- The write phase of `bdbm_fgm_ftl_get_reusable_active_blks`, from the
test of the validity ratio to the submission of the writes. -/
def rec_write_phase (env : fgm_env_t) (np : bdbm_device_params_t)
    (get_free_ppa : bdbm_fgm_ftl_private_t → bdbm_logaddr_t →
      Option (Nat × bdbm_fgm_ftl_private_t × bdbm_phyaddr_t))
    (column_idx : Int) (nr_reusable_blks nr_llm_reqs : Nat) (p : bdbm_fgm_ftl_private_t) :
    Option bdbm_fgm_ftl_private_t :=
  match rec_compaction_due np nr_reusable_blks nr_llm_reqs with
  | none => none
  | some due =>
    rec_write_submit env
      (if due then rec_cmp_build env np get_free_ppa p
       else rec_one_build env np get_free_ppa column_idx nr_llm_reqs p)

/-- Function `bdbm_fgm_ftl_get_reusable_active_blks` (the recycle engine).
`get_free_ppa` is the facade `bdbm_fgm_ftl_get_free_ppa` the engine calls for
each relocation write. -/
def bdbm_fgm_ftl_get_reusable_active_blks (env : fgm_env_t) (np : bdbm_device_params_t)
    (get_free_ppa : bdbm_fgm_ftl_private_t → bdbm_logaddr_t →
      Option (Nat × bdbm_fgm_ftl_private_t × bdbm_phyaddr_t))
    (p : bdbm_fgm_ftl_private_t) : Option (Nat × bdbm_fgm_ftl_private_t) :=
  let nr_punits := np.nr_channels * np.nr_chips_per_channel
  let p0 := { p with ac_bab_4kb := p.ac_bab_4kb.map (fun _ => none),
                     gc_bab_4kb := p.gc_bab_4kb.map (fun _ => none) }
  match rec_select_loop np (die_list np) 0 p0 with
  | none => none
  | some (nr_reusable_blks, p1) =>
    if nr_reusable_blks < nr_punits then some (1, p1)
    else
      match p1.ac_bab_4kb[0]? with
      | some (some b0) =>
        match p1.bai.blocks[b0]? with
        | none => none
        | some blk0 =>
          match rec_column_scan blk0.pst np.nr_subpages_per_page
              (List.range np.nr_subpages_per_page) with
          | none => none
          | some j =>
            let column_idx : Int := (j : Int) - 1
            let refreshed : Nat × bdbm_fgm_ftl_private_t :=
              if to_u64 column_idx = (np.nr_subpages_per_page + 18446744073709551615)
                  % 18446744073709551616 then
                let r := __bdbm_fgm_ftl_get_active_blocks np p1.bai p1.ac_bab_4kb
                (r.1, { p1 with bai := r.2.1, ac_bab_4kb := r.2.2 })
              else (0, p1)
            if refreshed.1 ≠ 0 then some (1, refreshed.2)
            else
              let p2 := refreshed.2
              match rec_build_reads env np p2.bai column_idx
                  (p2.gc_bab_4kb.take nr_reusable_blks) (p2.rec_hlm.llm_reqs, 0) with
              | none => none
              | some (reqs, nr_llm_reqs) =>
                let p3 := { p2 with rec_hlm := { p2.rec_hlm with llm_reqs := reqs } }
                if nr_llm_reqs = 0 then rec_endrec env np column_idx nr_reusable_blks p3
                else
                  match llm_submit env (List.range nr_llm_reqs) reqs with
                  | none => none
                  | some reqs1 =>
                    let p4 := { p3 with
                      zerogc := 2,
                      rec_hlm := { req_type := reqtype_t.REQTYPE_REC_READ,
                                   nr_llm_reqs := nr_llm_reqs, llm_reqs := reqs1 },
                      llm_reqs_made := p3.llm_reqs_made ++ llm_made (List.range nr_llm_reqs) reqs }
                    match rec_write_phase env np get_free_ppa column_idx nr_reusable_blks
                        nr_llm_reqs p4 with
                    | none => none
                    | some p5 => rec_endrec env np column_idx nr_reusable_blks p5
      | _ => none

/-- Dispatch of `bdbm_fgm_ftl_get_free_ppa` on `logaddr->lpa_cg`, over the
recycle engine the fine stream calls. -/
def get_free_ppa_dispatch (np : bdbm_device_params_t)
    (recycle : bdbm_fgm_ftl_private_t → Option (Nat × bdbm_fgm_ftl_private_t))
    (p : bdbm_fgm_ftl_private_t) (logaddr : bdbm_logaddr_t) :
    Option (Nat × bdbm_fgm_ftl_private_t × bdbm_phyaddr_t) :=
  if logaddr.lpa_cg = -1 then __bdbm_fgm_ftl_get_free_ppa_4kb np recycle p
  else if logaddr.lpa_cg = -2 then __bdbm_fgm_ftl_get_free_ppa_cmp np p
  else __bdbm_fgm_ftl_get_free_ppa np p

/-- Function `bdbm_fgm_ftl_get_free_ppa`.  The fine stream can enter the
recycle engine, whose relocation writes call `bdbm_fgm_ftl_get_free_ppa`
again; `fuel` bounds the depth of that nesting, and a run that would nest
deeper yields `none`. -/
def bdbm_fgm_ftl_get_free_ppa (env : fgm_env_t) (np : bdbm_device_params_t) :
    Nat → bdbm_fgm_ftl_private_t → bdbm_logaddr_t →
      Option (Nat × bdbm_fgm_ftl_private_t × bdbm_phyaddr_t)
  | 0, p, logaddr => get_free_ppa_dispatch np (fun _ => none) p logaddr
  | fuel + 1, p, logaddr =>
    get_free_ppa_dispatch np
      (bdbm_fgm_ftl_get_reusable_active_blks env np (bdbm_fgm_ftl_get_free_ppa env np fuel))
      p logaddr

/-! ## Creation -/

/-- A zeroed request descriptor with `n` slots. -/
def zero_llm_req (n : Nat) : bdbm_llm_req_t :=
  { req_type := reqtype_t.REQTYPE_DONE, ret := 0, lpa := List.replicate n 0, lpa_cg := 0,
    ofs := 0,
    phyaddr := { punit_id := 0, channel_no := 0, chip_no := 0, block_no := 0, page_no := 0 },
    kp_stt := List.replicate n kp_stt_t.KP_STT_DONE, kp_ptr := List.replicate n 0,
    foob := List.replicate n 0 }

/-- A request pool as `bdbm_fgm_ftl_create` sets it up: `nr_punits_pages`
zeroed descriptors handed to `hlm_reqs_pool_allocate_llm_reqs`. -/
def create_pool (env : fgm_env_t) (np : bdbm_device_params_t) (nr_punits_pages : Nat) :
    bdbm_hlm_req_gc_t :=
  { req_type := reqtype_t.REQTYPE_DONE, nr_llm_reqs := 0,
    llm_reqs := env.hlm_reqs_pool_allocate_llm_reqs
      (List.replicate nr_punits_pages (zero_llm_req np.nr_subpages_per_page)) nr_punits_pages }

/-- Function `bdbm_fgm_ftl_create`; `none` is the failure return (one of the
three sets of active blocks could not be taken), after which the private data
is destroyed. -/
def bdbm_fgm_ftl_create (env : fgm_env_t) (np : bdbm_device_params_t) :
    Option bdbm_fgm_ftl_private_t :=
  let nr_punits := (np.nr_chips_per_channel * np.nr_channels) % 18446744073709551616
  let nr_punits_pages := (nr_punits * np.nr_pages_per_block) % 18446744073709551616
  let bai := bdbm_abm_create np
  let r1 := __bdbm_fgm_ftl_get_active_blocks np bai (List.replicate nr_punits none)
  if r1.1 ≠ 0 then none
  else
    let r2 := __bdbm_fgm_ftl_get_active_blocks np r1.2.1 (List.replicate nr_punits none)
    if r2.1 ≠ 0 then none
    else
      let r3 := __bdbm_fgm_ftl_get_active_blocks np r2.2.1 (List.replicate nr_punits none)
      if r3.1 ≠ 0 then none
      else
        some
          { bai := r3.2.1,
            ptr_mapping_table := __bdbm_fgm_ftl_create_mapping_table np,
            ptr_sp_hash_table := [],
            nr_punits := nr_punits,
            nr_punits_pages := nr_punits_pages,
            nr_max_dirty_4kb_blks := (60 * np.nr_blocks_per_ssd) % 18446744073709551616 / 100,
            curr_puid := 0,
            curr_page_ofs := 0,
            ac_bab := r1.2.2,
            curr_puid_4kb := 0,
            curr_page_ofs_4kb := 0,
            ac_bab_4kb := r2.2.2,
            gc_bab_4kb := List.replicate nr_punits none,
            rec_hlm := create_pool env np nr_punits_pages,
            rec_hlm_w := create_pool env np nr_punits_pages,
            curr_puid_cmp := 0,
            curr_page_ofs_cmp := 0,
            ac_bab_cmp := r3.2.2,
            cmp_hlm := create_pool env np nr_punits_pages,
            cmp_hlm_w := create_pool env np nr_punits_pages,
            gc_bab := List.replicate nr_punits none,
            gc_hlm := create_pool env np nr_punits_pages,
            gc_hlm_w := create_pool env np nr_punits_pages,
            zerogc := -1,
            POOL_SIZE := 60, llm_reqs_made := [] }

/-! ## Worked instances -/

/-- An environment for the worked instances: the pool helpers reset every
slot to HOLE and every logical address to `-1` (with `lpa_cg = -1` and
`ofs = 0`), the relocation of buffers and the allocation of buffers leave
the modelled fields as they are, the packer emits nothing, and every
submission succeeds, a read returning as out-of-band tags the values found in
the descriptor. -/
def ex_env : fgm_env_t :=
  { hlm_reqs_pool_allocate_llm_reqs := fun rs _ => rs,
    hlm_reqs_pool_reset_fmain := fun r =>
      { r with kp_stt := r.kp_stt.map (fun _ => kp_stt_t.KP_STT_HOLE) },
    hlm_reqs_pool_reset_logaddr := fun r =>
      { r with lpa := r.lpa.map (fun _ => -1), lpa_cg := -1, ofs := 0 },
    hlm_reqs_pool_relocate_write_req_ofs := fun r => r,
    hlm_reqs_pool_write_compaction := fun w _ _ => (0, { w with nr_llm_reqs := 0 }),
    llm_make_req := fun r => (0, r) }

/-- A small geometry: one channel, one chip, eight blocks of two pages, four
sub-pages per page. -/
def ex_np : bdbm_device_params_t :=
  { nr_channels := 1, nr_chips_per_channel := 1, nr_blocks_per_chip := 8,
    nr_pages_per_block := 2, nr_subpages_per_page := 4, nr_subpages_per_block := 8,
    nr_blocks_per_ssd := 8, nr_pages_per_ssd := 16, nr_subpages_per_ssd := 64 }

/-- An empty request batch. -/
def ex_no_reqs : bdbm_hlm_req_gc_t :=
  { req_type := reqtype_t.REQTYPE_DONE, nr_llm_reqs := 0, llm_reqs := [] }

/-- An empty ABM. -/
def ex_no_abm : bdbm_abm_info_t :=
  { blocks := [], list_head_free := [], list_head_clean := [], list_head_dirty := [],
    list_head_dirty_4kb := [], nr_total_blks := 0, nr_free_blks := 0, nr_clean_blks := 0,
    nr_dirty_blks := 0, nr_dirty_4kb_blks := 0, nr_bad_blks := 0, calls := [] }

/-- A private state with empty tables and no blocks. -/
def ex_blank : bdbm_fgm_ftl_private_t :=
  { bai := ex_no_abm, ptr_mapping_table := [], ptr_sp_hash_table := [], nr_punits := 0,
    nr_punits_pages := 0, nr_max_dirty_4kb_blks := 0, curr_puid := 0, curr_page_ofs := 0,
    ac_bab := [], curr_puid_4kb := 0, curr_page_ofs_4kb := 0, ac_bab_4kb := [],
    gc_bab_4kb := [], rec_hlm := ex_no_reqs, rec_hlm_w := ex_no_reqs, curr_puid_cmp := 0,
    curr_page_ofs_cmp := 0, ac_bab_cmp := [], cmp_hlm := ex_no_reqs, cmp_hlm_w := ex_no_reqs,
    gc_bab := [], gc_hlm := ex_no_reqs, gc_hlm_w := ex_no_reqs, zerogc := -1, POOL_SIZE := 60, llm_reqs_made := [] }

/-- The freshly created FTL of the small geometry. -/
def ex_fresh : bdbm_fgm_ftl_private_t := (bdbm_fgm_ftl_create ex_env ex_np).getD ex_blank

/-- Page `page_no` of block `block_no` on the only die of the small geometry. -/
def ex_ppa (block_no page_no : Nat) : bdbm_phyaddr_t :=
  { punit_id := 0, channel_no := 0, chip_no := 0, block_no := block_no, page_no := page_no }

/-- A 16KB request for logical page `L` of the small geometry, with
`lpa[k] = 4 L + k`. -/
def ex_la16 (L : Int) : bdbm_logaddr_t :=
  { lpa := fun k => L * 4 + k, lpa_cg := L, ofs := 0 }

/-- A fine-grained request for logical sub-page `l`, carried in slot 0. -/
def ex_la4 (l : Int) : bdbm_logaddr_t :=
  { lpa := fun k => if k = 0 then l else -1, lpa_cg := -1, ofs := 0 }

/-! ## Histories of one logical sub-page -/

/-- The fresh FTL of the small geometry after the 16KB commit of logical
page 3 to page 1 of block 0. -/
def ex_mapped16 : bdbm_fgm_ftl_private_t :=
  match bdbm_fgm_ftl_map_lpa_to_ppa ex_np ex_fresh (ex_la16 3) (ex_ppa 0 1) with
  | some r => r.2.1
  | none => ex_blank

/-- The fresh FTL of the small geometry after the fine-grained commit of
logical sub-page 42 to page 0 of block 1. -/
def ex_mapped4 : bdbm_fgm_ftl_private_t :=
  match bdbm_fgm_ftl_map_lpa_to_ppa ex_np ex_fresh (ex_la4 42) (ex_ppa 1 0) with
  | some r => r.2.1
  | none => ex_blank

/-- A host write on the small geometry: `bdbm_fgm_ftl_get_free_ppa`, then
`bdbm_fgm_ftl_map_lpa_to_ppa` onto the address obtained, both returning 0. -/
def ex_write (p : bdbm_fgm_ftl_private_t) (la : bdbm_logaddr_t) :
    Option bdbm_fgm_ftl_private_t :=
  match bdbm_fgm_ftl_get_free_ppa ex_env ex_np 1 p la with
  | some (0, p1, ppa) =>
    match bdbm_fgm_ftl_map_lpa_to_ppa ex_np p1 la ppa with
    | some (0, p2, _) => some p2
    | _ => none
  | _ => none

/-- The cursor and the active blocks of the normal stream are the same in
`p` and `q`. -/
def stream_normal_same (p q : bdbm_fgm_ftl_private_t) : Prop :=
  q.curr_puid = p.curr_puid ∧ q.curr_page_ofs = p.curr_page_ofs ∧ q.ac_bab = p.ac_bab

/-- The cursor and the active blocks of the fine stream are the same in `p`
and `q`. -/
def stream_4kb_same (p q : bdbm_fgm_ftl_private_t) : Prop :=
  q.curr_puid_4kb = p.curr_puid_4kb ∧ q.curr_page_ofs_4kb = p.curr_page_ofs_4kb ∧
    q.ac_bab_4kb = p.ac_bab_4kb

/-- The cursor and the active blocks of the compaction stream are the same
in `p` and `q`. -/
def stream_cmp_same (p q : bdbm_fgm_ftl_private_t) : Prop :=
  q.curr_puid_cmp = p.curr_puid_cmp ∧ q.curr_page_ofs_cmp = p.curr_page_ofs_cmp ∧
    q.ac_bab_cmp = p.ac_bab_cmp

/-- The fine stream is about to enter the recycle engine: the cursor wraps,
the page offset reaches `nr_pages_per_block`, and the dirty-4KB pool is above
its cap. -/
def recycle_due (np : bdbm_device_params_t) (p : bdbm_fgm_ftl_private_t) : Prop :=
  (p.curr_puid_4kb + 1) % 18446744073709551616 = p.nr_punits ∧
  (p.curr_page_ofs_4kb + 1) % 18446744073709551616 = np.nr_pages_per_block ∧
  p.bai.nr_dirty_4kb_blks > p.nr_max_dirty_4kb_blks

/-! ## A state of the small geometry in front of a final-column recycle -/

/-- Out-of-band tags held by the flash of the worked instance: page 0 of
block 2 was written, slot by slot, for the logical sub-pages 1, 2, 3 and 5. -/
def ex_oob (ppa : bdbm_phyaddr_t) : List Int :=
  if ppa.block_no = 2 ∧ ppa.page_no = 0 then [1, 2, 3, 5] else [-1, -1, -1, -1]

/-- The environment `ex_env` with a device manager that completes a recycle
read with the out-of-band tags `ex_oob` of the page read. -/
def ex_env_dev : fgm_env_t :=
  { ex_env with
    llm_make_req := fun r =>
      if r.req_type = reqtype_t.REQTYPE_REC_READ then (0, { r with foob := ex_oob r.phyaddr })
      else (0, r) }

/-- A block of the only die of the small geometry. -/
def ex_blk (block_no : Nat) (status : bdbm_abm_blk_status_t) (nr_invalid_subpages : Nat)
    (pst : List bdbm_abm_subpage_t) : bdbm_abm_block_t :=
  { status := status, channel_no := 0, chip_no := 0, block_no := block_no,
    nr_invalid_subpages := nr_invalid_subpages, pst := pst }

/-- A 4KB block whose first column is written and live on both pages. -/
def ex_pst_col0 : List bdbm_abm_subpage_t :=
  [bdbm_abm_subpage_t.VALID, bdbm_abm_subpage_t.NOT_INVALID, bdbm_abm_subpage_t.NOT_INVALID,
   bdbm_abm_subpage_t.NOT_INVALID, bdbm_abm_subpage_t.VALID, bdbm_abm_subpage_t.NOT_INVALID,
   bdbm_abm_subpage_t.NOT_INVALID, bdbm_abm_subpage_t.NOT_INVALID]

/-- A state of the small geometry in which the dirty-4KB pool (blocks 2 to
6) is above its cap of 4 blocks.  Block 0 is the active block of the normal
stream and block 1 that of the compaction stream, both unwritten; block 6 is
the active block of the fine stream, with page 0 written and the cursor on
page 1; block 7 is free.  Block 2 has been reused through all four columns:
only sub-page 3 of its page 0 is still VALID, holding logical sub-page 5,
which was written once (`count = 1`); blocks 3, 4 and 5 hold the logical
sub-pages 10 to 15 in their first column. -/
def ex_recycle : bdbm_fgm_ftl_private_t :=
  { bai :=
      { blocks :=
          [ ex_blk 0 bdbm_abm_blk_status_t.CLEAN 0
              (List.replicate 8 bdbm_abm_subpage_t.NOT_INVALID),
            ex_blk 1 bdbm_abm_blk_status_t.CLEAN 0
              (List.replicate 8 bdbm_abm_subpage_t.NOT_INVALID),
            ex_blk 2 bdbm_abm_blk_status_t.DIRTY_4KB 7
              [bdbm_abm_subpage_t.INVALID, bdbm_abm_subpage_t.INVALID,
               bdbm_abm_subpage_t.INVALID, bdbm_abm_subpage_t.VALID,
               bdbm_abm_subpage_t.INVALID, bdbm_abm_subpage_t.INVALID,
               bdbm_abm_subpage_t.INVALID, bdbm_abm_subpage_t.INVALID],
            ex_blk 3 bdbm_abm_blk_status_t.DIRTY_4KB 0 ex_pst_col0,
            ex_blk 4 bdbm_abm_blk_status_t.DIRTY_4KB 0 ex_pst_col0,
            ex_blk 5 bdbm_abm_blk_status_t.DIRTY_4KB 0 ex_pst_col0,
            ex_blk 6 bdbm_abm_blk_status_t.DIRTY_4KB 0
              (bdbm_abm_subpage_t.VALID :: List.replicate 7 bdbm_abm_subpage_t.NOT_INVALID),
            ex_blk 7 bdbm_abm_blk_status_t.FREE 0
              (List.replicate 8 bdbm_abm_subpage_t.NOT_INVALID) ],
        list_head_free := [[7]],
        list_head_clean := [[0, 1]],
        list_head_dirty := [[]],
        list_head_dirty_4kb := [[2, 3, 4, 5, 6]],
        nr_total_blks := 8, nr_free_blks := 1, nr_clean_blks := 2, nr_dirty_blks := 0,
        nr_dirty_4kb_blks := 5, nr_bad_blks := 0, calls := [] },
    ptr_mapping_table := __bdbm_fgm_ftl_create_mapping_table ex_np,
    ptr_sp_hash_table :=
      [ { lpa := 5, count := 1, ppa := ex_ppa 2 0, sp_off := 3 },
        { lpa := 10, count := 1, ppa := ex_ppa 3 0, sp_off := 0 },
        { lpa := 11, count := 1, ppa := ex_ppa 3 1, sp_off := 0 },
        { lpa := 12, count := 1, ppa := ex_ppa 4 0, sp_off := 0 },
        { lpa := 13, count := 1, ppa := ex_ppa 4 1, sp_off := 0 },
        { lpa := 14, count := 1, ppa := ex_ppa 5 0, sp_off := 0 },
        { lpa := 15, count := 1, ppa := ex_ppa 5 1, sp_off := 0 },
        { lpa := 16, count := 1, ppa := ex_ppa 6 0, sp_off := 0 } ],
    nr_punits := 1,
    nr_punits_pages := 2,
    nr_max_dirty_4kb_blks := 4,
    curr_puid := 0, curr_page_ofs := 0, ac_bab := [some 0],
    curr_puid_4kb := 0, curr_page_ofs_4kb := 1, ac_bab_4kb := [some 6],
    gc_bab_4kb := [none],
    rec_hlm := create_pool ex_env ex_np 2,
    rec_hlm_w := create_pool ex_env ex_np 2,
    curr_puid_cmp := 0, curr_page_ofs_cmp := 0, ac_bab_cmp := [some 1],
    cmp_hlm := create_pool ex_env ex_np 2,
    cmp_hlm_w := create_pool ex_env ex_np 2,
    gc_bab := [none],
    gc_hlm := create_pool ex_env ex_np 2,
    gc_hlm_w := create_pool ex_env ex_np 2,
    zerogc := -1,
    POOL_SIZE := 60, llm_reqs_made := [] }

/-! ## GC engine

`bdbm_fgm_ftl_do_gc` is embedded over the same environment as the recycle
engine.  The iterator `bdbm_abm_list_for_each_dirty_block` of the absent
`abm.h` is modelled from section 4.1 of the spec as the walk of the dirty
list of the die, head first. -/

/-- Function `bdbm_fgm_ftl_is_gc_needed`, on the values `nr_total_blks` and
`nr_free_blks` returned by the accessors `bdbm_abm_get_nr_total_blocks` and
`bdbm_abm_get_nr_free_blocks` of the ABM; `none` is the division by zero. -/
def bdbm_fgm_ftl_is_gc_needed (nr_total_blks nr_free_blks : Nat) : Option Nat :=
  if nr_total_blks = 0 then none
  else if (nr_free_blks * 100) % 18446744073709551616 / nr_total_blks ≤ 2 then some 1
  else some 0

/-- The loop of `__bdbm_fgm_ftl_victim_selection_greedy` over the dirty list
of a die; `a` and `c` are the active blocks of the normal and the compaction
stream on the die, `v` the victim so far. -/
def victim_selection_loop (np : bdbm_device_params_t) (bai : bdbm_abm_info_t)
    (a c : Option Nat) : List Nat → Option Nat → Option (Option Nat)
  | [], v => some v
  | bi :: rest, v =>
    if a = some bi then victim_selection_loop np bai a c rest v
    else if c = some bi then victim_selection_loop np bai a c rest v
    else
      match bai.blocks[bi]? with
      | none => none
      | some b =>
        if b.nr_invalid_subpages = np.nr_subpages_per_block then some (some bi)
        else
          match v with
          | none => victim_selection_loop np bai a c rest (some bi)
          | some vi =>
            match bai.blocks[vi]? with
            | none => none
            | some vb =>
              if b.nr_invalid_subpages > vb.nr_invalid_subpages then
                victim_selection_loop np bai a c rest (some bi)
              else victim_selection_loop np bai a c rest v

/-- Function `__bdbm_fgm_ftl_victim_selection_greedy`. -/
def __bdbm_fgm_ftl_victim_selection_greedy (np : bdbm_device_params_t)
    (p : bdbm_fgm_ftl_private_t) (channel_no chip_no : Nat) : Option (Option Nat) :=
  match p.ac_bab[channel_no * np.nr_chips_per_channel + chip_no]?,
        p.ac_bab_cmp[channel_no * np.nr_chips_per_channel + chip_no]? with
  | some a, some c =>
    victim_selection_loop np p.bai a c
      (p.bai.list_head_dirty.getD (abm_die np channel_no chip_no) []) none
  | _, _ => none

/-- The victim-selection loop of `bdbm_fgm_ftl_do_gc` over the dies; `n` is
`nr_gc_blks`. -/
def gc_select_loop (np : bdbm_device_params_t) :
    List (Nat × Nat) → Nat → bdbm_fgm_ftl_private_t → Option (Nat × bdbm_fgm_ftl_private_t)
  | [], n, p => some (n, p)
  | (i, j) :: rest, n, p =>
    match __bdbm_fgm_ftl_victim_selection_greedy np p i j with
    | none => none
    | some none => gc_select_loop np rest n p
    | some (some b) => gc_select_loop np rest (n + 1) { p with gc_bab := p.gc_bab.set n (some b) }

/-- Running state of the read-building loop of `bdbm_fgm_ftl_do_gc`: the pool
and the fill count of the GC-read batch and of the compaction-read batch. -/
structure gc_reads_t where
  gc_reqs : List bdbm_llm_req_t
  nr_llm_reqs : Nat
  cmp_reqs : List bdbm_llm_req_t
  nr_llm_reqs_cmp : Nat
deriving DecidableEq, Repr

/-- The slot loop of one page in the read-building loop: every slot whose
`pst` is not INVALID becomes DATA in both descriptors and counts into
`is_coarse`, every other slot becomes HOLE.  The state is `r`, `rc`,
`has_valid` and `is_coarse`. -/
def gc_scan_slots (pst : List bdbm_abm_subpage_t) (base : Nat) :
    List Nat → bdbm_llm_req_t × bdbm_llm_req_t × Bool × Nat →
      Option (bdbm_llm_req_t × bdbm_llm_req_t × Bool × Nat)
  | [], st => some st
  | k :: ks, (r, rc, has_valid, is_coarse) =>
    match pst[(base + k) % 18446744073709551616]? with
    | none => none
    | some v =>
      if v ≠ bdbm_abm_subpage_t.INVALID then
        gc_scan_slots pst base ks
          ({ r with lpa := r.lpa.set k (-1), kp_stt := r.kp_stt.set k kp_stt_t.KP_STT_DATA },
           { rc with lpa := rc.lpa.set k (-1), kp_stt := rc.kp_stt.set k kp_stt_t.KP_STT_DATA },
           true, is_coarse + 1)
      else
        gc_scan_slots pst base ks
          ({ r with lpa := r.lpa.set k (-1), kp_stt := r.kp_stt.set k kp_stt_t.KP_STT_HOLE },
           { rc with lpa := rc.lpa.set k (-1), kp_stt := rc.kp_stt.set k kp_stt_t.KP_STT_HOLE },
           has_valid, is_coarse)

/-- One page `j` of one victim in the read-building loop. -/
def gc_build_read (env : fgm_env_t) (np : bdbm_device_params_t) (b : bdbm_abm_block_t)
    (j : Nat) (st : gc_reads_t) : Option gc_reads_t :=
  match st.gc_reqs[st.nr_llm_reqs]?, st.cmp_reqs[st.nr_llm_reqs_cmp]? with
  | some r0, some rc0 =>
    let r1 := env.hlm_reqs_pool_reset_logaddr (env.hlm_reqs_pool_reset_fmain r0)
    let rc1 := env.hlm_reqs_pool_reset_logaddr (env.hlm_reqs_pool_reset_fmain rc0)
    match gc_scan_slots b.pst ((j * np.nr_subpages_per_page) % 18446744073709551616)
        (List.range np.nr_subpages_per_page) (r1, rc1, false, 0) with
    | none => none
    | some (r2, rc2, has_valid, is_coarse) =>
      let ph0 : bdbm_phyaddr_t :=
        { punit_id := 0, channel_no := b.channel_no, chip_no := b.chip_no,
          block_no := b.block_no, page_no := j }
      let ph := { ph0 with punit_id := BDBM_GET_PUNIT_ID np ph0 }
      if has_valid then
        if is_coarse = np.nr_subpages_per_page then
          some { st with
            gc_reqs := st.gc_reqs.set st.nr_llm_reqs
              { r2 with req_type := reqtype_t.REQTYPE_GC_READ, phyaddr := ph, ret := 0 },
            cmp_reqs := st.cmp_reqs.set st.nr_llm_reqs_cmp rc2,
            nr_llm_reqs := st.nr_llm_reqs + 1 }
        else
          some { st with
            gc_reqs := st.gc_reqs.set st.nr_llm_reqs r2,
            cmp_reqs := st.cmp_reqs.set st.nr_llm_reqs_cmp
              { rc2 with req_type := reqtype_t.REQTYPE_GC_READ, phyaddr := ph, ret := 0 },
            nr_llm_reqs_cmp := st.nr_llm_reqs_cmp + 1 }
      else
        some { st with
          gc_reqs := st.gc_reqs.set st.nr_llm_reqs r2,
          cmp_reqs := st.cmp_reqs.set st.nr_llm_reqs_cmp rc2 }
  | _, _ => none

/-- The pages of one victim in the read-building loop. -/
def gc_build_reads_blk (env : fgm_env_t) (np : bdbm_device_params_t) (b : bdbm_abm_block_t) :
    List Nat → gc_reads_t → Option gc_reads_t
  | [], st => some st
  | j :: js, st =>
    match gc_build_read env np b j st with
    | none => none
    | some st1 => gc_build_reads_blk env np b js st1

/-- The read-building loop over `gc_bab[i]`, stopping at a `NULL`. -/
def gc_build_reads (env : fgm_env_t) (np : bdbm_device_params_t) (bai : bdbm_abm_info_t) :
    List (Option Nat) → gc_reads_t → Option gc_reads_t
  | [], st => some st
  | none :: _, st => some st
  | some bi :: rest, st =>
    match bai.blocks[bi]? with
    | none => none
    | some b =>
      match gc_build_reads_blk env np b (List.range np.nr_pages_per_block) st with
      | none => none
      | some st1 => gc_build_reads env np bai rest st1

/-- Submission of the first `n` descriptors of the batch `h`, each followed to
completion, after the batch header was set to type `t` and size `nr`; `made`
is the record of the descriptors handed to `make_req`. -/
def llm_send (env : fgm_env_t) (t : reqtype_t) (nr n : Nat) (h : bdbm_hlm_req_gc_t)
    (made : List bdbm_llm_req_t) : Option (bdbm_hlm_req_gc_t × List bdbm_llm_req_t) :=
  match llm_submit env (List.range n) h.llm_reqs with
  | none => none
  | some reqs =>
    some ({ req_type := t, nr_llm_reqs := nr, llm_reqs := reqs },
          made ++ llm_made (List.range n) h.llm_reqs)

/-- The calls `bdbm_fgm_ftl_get_free_ppa (bdi, &r->logaddr, &r->phyaddr)` and
`bdbm_fgm_ftl_map_lpa_to_ppa (bdi, &r->logaddr, &r->phyaddr)` of the write
loops of `bdbm_fgm_ftl_do_gc`, each followed by the `bdbm_bug_on` of a
non-zero return.  The descriptor lives in a pool of the GC engine, which no
callee touches. -/
def gc_alloc_and_map (np : bdbm_device_params_t)
    (get_free_ppa : bdbm_fgm_ftl_private_t → bdbm_logaddr_t →
      Option (Nat × bdbm_fgm_ftl_private_t × bdbm_phyaddr_t))
    (p : bdbm_fgm_ftl_private_t) (r : bdbm_llm_req_t) :
    Option (bdbm_fgm_ftl_private_t × bdbm_llm_req_t) :=
  match get_free_ppa p (req_logaddr r) with
  | none => none
  | some (ret, p1, ppa) =>
    if ret ≠ 0 then none
    else
      let r1 := { r with phyaddr := ppa }
      match bdbm_fgm_ftl_map_lpa_to_ppa np p1 (req_logaddr r1) r1.phyaddr with
      | none => none
      | some (ret2, p2, ofs) =>
        if ret2 ≠ 0 then none else some (p2, { r1 with ofs := ofs })

/-- The slot loop of the write-building loop for a FULL-VALID page: every
slot of `r` becomes DATA with the buffer and the out-of-band tag of the read
`rr`, and `is_coarse` counts the slots whose tag equals that of the next slot
(cyclically). -/
def gc_copy_slots (K : Nat) (rr : bdbm_llm_req_t) :
    List Nat → bdbm_llm_req_t × Nat → bdbm_llm_req_t × Nat
  | [], st => st
  | k :: ks, (r, is_coarse) =>
    gc_copy_slots K rr ks
      ({ r with
         kp_stt := r.kp_stt.set k kp_stt_t.KP_STT_DATA,
         kp_ptr := r.kp_ptr.set k (rr.kp_ptr.getD k 0),
         lpa := r.lpa.set k (rr.foob.getD k 0),
         foob := r.foob.set k (rr.foob.getD k 0) },
       if rr.foob.getD k 0 = rr.foob.getD ((k + 1) % K) 0 then is_coarse + 1 else is_coarse)

/-- The write request the write-building loop of `bdbm_fgm_ftl_do_gc` builds
in the descriptor `r` from the FULL-VALID read `rr`, as it stands before the
allocation: every slot copied, and `lpa_cg = lpa[0]` with `ofs = 0` when
`is_coarse` has counted every slot, `lpa_cg = -2` otherwise. -/
def gc_build_write (env : fgm_env_t) (np : bdbm_device_params_t) (r rr : bdbm_llm_req_t) :
    bdbm_llm_req_t :=
  let r0 := env.hlm_reqs_pool_reset_logaddr (env.hlm_reqs_pool_reset_fmain
    { r with req_type := reqtype_t.REQTYPE_GC_WRITE })
  let c := gc_copy_slots np.nr_subpages_per_page rr (List.range np.nr_subpages_per_page)
    (r0, 0)
  let r1 :=
    if c.2 = np.nr_subpages_per_page then { c.1 with lpa_cg := c.1.lpa.getD 0 0, ofs := 0 }
    else { c.1 with lpa_cg := -2 }
  { r1 with req_type := reqtype_t.REQTYPE_GC_WRITE }

/-- The write-building loop of `bdbm_fgm_ftl_do_gc` for the FULL-VALID
pages, over the indices of the list. -/
def gc_writes (env : fgm_env_t) (np : bdbm_device_params_t)
    (get_free_ppa : bdbm_fgm_ftl_private_t → bdbm_logaddr_t →
      Option (Nat × bdbm_fgm_ftl_private_t × bdbm_phyaddr_t)) :
    List Nat → bdbm_fgm_ftl_private_t → Option bdbm_fgm_ftl_private_t
  | [], p => some p
  | i :: is, p =>
    match p.gc_hlm_w.llm_reqs[i]?, p.gc_hlm.llm_reqs[i]? with
    | some r, some rr =>
      match gc_alloc_and_map np get_free_ppa p (gc_build_write env np r rr) with
      | none => none
      | some (p1, r2) =>
        gc_writes env np get_free_ppa is
          { p1 with gc_hlm_w := { p1.gc_hlm_w with llm_reqs := p1.gc_hlm_w.llm_reqs.set i r2 } }
    | _, _ => none

/-- The fix-up loop of `bdbm_fgm_ftl_do_gc` after the packer, over
`k = 1 .. K - 2`: a DATA slot `k` of the last output `reqs[ri]` moves into the
descriptor `reqs[next]`, and slot `k` of the last output becomes a HOLE with
`lpa[k] = -1`.  The state is the write pool and the offset of `next`. -/
def gc_fixup_loop (ri : Nat) : List Nat → List bdbm_llm_req_t × Nat →
    Option (List bdbm_llm_req_t × Nat)
  | [], st => some st
  | k :: ks, st =>
    match st.1[ri]? with
    | none => none
    | some r =>
      match r.kp_stt[k]? with
      | none => none
      | some kp_stt_t.KP_STT_DATA =>
        match st.1[st.2]? with
        | none => none
        | some nx =>
          let nx1 := { nx with
            kp_stt := nx.kp_stt.set k kp_stt_t.KP_STT_DATA,
            kp_ptr := nx.kp_ptr.set k (r.kp_ptr.getD k 0),
            foob := nx.foob.set k (r.foob.getD k 0),
            lpa_cg := -1,
            ofs := k }
          let reqs1 := st.1.set st.2 nx1
          match reqs1[ri]? with
          | none => none
          | some r1 =>
            gc_fixup_loop ri ks
              (reqs1.set ri { r1 with kp_stt := r1.kp_stt.set k kp_stt_t.KP_STT_HOLE,
                                      lpa := r1.lpa.set k (-1) }, st.2 + 1)
      | some _ => gc_fixup_loop ri ks st

/-- The loop `for (k < K)` of the compaction writes of `bdbm_fgm_ftl_do_gc`:
the out-of-band tag of a DATA slot goes into `lpa[k]`, a tag `-1` there being
the `bdbm_bug_on`; a HOLE slot gets `-1` in both; any other slot state is the
`bdbm_bug_on (1)`. -/
def gc_tag_slots : List Nat → bdbm_llm_req_t → Option bdbm_llm_req_t
  | [], r => some r
  | k :: ks, r =>
    match r.kp_stt[k]? with
    | none => none
    | some kp_stt_t.KP_STT_DATA =>
      if r.foob.getD k 0 = -1 then none
      else gc_tag_slots ks { r with lpa := r.lpa.set k (r.foob.getD k 0) }
    | some kp_stt_t.KP_STT_HOLE =>
      gc_tag_slots ks { r with foob := r.foob.set k (-1), lpa := r.lpa.set k (-1) }
    | some kp_stt_t.KP_STT_DONE => none

/-- The write-building loop of `bdbm_fgm_ftl_do_gc` for the packed
(SPARSE-VALID) pages, over the indices of the list. -/
def gc_cmp_writes (env : fgm_env_t) (np : bdbm_device_params_t)
    (get_free_ppa : bdbm_fgm_ftl_private_t → bdbm_logaddr_t →
      Option (Nat × bdbm_fgm_ftl_private_t × bdbm_phyaddr_t)) :
    List Nat → bdbm_fgm_ftl_private_t → Option bdbm_fgm_ftl_private_t
  | [], p => some p
  | i :: is, p =>
    match p.cmp_hlm_w.llm_reqs[i]? with
    | none => none
    | some r =>
      match gc_tag_slots (List.range np.nr_subpages_per_page)
          { r with req_type := reqtype_t.REQTYPE_GC_WRITE } with
      | none => none
      | some r1 =>
        match gc_alloc_and_map np get_free_ppa p r1 with
        | none => none
        | some (p1, r2) =>
          let r3 := if r2.lpa_cg = -1 then env.hlm_reqs_pool_relocate_write_req_ofs r2 else r2
          gc_cmp_writes env np get_free_ppa is
            { p1 with
              cmp_hlm_w := { p1.cmp_hlm_w with llm_reqs := p1.cmp_hlm_w.llm_reqs.set i r3 } }

/-- The part of `bdbm_fgm_ftl_do_gc` from the label `erase_blks` on. -/
def gc_erase_blks (env : fgm_env_t) (np : bdbm_device_params_t) (nr_gc_blks : Nat)
    (p : bdbm_fgm_ftl_private_t) : Option (Nat × bdbm_fgm_ftl_private_t) :=
  match rec_build_erases np p.bai p.gc_bab (List.range nr_gc_blks) p.gc_hlm.llm_reqs with
  | none => none
  | some reqs =>
    match llm_send env reqtype_t.REQTYPE_GC_ERASE p.nr_punits nr_gc_blks
        { p.gc_hlm with llm_reqs := reqs } p.llm_reqs_made with
    | none => none
    | some (h, made) =>
      match rec_erase_blks np p.gc_bab h.llm_reqs (List.range nr_gc_blks) p.bai with
      | none => none
      | some bai1 =>
        some (0, { p with bai := bai1, gc_hlm := h, llm_reqs_made := made, zerogc := -1 })

/-- The compaction write phase of `bdbm_fgm_ftl_do_gc`: the packer, the
fix-up of its last output, the write-building loop and the submission of the
writes. -/
def gc_cmp_phase (env : fgm_env_t) (np : bdbm_device_params_t)
    (get_free_ppa : bdbm_fgm_ftl_private_t → bdbm_logaddr_t →
      Option (Nat × bdbm_fgm_ftl_private_t × bdbm_phyaddr_t))
    (p : bdbm_fgm_ftl_private_t) : Option bdbm_fgm_ftl_private_t :=
  let c := env.hlm_reqs_pool_write_compaction p.cmp_hlm_w p.cmp_hlm np
  let nr_valid := c.1
  let w := c.2
  let nr_llm_reqs_cmp := w.nr_llm_reqs
  let fixed : Option (List bdbm_llm_req_t × Nat) :=
    if nr_valid > 0 then
      if nr_llm_reqs_cmp = 0 ∨ np.nr_subpages_per_page = 0 then none
      else
        match w.llm_reqs[nr_llm_reqs_cmp - 1]? with
        | none => none
        | some r =>
          gc_fixup_loop (nr_llm_reqs_cmp - 1)
            (List.range' 1 (np.nr_subpages_per_page - 1 - 1))
            (w.llm_reqs.set (nr_llm_reqs_cmp - 1) { r with lpa_cg := -1, ofs := 0 },
             nr_llm_reqs_cmp)
    else some (w.llm_reqs, nr_llm_reqs_cmp)
  match fixed with
  | none => none
  | some (reqs, n) =>
    match gc_cmp_writes env np get_free_ppa (List.range n)
        { p with cmp_hlm_w := { w with llm_reqs := reqs } } with
    | none => none
    | some p1 =>
      if n ≠ 0 then
        match llm_send env reqtype_t.REQTYPE_GC_WRITE n n p1.cmp_hlm_w p1.llm_reqs_made with
        | none => none
        | some (h, made) => some { p1 with cmp_hlm_w := h, llm_reqs_made := made }
      else some p1

/-- Function `bdbm_fgm_ftl_do_gc` (the GC engine).  `get_free_ppa` is the
facade `bdbm_fgm_ftl_get_free_ppa` the engine calls for each relocation
write. -/
def bdbm_fgm_ftl_do_gc (env : fgm_env_t) (np : bdbm_device_params_t)
    (get_free_ppa : bdbm_fgm_ftl_private_t → bdbm_logaddr_t →
      Option (Nat × bdbm_fgm_ftl_private_t × bdbm_phyaddr_t))
    (p : bdbm_fgm_ftl_private_t) : Option (Nat × bdbm_fgm_ftl_private_t) :=
  let nr_punits := (np.nr_channels * np.nr_chips_per_channel) % 18446744073709551616
  let p0 := { p with gc_bab := p.gc_bab.map (fun _ => none) }
  match gc_select_loop np (die_list np) 0 p0 with
  | none => none
  | some (nr_gc_blks, p1) =>
    if nr_gc_blks < nr_punits then some (0, p1)
    else
      match gc_build_reads env np p1.bai (p1.gc_bab.take nr_gc_blks)
          { gc_reqs := p1.gc_hlm.llm_reqs, nr_llm_reqs := 0,
            cmp_reqs := p1.cmp_hlm.llm_reqs, nr_llm_reqs_cmp := 0 } with
      | none => none
      | some st =>
        let p2 := { p1 with
          gc_hlm := { p1.gc_hlm with llm_reqs := st.gc_reqs },
          cmp_hlm := { p1.cmp_hlm with llm_reqs := st.cmp_reqs },
          zerogc := 1 }
        if st.nr_llm_reqs = 0 ∧ st.nr_llm_reqs_cmp = 0 then gc_erase_blks env np nr_gc_blks p2
        else
          let sent_gc : Option bdbm_fgm_ftl_private_t :=
            if st.nr_llm_reqs ≠ 0 then
              match llm_send env reqtype_t.REQTYPE_GC_READ st.nr_llm_reqs st.nr_llm_reqs
                  p2.gc_hlm p2.llm_reqs_made with
              | none => none
              | some (h, made) => some { p2 with gc_hlm := h, llm_reqs_made := made }
            else some p2
          let sent_cmp : Option bdbm_fgm_ftl_private_t :=
            match sent_gc with
            | none => none
            | some p3 =>
              if st.nr_llm_reqs_cmp ≠ 0 then
                match llm_send env reqtype_t.REQTYPE_GC_READ st.nr_llm_reqs_cmp
                    st.nr_llm_reqs_cmp p3.cmp_hlm p3.llm_reqs_made with
                | none => none
                | some (h, made) => some { p3 with cmp_hlm := h, llm_reqs_made := made }
              else some p3
          let written : Option bdbm_fgm_ftl_private_t :=
            match sent_cmp with
            | none => none
            | some p4 =>
              match gc_writes env np get_free_ppa (List.range st.nr_llm_reqs) p4 with
              | none => none
              | some p5 =>
                if st.nr_llm_reqs ≠ 0 then
                  match llm_send env reqtype_t.REQTYPE_GC_WRITE st.nr_llm_reqs st.nr_llm_reqs
                      p5.gc_hlm_w p5.llm_reqs_made with
                  | none => none
                  | some (h, made) => some { p5 with gc_hlm_w := h, llm_reqs_made := made }
                else some p5
          match written with
          | none => none
          | some p6 =>
            let packed : Option bdbm_fgm_ftl_private_t :=
              if st.nr_llm_reqs_cmp ≠ 0 then gc_cmp_phase env np get_free_ppa p6 else some p6
            match packed with
            | none => none
            | some p7 => gc_erase_blks env np nr_gc_blks p7

/-! ## Sub-page states across ABM calls -/

/-- The call is a `bdbm_abm_invalidate_page`. -/
def abm_is_invalidate : abm_call_t → Bool
  | abm_call_t.invalidate_page _ _ _ _ _ => true
  | _ => false

/-- The ABM `bai'` comes from `bai` through `bdbm_abm_invalidate_page` calls
only: the calls on record were extended by invalidations, the block array
kept its length, and every sub-page is in the state it had or is INVALID,
whatever state an invalidation finds it in. -/
def abm_only_invalidated (bai bai' : bdbm_abm_info_t) : Prop :=
  (∃ cs, bai'.calls = bai.calls ++ cs ∧ ∀ c ∈ cs, abm_is_invalidate c = true) ∧
  bai'.blocks.length = bai.blocks.length ∧
  ∀ (i : Nat) (b b' : bdbm_abm_block_t), bai.blocks[i]? = some b → bai'.blocks[i]? = some b' →
    ∀ j : Nat, b'.pst[j]? = b.pst[j]? ∨ b'.pst[j]? = some bdbm_abm_subpage_t.INVALID

/-- A compacted request of the small geometry whose slot 0 carries logical
sub-page 42 and whose slot 1 carries 64, the first address beyond the logical
space. -/
def ex_la_cmp_bad : bdbm_logaddr_t :=
  { lpa := fun k => if k = 0 then 42 else if k = 1 then 64 else -1, lpa_cg := -2, ofs := 0 }

/-! ## Runs of one write stream -/

/-- The state after `n` successive calls of `__bdbm_fgm_ftl_get_free_ppa`,
each of which returned 0. -/
def normal_calls (np : bdbm_device_params_t) : Nat → bdbm_fgm_ftl_private_t →
    Option bdbm_fgm_ftl_private_t
  | 0, p => some p
  | n + 1, p =>
    match normal_calls np n p with
    | none => none
    | some q =>
      match __bdbm_fgm_ftl_get_free_ppa np q with
      | some (0, q1, _) => some q1
      | _ => none

/-- The outcome of the call of `__bdbm_fgm_ftl_get_free_ppa` that follows `n`
calls which returned 0. -/
def normal_call (np : bdbm_device_params_t) (p : bdbm_fgm_ftl_private_t) (n : Nat) :
    Option (Nat × bdbm_fgm_ftl_private_t × bdbm_phyaddr_t) :=
  match normal_calls np n p with
  | none => none
  | some q => __bdbm_fgm_ftl_get_free_ppa np q

/-- Die `(c, h)` has, at index `c * nr_chips_per_channel + h` of the vector
`bab`, a block of that die. -/
def bab_die_ok (np : bdbm_device_params_t) (bai : bdbm_abm_info_t) (bab : List (Option Nat))
    (c h : Nat) : Bool :=
  match bab[c * np.nr_chips_per_channel + h]? with
  | some (some bi) =>
    match bai.blocks[bi]? with
    | some b => decide (b.channel_no = c ∧ b.chip_no = h)
    | none => false
  | _ => false

/-- Every die of the geometry has a block of its own in the vector `bab`. -/
def bab_per_die (np : bdbm_device_params_t) (bai : bdbm_abm_info_t) (bab : List (Option Nat)) :
    Prop :=
  ∀ c : Nat, c < np.nr_channels → ∀ h : Nat, h < np.nr_chips_per_channel →
    bab_die_ok np bai bab c h = true

instance (np : bdbm_device_params_t) (bai : bdbm_abm_info_t) (bab : List (Option Nat)) :
    Decidable (bab_per_die np bai bab) :=
  inferInstanceAs (Decidable (∀ c : Nat, c < np.nr_channels →
    ∀ h : Nat, h < np.nr_chips_per_channel → bab_die_ok np bai bab c h = true))

/-- The address the stream hands out from die `(c, h)`: page `q` of the
block the vector `bab` holds for the die. -/
def bab_addr (np : bdbm_device_params_t) (bai : bdbm_abm_info_t) (bab : List (Option Nat))
    (c h q : Nat) (ppa : bdbm_phyaddr_t) : Prop :=
  ppa.channel_no = c ∧ ppa.chip_no = h ∧ ppa.page_no = q ∧
    ppa.punit_id = c * np.nr_chips_per_channel + h ∧
    ∃ (bi : Nat) (b : bdbm_abm_block_t),
      bab[c * np.nr_chips_per_channel + h]? = some (some bi) ∧ bai.blocks[bi]? = some b ∧
        ppa.block_no = b.block_no

/-- The state after `n` successive calls of `__bdbm_fgm_ftl_get_free_ppa_cmp`,
each of which returned 0. -/
def cmp_calls (np : bdbm_device_params_t) : Nat → bdbm_fgm_ftl_private_t →
    Option bdbm_fgm_ftl_private_t
  | 0, p => some p
  | n + 1, p =>
    match cmp_calls np n p with
    | none => none
    | some q =>
      match __bdbm_fgm_ftl_get_free_ppa_cmp np q with
      | some (0, q1, _) => some q1
      | _ => none

/-- The outcome of the call of `__bdbm_fgm_ftl_get_free_ppa_cmp` that follows
`n` calls which returned 0. -/
def cmp_call (np : bdbm_device_params_t) (p : bdbm_fgm_ftl_private_t) (n : Nat) :
    Option (Nat × bdbm_fgm_ftl_private_t × bdbm_phyaddr_t) :=
  match cmp_calls np n p with
  | none => none
  | some q => __bdbm_fgm_ftl_get_free_ppa_cmp np q

/-- Parallel-unit striping of a stream over the vector `bab`, where `call n`
is the outcome of call `n + 1` and `cursor` reads the cursor of the stream.
For every `n < nr_punits * nr_pages_per_block` call `n + 1` returns, with
page `n / nr_punits` of the active block of die
`((n mod nr_punits) mod nr_channels, (n mod nr_punits) / nr_channels)`, and
unless it is the last of them it returns 0 and leaves the cursor on the next
unit, the page offset advanced exactly when the unit wrapped; no two of these
calls hand out the same page of the same die; and any `nr_punits` consecutive
calls among them reach every die. -/
def stream_striped (np : bdbm_device_params_t) (bai : bdbm_abm_info_t)
    (bab : List (Option Nat))
    (call : Nat → Option (Nat × bdbm_fgm_ftl_private_t × bdbm_phyaddr_t))
    (cursor : bdbm_fgm_ftl_private_t → Nat × Nat) : Prop :=
  (∀ n : Nat,
    n < np.nr_channels * np.nr_chips_per_channel * np.nr_pages_per_block →
    ∃ (ret : Nat) (q : bdbm_fgm_ftl_private_t) (ppa : bdbm_phyaddr_t),
      call n = some (ret, q, ppa) ∧
      bab_addr np bai bab
        (n % (np.nr_channels * np.nr_chips_per_channel) % np.nr_channels)
        (n % (np.nr_channels * np.nr_chips_per_channel) / np.nr_channels)
        (n / (np.nr_channels * np.nr_chips_per_channel)) ppa ∧
      (n + 1 < np.nr_channels * np.nr_chips_per_channel * np.nr_pages_per_block →
        ret = 0 ∧
        cursor q =
          if n % (np.nr_channels * np.nr_chips_per_channel) + 1 =
              np.nr_channels * np.nr_chips_per_channel
          then (0, n / (np.nr_channels * np.nr_chips_per_channel) + 1)
          else (n % (np.nr_channels * np.nr_chips_per_channel) + 1,
                n / (np.nr_channels * np.nr_chips_per_channel)))) ∧
  (∀ (n1 n2 : Nat) (r1 r2 : Nat × bdbm_fgm_ftl_private_t × bdbm_phyaddr_t),
    n1 < np.nr_channels * np.nr_chips_per_channel * np.nr_pages_per_block →
    n2 < np.nr_channels * np.nr_chips_per_channel * np.nr_pages_per_block →
    call n1 = some r1 → call n2 = some r2 →
    r1.2.2.channel_no = r2.2.2.channel_no → r1.2.2.chip_no = r2.2.2.chip_no →
    r1.2.2.page_no = r2.2.2.page_no → n1 = n2) ∧
  (∀ s c h : Nat,
    s + np.nr_channels * np.nr_chips_per_channel ≤
      np.nr_channels * np.nr_chips_per_channel * np.nr_pages_per_block →
    c < np.nr_channels → h < np.nr_chips_per_channel →
    ∃ (n : Nat) (r : Nat × bdbm_fgm_ftl_private_t × bdbm_phyaddr_t),
      s ≤ n ∧ n < s + np.nr_channels * np.nr_chips_per_channel ∧ call n = some r ∧
        r.2.2.channel_no = c ∧ r.2.2.chip_no = h)

/-- A geometry with two channels of two chips: three blocks per chip, two
pages per block, four sub-pages per page. -/
def ex_np4 : bdbm_device_params_t :=
  { nr_channels := 2, nr_chips_per_channel := 2, nr_blocks_per_chip := 3,
    nr_pages_per_block := 2, nr_subpages_per_page := 4, nr_subpages_per_block := 8,
    nr_blocks_per_ssd := 12, nr_pages_per_ssd := 24, nr_subpages_per_ssd := 96 }

/-- The freshly created FTL of the geometry with four dies. -/
def ex_fresh4 : bdbm_fgm_ftl_private_t := (bdbm_fgm_ftl_create ex_env ex_np4).getD ex_blank

/-! ## A run of host writes of the small geometry up to a recycle -/

/-- Out-of-band tags held by the flash after the host writes of `ex_filled`:
slot 0 of page 0 of block 1 holds logical sub-page 0. -/
def ex_oob_run (ppa : bdbm_phyaddr_t) : List Int :=
  if ppa.block_no = 1 ∧ ppa.page_no = 0 then [0, -1, -1, -1] else [-1, -1, -1, -1]

/-- The environment `ex_env` with a device manager that completes a recycle
read with the out-of-band tags `ex_oob_run` of the page read. -/
def ex_env_run : fgm_env_t :=
  { ex_env with
    llm_make_req := fun r =>
      if r.req_type = reqtype_t.REQTYPE_REC_READ then
        (0, { r with foob := ex_oob_run r.phyaddr })
      else (0, r) }

/-- The host writes of the list, oldest first, each a 4KB write of one
logical sub-page. -/
def ex_writes_4kb : List Int → bdbm_fgm_ftl_private_t → Option bdbm_fgm_ftl_private_t
  | [], p => some p
  | l :: ls, p =>
    match ex_write p (ex_la4 l) with
    | none => none
    | some p1 => ex_writes_4kb ls p1

/-- The freshly created FTL of the small geometry after nine host writes of
4KB: of the logical sub-pages 0, 1, 1 again, and 2 to 7.  The fine stream has
filled the blocks 1, 3, 4 and 5 and the first page of block 6; page 1 of
block 1 holds the overwritten copy of sub-page 1. -/
def ex_filled : bdbm_fgm_ftl_private_t :=
  (ex_writes_4kb [0, 1, 1, 2, 3, 4, 5, 6, 7] ex_fresh).getD ex_blank

/-- The freshly created FTL of the small geometry after one host write of
4KB, of logical sub-page 0: the fine stream stands on the last page of its
first block. -/
def ex_written1 : bdbm_fgm_ftl_private_t := (ex_writes_4kb [0] ex_fresh).getD ex_blank

/-! ## LLM submission gate (`ftl/llm_noq.c`)

The gate is embedded as a state machine over the array of per-die locks.  A
call is one step; a `llm_noq_make_req` that finds the lock of its die held
waits in `bdbm_mutex_lock` until another context releases it, which is no
step of the caller and is `none` here. -/

/-- Modelled from the spec: the macro `BDBM_GET_NR_PUNITS` is declared outside
the given sources; section 3 of the spec gives
`nr_punits = nr_channels * nr_chips_per_channel`, here in `uint64_t`. -/
def BDBM_GET_NR_PUNITS (np : bdbm_device_params_t) : Nat :=
  (np.nr_channels * np.nr_chips_per_channel) % 18446744073709551616

/-- What the gate does, in order: operations on the locks of the parallel
units, the call `bdi->ptr_dm_inf->make_req` into the device manager and the
call `bdi->ptr_hlm_inf->end_req` into the layer above. -/
inductive llm_noq_event_t where
  | mutex_lock (punit_id : Nat)
  | mutex_unlock (punit_id : Nat)
  | dm_make_req (llm_req : bdbm_llm_req_t)
  | hlm_end_req (llm_req : bdbm_llm_req_t)
deriving DecidableEq, Repr

/-- Private data `struct bdbm_llm_noq_private`: `punit_locks[i]` is `true`
while the mutex of parallel unit `i` is held; `events` records what the gate
has done. -/
structure bdbm_llm_noq_private where
  nr_punits : Nat
  punit_locks : List Bool
  events : List llm_noq_event_t
deriving DecidableEq, Repr

/-- Modelled from the spec: `bdbm_mutex_lock` of the absent `platform.h`, on
lock `i` of an array of mutual-exclusion tokens.  A free lock is taken; on a
held lock the caller waits (`none`), and an index outside the array is out of
bounds (`none`). -/
def bdbm_mutex_lock (locks : List Bool) (i : Nat) : Option (List Bool) :=
  match locks[i]? with
  | some false => some (locks.set i true)
  | _ => none

/-- Modelled from the spec: `bdbm_mutex_unlock` of the absent `platform.h`,
on lock `i` of an array of mutual-exclusion tokens: the lock is free
afterwards. -/
def bdbm_mutex_unlock (locks : List Bool) (i : Nat) : Option (List Bool) :=
  match locks[i]? with
  | some _ => some (locks.set i false)
  | none => none

/-- Function `llm_noq_create`: one free lock per parallel unit. -/
def llm_noq_create (np : bdbm_device_params_t) : bdbm_llm_noq_private :=
  { nr_punits := BDBM_GET_NR_PUNITS np,
    punit_locks := List.replicate (BDBM_GET_NR_PUNITS np) false,
    events := [] }

/-- The parallel-unit index `llm_noq_make_req` and `llm_noq_end_req` compute
from the physical address of a request. -/
def llm_noq_punit_id (np : bdbm_device_params_t) (llm_req : bdbm_llm_req_t) : Nat :=
  (llm_req.phyaddr.channel_no * np.nr_chips_per_channel + llm_req.phyaddr.chip_no)
    % 18446744073709551616

/-- Function `llm_noq_make_req`; `dm_make_req` is the device manager behind
`bdi->ptr_dm_inf->make_req`. -/
def llm_noq_make_req (np : bdbm_device_params_t) (dm_make_req : bdbm_llm_req_t → Nat)
    (p : bdbm_llm_noq_private) (llm_req : bdbm_llm_req_t) :
    Option (Nat × bdbm_llm_noq_private) :=
  let punit_id := llm_noq_punit_id np llm_req
  match bdbm_mutex_lock p.punit_locks punit_id with
  | none => none
  | some l1 =>
    let ret := dm_make_req llm_req
    if ret ≠ 0 then
      match bdbm_mutex_unlock l1 punit_id with
      | none => none
      | some l2 =>
        some (ret, { p with
          punit_locks := l2,
          events := p.events ++
            [llm_noq_event_t.mutex_lock punit_id, llm_noq_event_t.dm_make_req llm_req,
             llm_noq_event_t.mutex_unlock punit_id] })
    else
      some (ret, { p with
        punit_locks := l1,
        events := p.events ++
          [llm_noq_event_t.mutex_lock punit_id, llm_noq_event_t.dm_make_req llm_req] })

/-- Function `llm_noq_end_req`. -/
def llm_noq_end_req (np : bdbm_device_params_t) (p : bdbm_llm_noq_private)
    (llm_req : bdbm_llm_req_t) : Option bdbm_llm_noq_private :=
  let punit_id := llm_noq_punit_id np llm_req
  match bdbm_mutex_unlock p.punit_locks punit_id with
  | none => none
  | some l1 =>
    some { p with
      punit_locks := l1,
      events := p.events ++
        [llm_noq_event_t.mutex_unlock punit_id, llm_noq_event_t.hlm_end_req llm_req] }

/-- A call into the gate. -/
inductive llm_noq_call_t where
  | make_req (llm_req : bdbm_llm_req_t)
  | end_req (llm_req : bdbm_llm_req_t)
deriving DecidableEq, Repr

/-- A run of the gate over the calls of the list, oldest first.  The state is
the private data of the gate and the requests submitted and not yet ended: a
request enters when its `llm_noq_make_req` returns 0 and leaves with its
`llm_noq_end_req`, which the device manager calls on the completion of a
request it was given.  A `make_req` that would wait and an `end_req` for a
request that is not outstanding are not steps of a run. -/
def llm_noq_run (np : bdbm_device_params_t) (dm_make_req : bdbm_llm_req_t → Nat) :
    List llm_noq_call_t → bdbm_llm_noq_private × List bdbm_llm_req_t →
      Option (bdbm_llm_noq_private × List bdbm_llm_req_t)
  | [], st => some st
  | llm_noq_call_t.make_req r :: cs, (p, out) =>
    match llm_noq_make_req np dm_make_req p r with
    | none => none
    | some (ret, p1) =>
      llm_noq_run np dm_make_req cs (p1, if ret = 0 then out ++ [r] else out)
  | llm_noq_call_t.end_req r :: cs, (p, out) =>
    if r ∈ out then
      match llm_noq_end_req np p r with
      | none => none
      | some p1 => llm_noq_run np dm_make_req cs (p1, out.erase r)
    else none

/-- The number of outstanding requests on parallel unit `i`. -/
def llm_noq_outstanding (np : bdbm_device_params_t) (out : List bdbm_llm_req_t) (i : Nat) : Nat :=
  out.countP (fun r => decide (llm_noq_punit_id np r = i))

/-- A device manager for the worked instance: it accepts every request. -/
def ex_dm_make_req (_r : bdbm_llm_req_t) : Nat := 0

/-- A request of the worked instance on die `(channel_no, chip_no)`. -/
def ex_req (channel_no chip_no : Nat) : bdbm_llm_req_t :=
  { zero_llm_req 4 with
    phyaddr := { punit_id := 0, channel_no := channel_no, chip_no := chip_no, block_no := 0,
                 page_no := 0 } }

/-! ## Block-I/O proxy (`frontend/hybrid/host_blkio_proxy.c`)

The open and release handlers of the character device through which the
user-level FTL attaches to the kernel. -/

/-- Value `EBUSY` of `errno.h`. -/
abbrev EBUSY : Int := 16

/-- Value `FMODE_WRITE` of `linux/fs.h`. -/
abbrev FMODE_WRITE : Nat := 2

/-- The field of `bdbm_blockio_proxy_t` the two handlers decide on:
`ref_cnt`, an `atomic_t`. -/
structure bdbm_blockio_proxy_t where
  ref_cnt : Int
deriving DecidableEq, Repr

/-- Fields of `struct file` used by the two handlers: `private_data` is
`true` when the pointer is not `NULL` (it then points to the driver
instance), `f_mode` is the mode word. -/
structure struct_file where
  private_data : Bool
  f_mode : Nat
deriving DecidableEq, Repr

/-- The file-scope pointer `_bdi` of `host_blkio_proxy.c` together with the
private data `BDBM_HOST_PRIV (_bdi)` it leads to: `none` while the proxy is
not created (`_bdi == NULL`). -/
structure blockio_proxy_state_t where
  bdi : Option bdbm_blockio_proxy_t
deriving DecidableEq, Repr

/-- Function `blockio_proxy_fops_create`, the `open` handler: return value,
new state and the file as the handler leaves it. -/
def blockio_proxy_fops_create (s : blockio_proxy_state_t) (filp : struct_file) :
    Int × blockio_proxy_state_t × struct_file :=
  if filp.private_data then (-EBUSY, s, filp)
  else
    match s.bdi with
    | none => (-EBUSY, s, filp)
    | some p =>
      if p.ref_cnt > 0 then (-EBUSY, s, filp)
      else
        (0, { s with bdi := some { p with ref_cnt := p.ref_cnt + 1 } },
         { filp with private_data := true, f_mode := filp.f_mode ||| FMODE_WRITE })

/-- Function `blockio_proxy_fops_release`, the `release` handler.  It reaches
the proxy through `filp->private_data`, so a file whose `private_data` is
`NULL` is a `NULL` dereference (`none`).  The call of
`__kill_pending_proxy_reqs` before the decrement touches the request slots,
`nr_out_reqs` and the semaphore only. -/
def blockio_proxy_fops_release (s : blockio_proxy_state_t) (filp : struct_file) :
    Option (Int × blockio_proxy_state_t × struct_file) :=
  if filp.private_data then
    match s.bdi with
    | none => none
    | some p =>
      if p.ref_cnt = 0 then some (0, s, filp)
      else
        some (0, { s with bdi := some { p with ref_cnt := p.ref_cnt - 1 } },
              { filp with private_data := false })
  else none

/-- A call of one of the two handlers on a file. -/
inductive blockio_proxy_call_t where
  | create (filp : struct_file)
  | release (filp : struct_file)
deriving DecidableEq, Repr

/-- The state after the handler calls of the list, oldest first. -/
def blockio_proxy_run : List blockio_proxy_call_t → blockio_proxy_state_t →
    Option blockio_proxy_state_t
  | [], s => some s
  | blockio_proxy_call_t.create filp :: cs, s =>
    blockio_proxy_run cs (blockio_proxy_fops_create s filp).2.1
  | blockio_proxy_call_t.release filp :: cs, s =>
    match blockio_proxy_fops_release s filp with
    | none => none
    | some r => blockio_proxy_run cs r.2.1

/-- The value of `ref_cnt` in a state, when the proxy is created. -/
def blockio_proxy_ref_cnt (s : blockio_proxy_state_t) : Option Int :=
  s.bdi.map (fun p => p.ref_cnt)

/-- The state `blockio_proxy_open` leaves: the proxy created, no client
attached (`atomic_set (&p->ref_cnt, 0)`). -/
def ex_proxy_opened : blockio_proxy_state_t := { bdi := some { ref_cnt := 0 } }

/-- A file as the kernel hands it to the `open` handler. -/
def ex_new_file : struct_file := { private_data := false, f_mode := 1 }

/-- A file the `open` handler has attached. -/
def ex_attached_file : struct_file := { private_data := true, f_mode := 3 }

/-! ## Scenario S3 -/

/-- The geometry of the scenarios of the spec, with four blocks per chip: 4
channels of 8 chips (32 parallel units), 128 pages per block, 4 sub-pages
per page. -/
def s3_np : bdbm_device_params_t :=
  { nr_channels := 4, nr_chips_per_channel := 8, nr_blocks_per_chip := 4,
    nr_pages_per_block := 128, nr_subpages_per_page := 4, nr_subpages_per_block := 512,
    nr_blocks_per_ssd := 128, nr_pages_per_ssd := 16384, nr_subpages_per_ssd := 65536 }

/-- A host write of 4KB of logical sub-page `l`: `bdbm_fgm_ftl_get_free_ppa`
with `lpa_cg = -1`, then `bdbm_fgm_ftl_map_lpa_to_ppa` onto the address
obtained, both returning 0. -/
def fine_write (env : fgm_env_t) (np : bdbm_device_params_t) (p : bdbm_fgm_ftl_private_t)
    (l : Int) : Option bdbm_fgm_ftl_private_t :=
  match bdbm_fgm_ftl_get_free_ppa env np 1 p (ex_la4 l) with
  | some (0, p1, ppa) =>
    match bdbm_fgm_ftl_map_lpa_to_ppa np p1 (ex_la4 l) ppa with
    | some (0, p2, _) => some p2
    | _ => none
  | _ => none

/-- The host writes of 4KB of the logical sub-pages `l`, `l + 1`, ...,
`l + n - 1`, in this order. -/
def fine_fill (env : fgm_env_t) (np : bdbm_device_params_t) :
    Nat → Nat → bdbm_fgm_ftl_private_t → Option bdbm_fgm_ftl_private_t
  | 0, _, p => some p
  | n + 1, l, p =>
    match fine_write env np p (l : Int) with
    | none => none
    | some p1 => fine_fill env np n (l + 1) p1

/-- The block the vector `bab` holds for the die at position `m` of a stripe
is a block of that die, stored at its index in the block array, CLEAN and
with every sub-page NOT_INVALID. -/
def fine_block_fresh (np : bdbm_device_params_t) (bai : bdbm_abm_info_t)
    (bab : List (Option Nat)) (m : Nat) : Bool :=
  match bab[m % np.nr_channels * np.nr_chips_per_channel + m / np.nr_channels]? with
  | some (some bi) =>
    match bai.blocks[bi]? with
    | some b =>
      decide (b.channel_no = m % np.nr_channels ∧ b.chip_no = m / np.nr_channels ∧
        (b.channel_no * np.nr_chips_per_channel + b.chip_no) * np.nr_blocks_per_chip
          + b.block_no = bi ∧
        b.status = bdbm_abm_blk_status_t.CLEAN ∧
        b.pst = List.replicate (np.nr_pages_per_block * np.nr_subpages_per_page)
                  bdbm_abm_subpage_t.NOT_INVALID)
    | none => false
  | _ => false

/-- The fine stream stands at the start of a fresh set of active blocks: its
cursor is `(0, 0)`, `nr_punits` is the number of dies, and the active block
of every die is unwritten. -/
def fine_fresh (np : bdbm_device_params_t) (p : bdbm_fgm_ftl_private_t) : Prop :=
  p.nr_punits = np.nr_channels * np.nr_chips_per_channel ∧
  p.curr_puid_4kb = 0 ∧ p.curr_page_ofs_4kb = 0 ∧
  ∀ m : Nat, m < np.nr_channels * np.nr_chips_per_channel →
    fine_block_fresh np p.bai p.ac_bab_4kb m = true

instance (np : bdbm_device_params_t) (p : bdbm_fgm_ftl_private_t) :
    Decidable (fine_fresh np p) :=
  inferInstanceAs (Decidable (
    p.nr_punits = np.nr_channels * np.nr_chips_per_channel ∧
    p.curr_puid_4kb = 0 ∧ p.curr_page_ofs_4kb = 0 ∧
    ∀ m : Nat, m < np.nr_channels * np.nr_chips_per_channel →
      fine_block_fresh np p.bai p.ac_bab_4kb m = true))

/-- The state `p` of the fine stream `n` writes after the fresh state `p0`:
the cursor is that of `n` calls, the cap and the active blocks are those of
`p0`, the dirty-4KB counter has grown by one for each die written so far, the
active block of a die written so far is DIRTY_4KB and that of the others
still CLEAN, and every sub-page of a page the stream has not reached yet is
NOT_INVALID. -/
def fine_filled (np : bdbm_device_params_t) (p0 p : bdbm_fgm_ftl_private_t) (n : Nat) : Prop :=
  p.nr_punits = np.nr_channels * np.nr_chips_per_channel ∧
  p.nr_max_dirty_4kb_blks = p0.nr_max_dirty_4kb_blks ∧
  p.ac_bab_4kb = p0.ac_bab_4kb ∧
  p.curr_puid_4kb = n % (np.nr_channels * np.nr_chips_per_channel) ∧
  p.curr_page_ofs_4kb = n / (np.nr_channels * np.nr_chips_per_channel) ∧
  p.bai.nr_dirty_4kb_blks =
    p0.bai.nr_dirty_4kb_blks + min n (np.nr_channels * np.nr_chips_per_channel) ∧
  ∀ m : Nat, m < np.nr_channels * np.nr_chips_per_channel →
    ∃ (bi : Nat) (b : bdbm_abm_block_t),
      p.ac_bab_4kb[m % np.nr_channels * np.nr_chips_per_channel + m / np.nr_channels]? =
        some (some bi) ∧
      p.bai.blocks[bi]? = some b ∧
      b.channel_no = m % np.nr_channels ∧ b.chip_no = m / np.nr_channels ∧
      (b.channel_no * np.nr_chips_per_channel + b.chip_no) * np.nr_blocks_per_chip
        + b.block_no = bi ∧
      (if m < n then b.status = bdbm_abm_blk_status_t.DIRTY_4KB
       else b.status = bdbm_abm_blk_status_t.CLEAN) ∧
      ∀ q j : Nat, q < np.nr_pages_per_block → j < np.nr_subpages_per_page →
        n ≤ q * (np.nr_channels * np.nr_chips_per_channel) + m →
        b.pst[q * np.nr_subpages_per_page + j]? = some bdbm_abm_subpage_t.NOT_INVALID

/-- The ABM `bai'` has the blocks of `bai` with their state and position;
the dirty-4KB counter is the same, and a sub-page that is NOT_INVALID in
`bai` is so in `bai'`. -/
def abm_blocks_kept (bai bai' : bdbm_abm_info_t) : Prop :=
  bai'.nr_dirty_4kb_blks = bai.nr_dirty_4kb_blks ∧
  ∀ (i : Nat) (b : bdbm_abm_block_t), bai.blocks[i]? = some b →
    ∃ b' : bdbm_abm_block_t, bai'.blocks[i]? = some b' ∧ b'.status = b.status ∧
      b'.channel_no = b.channel_no ∧ b'.chip_no = b.chip_no ∧ b'.block_no = b.block_no ∧
      ∀ j : Nat, b.pst[j]? = some bdbm_abm_subpage_t.NOT_INVALID →
        b'.pst[j]? = some bdbm_abm_subpage_t.NOT_INVALID

/-- The freshly created FTL of the geometry of scenario S3. -/
def s3_fresh : bdbm_fgm_ftl_private_t := (bdbm_fgm_ftl_create ex_env s3_np).getD ex_blank

/-- The ABM `bai'` is `bai` after a 4KB write into the sub-page `off` of the
block `b` at index `bi`: that block is DIRTY_4KB, the dirty-4KB counter has
grown by one unless the block was DIRTY_4KB before, every block keeps its
position, the other blocks keep their state, and no other NOT_INVALID
sub-page has changed. -/
def abm_slot_written (bai bai' : bdbm_abm_info_t) (bi : Nat) (b : bdbm_abm_block_t)
    (off : Nat) : Prop :=
  bai'.nr_dirty_4kb_blks =
    bai.nr_dirty_4kb_blks + (if b.status = bdbm_abm_blk_status_t.DIRTY_4KB then 0 else 1) ∧
  (∀ (i : Nat) (x : bdbm_abm_block_t), i ≠ bi → bai.blocks[i]? = some x →
    ∃ x' : bdbm_abm_block_t, bai'.blocks[i]? = some x' ∧ x'.status = x.status ∧
      x'.channel_no = x.channel_no ∧ x'.chip_no = x.chip_no ∧ x'.block_no = x.block_no ∧
      ∀ j : Nat, x.pst[j]? = some bdbm_abm_subpage_t.NOT_INVALID →
        x'.pst[j]? = some bdbm_abm_subpage_t.NOT_INVALID) ∧
  ∃ b' : bdbm_abm_block_t, bai'.blocks[bi]? = some b' ∧
    b'.status = bdbm_abm_blk_status_t.DIRTY_4KB ∧
    b'.channel_no = b.channel_no ∧ b'.chip_no = b.chip_no ∧ b'.block_no = b.block_no ∧
    ∀ j : Nat, j ≠ off → b.pst[j]? = some bdbm_abm_subpage_t.NOT_INVALID →
      b'.pst[j]? = some bdbm_abm_subpage_t.NOT_INVALID

/-! ## Bad-block scan -/

/-- The stores of step 1 of `bdbm_fgm_badblock_scan` into the entry `me[i]`;
`sp_off = -1` is stored into a `uint8_t`. -/
def badblock_scan_reset_entry (me : bdbm_fgm_mapping_entry_t) : bdbm_fgm_mapping_entry_t :=
  { status := PFTL_PAGE_NOT_ALLOCATED,
    phyaddr := { punit_id := me.phyaddr.punit_id, channel_no := PFTL_PAGE_INVALID_ADDR,
                 chip_no := PFTL_PAGE_INVALID_ADDR, block_no := PFTL_PAGE_INVALID_ADDR,
                 page_no := PFTL_PAGE_INVALID_ADDR },
    sp_off := 255 }

/-- The loop of step 1 of `bdbm_fgm_badblock_scan` over the indices of the
list; a store beyond the end of the table is `none`. -/
def badblock_scan_reset_loop :
    List Nat → List bdbm_fgm_mapping_entry_t → Option (List bdbm_fgm_mapping_entry_t)
  | [], me => some me
  | i :: is, me =>
    match me[i]? with
    | none => none
    | some e => badblock_scan_reset_loop is (me.set i (badblock_scan_reset_entry e))

/-- Step 1 of `bdbm_fgm_badblock_scan`, the reset of the page-level mapping
table: `for (i = 0; i < np->nr_subpages_per_ssd; i++)`. -/
def badblock_scan_reset (np : bdbm_device_params_t) (p : bdbm_fgm_ftl_private_t) :
    Option bdbm_fgm_ftl_private_t :=
  match badblock_scan_reset_loop (List.range np.nr_subpages_per_ssd) p.ptr_mapping_table with
  | none => none
  | some me => some { p with ptr_mapping_table := me }

/-! ## Dirty-4KB lists of the small geometry -/

/-- A state of the small geometry whose only die has three DIRTY_4KB blocks,
listed in the order `order`: block 0 is in column 0 with one of its two
sub-pages there invalid, block 1 in column 1 and block 2 in column 3, each
with one sub-page of the column invalid and the columns before all invalid
(1, 3 and 7 invalid sub-pages). -/
def ex_sel (order : List Nat) : bdbm_fgm_ftl_private_t :=
  { ex_blank with
    bai := { ex_no_abm with
      blocks :=
        [ ex_blk 0 bdbm_abm_blk_status_t.DIRTY_4KB 1
            [bdbm_abm_subpage_t.INVALID, bdbm_abm_subpage_t.NOT_INVALID,
             bdbm_abm_subpage_t.NOT_INVALID, bdbm_abm_subpage_t.NOT_INVALID,
             bdbm_abm_subpage_t.VALID, bdbm_abm_subpage_t.NOT_INVALID,
             bdbm_abm_subpage_t.NOT_INVALID, bdbm_abm_subpage_t.NOT_INVALID],
          ex_blk 1 bdbm_abm_blk_status_t.DIRTY_4KB 3
            [bdbm_abm_subpage_t.INVALID, bdbm_abm_subpage_t.INVALID,
             bdbm_abm_subpage_t.NOT_INVALID, bdbm_abm_subpage_t.NOT_INVALID,
             bdbm_abm_subpage_t.INVALID, bdbm_abm_subpage_t.VALID,
             bdbm_abm_subpage_t.NOT_INVALID, bdbm_abm_subpage_t.NOT_INVALID],
          ex_blk 2 bdbm_abm_blk_status_t.DIRTY_4KB 7
            [bdbm_abm_subpage_t.INVALID, bdbm_abm_subpage_t.INVALID,
             bdbm_abm_subpage_t.INVALID, bdbm_abm_subpage_t.INVALID,
             bdbm_abm_subpage_t.INVALID, bdbm_abm_subpage_t.INVALID,
             bdbm_abm_subpage_t.INVALID, bdbm_abm_subpage_t.VALID] ],
      list_head_dirty_4kb := [order] } }

/-! ## Order of the reusable-block selection -/

/-- The pair `(column_idx, nr_invalid_pg)` the reusable-block selection
computes for the block with index `bi`. -/
def reusable_blk_key (np : bdbm_device_params_t) (bai : bdbm_abm_info_t) (bi : Nat) :
    Option (Nat × Nat) :=
  match bai.blocks[bi]? with
  | none => none
  | some b => reusable_blk_column np b

/-- The pair `k` is at least as good as the pair `k'` in the order by smaller
column first and more invalid pages second. -/
def reusable_key_le (k k' : Nat × Nat) : Prop :=
  k.1 < k'.1 ∨ (k.1 = k'.1 ∧ k'.2 ≤ k.2)

/-- The start state of the loop of
`__bdbm_fgm_ftl_reusable_blk_selection_greedy`. -/
def reusable_sel_init : reusable_sel_t :=
  { cnt := 0, v := none, max_nr_invalid := 0, proper_column_idx := 0 }

/-! ## The small geometry without free blocks -/

/-- The state of the small geometry after eleven allocations on the normal
stream, each of which returned 0: the five refreshes among them have taken
the five blocks that were free after creation, and the cursor stands on the
last page of the active block. -/
def ex_exhausted : bdbm_fgm_ftl_private_t := (normal_calls ex_np 11 ex_fresh).getD ex_blank

/-! ## Range of `bdbm_fgm_ftl_invalidate_lpa` -/

/-- The field `nr_invalid_subpages` of the block with index `bi`. -/
def blk_nr_invalid (bai : bdbm_abm_info_t) (bi : Nat) : Nat :=
  match bai.blocks[bi]? with
  | some b => b.nr_invalid_subpages
  | none => 0

/-- The blocks of the dirty list `l` other than the active block `a` of the
normal stream and the active block `c` of the compaction stream, in list
order. -/
def victim_candidates (a c : Option Nat) (l : List Nat) : List Nat :=
  l.filter (fun bi => decide (a ≠ some bi ∧ c ≠ some bi))

/-- The block `v` is the first block in the order of the list `cand` whose
`nr_invalid_subpages` is maximal, and `NULL` when the list is empty. -/
def first_max_invalid (bai : bdbm_abm_info_t) (cand : List Nat) (v : Option Nat) : Prop :=
  match v with
  | none => cand = []
  | some vi =>
    ∃ pre post : List Nat, cand = pre ++ vi :: post ∧
      (∀ x ∈ pre, blk_nr_invalid bai x < blk_nr_invalid bai vi) ∧
      (∀ x ∈ post, blk_nr_invalid bai x ≤ blk_nr_invalid bai vi)

/-- A state of the small geometry whose die has the dirty list 2, 3, 4, 5,
0: block 0 is the active block of the normal stream and block 1 that of the
compaction stream; the blocks 2, 3, 4 and 5 have 3, 6, 6 and 2 invalid
sub-pages out of 8. -/
def ex_victims : bdbm_fgm_ftl_private_t :=
  { ex_blank with
    bai := { ex_no_abm with
      blocks :=
        [ ex_blk 0 bdbm_abm_blk_status_t.DIRTY 8
            (List.replicate 8 bdbm_abm_subpage_t.INVALID),
          ex_blk 1 bdbm_abm_blk_status_t.CLEAN 0
            (List.replicate 8 bdbm_abm_subpage_t.NOT_INVALID),
          ex_blk 2 bdbm_abm_blk_status_t.DIRTY 3
            (List.replicate 3 bdbm_abm_subpage_t.INVALID ++
              List.replicate 5 bdbm_abm_subpage_t.NOT_INVALID),
          ex_blk 3 bdbm_abm_blk_status_t.DIRTY 6
            (List.replicate 6 bdbm_abm_subpage_t.INVALID ++
              List.replicate 2 bdbm_abm_subpage_t.NOT_INVALID),
          ex_blk 4 bdbm_abm_blk_status_t.DIRTY 6
            (List.replicate 6 bdbm_abm_subpage_t.INVALID ++
              List.replicate 2 bdbm_abm_subpage_t.NOT_INVALID),
          ex_blk 5 bdbm_abm_blk_status_t.DIRTY 2
            (List.replicate 2 bdbm_abm_subpage_t.INVALID ++
              List.replicate 6 bdbm_abm_subpage_t.NOT_INVALID) ],
      list_head_dirty := [[2, 3, 4, 5, 0]] },
    ac_bab := [some 0], ac_bab_cmp := [some 1] }

/-! ## Reads of the GC engine on the small geometry -/

/-- A completed FULL-VALID read of the small geometry with the out-of-band
tags `foob`, one per slot. -/
def ex_gc_read (foob : List Int) : bdbm_llm_req_t :=
  { zero_llm_req 4 with
    req_type := reqtype_t.REQTYPE_GC_READ,
    kp_stt := List.replicate 4 kp_stt_t.KP_STT_DATA,
    kp_ptr := [100, 101, 102, 103],
    foob := foob }

/-! ## The fix-up of the last output of the packer -/

/-- A last output of the packer on the small geometry, packed left-first with
three DATA slots and one HOLE. -/
def ex_packed : bdbm_llm_req_t :=
  { zero_llm_req 4 with
    req_type := reqtype_t.REQTYPE_GC_READ,
    kp_stt := [kp_stt_t.KP_STT_DATA, kp_stt_t.KP_STT_DATA, kp_stt_t.KP_STT_DATA,
      kp_stt_t.KP_STT_HOLE],
    kp_ptr := [100, 101, 102, 103],
    foob := [7, 9, 11, -1] }

/-- The state `pst[j * K + k]` of sub-page `k` of page `j` of the block `b`
(INVALID beyond `pst`). -/
def gc_page_pst (np : bdbm_device_params_t) (b : bdbm_abm_block_t) (j k : Nat) :
    bdbm_abm_subpage_t :=
  b.pst.getD (j * np.nr_subpages_per_page + k) bdbm_abm_subpage_t.INVALID

/-- Number of the sub-pages of page `j` of the block `b` that are not INVALID
in `pst`. -/
def gc_page_live (np : bdbm_device_params_t) (b : bdbm_abm_block_t) (j : Nat) : Nat :=
  (List.range np.nr_subpages_per_page).countP
    (fun k => decide (gc_page_pst np b j k ≠ bdbm_abm_subpage_t.INVALID))

/-- The descriptor `r` after the slot loop of page `j` of the block `b`: every
slot has `lpa[k] = -1` and is DATA when `pst[j * K + k]` is not INVALID, HOLE
otherwise. -/
def gc_page_desc (np : bdbm_device_params_t) (b : bdbm_abm_block_t) (j : Nat)
    (r : bdbm_llm_req_t) : bdbm_llm_req_t :=
  { r with
    lpa := (List.range np.nr_subpages_per_page).foldl (fun l k => l.set k (-1)) r.lpa,
    kp_stt := (List.range np.nr_subpages_per_page).foldl (fun l k => l.set k
      (if gc_page_pst np b j k ≠ bdbm_abm_subpage_t.INVALID
       then kp_stt_t.KP_STT_DATA else kp_stt_t.KP_STT_HOLE)) r.kp_stt }

/-- The physical address of page `j` of the block `b`. -/
def gc_page_addr (np : bdbm_device_params_t) (b : bdbm_abm_block_t) (j : Nat) :
    bdbm_phyaddr_t :=
  { punit_id :=
      BDBM_GET_PUNIT_ID np
        { punit_id := 0, channel_no := b.channel_no, chip_no := b.chip_no,
          block_no := b.block_no, page_no := j },
    channel_no := b.channel_no, chip_no := b.chip_no, block_no := b.block_no, page_no := j }

/-- Every victim of the list is a block of the ABM whose `pst` holds the
`nr_pages_per_block * nr_subpages_per_page` sub-pages of a block, fewer than
`2^64`. -/
def gc_victims_ok (np : bdbm_device_params_t) (bai : bdbm_abm_info_t)
    (gc_bab : List (Option Nat)) : Bool :=
  gc_bab.all (fun x =>
    match x with
    | none => true
    | some bi =>
      match bai.blocks[bi]? with
      | none => false
      | some b =>
        decide (np.nr_pages_per_block * np.nr_subpages_per_page ≤ b.pst.length ∧
          b.pst.length < 18446744073709551616))

/-- The read-building loop went from `st` to `st1` over `n` pages: the pools
keep their sizes, neither fill count decreases, together they grow by at most
`n`, and the requests queued before are as they were. -/
def gc_reads_grow (n : Nat) (st st1 : gc_reads_t) : Prop :=
  st1.gc_reqs.length = st.gc_reqs.length ∧ st1.cmp_reqs.length = st.cmp_reqs.length ∧
  st.nr_llm_reqs ≤ st1.nr_llm_reqs ∧ st.nr_llm_reqs_cmp ≤ st1.nr_llm_reqs_cmp ∧
  st1.nr_llm_reqs + st1.nr_llm_reqs_cmp ≤ st.nr_llm_reqs + st.nr_llm_reqs_cmp + n ∧
  (∀ i, i < st.nr_llm_reqs → st1.gc_reqs[i]? = st.gc_reqs[i]?) ∧
  (∀ i, i < st.nr_llm_reqs_cmp → st1.cmp_reqs[i]? = st.cmp_reqs[i]?)

/-- A dirty block of the small geometry: on page 0 the sub-pages 0 and 1 are
INVALID, sub-page 2 is VALID and sub-page 3 was never written; page 1 was
never written. -/
def ex_gc_blk : bdbm_abm_block_t :=
  ex_blk 5 bdbm_abm_blk_status_t.DIRTY 2
    [bdbm_abm_subpage_t.INVALID, bdbm_abm_subpage_t.INVALID, bdbm_abm_subpage_t.VALID,
     bdbm_abm_subpage_t.NOT_INVALID, bdbm_abm_subpage_t.NOT_INVALID,
     bdbm_abm_subpage_t.NOT_INVALID, bdbm_abm_subpage_t.NOT_INVALID,
     bdbm_abm_subpage_t.NOT_INVALID]

/-- The freshly created FTL of the small geometry with block 5 replaced by
`ex_gc_blk`, the only block of the dirty list of the die. -/
def ex_gc_state : bdbm_fgm_ftl_private_t :=
  { ex_fresh with
    bai := { ex_fresh.bai with
      blocks := ex_fresh.bai.blocks.set 5 ex_gc_blk,
      list_head_dirty := [[5]] } }

/-- The state the read-building loop of `bdbm_fgm_ftl_do_gc` starts from on
`ex_gc_state`. -/
def ex_gc_reads : gc_reads_t :=
  { gc_reqs := ex_gc_state.gc_hlm.llm_reqs, nr_llm_reqs := 0,
    cmp_reqs := ex_gc_state.cmp_hlm.llm_reqs, nr_llm_reqs_cmp := 0 }

/-! ## A state of the GC engine with a die without victim -/

/-- A dirty block of the geometry with four dies: the four sub-pages of page
0 are INVALID, those of page 1 are NOT_INVALID. -/
def ex_blk4 (channel_no chip_no block_no : Nat) : bdbm_abm_block_t :=
  { status := bdbm_abm_blk_status_t.DIRTY, channel_no := channel_no, chip_no := chip_no,
    block_no := block_no, nr_invalid_subpages := 4,
    pst := List.replicate 4 bdbm_abm_subpage_t.INVALID ++
      List.replicate 4 bdbm_abm_subpage_t.NOT_INVALID }

/-- The created FTL of the geometry with four dies after invalidations: on
the dies `(0, 0)`, `(0, 1)` and `(1, 0)` the dirty list holds block 1 of the
die (the blocks 1, 4 and 7 of the ABM), which is neither the active block of
the normal stream nor that of the compaction stream; on die `(1, 1)` the
dirty list holds the blocks 9 and 11 of the ABM only, the active block of the
normal stream and that of the compaction stream of the die. -/
def ex_gc_gap : bdbm_fgm_ftl_private_t :=
  { ex_fresh4 with
    bai := { ex_fresh4.bai with
      blocks :=
        ((((ex_fresh4.bai.blocks.set 1 (ex_blk4 0 0 1)).set 4 (ex_blk4 0 1 1)).set 7
          (ex_blk4 1 0 1)).set 9 (ex_blk4 1 1 0)).set 11 (ex_blk4 1 1 2),
      list_head_clean := [[0, 2], [3, 5], [6, 8], [10]],
      list_head_dirty := [[1], [4], [7], [9, 11]],
      nr_clean_blks := 7, nr_dirty_blks := 5 } }

/-! ## Properties of the 4KB table -/

theorem hash_store_length (f : bdbm_fgm_sp_mapping_entry_t → bdbm_fgm_sp_mapping_entry_t)
    (tbl : List bdbm_fgm_sp_mapping_entry_t) (lpa : Nat) :
    (hash_store f tbl lpa).length = tbl.length := by
  induction tbl with
  | nil => rfl
  | cons s t ih =>
    unfold hash_store
    split <;> simp [ih]

theorem find_hash_store_same (f : bdbm_fgm_sp_mapping_entry_t → bdbm_fgm_sp_mapping_entry_t)
    (hf : ∀ s, (f s).lpa = s.lpa) (tbl : List bdbm_fgm_sp_mapping_entry_t) (a b : Nat)
    (hab : HASH_KEY_INT a = HASH_KEY_INT b) :
    HASH_FIND_INT (hash_store f tbl a) b = (HASH_FIND_INT tbl b).map f := by
  induction tbl with
  | nil => rfl
  | cons s t ih =>
    by_cases h : HASH_KEY_INT s.lpa = HASH_KEY_INT a
    · have hb : HASH_KEY_INT s.lpa = HASH_KEY_INT b := h.trans hab
      have hfb : HASH_KEY_INT (f s).lpa = HASH_KEY_INT b := by rw [hf]; exact hb
      rw [hash_store, if_pos h, HASH_FIND_INT, if_pos hfb, HASH_FIND_INT, if_pos hb]
      rfl
    · have hb : ¬ HASH_KEY_INT s.lpa = HASH_KEY_INT b := fun e => h (e.trans hab.symm)
      rw [hash_store, if_neg h, HASH_FIND_INT, if_neg hb, HASH_FIND_INT, if_neg hb, ih]

theorem find_hash_store_other (f : bdbm_fgm_sp_mapping_entry_t → bdbm_fgm_sp_mapping_entry_t)
    (hf : ∀ s, (f s).lpa = s.lpa) (tbl : List bdbm_fgm_sp_mapping_entry_t) (a b : Nat)
    (hab : HASH_KEY_INT a ≠ HASH_KEY_INT b) :
    HASH_FIND_INT (hash_store f tbl a) b = HASH_FIND_INT tbl b := by
  induction tbl with
  | nil => rfl
  | cons s t ih =>
    by_cases h : HASH_KEY_INT s.lpa = HASH_KEY_INT a
    · have hb : ¬ HASH_KEY_INT s.lpa = HASH_KEY_INT b := fun e => hab (h.symm.trans e)
      have hfb : ¬ HASH_KEY_INT (f s).lpa = HASH_KEY_INT b := by rw [hf]; exact hb
      rw [hash_store, if_pos h, HASH_FIND_INT, if_neg hfb, HASH_FIND_INT, if_neg hb]
    · rw [hash_store, if_neg h]
      by_cases hb : HASH_KEY_INT s.lpa = HASH_KEY_INT b
      · rw [HASH_FIND_INT, if_pos hb, HASH_FIND_INT, if_pos hb]
      · rw [HASH_FIND_INT, if_neg hb, HASH_FIND_INT, if_neg hb, ih]

theorem find_append_single (tbl : List bdbm_fgm_sp_mapping_entry_t)
    (e : bdbm_fgm_sp_mapping_entry_t) (b : Nat) :
    HASH_FIND_INT (tbl ++ [e]) b =
      match HASH_FIND_INT tbl b with
      | some s => some s
      | none => if HASH_KEY_INT e.lpa = HASH_KEY_INT b then some e else none := by
  induction tbl with
  | nil => simp [HASH_FIND_INT]
  | cons s t ih =>
    by_cases h : HASH_KEY_INT s.lpa = HASH_KEY_INT b
    · simp [HASH_FIND_INT, h]
    · simp [HASH_FIND_INT, h, ih]

theorem update_entry_lpa (z : Int) (ppa : bdbm_phyaddr_t) (k : Nat)
    (s : bdbm_fgm_sp_mapping_entry_t) : (update_entry z ppa k s).lpa = s.lpa := rfl

theorem invalidate_entry_lpa (s : bdbm_fgm_sp_mapping_entry_t) :
    (invalidate_entry s).lpa = s.lpa := rfl

/-- After `update_lpa_4kb` the lookup of the same address finds the entry
with the stores of the update applied, to the entry that was there or to the
fresh one with `count = 0`. -/
theorem find_update_same (p : bdbm_fgm_ftl_private_t) (lpa : Nat) (ppa : bdbm_phyaddr_t)
    (k : Nat) :
    HASH_FIND_INT (update_lpa_4kb p lpa ppa k).ptr_sp_hash_table lpa =
      some (update_entry p.zerogc ppa k
        ((HASH_FIND_INT p.ptr_sp_hash_table lpa).getD
          { lpa := lpa, count := 0, ppa := ppa, sp_off := 0 })) := by
  unfold update_lpa_4kb
  simp only
  rw [find_hash_store_same _ (update_entry_lpa _ _ _) _ _ _ rfl]
  cases h : HASH_FIND_INT p.ptr_sp_hash_table lpa with
  | none => simp [find_append_single, h]
  | some s => simp [h]

theorem find_update_other (p : bdbm_fgm_ftl_private_t) (a b : Nat) (ppa : bdbm_phyaddr_t)
    (k : Nat) (hab : HASH_KEY_INT a ≠ HASH_KEY_INT b) :
    HASH_FIND_INT (update_lpa_4kb p a ppa k).ptr_sp_hash_table b =
      HASH_FIND_INT p.ptr_sp_hash_table b := by
  unfold update_lpa_4kb
  simp only
  rw [find_hash_store_other _ (update_entry_lpa _ _ _) _ _ _ hab]
  cases h : HASH_FIND_INT p.ptr_sp_hash_table a with
  | none =>
    simp only [find_append_single]
    cases HASH_FIND_INT p.ptr_sp_hash_table b with
    | none => simp [hab]
    | some s => rfl
  | some s => rfl

theorem find_invalidate_same (p : bdbm_fgm_ftl_private_t) (a b : Nat)
    (hab : HASH_KEY_INT a = HASH_KEY_INT b) :
    HASH_FIND_INT (invalidate_lpa_4kb p a).ptr_sp_hash_table b =
      (HASH_FIND_INT p.ptr_sp_hash_table b).map invalidate_entry :=
  find_hash_store_same _ invalidate_entry_lpa _ _ _ hab

theorem find_invalidate_other (p : bdbm_fgm_ftl_private_t) (a b : Nat)
    (hab : HASH_KEY_INT a ≠ HASH_KEY_INT b) :
    HASH_FIND_INT (invalidate_lpa_4kb p a).ptr_sp_hash_table b =
      HASH_FIND_INT p.ptr_sp_hash_table b :=
  find_hash_store_other _ invalidate_entry_lpa _ _ _ hab

/-- A lookup through `find_lpa_4kb` sees only the 4KB table. -/
theorem find_lpa_4kb_congr (p q : bdbm_fgm_ftl_private_t)
    (h : p.ptr_sp_hash_table = q.ptr_sp_hash_table) (a : Nat) :
    find_lpa_4kb p a = find_lpa_4kb q a := by
  unfold find_lpa_4kb
  rw [h]

theorem find_lpa_4kb_eq_some (p : bdbm_fgm_ftl_private_t) (a : Nat)
    (e : bdbm_fgm_sp_mapping_entry_t) :
    find_lpa_4kb p a = some e ↔
      HASH_FIND_INT p.ptr_sp_hash_table a = some e ∧ e.ppa.punit_id ≠ U64_MAX := by
  unfold find_lpa_4kb
  cases h : HASH_FIND_INT p.ptr_sp_hash_table a with
  | none => simp
  | some s =>
    by_cases hs : s.ppa.punit_id = U64_MAX
    · simp only [hs, if_true, Option.some.injEq]
      constructor
      · intro h'; cases h'
      · rintro ⟨rfl, h2⟩; exact absurd hs h2
    · simp only [hs, if_false, Option.some.injEq]
      constructor
      · rintro rfl; exact ⟨rfl, hs⟩
      · rintro ⟨rfl, _⟩; rfl

/-- After `invalidate_lpa_4kb` of an address, `find_lpa_4kb` of any address
with the same key bytes is `NULL`. -/
theorem find_lpa_4kb_invalidate_same (p : bdbm_fgm_ftl_private_t) (a b : Nat)
    (hab : HASH_KEY_INT a = HASH_KEY_INT b) :
    find_lpa_4kb (invalidate_lpa_4kb p a) b = none := by
  unfold find_lpa_4kb
  rw [find_invalidate_same p a b hab]
  cases HASH_FIND_INT p.ptr_sp_hash_table b with
  | none => rfl
  | some s => simp [invalidate_entry]

/-- A tombstoned address stays tombstoned under `invalidate_lpa_4kb` of any
address. -/
theorem find_lpa_4kb_invalidate_none (p : bdbm_fgm_ftl_private_t) (a b : Nat)
    (h : find_lpa_4kb p b = none) : find_lpa_4kb (invalidate_lpa_4kb p a) b = none := by
  by_cases hab : HASH_KEY_INT a = HASH_KEY_INT b
  · exact find_lpa_4kb_invalidate_same p a b hab
  · unfold find_lpa_4kb at h ⊢
    rw [find_invalidate_other p a b hab]
    exact h

/-- Claim C7.  Tombstone semantics of the 4KB table: `invalidate_lpa_4kb` of an
address that has an entry keeps the number of entries, negates the entry's
`count`, sets its `ppa.punit_id` to `-1` and keeps its `lpa`, its
channel, chip, block and page numbers and its `sp_off`; afterwards
`find_lpa_4kb` is `NULL` for that address; and in every state `find_lpa_4kb`
returns an entry exactly when `HASH_FIND_INT` finds it and its
`ppa.punit_id` is not `-1`. -/
theorem C7_tombstone (p : bdbm_fgm_ftl_private_t) (lpa : Nat) (s : bdbm_fgm_sp_mapping_entry_t)
    (h : HASH_FIND_INT p.ptr_sp_hash_table lpa = some s) :
    count_hash_entry (invalidate_lpa_4kb p lpa) = count_hash_entry p ∧
    (∃ t, HASH_FIND_INT (invalidate_lpa_4kb p lpa).ptr_sp_hash_table lpa = some t ∧
      t.count = -s.count ∧ t.ppa.punit_id = U64_MAX ∧ t.lpa = s.lpa ∧
      t.ppa.channel_no = s.ppa.channel_no ∧ t.ppa.chip_no = s.ppa.chip_no ∧
      t.ppa.block_no = s.ppa.block_no ∧ t.ppa.page_no = s.ppa.page_no ∧
      t.sp_off = s.sp_off) ∧
    find_lpa_4kb (invalidate_lpa_4kb p lpa) lpa = none ∧
    (∀ (q : bdbm_fgm_ftl_private_t) (a : Nat) (e : bdbm_fgm_sp_mapping_entry_t),
      find_lpa_4kb q a = some e ↔
        HASH_FIND_INT q.ptr_sp_hash_table a = some e ∧ e.ppa.punit_id ≠ U64_MAX) := by
  refine ⟨?_, ?_, ?_, ?_⟩
  · exact hash_store_length _ _ _
  · refine ⟨invalidate_entry s, ?_, rfl, rfl, rfl, rfl, rfl, rfl, rfl, rfl⟩
    rw [find_invalidate_same p lpa lpa rfl, h]
    rfl
  · exact find_lpa_4kb_invalidate_same p lpa lpa rfl
  · exact fun q a e => find_lpa_4kb_eq_some q a e

/-- Witness of C7: sub-page 7 written once into the blank state, then
invalidated. -/
theorem C7_tombstone_witness :
    HASH_FIND_INT (update_lpa_4kb ex_blank 7 (ex_ppa 1 0) 0).ptr_sp_hash_table 7 =
        some { lpa := 7, count := 1, ppa := ex_ppa 1 0, sp_off := 0 } ∧
    find_lpa_4kb (invalidate_lpa_4kb (update_lpa_4kb ex_blank 7 (ex_ppa 1 0) 0) 7) 7 = none :=
  ⟨by decide,
   (C7_tombstone (update_lpa_4kb ex_blank 7 (ex_ppa 1 0) 0) 7
      { lpa := 7, count := 1, ppa := ex_ppa 1 0, sp_off := 0 } (by decide)).2.2.1⟩

/-- Claim C9, on the code.  The 4KB table is keyed by `sizeof(int)` bytes of
the 64-bit address: after sub-page 5 is written to page 0 of block 1, a write
of sub-page `2^32 + 5` to page 1 of block 3 creates no entry of its own and
redirects the lookup of sub-page 5, which now resolves to block 3 with
`count = 2`. -/
theorem C9_key_truncation :
    find_lpa_4kb (update_lpa_4kb ex_blank 5 (ex_ppa 1 0) 0) 5 =
        some { lpa := 5, count := 1, ppa := ex_ppa 1 0, sp_off := 0 } ∧
    find_lpa_4kb
        (update_lpa_4kb (update_lpa_4kb ex_blank 5 (ex_ppa 1 0) 0) 4294967301 (ex_ppa 3 1) 2) 5 =
        some { lpa := 5, count := 2, ppa := ex_ppa 3 1, sp_off := 2 } ∧
    count_hash_entry
        (update_lpa_4kb (update_lpa_4kb ex_blank 5 (ex_ppa 1 0) 0) 4294967301 (ex_ppa 3 1) 2) = 1 ∧
    find_lpa_4kb
        (invalidate_lpa_4kb (update_lpa_4kb ex_blank 5 (ex_ppa 1 0) 0) 4294967301) 5 = none := by
  decide

theorem invalidate_lpa_4kb_zerogc (p : bdbm_fgm_ftl_private_t) (a : Nat) :
    (invalidate_lpa_4kb p a).zerogc = p.zerogc := rfl

theorem to_u64_natCast (n : Nat) (h : n < 18446744073709551616) : to_u64 (n : Int) = n := by
  unfold to_u64
  omega

theorem map_invalidate_4kb_loop_table (np : bdbm_device_params_t) (la : bdbm_logaddr_t)
    (ks : List Nat) :
    ∀ p, (map_invalidate_4kb_loop np la ks p).ptr_mapping_table = p.ptr_mapping_table := by
  induction ks with
  | nil => intro p; rfl
  | cons k ks ih =>
    intro p
    unfold map_invalidate_4kb_loop
    split
    · split
      · rw [ih]; rfl
      · exact ih p
    · exact ih p

/-- The invalidation loop of the 16KB commit never revives an address. -/
theorem map_invalidate_4kb_loop_keeps_none (np : bdbm_device_params_t) (la : bdbm_logaddr_t)
    (a : Nat) (ks : List Nat) :
    ∀ p, find_lpa_4kb p a = none → find_lpa_4kb (map_invalidate_4kb_loop np la ks p) a = none := by
  induction ks with
  | nil => intro p h; exact h
  | cons k ks ih =>
    intro p h
    unfold map_invalidate_4kb_loop
    split
    · split
      · apply ih
        apply find_lpa_4kb_invalidate_none
        rw [← h]
        exact find_lpa_4kb_congr _ _ rfl a
      · exact ih p h
    · exact ih p h

/-- After the invalidation loop of the 16KB commit, no address `lpa[k] != -1`
of a slot it visited has a live 4KB entry. -/
theorem map_invalidate_4kb_loop_none (np : bdbm_device_params_t) (la : bdbm_logaddr_t)
    (ks : List Nat) :
    ∀ p, ∀ k ∈ ks, la.lpa k ≠ -1 →
      find_lpa_4kb (map_invalidate_4kb_loop np la ks p) (to_u64 (la.lpa k)) = none := by
  induction ks with
  | nil => intro p k hk; cases hk
  | cons k0 ks ih =>
    intro p k hk hne
    rcases List.mem_cons.1 hk with rfl | hk'
    · unfold map_invalidate_4kb_loop
      rw [if_pos hne]
      cases hf : find_lpa_4kb p (to_u64 (la.lpa k)) with
      | some spme =>
        simp only
        apply map_invalidate_4kb_loop_keeps_none
        exact find_lpa_4kb_invalidate_same _ _ _ rfl
      | none =>
        simp only
        exact map_invalidate_4kb_loop_keeps_none np la _ ks p hf
    · unfold map_invalidate_4kb_loop
      split
      · split
        · exact ih _ k hk' hne
        · exact ih _ k hk' hne
      · exact ih _ k hk' hne

/-- When no slot of the request has a live 4KB entry (each `lpa[k]` is `-1`
or in range and not live), the lookup loop falls through to the 16KB
lookup. -/
theorem get_ppa_loop_fallthrough (np : bdbm_device_params_t) (p : bdbm_fgm_ftl_private_t)
    (la : bdbm_logaddr_t) (ph : bdbm_phyaddr_t) (sp : Nat) (ks : List Nat)
    (h : ∀ k ∈ ks, la.lpa k = -1 ∨
      (to_u64 (la.lpa k) < np.nr_subpages_per_ssd ∧ find_lpa_4kb p (to_u64 (la.lpa k)) = none)) :
    get_ppa_loop np p la ph sp ks = __bdbm_fgm_ftl_get_ppa np p la.lpa_cg 0 ph sp := by
  induction ks with
  | nil => rfl
  | cons k ks ih =>
    have ih' := ih (fun k' hk' => h k' (List.mem_cons_of_mem _ hk'))
    unfold get_ppa_loop
    rcases h k (List.mem_cons_self _ _) with h1 | ⟨h1, h2⟩
    · rw [if_neg (by simp [h1])]
      exact ih'
    · by_cases hne : la.lpa k ≠ -1
      · rw [if_pos hne, if_neg (by omega), h2]
        exact ih'
      · rw [if_neg hne]
        exact ih'

/-- The 16KB commit of a page below `nr_pages_per_ssd` returns 0 and stores
the VALID entry; the 4KB table it leaves is that of the invalidation loop (or
the old one when all `lpa[k]` are equal). -/
theorem map_16kb_result (np : bdbm_device_params_t) (p : bdbm_fgm_ftl_private_t)
    (la : bdbm_logaddr_t) (P : bdbm_phyaddr_t) (me : bdbm_fgm_mapping_entry_t)
    (hr : to_u64 la.lpa_cg < np.nr_pages_per_ssd)
    (hme : p.ptr_mapping_table[to_u64 la.lpa_cg]? = some me) :
    ∃ p', __bdbm_fgm_ftl_map_lpa_to_ppa np p la P = some (0, p') ∧
      p'.ptr_mapping_table = p.ptr_mapping_table.set (to_u64 la.lpa_cg)
        { status := PFTL_PAGE_VALID,
          phyaddr := { punit_id := me.phyaddr.punit_id, channel_no := P.channel_no,
                       chip_no := P.chip_no, block_no := P.block_no, page_no := P.page_no },
          sp_off := 0 } ∧
      p'.ptr_sp_hash_table =
        (if map_is_gc la (List.range' 1 (np.nr_subpages_per_page - 1)) ≠
            np.nr_subpages_per_page - 1 then
          map_invalidate_4kb_loop np la (List.range np.nr_subpages_per_page) p
        else p).ptr_sp_hash_table := by
  unfold __bdbm_fgm_ftl_map_lpa_to_ppa
  rw [if_neg (by omega), hme]
  simp only
  refine ⟨_, rfl, ?_, ?_⟩
  · by_cases hg : map_is_gc la (List.range' 1 (np.nr_subpages_per_page - 1)) ≠
        np.nr_subpages_per_page - 1
    · by_cases hv : me.status = PFTL_PAGE_VALID
      · simp only [hg, hv, if_true, ne_eq, not_false_eq_true]
        rw [map_invalidate_4kb_loop_table]
      · simp only [hg, hv, if_true, if_false, ne_eq, not_false_eq_true]
        rw [map_invalidate_4kb_loop_table]
    · by_cases hv : me.status = PFTL_PAGE_VALID
      · simp only [hg, hv, if_true, if_false]
      · simp only [hg, hv, if_false]
  · by_cases hg : map_is_gc la (List.range' 1 (np.nr_subpages_per_page - 1)) ≠
        np.nr_subpages_per_page - 1
    · by_cases hv : me.status = PFTL_PAGE_VALID
      · simp only [hg, hv, if_true, ne_eq, not_false_eq_true]
      · simp only [hg, hv, if_true, if_false, ne_eq, not_false_eq_true]
    · by_cases hv : me.status = PFTL_PAGE_VALID
      · simp only [hg, hv, if_true, if_false]
      · simp only [hg, hv, if_false]

/-- Claim C2.  16KB mapping round trip.  For a logical page `L` below
`nr_pages_per_ssd` (inside the allocated table) and any physical page `P`,
`bdbm_fgm_ftl_map_lpa_to_ppa` with `lpa_cg = L` returns 0; afterwards the
16KB entry of `L` is VALID with the channel, chip, block and page of `P` and
`sp_off = 0`; and `bdbm_fgm_ftl_get_ppa` for any request with `lpa_cg = L`
whose sub-page addresses have no live 4KB entry (each `lpa[k]` is `-1`, or in
range and not live) returns 0 with the channel, chip, block and page of `P`,
the `punit_id` computed from them, and `sp_off = 0`. -/
theorem C2_roundtrip_16kb (np : bdbm_device_params_t) (p : bdbm_fgm_ftl_private_t)
    (la : bdbm_logaddr_t) (P : bdbm_phyaddr_t) (L : Nat)
    (hL : L < np.nr_pages_per_ssd) (hlen : L < p.ptr_mapping_table.length)
    (h63 : np.nr_pages_per_ssd ≤ 9223372036854775808) (hcg : la.lpa_cg = (L : Int)) :
    ∃ p', bdbm_fgm_ftl_map_lpa_to_ppa np p la P = some (0, p', la.ofs) ∧
      (∃ me, p'.ptr_mapping_table[L]? = some me ∧ me.status = PFTL_PAGE_VALID ∧
        me.phyaddr.channel_no = P.channel_no ∧ me.phyaddr.chip_no = P.chip_no ∧
        me.phyaddr.block_no = P.block_no ∧ me.phyaddr.page_no = P.page_no ∧ me.sp_off = 0) ∧
      ∀ (rd : bdbm_logaddr_t) (ph0 : bdbm_phyaddr_t) (sp0 : Nat), rd.lpa_cg = (L : Int) →
        (∀ k, k < np.nr_subpages_per_page → rd.lpa k = -1 ∨
          (to_u64 (rd.lpa k) < np.nr_subpages_per_ssd ∧
            find_lpa_4kb p' (to_u64 (rd.lpa k)) = none)) →
        ∃ r, bdbm_fgm_ftl_get_ppa np p' rd ph0 sp0 = some r ∧ r.ret = 0 ∧
          r.phyaddr.channel_no = P.channel_no ∧ r.phyaddr.chip_no = P.chip_no ∧
          r.phyaddr.block_no = P.block_no ∧ r.phyaddr.page_no = P.page_no ∧
          r.phyaddr.punit_id = P.channel_no * np.nr_chips_per_channel + P.chip_no ∧
          r.sp_off = 0 := by
  have hu : to_u64 la.lpa_cg = L := by rw [hcg]; exact to_u64_natCast L (by omega)
  obtain ⟨me, hme⟩ : ∃ me, p.ptr_mapping_table[to_u64 la.lpa_cg]? = some me := by
    rw [hu]; exact ⟨_, List.getElem?_eq_getElem hlen⟩
  obtain ⟨p', hp', htab, _⟩ := map_16kb_result np p la P me (by omega) hme
  have hent : p'.ptr_mapping_table[L]? = some
      { status := PFTL_PAGE_VALID,
        phyaddr := { punit_id := me.phyaddr.punit_id, channel_no := P.channel_no,
                     chip_no := P.chip_no, block_no := P.block_no, page_no := P.page_no },
        sp_off := 0 } := by
    rw [htab, hu]; exact List.getElem?_set_self hlen
  refine ⟨p', ?_, ⟨_, hent, rfl, rfl, rfl, rfl, rfl, rfl⟩, ?_⟩
  · unfold bdbm_fgm_ftl_map_lpa_to_ppa
    rw [if_neg (by omega), if_neg (by omega), hp']
  · intro rd ph0 sp0 hrd hk
    unfold bdbm_fgm_ftl_get_ppa
    rw [get_ppa_loop_fallthrough np p' rd ph0 sp0 _ (fun k hk' => hk k (List.mem_range.1 hk'))]
    have hu' : to_u64 rd.lpa_cg = L := by rw [hrd]; exact to_u64_natCast L (by omega)
    unfold __bdbm_fgm_ftl_get_ppa
    rw [if_neg (by omega), hu', hent]
    exact ⟨_, rfl, rfl, rfl, rfl, rfl, rfl, rfl, rfl⟩

/-- Witness of C2: logical page 3 of the fresh FTL of the small geometry is
mapped to page 1 of block 0 and read back. -/
theorem C2_roundtrip_16kb_witness :
    (3 < ex_np.nr_pages_per_ssd ∧ 3 < ex_fresh.ptr_mapping_table.length ∧
      ex_np.nr_pages_per_ssd ≤ 9223372036854775808 ∧ (ex_la16 3).lpa_cg = ((3 : Nat) : Int)) ∧
    ∃ p', bdbm_fgm_ftl_map_lpa_to_ppa ex_np ex_fresh (ex_la16 3) (ex_ppa 0 1) =
        some (0, p', (ex_la16 3).ofs) ∧
      (∃ me, p'.ptr_mapping_table[3]? = some me ∧ me.status = PFTL_PAGE_VALID ∧
        me.phyaddr.channel_no = (ex_ppa 0 1).channel_no ∧
        me.phyaddr.chip_no = (ex_ppa 0 1).chip_no ∧
        me.phyaddr.block_no = (ex_ppa 0 1).block_no ∧
        me.phyaddr.page_no = (ex_ppa 0 1).page_no ∧ me.sp_off = 0) ∧
      ∃ r, bdbm_fgm_ftl_get_ppa ex_np p' { lpa := fun _ => -1, lpa_cg := 3, ofs := 0 }
          (ex_ppa 5 0) 2 = some r ∧ r.ret = 0 ∧ r.phyaddr.block_no = 0 ∧
        r.phyaddr.page_no = 1 ∧ r.sp_off = 0 :=
  ⟨⟨by decide, by decide, by decide, rfl⟩,
   let ⟨p', h1, h2, h3⟩ := C2_roundtrip_16kb ex_np ex_fresh (ex_la16 3) (ex_ppa 0 1) 3
     (by decide) (by decide) (by decide) rfl
   let ⟨r, hr1, hr2, _, _, hr5, hr6, _, hr8⟩ :=
     h3 { lpa := fun _ => -1, lpa_cg := 3, ofs := 0 } (ex_ppa 5 0) 2 rfl (fun _ _ => Or.inl rfl)
   ⟨p', h1, h2, r, hr1, hr2, hr5, hr6, hr8⟩⟩

/-- The slot search of the fine path returns the lowest NOT_INVALID slot. -/
theorem map_4kb_find_slot_range' (pst : List bdbm_abm_subpage_t) (base s : Nat) (n : Nat) :
    ∀ a, a ≤ s → s < a + n → pst[base + s]? = some bdbm_abm_subpage_t.NOT_INVALID →
      (∀ j, a ≤ j → j < s → ∃ v, pst[base + j]? = some v ∧ v ≠ bdbm_abm_subpage_t.NOT_INVALID) →
      map_4kb_find_slot pst base (List.range' a n) = some s := by
  induction n with
  | zero => intro a h1 h2; omega
  | succ n ih =>
    intro a h1 h2 hs hlow
    rw [List.range'_succ]
    unfold map_4kb_find_slot
    by_cases ha : a = s
    · subst ha
      rw [hs]
    · obtain ⟨v, hv, hne⟩ := hlow a (Nat.le_refl a) (by omega)
      rw [hv]
      have := ih (a + 1) (by omega) (by omega) hs (fun j hj1 hj2 => hlow j (by omega) hj2)
      cases v with
      | NOT_INVALID => exact absurd rfl hne
      | VALID => exact this
      | INVALID => exact this

/-- The lookup loop returns the live 4KB entry of an address carried by a
slot of the list, when every other slot carries the same address, `-1`, or an
in-range address that is not live. -/
theorem get_ppa_loop_hit (np : bdbm_device_params_t) (p : bdbm_fgm_ftl_private_t)
    (la : bdbm_logaddr_t) (ph : bdbm_phyaddr_t) (sp : Nat) (l : Int)
    (e : bdbm_fgm_sp_mapping_entry_t) (hl1 : l ≠ -1)
    (hl2 : to_u64 l < np.nr_subpages_per_ssd) (he : find_lpa_4kb p (to_u64 l) = some e)
    (ks : List Nat) (hex : ∃ k0 ∈ ks, la.lpa k0 = l)
    (h : ∀ k ∈ ks, la.lpa k = l ∨ la.lpa k = -1 ∨
      (to_u64 (la.lpa k) < np.nr_subpages_per_ssd ∧ find_lpa_4kb p (to_u64 (la.lpa k)) = none)) :
    get_ppa_loop np p la ph sp ks =
      some { ret := 0, ofs := la.ofs,
             phyaddr := { ph with channel_no := e.ppa.channel_no, chip_no := e.ppa.chip_no,
                                  block_no := e.ppa.block_no, page_no := e.ppa.page_no },
             sp_off := e.sp_off } := by
  induction ks with
  | nil => obtain ⟨k0, hk0, _⟩ := hex; cases hk0
  | cons k ks ih =>
    unfold get_ppa_loop
    by_cases hkl : la.lpa k = l
    · rw [hkl, if_pos hl1, if_neg (by omega), he]
    · have hex' : ∃ k0 ∈ ks, la.lpa k0 = l := by
        obtain ⟨k0, hk0, hk0l⟩ := hex
        rcases List.mem_cons.1 hk0 with rfl | hk0'
        · exact absurd hk0l hkl
        · exact ⟨k0, hk0', hk0l⟩
      have ih' := ih hex' (fun k' hk' => h k' (List.mem_cons_of_mem _ hk'))
      rcases h k (List.mem_cons_self _ _) with h1 | h1 | ⟨h1, h2⟩
      · exact absurd h1 hkl
      · rw [if_neg (by simp [h1])]
        exact ih'
      · by_cases hne : la.lpa k ≠ -1
        · rw [if_pos hne, if_neg (by omega), h2]
          exact ih'
        · rw [if_neg hne]
          exact ih'

/-- Claim C3.  4KB mapping round trip.  Let `l` be a logical sub-page below
`nr_subpages_per_ssd` and `P` a physical page of an existing block whose
lowest NOT_INVALID slot is `s < K` (with `K <= 256`, the range of the
`uint8_t sp_off`, and `P.punit_id` not `(uint64_t)-1`).  Then
`bdbm_fgm_ftl_map_lpa_to_ppa` with `lpa_cg = -1` and `lpa[ofs] = l` onto `P`
returns 0 and sets `logaddr.ofs` to `s`; the 4KB table then holds a live
entry for `l` with `ppa = P` and `sp_off = s`; a later `bdbm_fgm_ftl_get_ppa`
whose `lpa[]` carries `l` in some slot and in every other slot `l`, `-1` or an
in-range address that is not live returns 0 with the channel, chip, block and
page of `P` and `sp_off = s`; and if `l` had no entry before and the call is
not made by the recycle engine (`zerogc != 2`), the entry's `count` is 1. -/
theorem C3_roundtrip_4kb (np : bdbm_device_params_t) (p : bdbm_fgm_ftl_private_t)
    (la : bdbm_logaddr_t) (P : bdbm_phyaddr_t) (l s bi : Nat) (b : bdbm_abm_block_t)
    (hl : l < np.nr_subpages_per_ssd) (h63 : np.nr_subpages_per_ssd ≤ 9223372036854775808)
    (hcg : la.lpa_cg = -1) (hlpa : la.lpa la.ofs = (l : Int))
    (hbi : bdbm_abm_get_block np p.bai P.channel_no P.chip_no P.block_no = some bi)
    (hb : p.bai.blocks[bi]? = some b)
    (hs : s < np.nr_subpages_per_page) (hK : np.nr_subpages_per_page ≤ 256)
    (hfree : b.pst[P.page_no * np.nr_subpages_per_page + s]? =
      some bdbm_abm_subpage_t.NOT_INVALID)
    (hlow : ∀ j, j < s → ∃ v, b.pst[P.page_no * np.nr_subpages_per_page + j]? = some v ∧
      v ≠ bdbm_abm_subpage_t.NOT_INVALID)
    (hP : P.punit_id ≠ U64_MAX) :
    ∃ p', bdbm_fgm_ftl_map_lpa_to_ppa np p la P = some (0, p', s) ∧
      (∃ e, find_lpa_4kb p' l = some e ∧ e.ppa = P ∧ e.sp_off = s ∧
        (p.zerogc ≠ 2 → HASH_FIND_INT p.ptr_sp_hash_table l = none → e.count = 1)) ∧
      ∀ (rd : bdbm_logaddr_t) (ph0 : bdbm_phyaddr_t) (sp0 : Nat),
        (∃ k0, k0 < np.nr_subpages_per_page ∧ rd.lpa k0 = (l : Int)) →
        (∀ k, k < np.nr_subpages_per_page → rd.lpa k = (l : Int) ∨ rd.lpa k = -1 ∨
          (to_u64 (rd.lpa k) < np.nr_subpages_per_ssd ∧
            find_lpa_4kb p' (to_u64 (rd.lpa k)) = none)) →
        ∃ r, bdbm_fgm_ftl_get_ppa np p' rd ph0 sp0 = some r ∧ r.ret = 0 ∧
          r.phyaddr.channel_no = P.channel_no ∧ r.phyaddr.chip_no = P.chip_no ∧
          r.phyaddr.block_no = P.block_no ∧ r.phyaddr.page_no = P.page_no ∧ r.sp_off = s := by
  have hu : to_u64 (la.lpa la.ofs) = l := by rw [hlpa]; exact to_u64_natCast l (by omega)
  have hslot : map_4kb_find_slot b.pst (P.page_no * np.nr_subpages_per_page)
      (List.range np.nr_subpages_per_page) = some s := by
    rw [List.range_eq_range']
    exact map_4kb_find_slot_range' b.pst _ s _ 0 (Nat.zero_le _) (by omega) hfree
      (fun j _ hj => hlow j hj)
  have hmap : ∃ p', __bdbm_fgm_ftl_map_lpa_to_ppa_4kb np p la P = some (0, p', s) ∧
      p'.ptr_sp_hash_table = (update_lpa_4kb p l P s).ptr_sp_hash_table := by
    unfold __bdbm_fgm_ftl_map_lpa_to_ppa_4kb
    rw [if_neg (by omega), hbi]
    simp only
    rw [hb]
    simp only
    rw [hslot, hu]
    simp only
    refine ⟨_, rfl, ?_⟩
    cases find_lpa_4kb p l <;> rfl
  obtain ⟨p', hp', htbl⟩ := hmap
  have hfind : HASH_FIND_INT p'.ptr_sp_hash_table l = some (update_entry p.zerogc P s
      ((HASH_FIND_INT p.ptr_sp_hash_table l).getD { lpa := l, count := 0, ppa := P, sp_off := 0 })) := by
    rw [htbl]; exact find_update_same p l P s
  have hlive : find_lpa_4kb p' l = some (update_entry p.zerogc P s
      ((HASH_FIND_INT p.ptr_sp_hash_table l).getD { lpa := l, count := 0, ppa := P, sp_off := 0 })) :=
    (find_lpa_4kb_eq_some p' l _).2 ⟨hfind, hP⟩
  have hsp : s % 256 = s := Nat.mod_eq_of_lt (by omega)
  refine ⟨p', ?_, ⟨_, hlive, rfl, hsp, ?_⟩, ?_⟩
  · unfold bdbm_fgm_ftl_map_lpa_to_ppa
    rw [if_pos hcg, hp']
  · intro hz hnone
    rw [hnone]
    simp [update_entry, hz]
  · intro rd ph0 sp0 hex hk
    have hul : to_u64 (l : Int) = l := to_u64_natCast l (by omega)
    unfold bdbm_fgm_ftl_get_ppa
    rw [get_ppa_loop_hit np p' rd ph0 sp0 (l : Int) _ (by omega) (by omega)
      (by rw [hul]; exact hlive) _
      (by obtain ⟨k0, hk0, hk0l⟩ := hex; exact ⟨k0, List.mem_range.2 hk0, hk0l⟩)
      (fun k hk' => hk k (List.mem_range.1 hk'))]
    exact ⟨_, rfl, rfl, rfl, rfl, rfl, rfl, hsp⟩

/-- Witness of C3: logical sub-page 7 is written on the fresh FTL of the
small geometry to page 0 of block 1, the active block of the fine stream, and
read back. -/
theorem C3_roundtrip_4kb_witness :
    (7 < ex_np.nr_subpages_per_ssd ∧ (ex_la4 7).lpa_cg = -1 ∧
      (ex_la4 7).lpa (ex_la4 7).ofs = ((7 : Nat) : Int) ∧
      bdbm_abm_get_block ex_np ex_fresh.bai 0 0 1 = some 1 ∧
      ex_fresh.bai.blocks[1]? = some
        { status := bdbm_abm_blk_status_t.CLEAN, channel_no := 0, chip_no := 0, block_no := 1,
          nr_invalid_subpages := 0,
          pst := List.replicate 8 bdbm_abm_subpage_t.NOT_INVALID } ∧
      ex_fresh.zerogc ≠ 2 ∧ HASH_FIND_INT ex_fresh.ptr_sp_hash_table 7 = none) ∧
    ∃ p', bdbm_fgm_ftl_map_lpa_to_ppa ex_np ex_fresh (ex_la4 7) (ex_ppa 1 0) = some (0, p', 0) ∧
      (∃ e, find_lpa_4kb p' 7 = some e ∧ e.ppa = ex_ppa 1 0 ∧ e.sp_off = 0 ∧ e.count = 1) ∧
      ∃ r, bdbm_fgm_ftl_get_ppa ex_np p' (ex_la4 7) (ex_ppa 5 1) 2 = some r ∧ r.ret = 0 ∧
        r.phyaddr.block_no = 1 ∧ r.phyaddr.page_no = 0 ∧ r.sp_off = 0 :=
  ⟨⟨by decide, rfl, rfl, by decide, by decide, by decide, by decide⟩,
   let ⟨p', h1, ⟨e, he1, he2, he3, he4⟩, h3⟩ :=
     C3_roundtrip_4kb ex_np ex_fresh (ex_la4 7) (ex_ppa 1 0) 7 0 1
       { status := bdbm_abm_blk_status_t.CLEAN, channel_no := 0, chip_no := 0, block_no := 1,
         nr_invalid_subpages := 0,
         pst := List.replicate 8 bdbm_abm_subpage_t.NOT_INVALID }
       (by decide) (by decide) rfl rfl (by decide) (by decide) (by decide) (by decide)
       (by decide) (fun j hj => absurd hj (Nat.not_lt_zero j)) (by decide)
   let ⟨r, hr1, hr2, _, _, hr5, hr6, hr7⟩ := h3 (ex_la4 7) (ex_ppa 5 1) 2 ⟨0, by decide, rfl⟩
     (fun k _ => by
       by_cases hk : k = 0
       · subst hk; exact Or.inl rfl
       · exact Or.inr (Or.inl (by simp [ex_la4, hk])))
   ⟨p', h1, ⟨e, he1, he2, he3, he4 (by decide) (by decide)⟩, r, hr1, hr2, hr5, hr6, hr7⟩⟩

theorem invalidate_lpa_sub_loop_table (np : bdbm_device_params_t) (lpa4kb : Nat)
    (ks : List Nat) :
    ∀ p, (invalidate_lpa_sub_loop np lpa4kb ks p).ptr_mapping_table = p.ptr_mapping_table := by
  induction ks with
  | nil => intro p; rfl
  | cons k ks ih =>
    intro p
    unfold invalidate_lpa_sub_loop
    simp only
    split
    · rw [ih]; rfl
    · exact ih p

theorem invalidate_lpa_sub_loop_keeps_none (np : bdbm_device_params_t) (lpa4kb a : Nat)
    (ks : List Nat) :
    ∀ p, find_lpa_4kb p a = none →
      find_lpa_4kb (invalidate_lpa_sub_loop np lpa4kb ks p) a = none := by
  induction ks with
  | nil => intro p h; exact h
  | cons k ks ih =>
    intro p h
    unfold invalidate_lpa_sub_loop
    simp only
    split
    · apply ih
      apply find_lpa_4kb_invalidate_none
      rw [← h]
      exact find_lpa_4kb_congr _ _ rfl a
    · exact ih p h

/-- After the inner loop of `bdbm_fgm_ftl_invalidate_lpa`, no sub-page
`lpa4kb + k` it visited has a live 4KB entry. -/
theorem invalidate_lpa_sub_loop_none (np : bdbm_device_params_t) (lpa4kb : Nat)
    (ks : List Nat) :
    ∀ p, ∀ k ∈ ks,
      find_lpa_4kb (invalidate_lpa_sub_loop np lpa4kb ks p)
        ((lpa4kb + k) % 18446744073709551616) = none := by
  induction ks with
  | nil => intro p k hk; cases hk
  | cons k0 ks ih =>
    intro p k hk
    rcases List.mem_cons.1 hk with rfl | hk'
    · unfold invalidate_lpa_sub_loop
      simp only
      cases hf : find_lpa_4kb p ((lpa4kb + k) % 18446744073709551616) with
      | some spme =>
        simp only
        apply invalidate_lpa_sub_loop_keeps_none
        exact find_lpa_4kb_invalidate_same _ _ _ rfl
      | none =>
        simp only
        exact invalidate_lpa_sub_loop_keeps_none np lpa4kb _ ks p hf
    · unfold invalidate_lpa_sub_loop
      simp only
      split
      · exact ih _ k hk'
      · exact ih _ k hk'

/-- Claim C4.  Invalidate then read.  For a logical page `L` below
`nr_pages_per_ssd` (inside the allocated table, in a geometry with `K >= 1`
and `nr_pages_per_ssd * K <= nr_subpages_per_ssd`),
`bdbm_fgm_ftl_invalidate_lpa (L, 1)` returns 0, and afterwards
`bdbm_fgm_ftl_get_ppa` for `L` (`lpa_cg = L`, `lpa[k] = L * K + k`) yields
the default address, all five fields 0, with `sp_off = 0` and return value 1,
whatever the 16KB entry of `L` and the 4KB entries of its sub-pages were
before. -/
theorem C4_invalidate_then_read (np : bdbm_device_params_t) (p : bdbm_fgm_ftl_private_t)
    (L : Nat) (hL : L < np.nr_pages_per_ssd) (hlen : L < p.ptr_mapping_table.length)
    (hK : 1 ≤ np.nr_subpages_per_page)
    (hgeo : np.nr_pages_per_ssd * np.nr_subpages_per_page ≤ np.nr_subpages_per_ssd)
    (h63 : np.nr_subpages_per_ssd ≤ 9223372036854775808) :
    ∃ p', bdbm_fgm_ftl_invalidate_lpa np p (L : Int) 1 = some (0, p') ∧
      ∀ (rd : bdbm_logaddr_t) (ph0 : bdbm_phyaddr_t) (sp0 : Nat), rd.lpa_cg = (L : Int) →
        (∀ k, k < np.nr_subpages_per_page →
          rd.lpa k = (L : Int) * (np.nr_subpages_per_page : Int) + (k : Int)) →
        ∃ r, bdbm_fgm_ftl_get_ppa np p' rd ph0 sp0 = some r ∧ r.ret = 1 ∧
          r.phyaddr = { punit_id := 0, channel_no := 0, chip_no := 0, block_no := 0,
                        page_no := 0 } ∧
          r.sp_off = 0 := by
  have hLK : ∀ k, k < np.nr_subpages_per_page →
      L * np.nr_subpages_per_page + k < np.nr_subpages_per_ssd := by
    intro k hk
    have h1 : (L + 1) * np.nr_subpages_per_page ≤
        np.nr_pages_per_ssd * np.nr_subpages_per_page := Nat.mul_le_mul_right _ hL
    have h2 : (L + 1) * np.nr_subpages_per_page =
        L * np.nr_subpages_per_page + np.nr_subpages_per_page := by ring
    omega
  have hLn : L < 9223372036854775808 := by
    have := hLK 0 hK
    have h3 : L * 1 ≤ L * np.nr_subpages_per_page := Nat.mul_le_mul_left _ hK
    omega
  have hu : to_u64 (L : Int) = L := to_u64_natCast L (by omega)
  obtain ⟨me, hme⟩ : ∃ me, p.ptr_mapping_table[L]? = some me :=
    ⟨_, List.getElem?_eq_getElem hlen⟩
  -- the state after the single iteration of the outer loop
  have hloop : ∃ p', invalidate_lpa_loop np [L] p = some p' ∧
      (∃ me', p'.ptr_mapping_table[L]? = some me' ∧ me'.status ≠ PFTL_PAGE_VALID) ∧
      p'.ptr_sp_hash_table =
        (invalidate_lpa_sub_loop np
          ((L * np.nr_subpages_per_page) % 18446744073709551616)
          (List.range np.nr_subpages_per_page) p).ptr_sp_hash_table := by
    unfold invalidate_lpa_loop
    simp only
    rw [invalidate_lpa_sub_loop_table, hme]
    simp only
    by_cases hv : me.status = PFTL_PAGE_VALID
    · rw [if_pos hv, if_neg (by omega)]
      unfold invalidate_lpa_loop
      refine ⟨_, rfl, ⟨{ me with status := PFTL_PAGE_INVALID }, ?_, fun h => by cases h⟩, rfl⟩
      simp only
      apply List.getElem?_set_self
      exact hlen
    · rw [if_neg hv]
      unfold invalidate_lpa_loop
      refine ⟨_, rfl, ⟨me, ?_, hv⟩, rfl⟩
      rw [invalidate_lpa_sub_loop_table]
      exact hme
  obtain ⟨p', hp', ⟨me', hme', hst⟩, htbl⟩ := hloop
  refine ⟨p', ?_, ?_⟩
  · unfold bdbm_fgm_ftl_invalidate_lpa
    simp only [hu]
    have h1 : (L + 1) % 18446744073709551616 = L + 1 := Nat.mod_eq_of_lt (by omega)
    rw [h1, if_neg (by omega)]
    have h2 : L + 1 - L = 1 := by omega
    rw [h2]
    show (match invalidate_lpa_loop np [L] p with
      | none => none
      | some p1 => some (0, p1)) = some (0, p')
    rw [hp']
  · intro rd ph0 sp0 hrd hk
    have hnone : ∀ k ∈ List.range np.nr_subpages_per_page, rd.lpa k = -1 ∨
        (to_u64 (rd.lpa k) < np.nr_subpages_per_ssd ∧
          find_lpa_4kb p' (to_u64 (rd.lpa k)) = none) := by
      intro k hk'
      have hkK := List.mem_range.1 hk'
      right
      have hlt := hLK k hkK
      have hval : to_u64 (rd.lpa k) = L * np.nr_subpages_per_page + k := by
        rw [hk k hkK]
        have : ((L : Int) * (np.nr_subpages_per_page : Int) + (k : Int)) =
            ((L * np.nr_subpages_per_page + k : Nat) : Int) := by push_cast; ring
        rw [this]
        exact to_u64_natCast _ (by omega)
      refine ⟨by omega, ?_⟩
      rw [hval, find_lpa_4kb_congr p' _ htbl]
      have hm : (L * np.nr_subpages_per_page) % 18446744073709551616 =
          L * np.nr_subpages_per_page := Nat.mod_eq_of_lt (by have := hLK 0 hK; omega)
      have := invalidate_lpa_sub_loop_none np
        ((L * np.nr_subpages_per_page) % 18446744073709551616)
        (List.range np.nr_subpages_per_page) p k hk'
      rw [hm, Nat.mod_eq_of_lt (by omega)] at this
      rw [hm]
      exact this
    unfold bdbm_fgm_ftl_get_ppa
    rw [get_ppa_loop_fallthrough np p' rd ph0 sp0 _ hnone]
    unfold __bdbm_fgm_ftl_get_ppa
    rw [hrd, hu, if_neg (by omega), hme']
    simp only
    rw [if_pos hst]
    exact ⟨_, rfl, rfl, rfl, rfl⟩

/-- Witness of C4: logical page 3 of the small geometry, mapped to page 1 of
block 0, is invalidated and read back. -/
theorem C4_invalidate_then_read_witness :
    (∃ me, ex_mapped16.ptr_mapping_table[3]? = some me ∧ me.status = PFTL_PAGE_VALID) ∧
    ∃ p', bdbm_fgm_ftl_invalidate_lpa ex_np ex_mapped16 (3 : Nat) 1 = some (0, p') ∧
      ∃ r, bdbm_fgm_ftl_get_ppa ex_np p' (ex_la16 3) (ex_ppa 0 1) 0 = some r ∧ r.ret = 1 ∧
        r.phyaddr = { punit_id := 0, channel_no := 0, chip_no := 0, block_no := 0,
                      page_no := 0 } ∧
        r.sp_off = 0 :=
  ⟨by decide,
   let ⟨p', h1, h2⟩ := C4_invalidate_then_read ex_np ex_mapped16 3
     (by decide) (by decide) (by decide) (by decide) (by decide)
   ⟨p', h1, h2 (ex_la16 3) (ex_ppa 0 1) 0 rfl (fun k _ => by simp [ex_la16, ex_np])⟩⟩

theorem HASH_FIND_INT_key (tbl : List bdbm_fgm_sp_mapping_entry_t) (a b : Nat)
    (hab : HASH_KEY_INT a = HASH_KEY_INT b) : HASH_FIND_INT tbl a = HASH_FIND_INT tbl b := by
  induction tbl with
  | nil => rfl
  | cons s t ih => unfold HASH_FIND_INT; rw [hab, ih]

theorem abm_invalidate_page_calls (np : bdbm_device_params_t) (bai : bdbm_abm_info_t)
    (c h b pg sub : Nat) :
    (bdbm_abm_invalidate_page np bai c h b pg sub).calls =
      bai.calls ++ [abm_call_t.invalidate_page c h b pg sub] := by
  unfold bdbm_abm_invalidate_page
  simp only
  split
  · rfl
  · split
    · rfl
    · split <;> rfl

theorem abm_invalidate_me_calls_mono (np : bdbm_device_params_t)
    (me : bdbm_fgm_mapping_entry_t) (c : abm_call_t) (ks : List Nat) :
    ∀ bai, c ∈ bai.calls → c ∈ (abm_invalidate_me np me ks bai).calls := by
  induction ks with
  | nil => intro bai h; exact h
  | cons k ks ih =>
    intro bai h
    unfold abm_invalidate_me
    apply ih
    rw [abm_invalidate_page_calls]
    exact List.mem_append_left _ h

theorem map_invalidate_4kb_loop_length (np : bdbm_device_params_t) (la : bdbm_logaddr_t)
    (ks : List Nat) :
    ∀ p, (map_invalidate_4kb_loop np la ks p).ptr_sp_hash_table.length =
      p.ptr_sp_hash_table.length := by
  induction ks with
  | nil => intro p; rfl
  | cons k ks ih =>
    intro p
    unfold map_invalidate_4kb_loop
    split
    · split
      · rw [ih]; exact hash_store_length _ _ _
      · exact ih p
    · exact ih p

theorem map_invalidate_4kb_loop_calls_mono (np : bdbm_device_params_t) (la : bdbm_logaddr_t)
    (c : abm_call_t) (ks : List Nat) :
    ∀ p, c ∈ p.bai.calls → c ∈ (map_invalidate_4kb_loop np la ks p).bai.calls := by
  induction ks with
  | nil => intro p h; exact h
  | cons k ks ih =>
    intro p h
    unfold map_invalidate_4kb_loop
    split
    · split
      · apply ih
        show c ∈ (abm_invalidate_spme np p.bai _).calls
        unfold abm_invalidate_spme
        rw [abm_invalidate_page_calls]
        exact List.mem_append_left _ h
      · exact ih p h
    · exact ih p h

/-- A tombstone is left as it is by the invalidation loop of the 16KB
commit. -/
theorem map_invalidate_4kb_loop_tombstone (np : bdbm_device_params_t) (la : bdbm_logaddr_t)
    (a : Nat) (t : bdbm_fgm_sp_mapping_entry_t) (ht : t.ppa.punit_id = U64_MAX)
    (ks : List Nat) :
    ∀ p, HASH_FIND_INT p.ptr_sp_hash_table a = some t →
      HASH_FIND_INT (map_invalidate_4kb_loop np la ks p).ptr_sp_hash_table a = some t := by
  induction ks with
  | nil => intro p h; exact h
  | cons k ks ih =>
    intro p h
    unfold map_invalidate_4kb_loop
    split
    · cases hf : find_lpa_4kb p (to_u64 (la.lpa k)) with
      | some spme =>
        simp only
        apply ih
        by_cases hk : HASH_KEY_INT (to_u64 (la.lpa k)) = HASH_KEY_INT a
        · exfalso
          obtain ⟨h1, h2⟩ := (find_lpa_4kb_eq_some p _ _).1 hf
          rw [HASH_FIND_INT_key _ _ _ hk, h] at h1
          cases h1
          exact h2 ht
        · rw [find_invalidate_other _ _ _ hk]
          exact h
      | none => simp only; exact ih p h
    · exact ih p h

/-- The invalidation loop of the 16KB commit either leaves a live entry as it
is or tombstones it in place, and then the ABM has been called to invalidate
the sub-page the entry pointed to. -/
theorem map_invalidate_4kb_loop_entry (np : bdbm_device_params_t) (la : bdbm_logaddr_t)
    (a : Nat) (s : bdbm_fgm_sp_mapping_entry_t) (ks : List Nat) :
    ∀ p, HASH_FIND_INT p.ptr_sp_hash_table a = some s →
      HASH_FIND_INT (map_invalidate_4kb_loop np la ks p).ptr_sp_hash_table a = some s ∨
      (HASH_FIND_INT (map_invalidate_4kb_loop np la ks p).ptr_sp_hash_table a =
          some (invalidate_entry s) ∧
        abm_call_t.invalidate_page s.ppa.channel_no s.ppa.chip_no s.ppa.block_no s.ppa.page_no
          s.sp_off ∈ (map_invalidate_4kb_loop np la ks p).bai.calls) := by
  induction ks with
  | nil => intro p h; exact Or.inl h
  | cons k ks ih =>
    intro p h
    unfold map_invalidate_4kb_loop
    split
    · cases hf : find_lpa_4kb p (to_u64 (la.lpa k)) with
      | some spme =>
        simp only
        by_cases hk : HASH_KEY_INT (to_u64 (la.lpa k)) = HASH_KEY_INT a
        · right
          obtain ⟨h1, _⟩ := (find_lpa_4kb_eq_some p _ _).1 hf
          rw [HASH_FIND_INT_key _ _ _ hk, h] at h1
          cases h1
          constructor
          · apply map_invalidate_4kb_loop_tombstone np la a _ rfl
            rw [find_invalidate_same _ _ _ hk]
            show Option.map invalidate_entry (HASH_FIND_INT p.ptr_sp_hash_table a) = _
            rw [h]
            rfl
          · apply map_invalidate_4kb_loop_calls_mono
            show _ ∈ (abm_invalidate_spme np p.bai s).calls
            unfold abm_invalidate_spme
            rw [abm_invalidate_page_calls]
            exact List.mem_append_right _ (List.mem_singleton.2 rfl)
        · apply ih
          rw [find_invalidate_other _ _ _ hk]
          exact h
      | none => simp only; exact ih p h
    · exact ih p h

/-- The ABM calls made by the invalidation loop of a 16KB commit are still on
record when the commit returns. -/
theorem map_16kb_calls (np : bdbm_device_params_t) (p p' : bdbm_fgm_ftl_private_t)
    (la : bdbm_logaddr_t) (P : bdbm_phyaddr_t) (c : abm_call_t)
    (h : __bdbm_fgm_ftl_map_lpa_to_ppa np p la P = some (0, p'))
    (hc : c ∈ (if map_is_gc la (List.range' 1 (np.nr_subpages_per_page - 1)) ≠
            np.nr_subpages_per_page - 1 then
          map_invalidate_4kb_loop np la (List.range np.nr_subpages_per_page) p
        else p).bai.calls) :
    c ∈ p'.bai.calls := by
  unfold __bdbm_fgm_ftl_map_lpa_to_ppa at h
  split at h
  · cases h
  · split at h
    · cases h
    · rename_i me _
      simp only [Option.some.injEq, Prod.mk.injEq, true_and] at h
      subst h
      simp only
      by_cases hv : me.status = PFTL_PAGE_VALID
      · rw [if_pos hv]
        exact abm_invalidate_me_calls_mono np me c _ _ hc
      · rw [if_neg hv]
        exact hc

/-- Claim C6.  Invalidate-by-overwrite (scenario S4), with `K = 4`.  From any
state in which logical sub-page 42 has a live 4KB entry `e`, the 16KB commit
of logical page 10 with `lpa = [40, 41, 42, 43]` onto `P` returns 0; the
entry for 42 is still in the table (the number of entries is unchanged) as a
tombstone, with `ppa.punit_id = -1`, `count` negated and its other fields
kept, so `find_lpa_4kb (42)` is `NULL`; the ABM has been called to invalidate
the sub-page `(e.ppa, e.sp_off)`; and a later `bdbm_fgm_ftl_get_ppa` of page
10 whose slots carry sub-pages of page 10 or `-1` resolves to `P` with
`sp_off = 0`. -/
theorem C6_invalidate_by_overwrite (np : bdbm_device_params_t) (p : bdbm_fgm_ftl_private_t)
    (la : bdbm_logaddr_t) (P : bdbm_phyaddr_t) (e : bdbm_fgm_sp_mapping_entry_t)
    (hK : np.nr_subpages_per_page = 4) (hpages : 10 < np.nr_pages_per_ssd)
    (hlen : 10 < p.ptr_mapping_table.length) (hsub : 43 < np.nr_subpages_per_ssd)
    (hcg : la.lpa_cg = 10) (h0 : la.lpa 0 = 40) (h1 : la.lpa 1 = 41) (h2 : la.lpa 2 = 42)
    (h3 : la.lpa 3 = 43) (he : find_lpa_4kb p 42 = some e) :
    ∃ p', bdbm_fgm_ftl_map_lpa_to_ppa np p la P = some (0, p', la.ofs) ∧
      count_hash_entry p' = count_hash_entry p ∧
      (∃ t, HASH_FIND_INT p'.ptr_sp_hash_table 42 = some t ∧ t.ppa.punit_id = U64_MAX ∧
        t.count = -e.count ∧ t.lpa = e.lpa ∧ t.ppa.channel_no = e.ppa.channel_no ∧
        t.ppa.chip_no = e.ppa.chip_no ∧ t.ppa.block_no = e.ppa.block_no ∧
        t.ppa.page_no = e.ppa.page_no ∧ t.sp_off = e.sp_off) ∧
      find_lpa_4kb p' 42 = none ∧
      abm_call_t.invalidate_page e.ppa.channel_no e.ppa.chip_no e.ppa.block_no e.ppa.page_no
        e.sp_off ∈ p'.bai.calls ∧
      ∀ (rd : bdbm_logaddr_t) (ph0 : bdbm_phyaddr_t) (sp0 : Nat), rd.lpa_cg = 10 →
        (∀ k, k < 4 → rd.lpa k = -1 ∨ rd.lpa k = 40 ∨ rd.lpa k = 41 ∨ rd.lpa k = 42 ∨
          rd.lpa k = 43) →
        ∃ r, bdbm_fgm_ftl_get_ppa np p' rd ph0 sp0 = some r ∧ r.ret = 0 ∧
          r.phyaddr.channel_no = P.channel_no ∧ r.phyaddr.chip_no = P.chip_no ∧
          r.phyaddr.block_no = P.block_no ∧ r.phyaddr.page_no = P.page_no ∧ r.sp_off = 0 := by
  have hu : to_u64 la.lpa_cg = 10 := by rw [hcg]; decide
  obtain ⟨me, hme⟩ : ∃ me, p.ptr_mapping_table[to_u64 la.lpa_cg]? = some me := by
    rw [hu]; exact ⟨_, List.getElem?_eq_getElem hlen⟩
  obtain ⟨p', hp', htab, htbl⟩ := map_16kb_result np p la P me (by omega) hme
  have hgc : map_is_gc la (List.range' 1 (np.nr_subpages_per_page - 1)) ≠
      np.nr_subpages_per_page - 1 := by
    rw [hK]
    simp [List.range', map_is_gc, h0, h1]
  rw [if_pos hgc] at htbl
  have hcalls := fun c hc => map_16kb_calls np p p' la P c hp' (by rw [if_pos hgc]; exact hc)
  obtain ⟨he1, he2⟩ := (find_lpa_4kb_eq_some p 42 e).1 he
  -- every sub-page of page 10 is dead after the commit
  have hdead : ∀ k, k < 4 → find_lpa_4kb p' (to_u64 (la.lpa k)) = none := by
    intro k hk
    rw [find_lpa_4kb_congr p' _ htbl]
    apply map_invalidate_4kb_loop_none
    · rw [hK]; exact List.mem_range.2 hk
    · have : k = 0 ∨ k = 1 ∨ k = 2 ∨ k = 3 := by omega
      rcases this with rfl | rfl | rfl | rfl
      · rw [h0]; decide
      · rw [h1]; decide
      · rw [h2]; decide
      · rw [h3]; decide
  have hd40 : find_lpa_4kb p' 40 = none := by have := hdead 0 (by omega); rwa [h0] at this
  have hd41 : find_lpa_4kb p' 41 = none := by have := hdead 1 (by omega); rwa [h1] at this
  have hd42 : find_lpa_4kb p' 42 = none := by have := hdead 2 (by omega); rwa [h2] at this
  have hd43 : find_lpa_4kb p' 43 = none := by have := hdead 3 (by omega); rwa [h3] at this
  have hent := map_invalidate_4kb_loop_entry np la 42 e (List.range np.nr_subpages_per_page) p he1
  have hent' : HASH_FIND_INT p'.ptr_sp_hash_table 42 = some (invalidate_entry e) ∧
      abm_call_t.invalidate_page e.ppa.channel_no e.ppa.chip_no e.ppa.block_no e.ppa.page_no
        e.sp_off ∈ (map_invalidate_4kb_loop np la (List.range np.nr_subpages_per_page)
          p).bai.calls := by
    rcases hent with hl | hr
    · exfalso
      have : find_lpa_4kb p' 42 = some e :=
        (find_lpa_4kb_eq_some p' 42 e).2 ⟨by rw [htbl]; exact hl, he2⟩
      rw [hd42] at this
      cases this
    · exact ⟨by rw [htbl]; exact hr.1, hr.2⟩
  refine ⟨p', ?_, ?_, ⟨invalidate_entry e, hent'.1, rfl, rfl, rfl, rfl, rfl, rfl, rfl, rfl⟩,
    hd42, hcalls _ hent'.2, ?_⟩
  · unfold bdbm_fgm_ftl_map_lpa_to_ppa
    rw [if_neg (by omega), if_neg (by omega), hp']
  · unfold count_hash_entry
    rw [htbl]
    exact map_invalidate_4kb_loop_length np la _ p
  · intro rd ph0 sp0 hrd hk
    have hent16 : p'.ptr_mapping_table[10]? = some
        { status := PFTL_PAGE_VALID,
          phyaddr := { punit_id := me.phyaddr.punit_id, channel_no := P.channel_no,
                       chip_no := P.chip_no, block_no := P.block_no, page_no := P.page_no },
          sp_off := 0 } := by
      rw [htab, hu]; exact List.getElem?_set_self hlen
    have hnone : ∀ k ∈ List.range np.nr_subpages_per_page, rd.lpa k = -1 ∨
        (to_u64 (rd.lpa k) < np.nr_subpages_per_ssd ∧
          find_lpa_4kb p' (to_u64 (rd.lpa k)) = none) := by
      intro k hk'
      rw [hK] at hk'
      rcases hk k (List.mem_range.1 hk') with h | h | h | h | h
      · exact Or.inl h
      · right; rw [h]; exact ⟨by show 40 < _; omega, hd40⟩
      · right; rw [h]; exact ⟨by show 41 < _; omega, hd41⟩
      · right; rw [h]; exact ⟨by show 42 < _; omega, hd42⟩
      · right; rw [h]; exact ⟨by show 43 < _; omega, hd43⟩
    have hu' : to_u64 rd.lpa_cg = 10 := by rw [hrd]; decide
    unfold bdbm_fgm_ftl_get_ppa
    rw [get_ppa_loop_fallthrough np p' rd ph0 sp0 _ hnone]
    unfold __bdbm_fgm_ftl_get_ppa
    rw [if_neg (by omega), hu', hent16]
    exact ⟨_, rfl, rfl, rfl, rfl, rfl, rfl, rfl⟩

/-- Witness of C6 on the small geometry: sub-page 42 is written to page 0 of
block 1, then logical page 10 is written to page 0 of block 0, and sub-page 42
is read back. -/
theorem C6_invalidate_by_overwrite_witness :
    find_lpa_4kb ex_mapped4 42 = some { lpa := 42, count := 1, ppa := ex_ppa 1 0, sp_off := 0 } ∧
    ∃ p', bdbm_fgm_ftl_map_lpa_to_ppa ex_np ex_mapped4 (ex_la16 10) (ex_ppa 0 0) =
        some (0, p', 0) ∧
      find_lpa_4kb p' 42 = none ∧
      abm_call_t.invalidate_page 0 0 1 0 0 ∈ p'.bai.calls ∧
      ∃ r, bdbm_fgm_ftl_get_ppa ex_np p' (ex_la16 10) (ex_ppa 5 1) 3 = some r ∧ r.ret = 0 ∧
        r.phyaddr.block_no = 0 ∧ r.phyaddr.page_no = 0 ∧ r.sp_off = 0 :=
  ⟨by decide,
   let ⟨p', h1, _, _, h4, h5, h6⟩ := C6_invalidate_by_overwrite ex_np ex_mapped4 (ex_la16 10)
     (ex_ppa 0 0) { lpa := 42, count := 1, ppa := ex_ppa 1 0, sp_off := 0 }
     rfl (by decide) (by decide) (by decide) rfl rfl rfl rfl rfl (by decide)
   let ⟨r, hr1, hr2, _, _, hr5, hr6, hr7⟩ := h6 (ex_la16 10) (ex_ppa 5 1) 3 rfl
     (fun k hk => by
       have : k = 0 ∨ k = 1 ∨ k = 2 ∨ k = 3 := by omega
       rcases this with rfl | rfl | rfl | rfl <;> simp [ex_la16])
   ⟨p', h1, h4, h5, r, hr1, hr2, hr5, hr6, hr7⟩⟩

/-- The fine-path commit of an in-range address onto a page whose lowest
NOT_INVALID slot is `s` returns 0 with `ofs = s`, and its 4KB table is that of
`update_lpa_4kb`. -/
theorem map_4kb_result (np : bdbm_device_params_t) (p : bdbm_fgm_ftl_private_t)
    (la : bdbm_logaddr_t) (P : bdbm_phyaddr_t) (s bi : Nat) (b : bdbm_abm_block_t)
    (hl : to_u64 (la.lpa la.ofs) < np.nr_subpages_per_ssd)
    (hbi : bdbm_abm_get_block np p.bai P.channel_no P.chip_no P.block_no = some bi)
    (hb : p.bai.blocks[bi]? = some b) (hs : s < np.nr_subpages_per_page)
    (hfree : b.pst[P.page_no * np.nr_subpages_per_page + s]? =
      some bdbm_abm_subpage_t.NOT_INVALID)
    (hlow : ∀ j, j < s → ∃ v, b.pst[P.page_no * np.nr_subpages_per_page + j]? = some v ∧
      v ≠ bdbm_abm_subpage_t.NOT_INVALID) :
    ∃ p', __bdbm_fgm_ftl_map_lpa_to_ppa_4kb np p la P = some (0, p', s) ∧
      p'.ptr_sp_hash_table =
        (update_lpa_4kb p (to_u64 (la.lpa la.ofs)) P s).ptr_sp_hash_table ∧
      p'.ptr_mapping_table = p.ptr_mapping_table := by
  have hslot : map_4kb_find_slot b.pst (P.page_no * np.nr_subpages_per_page)
      (List.range np.nr_subpages_per_page) = some s := by
    rw [List.range_eq_range']
    exact map_4kb_find_slot_range' b.pst _ s _ 0 (Nat.zero_le _) (by omega) hfree
      (fun j _ hj => hlow j hj)
  unfold __bdbm_fgm_ftl_map_lpa_to_ppa_4kb
  rw [if_neg (by omega), hbi]
  simp only
  rw [hb]
  simp only
  rw [hslot]
  simp only
  refine ⟨_, rfl, ?_, ?_⟩
  · cases find_lpa_4kb p (to_u64 (la.lpa la.ofs)) <;> rfl
  · cases find_lpa_4kb p (to_u64 (la.lpa la.ofs)) <;> rfl

/-- When no in-range slot of the request has a live 4KB entry, the lookup
loop either stops with return value 1 at an out-of-range slot or falls
through to the 16KB lookup with every slot `-1` or in range. -/
theorem get_ppa_loop_no_live (np : bdbm_device_params_t) (p : bdbm_fgm_ftl_private_t)
    (la : bdbm_logaddr_t) (ph : bdbm_phyaddr_t) (sp : Nat) (ks : List Nat)
    (h : ∀ k ∈ ks, la.lpa k ≠ -1 → to_u64 (la.lpa k) < np.nr_subpages_per_ssd →
      find_lpa_4kb p (to_u64 (la.lpa k)) = none) :
    get_ppa_loop np p la ph sp ks =
        some { ret := 1, ofs := la.ofs, phyaddr := ph, sp_off := sp } ∨
    (get_ppa_loop np p la ph sp ks = __bdbm_fgm_ftl_get_ppa np p la.lpa_cg 0 ph sp ∧
      ∀ k ∈ ks, la.lpa k = -1 ∨ to_u64 (la.lpa k) < np.nr_subpages_per_ssd) := by
  induction ks with
  | nil => exact Or.inr ⟨rfl, fun k hk => by cases hk⟩
  | cons k ks ih =>
    have ih' := ih (fun k' hk' => h k' (List.mem_cons_of_mem _ hk'))
    unfold get_ppa_loop
    by_cases hne : la.lpa k ≠ -1
    · rw [if_pos hne]
      by_cases hr : to_u64 (la.lpa k) ≥ np.nr_subpages_per_ssd
      · rw [if_pos hr]
        exact Or.inl rfl
      · rw [if_neg hr, h k (List.mem_cons_self _ _) hne (by omega)]
        rcases ih' with h1 | ⟨h1, h2⟩
        · exact Or.inl h1
        · refine Or.inr ⟨h1, fun k' hk' => ?_⟩
          rcases List.mem_cons.1 hk' with rfl | hk''
          · exact Or.inr (by omega)
          · exact h2 k' hk''
    · rw [if_neg hne]
      rcases ih' with h1 | ⟨h1, h2⟩
      · exact Or.inl h1
      · refine Or.inr ⟨h1, fun k' hk' => ?_⟩
        rcases List.mem_cons.1 hk' with rfl | hk''
        · exact Or.inl (by simpa using hne)
        · exact h2 k' hk''

/-- Claim C10, as stated, fails on the code: on the small geometry, with
sub-page 42 live, a lookup with `lpa_cg = 16 = nr_pages_per_ssd` and one with
`lpa[1] = 64 = nr_subpages_per_ssd` both return 0, because the lookup returns
at the live `lpa[0] = 42` before it checks anything else. -/
theorem C10_counterexample :
    (16 : Nat) ≥ ex_np.nr_pages_per_ssd ∧ (64 : Nat) ≥ ex_np.nr_subpages_per_ssd ∧
    (bdbm_fgm_ftl_get_ppa ex_np ex_mapped4
        { lpa := fun k => if k = 0 then 42 else -1, lpa_cg := 16, ofs := 0 }
        (ex_ppa 0 0) 0).map (fun r => r.ret) = some 0 ∧
    (bdbm_fgm_ftl_get_ppa ex_np ex_mapped4
        { lpa := fun k => if k = 0 then 42 else if k = 1 then 64 else -1, lpa_cg := 10,
          ofs := 0 }
        (ex_ppa 0 0) 0).map (fun r => r.ret) = some 0 := by
  decide

/-- Claim C10, amended.  In a geometry with at least one logical page and one
logical sub-page, the table allocated: the 16KB path of
`bdbm_fgm_ftl_map_lpa_to_ppa` returns 0 for `lpa_cg = nr_pages_per_ssd - 1`
and 1 for every `lpa_cg >= nr_pages_per_ssd`; the fine path returns 0 for
`lpa[ofs] = nr_subpages_per_ssd - 1` onto a page of an existing block whose
lowest NOT_INVALID slot is `s < K`, and 1 for `lpa[ofs] = nr_subpages_per_ssd`;
and `bdbm_fgm_ftl_get_ppa` returns non-zero whenever `lpa_cg >=
nr_pages_per_ssd` or some `lpa[k]` other than `-1` is
`>= nr_subpages_per_ssd`, provided no in-range `lpa[k]` of the request has a
live 4KB entry. -/
theorem C10_boundary (np : bdbm_device_params_t) (p : bdbm_fgm_ftl_private_t)
    (hpg : 1 ≤ np.nr_pages_per_ssd) (hsp : 1 ≤ np.nr_subpages_per_ssd)
    (hpg63 : np.nr_pages_per_ssd < 9223372036854775808)
    (hsp63 : np.nr_subpages_per_ssd < 9223372036854775808)
    (hlen : np.nr_pages_per_ssd ≤ p.ptr_mapping_table.length) :
    (∀ (la : bdbm_logaddr_t) (P : bdbm_phyaddr_t),
      la.lpa_cg = ((np.nr_pages_per_ssd - 1 : Nat) : Int) →
      ∃ p', bdbm_fgm_ftl_map_lpa_to_ppa np p la P = some (0, p', la.ofs)) ∧
    (∀ (la : bdbm_logaddr_t) (P : bdbm_phyaddr_t),
      (np.nr_pages_per_ssd : Int) ≤ la.lpa_cg → la.lpa_cg < 9223372036854775808 →
      bdbm_fgm_ftl_map_lpa_to_ppa np p la P = some (1, p, la.ofs)) ∧
    (∀ (la : bdbm_logaddr_t) (P : bdbm_phyaddr_t) (s bi : Nat) (b : bdbm_abm_block_t),
      la.lpa_cg = -1 → la.lpa la.ofs = ((np.nr_subpages_per_ssd - 1 : Nat) : Int) →
      bdbm_abm_get_block np p.bai P.channel_no P.chip_no P.block_no = some bi →
      p.bai.blocks[bi]? = some b → s < np.nr_subpages_per_page →
      b.pst[P.page_no * np.nr_subpages_per_page + s]? = some bdbm_abm_subpage_t.NOT_INVALID →
      (∀ j, j < s → ∃ v, b.pst[P.page_no * np.nr_subpages_per_page + j]? = some v ∧
        v ≠ bdbm_abm_subpage_t.NOT_INVALID) →
      ∃ p', bdbm_fgm_ftl_map_lpa_to_ppa np p la P = some (0, p', s)) ∧
    (∀ (la : bdbm_logaddr_t) (P : bdbm_phyaddr_t),
      la.lpa_cg = -1 → la.lpa la.ofs = (np.nr_subpages_per_ssd : Int) →
      bdbm_fgm_ftl_map_lpa_to_ppa np p la P = some (1, p, la.ofs)) ∧
    (∀ (rd : bdbm_logaddr_t) (ph0 : bdbm_phyaddr_t) (sp0 : Nat),
      (∀ k, k < np.nr_subpages_per_page → rd.lpa k ≠ -1 →
        to_u64 (rd.lpa k) < np.nr_subpages_per_ssd →
        find_lpa_4kb p (to_u64 (rd.lpa k)) = none) →
      (to_u64 rd.lpa_cg ≥ np.nr_pages_per_ssd ∨
        ∃ k, k < np.nr_subpages_per_page ∧ rd.lpa k ≠ -1 ∧
          to_u64 (rd.lpa k) ≥ np.nr_subpages_per_ssd) →
      ∃ r, bdbm_fgm_ftl_get_ppa np p rd ph0 sp0 = some r ∧ r.ret ≠ 0) := by
  refine ⟨?_, ?_, ?_, ?_, ?_⟩
  · intro la P hcg
    have hu : to_u64 la.lpa_cg = np.nr_pages_per_ssd - 1 := by
      rw [hcg]; exact to_u64_natCast _ (by omega)
    obtain ⟨me, hme⟩ : ∃ me, p.ptr_mapping_table[to_u64 la.lpa_cg]? = some me := by
      rw [hu]; exact ⟨_, List.getElem?_eq_getElem (by omega)⟩
    obtain ⟨p', hp', _⟩ := map_16kb_result np p la P me (by omega) hme
    refine ⟨p', ?_⟩
    unfold bdbm_fgm_ftl_map_lpa_to_ppa
    rw [if_neg (by omega), if_neg (by omega), hp']
  · intro la P h1 h2
    have hu : to_u64 la.lpa_cg ≥ np.nr_pages_per_ssd := by unfold to_u64; omega
    unfold bdbm_fgm_ftl_map_lpa_to_ppa
    rw [if_neg (by omega), if_neg (by omega)]
    unfold __bdbm_fgm_ftl_map_lpa_to_ppa
    rw [if_pos hu]
  · intro la P s bi b hcg hlpa hbi hb hs hfree hlow
    have hu : to_u64 (la.lpa la.ofs) = np.nr_subpages_per_ssd - 1 := by
      rw [hlpa]; exact to_u64_natCast _ (by omega)
    obtain ⟨p', hp', _⟩ := map_4kb_result np p la P s bi b (by omega) hbi hb hs hfree hlow
    refine ⟨p', ?_⟩
    unfold bdbm_fgm_ftl_map_lpa_to_ppa
    rw [if_pos hcg, hp']
  · intro la P hcg hlpa
    have hu : to_u64 (la.lpa la.ofs) = np.nr_subpages_per_ssd := by
      rw [hlpa]; exact to_u64_natCast _ (by omega)
    unfold bdbm_fgm_ftl_map_lpa_to_ppa
    rw [if_pos hcg]
    unfold __bdbm_fgm_ftl_map_lpa_to_ppa_4kb
    rw [if_pos (by omega)]
  · intro rd ph0 sp0 hdead hbad
    unfold bdbm_fgm_ftl_get_ppa
    rcases get_ppa_loop_no_live np p rd ph0 sp0 (List.range np.nr_subpages_per_page)
      (fun k hk => hdead k (List.mem_range.1 hk)) with h1 | ⟨h1, h2⟩
    · exact ⟨_, h1, by simp⟩
    · rcases hbad with hcg | ⟨k, hk, hk1, hk2⟩
      · rw [h1]
        unfold __bdbm_fgm_ftl_get_ppa
        rw [if_pos hcg]
        exact ⟨_, rfl, by simp⟩
      · exfalso
        rcases h2 k (List.mem_range.2 hk) with h | h
        · exact hk1 h
        · omega

/-- Witness of C10 on the fresh FTL of the small geometry: logical page 15 is
accepted and logical page 16 is refused. -/
theorem C10_boundary_witness :
    (∃ p', bdbm_fgm_ftl_map_lpa_to_ppa ex_np ex_fresh (ex_la16 15) (ex_ppa 0 0) =
        some (0, p', (ex_la16 15).ofs)) ∧
    bdbm_fgm_ftl_map_lpa_to_ppa ex_np ex_fresh (ex_la16 16) (ex_ppa 0 0) =
        some (1, ex_fresh, (ex_la16 16).ofs) :=
  have h := C10_boundary ex_np ex_fresh (by decide) (by decide) (by decide) (by decide)
    (by decide)
  ⟨h.1 (ex_la16 15) (ex_ppa 0 0) rfl, h.2.1 (ex_la16 16) (ex_ppa 0 0) (by decide) (by decide)⟩

/-- The normal stream hands out the address under its own cursor and leaves
the fine and compaction streams as they are. -/
theorem get_free_ppa_normal_frame (np : bdbm_device_params_t) (p : bdbm_fgm_ftl_private_t)
    (r : Nat × bdbm_fgm_ftl_private_t × bdbm_phyaddr_t)
    (h : __bdbm_fgm_ftl_get_free_ppa np p = some r) :
    stream_ppa np p.bai p.ac_bab p.curr_puid p.curr_page_ofs = some r.2.2 ∧
      stream_4kb_same p r.2.1 ∧ stream_cmp_same p r.2.1 := by
  unfold __bdbm_fgm_ftl_get_free_ppa at h
  cases hs : stream_ppa np p.bai p.ac_bab p.curr_puid p.curr_page_ofs with
  | none => rw [hs] at h; cases h
  | some ppa =>
    rw [hs] at h
    simp only at h
    split_ifs at h <;> cases h <;> exact ⟨rfl, ⟨rfl, rfl, rfl⟩, ⟨rfl, rfl, rfl⟩⟩

/-- The normal stream returns whenever the three checks on the address under
its cursor pass. -/
theorem get_free_ppa_normal_returns (np : bdbm_device_params_t) (p : bdbm_fgm_ftl_private_t)
    (ppa : bdbm_phyaddr_t)
    (hs : stream_ppa np p.bai p.ac_bab p.curr_puid p.curr_page_ofs = some ppa) :
    ∃ ret p', __bdbm_fgm_ftl_get_free_ppa np p = some (ret, p', ppa) := by
  unfold __bdbm_fgm_ftl_get_free_ppa
  rw [hs]
  simp only
  split_ifs <;> exact ⟨_, _, rfl⟩

/-- The compaction stream hands out the address under its own cursor and
leaves the normal and fine streams as they are. -/
theorem get_free_ppa_cmp_frame (np : bdbm_device_params_t) (p : bdbm_fgm_ftl_private_t)
    (r : Nat × bdbm_fgm_ftl_private_t × bdbm_phyaddr_t)
    (h : __bdbm_fgm_ftl_get_free_ppa_cmp np p = some r) :
    stream_ppa np p.bai p.ac_bab_cmp p.curr_puid_cmp p.curr_page_ofs_cmp = some r.2.2 ∧
      stream_normal_same p r.2.1 ∧ stream_4kb_same p r.2.1 := by
  unfold __bdbm_fgm_ftl_get_free_ppa_cmp at h
  cases hs : stream_ppa np p.bai p.ac_bab_cmp p.curr_puid_cmp p.curr_page_ofs_cmp with
  | none => rw [hs] at h; cases h
  | some ppa =>
    rw [hs] at h
    simp only at h
    split_ifs at h <;> cases h <;> exact ⟨rfl, ⟨rfl, rfl, rfl⟩, ⟨rfl, rfl, rfl⟩⟩

/-- The compaction stream returns whenever the three checks on the address
under its cursor pass. -/
theorem get_free_ppa_cmp_returns (np : bdbm_device_params_t) (p : bdbm_fgm_ftl_private_t)
    (ppa : bdbm_phyaddr_t)
    (hs : stream_ppa np p.bai p.ac_bab_cmp p.curr_puid_cmp p.curr_page_ofs_cmp = some ppa) :
    ∃ ret p', __bdbm_fgm_ftl_get_free_ppa_cmp np p = some (ret, p', ppa) := by
  unfold __bdbm_fgm_ftl_get_free_ppa_cmp
  rw [hs]
  simp only
  split_ifs <;> exact ⟨_, _, rfl⟩

/-- The fine stream hands out the address under its own cursor and, unless it
enters the recycle engine, leaves the normal and compaction streams as they
are. -/
theorem get_free_ppa_4kb_frame (np : bdbm_device_params_t)
    (recycle : bdbm_fgm_ftl_private_t → Option (Nat × bdbm_fgm_ftl_private_t))
    (p : bdbm_fgm_ftl_private_t) (r : Nat × bdbm_fgm_ftl_private_t × bdbm_phyaddr_t)
    (h : __bdbm_fgm_ftl_get_free_ppa_4kb np recycle p = some r) :
    stream_ppa np p.bai p.ac_bab_4kb p.curr_puid_4kb p.curr_page_ofs_4kb = some r.2.2 ∧
      (¬ recycle_due np p → stream_normal_same p r.2.1 ∧ stream_cmp_same p r.2.1) := by
  unfold __bdbm_fgm_ftl_get_free_ppa_4kb at h
  cases hs : stream_ppa np p.bai p.ac_bab_4kb p.curr_puid_4kb p.curr_page_ofs_4kb with
  | none => rw [hs] at h; cases h
  | some ppa =>
    rw [hs] at h
    simp only at h
    by_cases h1 : (p.curr_puid_4kb + 1) % 18446744073709551616 = p.nr_punits
    · rw [if_pos h1] at h
      by_cases h2 : (p.curr_page_ofs_4kb + 1) % 18446744073709551616 = np.nr_pages_per_block
      · rw [if_pos h2] at h
        by_cases h3 : p.bai.nr_dirty_4kb_blks > p.nr_max_dirty_4kb_blks
        · rw [if_pos h3] at h
          cases hr : recycle { p with
              curr_puid_4kb := 0,
              curr_page_ofs_4kb := 0 } with
          | none =>
            exfalso
            simp only [hr] at h
            cases h
          | some q =>
            simp only [hr] at h
            cases h
            exact ⟨rfl, fun hn => absurd ⟨h1, h2, h3⟩ hn⟩
        · rw [if_neg h3] at h
          split_ifs at h <;> cases h <;> exact ⟨rfl, fun _ => ⟨⟨rfl, rfl, rfl⟩, ⟨rfl, rfl, rfl⟩⟩⟩
      · rw [if_neg h2] at h
        cases h
        exact ⟨rfl, fun _ => ⟨⟨rfl, rfl, rfl⟩, ⟨rfl, rfl, rfl⟩⟩⟩
    · rw [if_neg h1] at h
      cases h
      exact ⟨rfl, fun _ => ⟨⟨rfl, rfl, rfl⟩, ⟨rfl, rfl, rfl⟩⟩⟩

/-- Outside the recycle branch the fine stream returns whenever the three
checks on the address under its cursor pass. -/
theorem get_free_ppa_4kb_returns (np : bdbm_device_params_t)
    (recycle : bdbm_fgm_ftl_private_t → Option (Nat × bdbm_fgm_ftl_private_t))
    (p : bdbm_fgm_ftl_private_t) (ppa : bdbm_phyaddr_t)
    (hs : stream_ppa np p.bai p.ac_bab_4kb p.curr_puid_4kb p.curr_page_ofs_4kb = some ppa)
    (hn : ¬ recycle_due np p) :
    ∃ ret p', __bdbm_fgm_ftl_get_free_ppa_4kb np recycle p = some (ret, p', ppa) := by
  unfold __bdbm_fgm_ftl_get_free_ppa_4kb
  rw [hs]
  simp only
  by_cases h1 : (p.curr_puid_4kb + 1) % 18446744073709551616 = p.nr_punits
  · rw [if_pos h1]
    by_cases h2 : (p.curr_page_ofs_4kb + 1) % 18446744073709551616 = np.nr_pages_per_block
    · rw [if_pos h2]
      by_cases h3 : p.bai.nr_dirty_4kb_blks > p.nr_max_dirty_4kb_blks
      · exact absurd ⟨h1, h2, h3⟩ hn
      · rw [if_neg h3]
        split_ifs <;> exact ⟨_, _, rfl⟩
    · rw [if_neg h2]
      exact ⟨_, _, rfl⟩
  · rw [if_neg h1]
    exact ⟨_, _, rfl⟩

/-- The facade is the dispatch on `lpa_cg`, whatever the fuel. -/
theorem get_free_ppa_unfold (env : fgm_env_t) (np : bdbm_device_params_t) (fuel : Nat)
    (p : bdbm_fgm_ftl_private_t) (la : bdbm_logaddr_t) :
    ∃ recycle, bdbm_fgm_ftl_get_free_ppa env np fuel p la =
      get_free_ppa_dispatch np recycle p la := by
  cases fuel with
  | zero => exact ⟨_, rfl⟩
  | succ n => exact ⟨_, rfl⟩

/-- Claim C1, as stated, fails on the code: in the state `ex_recycle` of the
small geometry a call with `lpa_cg = -1` returns 0 with the address of the
fine stream (page 1 of block 6) and has moved the page offset of the
compaction stream from 0 to 1: the fine stream entered the recycle engine,
which relocated the once-written sub-page 5 from the last column of block 2
with a write tagged `lpa_cg = -2`. -/
theorem C1_counterexample :
    (ex_la4 20).lpa_cg = -1 ∧ ex_recycle.curr_page_ofs_cmp = 0 ∧
    (bdbm_fgm_ftl_get_free_ppa ex_env_dev ex_np 1 ex_recycle (ex_la4 20)).map
      (fun r => (r.1, r.2.2, r.2.1.curr_page_ofs_cmp)) = some (0, ex_ppa 6 1, 1) := by
  decide

/-- Claim C1, amended.  `bdbm_fgm_ftl_get_free_ppa` dispatches on `lpa_cg`:
with `lpa_cg = -1` the address returned is the one under the cursor of the
fine stream, with `lpa_cg = -2` that of the compaction stream, with any other
value that of the normal stream; the call returns whenever the checks on that
address pass (for the fine stream: outside the recycle branch).  The normal
and the compaction stream leave the cursors and active blocks of the other two
streams unchanged; the fine stream does so unless the call enters the recycle
engine (`recycle_due`), whose relocation writes allocate through
`bdbm_fgm_ftl_get_free_ppa` themselves. -/
theorem C1_dispatch (env : fgm_env_t) (np : bdbm_device_params_t) (fuel : Nat)
    (p : bdbm_fgm_ftl_private_t) (la : bdbm_logaddr_t) :
    (la.lpa_cg = -1 →
      (∀ r, bdbm_fgm_ftl_get_free_ppa env np fuel p la = some r →
        stream_ppa np p.bai p.ac_bab_4kb p.curr_puid_4kb p.curr_page_ofs_4kb = some r.2.2 ∧
        (¬ recycle_due np p → stream_normal_same p r.2.1 ∧ stream_cmp_same p r.2.1)) ∧
      (∀ ppa, stream_ppa np p.bai p.ac_bab_4kb p.curr_puid_4kb p.curr_page_ofs_4kb = some ppa →
        ¬ recycle_due np p →
        ∃ ret p', bdbm_fgm_ftl_get_free_ppa env np fuel p la = some (ret, p', ppa))) ∧
    (la.lpa_cg = -2 →
      (∀ r, bdbm_fgm_ftl_get_free_ppa env np fuel p la = some r →
        stream_ppa np p.bai p.ac_bab_cmp p.curr_puid_cmp p.curr_page_ofs_cmp = some r.2.2 ∧
        stream_normal_same p r.2.1 ∧ stream_4kb_same p r.2.1) ∧
      (∀ ppa, stream_ppa np p.bai p.ac_bab_cmp p.curr_puid_cmp p.curr_page_ofs_cmp = some ppa →
        ∃ ret p', bdbm_fgm_ftl_get_free_ppa env np fuel p la = some (ret, p', ppa))) ∧
    (la.lpa_cg ≠ -1 → la.lpa_cg ≠ -2 →
      (∀ r, bdbm_fgm_ftl_get_free_ppa env np fuel p la = some r →
        stream_ppa np p.bai p.ac_bab p.curr_puid p.curr_page_ofs = some r.2.2 ∧
        stream_4kb_same p r.2.1 ∧ stream_cmp_same p r.2.1) ∧
      (∀ ppa, stream_ppa np p.bai p.ac_bab p.curr_puid p.curr_page_ofs = some ppa →
        ∃ ret p', bdbm_fgm_ftl_get_free_ppa env np fuel p la = some (ret, p', ppa))) := by
  obtain ⟨recycle, hrec⟩ := get_free_ppa_unfold env np fuel p la
  rw [hrec]
  unfold get_free_ppa_dispatch
  refine ⟨?_, ?_, ?_⟩
  · intro h
    rw [if_pos h]
    exact ⟨fun r hr => get_free_ppa_4kb_frame np recycle p r hr,
      fun ppa hs hn => get_free_ppa_4kb_returns np recycle p ppa hs hn⟩
  · intro h
    rw [if_neg (by omega), if_pos h]
    exact ⟨fun r hr => get_free_ppa_cmp_frame np p r hr,
      fun ppa hs => get_free_ppa_cmp_returns np p ppa hs⟩
  · intro h1 h2
    rw [if_neg h1, if_neg h2]
    exact ⟨fun r hr => get_free_ppa_normal_frame np p r hr,
      fun ppa hs => get_free_ppa_normal_returns np p ppa hs⟩

/-- Witness of C1: on the fresh FTL of the small geometry a 16KB request for
logical page 0 is served by the normal stream with page 0 of block 0. -/
theorem C1_dispatch_witness :
    (ex_la16 0).lpa_cg ≠ -1 ∧ (ex_la16 0).lpa_cg ≠ -2 ∧
    stream_ppa ex_np ex_fresh.bai ex_fresh.ac_bab ex_fresh.curr_puid ex_fresh.curr_page_ofs =
      some (ex_ppa 0 0) ∧
    ∃ ret p', bdbm_fgm_ftl_get_free_ppa ex_env ex_np 1 ex_fresh (ex_la16 0) =
      some (ret, p', ex_ppa 0 0) :=
  ⟨by decide, by decide, by decide,
   ((C1_dispatch ex_env ex_np 1 ex_fresh (ex_la16 0)).2.2 (by decide) (by decide)).2
     (ex_ppa 0 0) (by decide)⟩

/-! ## Properties of the GC engine -/

/-- The dies walked by the nested loops are the pairs of an in-range channel
and an in-range chip. -/
theorem die_list_mem (np : bdbm_device_params_t) (i j : Nat) :
    (i, j) ∈ die_list np ↔ i < np.nr_channels ∧ j < np.nr_chips_per_channel := by
  unfold die_list
  simp only [List.mem_flatMap, List.mem_map, List.mem_range, Prod.mk.injEq]
  constructor
  · rintro ⟨a, ha, b, hb, rfl, rfl⟩
    exact ⟨ha, hb⟩
  · rintro ⟨hi, hj⟩
    exact ⟨i, hi, j, hj, rfl, rfl⟩

/-- The nested loops over the dies make `nr_channels * nr_chips_per_channel`
rounds. -/
theorem die_list_length (np : bdbm_device_params_t) :
    (die_list np).length = np.nr_channels * np.nr_chips_per_channel := by
  unfold die_list
  induction np.nr_channels with
  | zero => simp
  | succ n ih =>
    rw [List.range_succ, List.flatMap_append, List.length_append, ih]
    simp [Nat.succ_mul]

/-- The victim selection returns on a dirty list of existing blocks. -/
theorem victim_selection_loop_returns (np : bdbm_device_params_t) (bai : bdbm_abm_info_t)
    (a c : Option Nat) (l : List Nat) (hl : ∀ bi ∈ l, bi < bai.blocks.length) :
    ∀ v : Option Nat, (∀ vi, v = some vi → vi < bai.blocks.length) →
      ∃ r, victim_selection_loop np bai a c l v = some r := by
  induction l with
  | nil => intro v _; exact ⟨v, rfl⟩
  | cons bi rest ih =>
    intro v hv
    have hrest : ∀ x ∈ rest, x < bai.blocks.length :=
      fun x hx => hl x (List.mem_cons_of_mem _ hx)
    have hbi : bi < bai.blocks.length := hl bi (List.mem_cons_self _ _)
    unfold victim_selection_loop
    split_ifs with h1 h2
    · exact ih hrest v hv
    · exact ih hrest v hv
    · rw [List.getElem?_eq_getElem hbi]
      simp only
      split_ifs with h3
      · exact ⟨_, rfl⟩
      · cases v with
        | none => exact ih hrest (some bi) (fun vi h => by cases h; exact hbi)
        | some vi =>
          have hvi := hv vi rfl
          simp only
          rw [List.getElem?_eq_getElem hvi]
          simp only
          split_ifs
          · exact ih hrest (some bi) (fun vi h => by cases h; exact hbi)
          · exact ih hrest (some vi) hv

/-- A dirty list that holds only the two active blocks of the die yields no
victim. -/
theorem victim_selection_loop_none (np : bdbm_device_params_t) (bai : bdbm_abm_info_t)
    (a c : Option Nat) (l : List Nat) (hl : ∀ bi ∈ l, a = some bi ∨ c = some bi) :
    victim_selection_loop np bai a c l none = some none := by
  induction l with
  | nil => rfl
  | cons bi rest ih =>
    have hrest : ∀ x ∈ rest, a = some x ∨ c = some x :=
      fun x hx => hl x (List.mem_cons_of_mem _ hx)
    unfold victim_selection_loop
    rcases hl bi (List.mem_cons_self _ _) with h | h
    · rw [if_pos h]; exact ih hrest
    · by_cases h1 : a = some bi
      · rw [if_pos h1]; exact ih hrest
      · rw [if_neg h1, if_pos h]; exact ih hrest

/-- The selection loop of `bdbm_fgm_ftl_do_gc` changes `gc_bab` only, counts
one victim per die at most, and fewer than one per die when a die yields
none. -/
theorem gc_select_loop_spec (np : bdbm_device_params_t) (p : bdbm_fgm_ftl_private_t)
    (l : List (Nat × Nat))
    (hl : ∀ d ∈ l, ∃ r, __bdbm_fgm_ftl_victim_selection_greedy np p d.1 d.2 = some r) :
    ∀ (n : Nat) (g : List (Option Nat)),
      ∃ m g', gc_select_loop np l n { p with gc_bab := g } = some (m, { p with gc_bab := g' }) ∧
        m ≤ n + l.length ∧
        ((∃ d ∈ l, __bdbm_fgm_ftl_victim_selection_greedy np p d.1 d.2 = some none) →
          m < n + l.length) := by
  induction l with
  | nil => intro n g; exact ⟨n, g, rfl, Nat.le_refl _, fun ⟨d, hd, _⟩ => by cases hd⟩
  | cons d rest ih =>
    intro n g
    have hrest : ∀ x ∈ rest, ∃ r, __bdbm_fgm_ftl_victim_selection_greedy np p x.1 x.2 = some r :=
      fun x hx => hl x (List.mem_cons_of_mem _ hx)
    obtain ⟨r, hr⟩ := hl d (List.mem_cons_self _ _)
    have hsame : __bdbm_fgm_ftl_victim_selection_greedy np { p with gc_bab := g } d.1 d.2 =
        some r := hr
    obtain ⟨i, j⟩ := d
    unfold gc_select_loop
    rw [hsame]
    cases r with
    | none =>
      obtain ⟨m, g', h1, h2, _⟩ := ih hrest n g
      refine ⟨m, g', h1, ?_, fun _ => ?_⟩
      · simp only [List.length_cons]; omega
      · simp only [List.length_cons]; omega
    | some b =>
      obtain ⟨m, g', h1, h2, h3⟩ := ih hrest (n + 1) (g.set n (some b))
      refine ⟨m, g', h1, ?_, fun hex => ?_⟩
      · simp only [List.length_cons]; omega
      · obtain ⟨d', hd', hn⟩ := hex
        rcases List.mem_cons.1 hd' with rfl | hin
        · simp only at hn hr
          rw [hr] at hn
          cases hn
        · have := h3 ⟨d', hin, hn⟩
          simp only [List.length_cons]; omega


/-- Claim C15.  If the dirty list of some parallel unit `(i, j)` holds no
block other than the active block of the normal stream and the active block
of the compaction stream of that die, `bdbm_fgm_ftl_do_gc` returns 0 and the
state it leaves differs from the one it found in the scratch vector `gc_bab`
only: no descriptor has been handed to `make_req`, the ABM (its record of
calls included, so no `erase_block`) is as before, and so are the 16KB table,
the 4KB table and the cursor and active blocks of each of the three streams.
The active-block vectors hold an entry per parallel unit and the dirty lists
hold existing blocks. -/
theorem C15_gc_no_victim (env : fgm_env_t) (np : bdbm_device_params_t)
    (get_free_ppa : bdbm_fgm_ftl_private_t → bdbm_logaddr_t →
      Option (Nat × bdbm_fgm_ftl_private_t × bdbm_phyaddr_t))
    (p : bdbm_fgm_ftl_private_t) (i j : Nat)
    (hN : np.nr_channels * np.nr_chips_per_channel < 18446744073709551616)
    (ha : np.nr_channels * np.nr_chips_per_channel ≤ p.ac_bab.length)
    (hc : np.nr_channels * np.nr_chips_per_channel ≤ p.ac_bab_cmp.length)
    (hD : ∀ l ∈ p.bai.list_head_dirty, ∀ bi ∈ l, bi < p.bai.blocks.length)
    (hi : i < np.nr_channels) (hj : j < np.nr_chips_per_channel)
    (hno : ∀ bi ∈ p.bai.list_head_dirty.getD (abm_die np i j) [],
      p.ac_bab[i * np.nr_chips_per_channel + j]? = some (some bi) ∨
      p.ac_bab_cmp[i * np.nr_chips_per_channel + j]? = some (some bi)) :
    ∃ p', bdbm_fgm_ftl_do_gc env np get_free_ppa p = some (0, p') ∧
      (∃ g, p' = { p with gc_bab := g }) ∧
      p'.llm_reqs_made = p.llm_reqs_made ∧ p'.bai = p.bai ∧
      p'.ptr_mapping_table = p.ptr_mapping_table ∧
      p'.ptr_sp_hash_table = p.ptr_sp_hash_table ∧
      stream_normal_same p p' ∧ stream_4kb_same p p' ∧ stream_cmp_same p p' := by
  have hidx : ∀ a b, a < np.nr_channels → b < np.nr_chips_per_channel →
      a * np.nr_chips_per_channel + b < np.nr_channels * np.nr_chips_per_channel := by
    intro a b h1 h2
    have : (a + 1) * np.nr_chips_per_channel ≤ np.nr_channels * np.nr_chips_per_channel :=
      Nat.mul_le_mul_right _ h1
    rw [Nat.succ_mul] at this
    omega
  have hdl : ∀ d, ∀ bi ∈ p.bai.list_head_dirty.getD d [], bi < p.bai.blocks.length := by
    intro d bi hbi
    rw [List.getD_eq_getElem?_getD] at hbi
    cases hg : p.bai.list_head_dirty[d]? with
    | none => rw [hg] at hbi; cases hbi
    | some l =>
      rw [hg] at hbi
      exact hD l (List.getElem?_mem hg) bi hbi
  have htot : ∀ d ∈ die_list np,
      ∃ r, __bdbm_fgm_ftl_victim_selection_greedy np p d.1 d.2 = some r := by
    rintro ⟨a, b⟩ hd
    obtain ⟨h1, h2⟩ := (die_list_mem np a b).1 hd
    have hx := hidx a b h1 h2
    unfold __bdbm_fgm_ftl_victim_selection_greedy
    rw [List.getElem?_eq_getElem (Nat.lt_of_lt_of_le hx ha),
      List.getElem?_eq_getElem (Nat.lt_of_lt_of_le hx hc)]
    exact victim_selection_loop_returns np p.bai _ _ _ (hdl _) none (fun _ h => by cases h)
  have hnone : __bdbm_fgm_ftl_victim_selection_greedy np p i j = some none := by
    have hx := hidx i j hi hj
    unfold __bdbm_fgm_ftl_victim_selection_greedy
    have e1 := List.getElem?_eq_getElem (Nat.lt_of_lt_of_le hx ha)
    have e2 := List.getElem?_eq_getElem (Nat.lt_of_lt_of_le hx hc)
    rw [e1, e2]
    apply victim_selection_loop_none
    intro bi hbi
    rcases hno bi hbi with h | h
    · left; rw [e1] at h; exact Option.some.inj h
    · right; rw [e2] at h; exact Option.some.inj h
  obtain ⟨m, g, hsel, _, hlt⟩ :=
    gc_select_loop_spec np p (die_list np) htot 0 (p.gc_bab.map (fun _ => none))
  have hm : m < np.nr_channels * np.nr_chips_per_channel := by
    have := hlt ⟨(i, j), (die_list_mem np i j).2 ⟨hi, hj⟩, hnone⟩
    rw [die_list_length] at this
    omega
  refine ⟨{ p with gc_bab := g }, ?_, ⟨g, rfl⟩, rfl, rfl, rfl, rfl, ⟨rfl, rfl, rfl⟩,
    ⟨rfl, rfl, rfl⟩, ⟨rfl, rfl, rfl⟩⟩
  unfold bdbm_fgm_ftl_do_gc
  simp only
  rw [hsel]
  simp only
  rw [Nat.mod_eq_of_lt hN, if_pos hm]

/-- Witness of C15 on the geometry with four dies: three dies have a victim
(the blocks 1, 4 and 7, each with four INVALID sub-pages and a page that is
not INVALID), the dirty list of die `(1, 1)` holds only the blocks 9 and 11,
its active blocks of the normal and of the compaction stream.  The engine
returns 0 and leaves everything but `gc_bab` as it found it. -/
theorem C15_gc_no_victim_witness :
    ((die_list ex_np4).map
        (fun d => __bdbm_fgm_ftl_victim_selection_greedy ex_np4 ex_gc_gap d.1 d.2) =
      [some (some 1), some (some 4), some (some 7), some none] ∧
     ex_gc_gap.bai.list_head_dirty.getD (abm_die ex_np4 1 1) [] = [9, 11] ∧
     (ex_gc_gap.ac_bab[1 * ex_np4.nr_chips_per_channel + 1]?,
      ex_gc_gap.ac_bab_cmp[1 * ex_np4.nr_chips_per_channel + 1]?) =
       (some (some 9), some (some 11)) ∧
     (bdbm_fgm_ftl_do_gc ex_env ex_np4 (bdbm_fgm_ftl_get_free_ppa ex_env ex_np4 1)
        ex_gc_gap).map (fun x => x.2.gc_bab) = some [some 1, some 4, some 7, none]) ∧
    ∃ p', bdbm_fgm_ftl_do_gc ex_env ex_np4 (bdbm_fgm_ftl_get_free_ppa ex_env ex_np4 1)
        ex_gc_gap = some (0, p') ∧
      (∃ g, p' = { ex_gc_gap with gc_bab := g }) ∧
      p'.llm_reqs_made = ex_gc_gap.llm_reqs_made ∧ p'.bai = ex_gc_gap.bai ∧
      p'.ptr_mapping_table = ex_gc_gap.ptr_mapping_table ∧
      p'.ptr_sp_hash_table = ex_gc_gap.ptr_sp_hash_table ∧
      stream_normal_same ex_gc_gap p' ∧ stream_4kb_same ex_gc_gap p' ∧
      stream_cmp_same ex_gc_gap p' :=
  ⟨by decide,
   C15_gc_no_victim ex_env ex_np4 _ ex_gc_gap 1 1 (by decide) (by decide) (by decide)
    (by decide) (by decide) (by decide) (by decide)⟩

/-! ## Boundaries and failure paths of the facade -/

/-- Converting a non-negative value to `uint64_t` never makes it larger. -/
theorem to_u64_natCast_le (n : Nat) : to_u64 (n : Int) ≤ n := by
  unfold to_u64
  have h : ((n : Int) % 18446744073709551616) = ((n % 18446744073709551616 : Nat) : Int) := by
    norm_cast
  rw [h, Int.toNat_natCast]
  exact Nat.mod_le _ _

/-- Claim C11, on the code.  `bdbm_fgm_ftl_invalidate_lpa_4kb` rejects an
address only when it is greater than `nr_subpages_per_ssd`: for
`lpa = nr_subpages_per_ssd`, the first address beyond the logical space, it
returns 0 in every state (on the small geometry with 64 sub-pages: 0 at 64,
state untouched, and 1 from 65 on), where the claim requires a non-zero
return.  The return value is 1 exactly when `(uint64_t) lpa` exceeds
`nr_subpages_per_ssd`, so `nr_subpages_per_ssd - 1` is accepted as claimed. -/
theorem C11_invalidate_4kb_boundary :
    (∀ (np : bdbm_device_params_t) (p : bdbm_fgm_ftl_private_t),
      (bdbm_fgm_ftl_invalidate_lpa_4kb np p (np.nr_subpages_per_ssd : Int)).1 = 0) ∧
    bdbm_fgm_ftl_invalidate_lpa_4kb ex_np ex_fresh 64 = (0, ex_fresh) ∧
    bdbm_fgm_ftl_invalidate_lpa_4kb ex_np ex_fresh 65 = (1, ex_fresh) ∧
    (∀ (np : bdbm_device_params_t) (p : bdbm_fgm_ftl_private_t) (lpa : Int),
      (bdbm_fgm_ftl_invalidate_lpa_4kb np p lpa).1 =
        if np.nr_subpages_per_ssd < to_u64 lpa then 1 else 0) := by
  have hgen : ∀ (np : bdbm_device_params_t) (p : bdbm_fgm_ftl_private_t) (lpa : Int),
      (bdbm_fgm_ftl_invalidate_lpa_4kb np p lpa).1 =
        if np.nr_subpages_per_ssd < to_u64 lpa then 1 else 0 := by
    intro np p lpa
    unfold bdbm_fgm_ftl_invalidate_lpa_4kb
    by_cases h : to_u64 lpa > np.nr_subpages_per_ssd
    · rw [if_pos h, if_pos h]
    · rw [if_neg h, if_neg h]
      cases find_lpa_4kb p (to_u64 lpa) <;> rfl
  refine ⟨fun np p => ?_, by decide, by decide, hgen⟩
  rw [hgen, if_neg (Nat.not_lt.2 (to_u64_natCast_le _))]

/-- Claim C12, on the code.  The 16KB path and the fine path check the range
before they touch anything: an out-of-range `lpa_cg`, or `lpa[ofs]` with
`lpa_cg = -1`, gives return value 1 and the state of the call.  The compacted
path checks slot `k` only when its loop reaches it: on the small geometry,
with logical sub-page 42 live on page 0 of block 1, the compacted request
`lpa = [42, 64, -1, -1]` onto page 0 of block 2 returns 1 for the
out-of-range slot 1 after slot 0 has been committed, so the ABM has received
an `invalidate_page` for the old sub-page of 42 (now INVALID) and the 4KB
entry of 42 points to block 2 with `count = 2`. -/
theorem C12_invalid_input_atomicity :
    (∀ (np : bdbm_device_params_t) (p : bdbm_fgm_ftl_private_t) (la : bdbm_logaddr_t)
        (P : bdbm_phyaddr_t),
      la.lpa_cg ≠ -1 → la.lpa_cg ≠ -2 → la.lpa_cg ≠ -3 →
      np.nr_pages_per_ssd ≤ to_u64 la.lpa_cg →
      bdbm_fgm_ftl_map_lpa_to_ppa np p la P = some (1, p, la.ofs)) ∧
    (∀ (np : bdbm_device_params_t) (p : bdbm_fgm_ftl_private_t) (la : bdbm_logaddr_t)
        (P : bdbm_phyaddr_t),
      la.lpa_cg = -1 → np.nr_subpages_per_ssd ≤ to_u64 (la.lpa la.ofs) →
      bdbm_fgm_ftl_map_lpa_to_ppa np p la P = some (1, p, la.ofs)) ∧
    (find_lpa_4kb ex_mapped4 42 = some { lpa := 42, count := 1, ppa := ex_ppa 1 0, sp_off := 0 } ∧
     ex_mapped4.bai.blocks[1]?.map (fun b => b.pst.take 4) =
       some [bdbm_abm_subpage_t.VALID, bdbm_abm_subpage_t.NOT_INVALID,
             bdbm_abm_subpage_t.NOT_INVALID, bdbm_abm_subpage_t.NOT_INVALID] ∧
     (bdbm_fgm_ftl_map_lpa_to_ppa ex_np ex_mapped4 ex_la_cmp_bad (ex_ppa 2 0)).map
        (fun r => (r.1, find_lpa_4kb r.2.1 42,
                   r.2.1.bai.blocks[1]?.map (fun b => b.pst.take 4),
                   r.2.1.bai.calls.drop ex_mapped4.bai.calls.length)) =
       some (1, some { lpa := 42, count := 2, ppa := ex_ppa 2 0, sp_off := 0 },
             some [bdbm_abm_subpage_t.INVALID, bdbm_abm_subpage_t.NOT_INVALID,
                   bdbm_abm_subpage_t.NOT_INVALID, bdbm_abm_subpage_t.NOT_INVALID],
             [abm_call_t.invalidate_page 0 0 1 0 0])) := by
  refine ⟨?_, ?_, by decide, by decide, by decide⟩
  · intro np p la P h1 h2 h3 h
    unfold bdbm_fgm_ftl_map_lpa_to_ppa
    rw [if_neg h1, if_neg (by rintro (h | h) <;> contradiction)]
    unfold __bdbm_fgm_ftl_map_lpa_to_ppa
    rw [if_pos h]
  · intro np p la P h1 h
    unfold bdbm_fgm_ftl_map_lpa_to_ppa
    rw [if_pos h1]
    unfold __bdbm_fgm_ftl_map_lpa_to_ppa_4kb
    rw [if_pos h]

/-- The value of `bdbm_fgm_ftl_is_gc_needed`: 1 exactly when the truncated
percentage `nr_free_blks * 100 / nr_total_blks` is at most 2, that is when
`nr_free_blks * 100 < 3 * nr_total_blks`. -/
theorem is_gc_needed_eq (nr_total_blks nr_free_blks : Nat) (ht : 0 < nr_total_blks)
    (hb : nr_free_blks * 100 < 18446744073709551616) :
    bdbm_fgm_ftl_is_gc_needed nr_total_blks nr_free_blks =
      some (if nr_free_blks * 100 < 3 * nr_total_blks then 1 else 0) := by
  unfold bdbm_fgm_ftl_is_gc_needed
  rw [if_neg (by omega), Nat.mod_eq_of_lt hb]
  have hiff : nr_free_blks * 100 / nr_total_blks ≤ 2 ↔ nr_free_blks * 100 < 3 * nr_total_blks := by
    rw [← Nat.lt_succ_iff]
    exact Nat.div_lt_iff_lt_mul ht
  by_cases h : nr_free_blks * 100 < 3 * nr_total_blks
  · rw [if_pos (hiff.2 h), if_pos h]
  · rw [if_neg (fun h' => h (hiff.1 h')), if_neg h]

/-- Claim C14, on the code.  `bdbm_fgm_ftl_is_gc_needed` tests
`nr_free_blks * 100 / nr_total_blks <= 2` on the truncated percentage: for
`nr_total_blks > 0` (with `nr_free_blks * 100` inside `uint64_t`) it returns 1
exactly when `nr_free_blks * 100 < 3 * nr_total_blks`.  With 2 free blocks out
of 100, exactly 2%, it returns 1, where the claim has 0 at or above 2%; it
returns 1 up to 299 free blocks out of 10000 (2.99%) and 0 from 3% on.  With
1 free block out of 100 it returns 1 as well, the free blocks not being less
than the 1% of the comment above the test. -/
theorem C14_gc_threshold :
    (∀ nr_total_blks nr_free_blks : Nat, 0 < nr_total_blks →
      nr_free_blks * 100 < 18446744073709551616 →
      bdbm_fgm_ftl_is_gc_needed nr_total_blks nr_free_blks =
        some (if nr_free_blks * 100 < 3 * nr_total_blks then 1 else 0)) ∧
    (bdbm_fgm_ftl_is_gc_needed 100 2 = some 1 ∧ ¬ (2 * 100 < 2 * 100)) ∧
    (bdbm_fgm_ftl_is_gc_needed 10000 299 = some 1 ∧ ¬ (299 * 100 < 2 * 10000)) ∧
    (bdbm_fgm_ftl_is_gc_needed 100 1 = some 1 ∧ ¬ (1 * 100 < 1 * 100)) ∧
    bdbm_fgm_ftl_is_gc_needed 100 3 = some 0 ∧
    bdbm_fgm_ftl_is_gc_needed 10000 300 = some 0 := by
  refine ⟨fun t f ht hb => is_gc_needed_eq t f ht hb, ?_, ?_, ?_, ?_, ?_⟩ <;> decide

/-! ## The 16KB commit and the ABM -/

/-- No call at all is a run of invalidations. -/
theorem abm_only_invalidated_refl (bai : bdbm_abm_info_t) : abm_only_invalidated bai bai := by
  refine ⟨⟨[], by simp, fun c hc => by cases hc⟩, rfl, ?_⟩
  intro i b b' h h' j
  rw [h] at h'
  cases h'
  exact Or.inl rfl

/-- Runs of invalidations compose. -/
theorem abm_only_invalidated_trans (a b c : bdbm_abm_info_t)
    (h1 : abm_only_invalidated a b) (h2 : abm_only_invalidated b c) :
    abm_only_invalidated a c := by
  obtain ⟨⟨cs1, e1, f1⟩, l1, g1⟩ := h1
  obtain ⟨⟨cs2, e2, f2⟩, l2, g2⟩ := h2
  refine ⟨⟨cs1 ++ cs2, by rw [e2, e1, List.append_assoc], ?_⟩, by rw [l2, l1], ?_⟩
  · intro x hx
    rcases List.mem_append.1 hx with h | h
    · exact f1 x h
    · exact f2 x h
  · intro i x z hx hz j
    have hi : i < b.blocks.length := by
      rw [l1]
      exact (List.getElem?_eq_some.1 hx).1
    have hy := List.getElem?_eq_getElem hi
    rcases g2 i _ z hy hz j with p2 | p2
    · rcases g1 i x _ hx hy j with p1 | p1
      · left; rw [p2, p1]
      · right; rw [p2]; exact p1
    · right; exact p2

/-- One `bdbm_abm_invalidate_page` is a run of invalidations. -/
theorem abm_invalidate_page_only (np : bdbm_device_params_t) (bai : bdbm_abm_info_t)
    (c h b pg sub : Nat) :
    abm_only_invalidated bai (bdbm_abm_invalidate_page np bai c h b pg sub) := by
  have hcalls : ∃ cs, (bdbm_abm_invalidate_page np bai c h b pg sub).calls = bai.calls ++ cs ∧
      ∀ x ∈ cs, abm_is_invalidate x = true :=
    ⟨_, abm_invalidate_page_calls np bai c h b pg sub, fun x hx => by
      rw [List.mem_singleton.1 hx]; rfl⟩
  refine ⟨hcalls, ?_⟩
  have hsame : ∀ bai1 : bdbm_abm_info_t, bai1.blocks = bai.blocks →
      bai1.blocks.length = bai.blocks.length ∧
      ∀ (i : Nat) (x x' : bdbm_abm_block_t), bai.blocks[i]? = some x →
        bai1.blocks[i]? = some x' →
        ∀ j : Nat, x'.pst[j]? = x.pst[j]? ∨
          x'.pst[j]? = some bdbm_abm_subpage_t.INVALID := by
    intro bai1 e
    refine ⟨by rw [e], ?_⟩
    intro i x x' hx hx' j
    rw [e, hx] at hx'
    cases hx'
    exact Or.inl rfl
  unfold bdbm_abm_invalidate_page
  simp only
  split
  · exact hsame _ rfl
  · rename_i i hi
    split
    · exact hsame _ rfl
    · rename_i blk hblk
      split
      · rename_i hv
        refine ⟨by simp, ?_⟩
        intro i' x x' hx hx' j
        simp only at hx'
        by_cases hii : i = i'
        · subst hii
          rw [hblk] at hx
          cases hx
          have hlt : i < bai.blocks.length := (List.getElem?_eq_some.1 hblk).1
          rw [List.getElem?_set_self hlt] at hx'
          cases hx'
          simp only
          by_cases hj : pg * np.nr_subpages_per_page + sub = j
          · subst hj
            right
            rw [List.getElem?_set_self (List.getElem?_eq_some.1 hv).1]
          · left
            rw [List.getElem?_set_ne hj]
        · rw [List.getElem?_set_ne hii, hx] at hx'
          cases hx'
          exact Or.inl rfl
      · exact hsame _ rfl

/-- The invalidation of the page of a 16KB entry is a run of invalidations. -/
theorem abm_invalidate_me_only (np : bdbm_device_params_t) (me : bdbm_fgm_mapping_entry_t)
    (ks : List Nat) : ∀ bai, abm_only_invalidated bai (abm_invalidate_me np me ks bai) := by
  induction ks with
  | nil => intro bai; exact abm_only_invalidated_refl bai
  | cons k ks ih =>
    intro bai
    unfold abm_invalidate_me
    exact abm_only_invalidated_trans _ _ _ (abm_invalidate_page_only np bai _ _ _ _ _) (ih _)

/-- The invalidation loop of the 16KB commit is a run of invalidations. -/
theorem map_invalidate_4kb_loop_only (np : bdbm_device_params_t) (la : bdbm_logaddr_t)
    (ks : List Nat) :
    ∀ p, abm_only_invalidated p.bai (map_invalidate_4kb_loop np la ks p).bai := by
  induction ks with
  | nil => intro p; exact abm_only_invalidated_refl _
  | cons k ks ih =>
    intro p
    unfold map_invalidate_4kb_loop
    split
    · split
      · rename_i spme _
        refine abm_only_invalidated_trans _ _ _ ?_ (ih _)
        show abm_only_invalidated p.bai (abm_invalidate_spme np p.bai spme)
        unfold abm_invalidate_spme
        exact abm_invalidate_page_only np p.bai _ _ _ _ _
      · exact ih p
    · exact ih p

/-- Claim C13, as stated, fails on the code: after the host write of logical
page 0 (16KB) on the freshly created FTL of the small geometry the 16KB entry
of page 0 is VALID and points to page 0 of block 0, whose four sub-pages are
NOT_INVALID in the ABM, not VALID: the only calls the ABM has received are
the three `get_free_block_commit` of the creation. -/
theorem C13_counterexample :
    (ex_write ex_fresh (ex_la16 0)).map (fun p =>
      (p.ptr_mapping_table[0]?, p.bai.blocks[0]?.map (fun b => b.pst.take 4), p.bai.calls)) =
    some (some { status := PFTL_PAGE_VALID, phyaddr := ex_ppa 0 0, sp_off := 0 },
          some [bdbm_abm_subpage_t.NOT_INVALID, bdbm_abm_subpage_t.NOT_INVALID,
                bdbm_abm_subpage_t.NOT_INVALID, bdbm_abm_subpage_t.NOT_INVALID],
          [abm_call_t.get_free_block_commit 0, abm_call_t.get_free_block_commit 1,
           abm_call_t.get_free_block_commit 2]) := by
  decide

/-- Claim C13, amended.  The 16KB commit of an in-range logical page `L` onto
`P` returns 0 and leaves the 16KB entry of `L` VALID with the channel, chip,
block and page of `P`, and it makes no validate call: the only ABM calls it
makes are `bdbm_abm_invalidate_page` calls.  So the commit moves no sub-page
to VALID: when it returns every sub-page of every block is in the state it
had before or is INVALID, and a sub-page that is VALID then was VALID
before. -/
theorem C13_commit_16kb_abm (np : bdbm_device_params_t) (p : bdbm_fgm_ftl_private_t)
    (la : bdbm_logaddr_t) (P : bdbm_phyaddr_t) (me : bdbm_fgm_mapping_entry_t)
    (hr : to_u64 la.lpa_cg < np.nr_pages_per_ssd)
    (hme : p.ptr_mapping_table[to_u64 la.lpa_cg]? = some me) :
    ∃ p', __bdbm_fgm_ftl_map_lpa_to_ppa np p la P = some (0, p') ∧
      p'.ptr_mapping_table[to_u64 la.lpa_cg]? =
        some { status := PFTL_PAGE_VALID,
               phyaddr := { punit_id := me.phyaddr.punit_id, channel_no := P.channel_no,
                            chip_no := P.chip_no, block_no := P.block_no,
                            page_no := P.page_no },
               sp_off := 0 } ∧
      (∃ cs, p'.bai.calls = p.bai.calls ++ cs ∧ ∀ c ∈ cs, abm_is_invalidate c = true) ∧
      p'.bai.blocks.length = p.bai.blocks.length ∧
      (∀ (i : Nat) (b b' : bdbm_abm_block_t), p.bai.blocks[i]? = some b →
        p'.bai.blocks[i]? = some b' →
        ∀ j : Nat, (b'.pst[j]? = b.pst[j]? ∨ b'.pst[j]? = some bdbm_abm_subpage_t.INVALID) ∧
          (b'.pst[j]? = some bdbm_abm_subpage_t.VALID →
            b.pst[j]? = some bdbm_abm_subpage_t.VALID)) := by
  obtain ⟨p', h, htab, _⟩ := map_16kb_result np p la P me hr hme
  have hinv : abm_only_invalidated p.bai p'.bai := by
    unfold __bdbm_fgm_ftl_map_lpa_to_ppa at h
    rw [if_neg (by omega), hme] at h
    simp only [Option.some.injEq, Prod.mk.injEq, true_and] at h
    subst h
    simp only
    have h1 : abm_only_invalidated p.bai
        (if map_is_gc la (List.range' 1 (np.nr_subpages_per_page - 1)) ≠
            np.nr_subpages_per_page - 1 then
          map_invalidate_4kb_loop np la (List.range np.nr_subpages_per_page) p
        else p).bai := by
      split
      · exact map_invalidate_4kb_loop_only np la _ p
      · exact abm_only_invalidated_refl _
    by_cases hv : me.status = PFTL_PAGE_VALID
    · rw [if_pos hv]
      exact abm_only_invalidated_trans _ _ _ h1 (abm_invalidate_me_only np me _ _)
    · rw [if_neg hv]
      exact h1
  obtain ⟨hcalls, hlen, hpst⟩ := hinv
  refine ⟨p', h, ?_, hcalls, hlen, ?_⟩
  · rw [htab, List.getElem?_set_self (List.getElem?_eq_some.1 hme).1]
  · intro i b b' hb hb' j
    refine ⟨hpst i b b' hb hb' j, ?_⟩
    intro hV
    rcases hpst i b b' hb hb' j with e | e
    · rw [← e]; exact hV
    · rw [e] at hV
      exact absurd hV (by decide)

/-- Witness of C13: the 16KB commit of logical page 0 onto page 0 of block 0
on the freshly created FTL of the small geometry makes no ABM call and leaves
the four sub-pages of the page NOT_INVALID. -/
theorem C13_commit_16kb_abm_witness :
    (to_u64 (ex_la16 0).lpa_cg < ex_np.nr_pages_per_ssd ∧
      (__bdbm_fgm_ftl_map_lpa_to_ppa ex_np ex_fresh (ex_la16 0) (ex_ppa 0 0)).map
        (fun r => (r.2.bai.calls, r.2.bai.blocks[0]?.map (fun b => b.pst.take 4))) =
        some (ex_fresh.bai.calls,
          some (List.replicate 4 bdbm_abm_subpage_t.NOT_INVALID))) ∧
    ∃ p', __bdbm_fgm_ftl_map_lpa_to_ppa ex_np ex_fresh (ex_la16 0) (ex_ppa 0 0) = some (0, p') ∧
      p'.ptr_mapping_table[to_u64 (ex_la16 0).lpa_cg]? =
        some { status := PFTL_PAGE_VALID,
               phyaddr := { punit_id := 0, channel_no := 0, chip_no := 0, block_no := 0,
                            page_no := 0 },
               sp_off := 0 } ∧
      (∃ cs, p'.bai.calls = ex_fresh.bai.calls ++ cs ∧
        ∀ c ∈ cs, abm_is_invalidate c = true) ∧
      p'.bai.blocks.length = ex_fresh.bai.blocks.length ∧
      (∀ (i : Nat) (b b' : bdbm_abm_block_t), ex_fresh.bai.blocks[i]? = some b →
        p'.bai.blocks[i]? = some b' →
        ∀ j : Nat, (b'.pst[j]? = b.pst[j]? ∨ b'.pst[j]? = some bdbm_abm_subpage_t.INVALID) ∧
          (b'.pst[j]? = some bdbm_abm_subpage_t.VALID →
            b.pst[j]? = some bdbm_abm_subpage_t.VALID)) :=
  ⟨⟨by decide, by decide⟩,
   C13_commit_16kb_abm ex_np ex_fresh (ex_la16 0) (ex_ppa 0 0)
     { status := PFTL_PAGE_NOT_ALLOCATED,
       phyaddr := { punit_id := 0, channel_no := PFTL_PAGE_INVALID_ADDR,
                    chip_no := PFTL_PAGE_INVALID_ADDR, block_no := PFTL_PAGE_INVALID_ADDR,
                    page_no := PFTL_PAGE_INVALID_ADDR },
       sp_off := 255 } (by decide) (by decide)⟩

/-! ## Parallel-unit striping -/

/-- Successor of `n` when the residue modulo `N` does not wrap. -/
theorem succ_mod_div_lt (n N : Nat) (h : n % N + 1 < N) :
    (n + 1) % N = n % N + 1 ∧ (n + 1) / N = n / N := by
  have hN : 0 < N := by omega
  have e : n + 1 = (n % N + 1) + N * (n / N) := by
    have := Nat.mod_add_div n N
    omega
  constructor
  · rw [e, Nat.add_mul_mod_self_left, Nat.mod_eq_of_lt h]
  · rw [e, Nat.add_mul_div_left _ _ hN, Nat.div_eq_of_lt h, Nat.zero_add]

/-- Successor of `n` when the residue modulo `N` wraps. -/
theorem succ_mod_div_eq (n N : Nat) (h : n % N + 1 = N) :
    (n + 1) % N = 0 ∧ (n + 1) / N = n / N + 1 := by
  have hN : 0 < N := by omega
  have e : n + 1 = N * (n / N + 1) := by
    have := Nat.mod_add_div n N
    rw [Nat.mul_add, Nat.mul_one]
    omega
  constructor
  · rw [e, Nat.mul_mod_right]
  · rw [e, Nat.mul_div_cancel_left _ hN]

/-- The block a vector with a block per die holds for the die `(c, h)`. -/
theorem bab_per_die_get (np : bdbm_device_params_t) (bai : bdbm_abm_info_t)
    (bab : List (Option Nat)) (c h : Nat) (hb : bab_per_die np bai bab)
    (hc : c < np.nr_channels) (hh : h < np.nr_chips_per_channel) :
    ∃ (bi : Nat) (b : bdbm_abm_block_t),
      bab[c * np.nr_chips_per_channel + h]? = some (some bi) ∧ bai.blocks[bi]? = some b ∧
        b.channel_no = c ∧ b.chip_no = h := by
  have h1 := hb c hc h hh
  unfold bab_die_ok at h1
  split at h1
  · rename_i bi hbi
    split at h1
    · rename_i b hblk
      have h2 := of_decide_eq_true h1
      exact ⟨bi, b, hbi, hblk, h2.1, h2.2⟩
    · cases h1
  · cases h1

/-- The address read under the cursor `(m, q)` of a stream whose vector holds
a block per die. -/
theorem stream_ppa_at (np : bdbm_device_params_t) (bai : bdbm_abm_info_t)
    (bab : List (Option Nat)) (m q : Nat) (hb : bab_per_die np bai bab)
    (hm : m < np.nr_channels * np.nr_chips_per_channel) (hq : q < np.nr_pages_per_block) :
    ∃ ppa, stream_ppa np bai bab m q = some ppa ∧
      bab_addr np bai bab (m % np.nr_channels) (m / np.nr_channels) q ppa := by
  have hC : 0 < np.nr_channels := by
    rcases Nat.eq_zero_or_pos np.nr_channels with h | h
    · rw [h, Nat.zero_mul] at hm; omega
    · exact h
  have hc : m % np.nr_channels < np.nr_channels := Nat.mod_lt _ hC
  have hh : m / np.nr_channels < np.nr_chips_per_channel :=
    (Nat.div_lt_iff_lt_mul hC).2 (by rw [Nat.mul_comm]; exact hm)
  obtain ⟨bi, b, h1, h2, h3, h4⟩ := bab_per_die_get np bai bab _ _ hb hc hh
  unfold stream_ppa
  rw [if_neg (by omega)]
  simp only
  rw [h1]
  simp only
  rw [h2]
  simp only
  rw [if_neg (by rw [h3, h4]; omega)]
  refine ⟨_, rfl, h3, h4, rfl, ?_, bi, b, h1, h2, rfl⟩
  simp only [BDBM_GET_PUNIT_ID, h3, h4]


/-- A call of the normal stream under the cursor `(m, q)`. -/
theorem normal_step (np : bdbm_device_params_t) (p : bdbm_fgm_ftl_private_t)
    (hN : p.nr_punits = np.nr_channels * np.nr_chips_per_channel)
    (hN64 : np.nr_channels * np.nr_chips_per_channel < 18446744073709551616)
    (hP64 : np.nr_pages_per_block < 18446744073709551616)
    (hb : bab_per_die np p.bai p.ac_bab)
    (hm : p.curr_puid < np.nr_channels * np.nr_chips_per_channel)
    (hq : p.curr_page_ofs < np.nr_pages_per_block) :
    ∃ (ret : Nat) (q : bdbm_fgm_ftl_private_t) (ppa : bdbm_phyaddr_t),
      __bdbm_fgm_ftl_get_free_ppa np p = some (ret, q, ppa) ∧
      bab_addr np p.bai p.ac_bab (p.curr_puid % np.nr_channels) (p.curr_puid / np.nr_channels)
        p.curr_page_ofs ppa ∧
      (¬ (p.curr_puid + 1 = np.nr_channels * np.nr_chips_per_channel ∧
          p.curr_page_ofs + 1 = np.nr_pages_per_block) →
        ret = 0 ∧
        q = { p with
              curr_puid :=
                if p.curr_puid + 1 = np.nr_channels * np.nr_chips_per_channel then 0
                else p.curr_puid + 1,
              curr_page_ofs :=
                if p.curr_puid + 1 = np.nr_channels * np.nr_chips_per_channel
                then p.curr_page_ofs + 1 else p.curr_page_ofs }) := by
  obtain ⟨ppa, hs, ha⟩ := stream_ppa_at np p.bai p.ac_bab p.curr_puid p.curr_page_ofs hb hm hq
  unfold __bdbm_fgm_ftl_get_free_ppa
  rw [hs]
  simp only
  rw [Nat.mod_eq_of_lt (by omega : p.curr_puid + 1 < 18446744073709551616),
    Nat.mod_eq_of_lt (by omega : p.curr_page_ofs + 1 < 18446744073709551616), hN]
  by_cases h1 : p.curr_puid + 1 = np.nr_channels * np.nr_chips_per_channel
  · rw [if_pos h1]
    by_cases h2 : p.curr_page_ofs + 1 = np.nr_pages_per_block
    · rw [if_pos h2]
      split_ifs
      · exact ⟨_, _, _, rfl, ha, fun hn => absurd ⟨h1, h2⟩ hn⟩
      · exact ⟨_, _, _, rfl, ha, fun hn => absurd ⟨h1, h2⟩ hn⟩
    · rw [if_neg h2]
      refine ⟨_, _, _, rfl, ha, fun _ => ⟨rfl, ?_⟩⟩
      rw [if_pos h1, if_pos h1]
  · rw [if_neg h1]
    refine ⟨_, _, _, rfl, ha, fun _ => ⟨rfl, ?_⟩⟩
    rw [if_neg h1, if_neg h1]

/-- The cursor of the normal stream after `n` calls from `(0, 0)`. -/
theorem normal_calls_cursor (np : bdbm_device_params_t) (p : bdbm_fgm_ftl_private_t)
    (hN : p.nr_punits = np.nr_channels * np.nr_chips_per_channel)
    (hN64 : np.nr_channels * np.nr_chips_per_channel < 18446744073709551616)
    (hP64 : np.nr_pages_per_block < 18446744073709551616)
    (hb : bab_per_die np p.bai p.ac_bab)
    (h0 : p.curr_puid = 0) (h0' : p.curr_page_ofs = 0) :
    ∀ n : Nat, n < np.nr_channels * np.nr_chips_per_channel * np.nr_pages_per_block →
      normal_calls np n p =
        some { p with curr_puid := n % (np.nr_channels * np.nr_chips_per_channel),
                      curr_page_ofs := n / (np.nr_channels * np.nr_chips_per_channel) } := by
  intro n
  induction n with
  | zero =>
    intro _
    unfold normal_calls
    rw [Nat.zero_mod, Nat.zero_div]
    cases p
    simp only at h0 h0'
    subst h0
    subst h0'
    rfl
  | succ n ih =>
    intro hn
    have hNpos : 0 < np.nr_channels * np.nr_chips_per_channel := by
      rcases Nat.eq_zero_or_pos (np.nr_channels * np.nr_chips_per_channel) with h | h
      · rw [h, Nat.zero_mul] at hn; omega
      · exact h
    have hm := Nat.mod_lt n hNpos
    have hq : n / (np.nr_channels * np.nr_chips_per_channel) < np.nr_pages_per_block :=
      Nat.div_lt_of_lt_mul (by omega)
    unfold normal_calls
    rw [ih (by omega)]
    simp only
    obtain ⟨ret, q, ppa, he, _, hc⟩ := normal_step np
      { p with curr_puid := n % (np.nr_channels * np.nr_chips_per_channel),
               curr_page_ofs := n / (np.nr_channels * np.nr_chips_per_channel) }
      hN hN64 hP64 hb hm hq
    rw [he]
    have hnot : ¬ (n % (np.nr_channels * np.nr_chips_per_channel) + 1 =
          np.nr_channels * np.nr_chips_per_channel ∧
        n / (np.nr_channels * np.nr_chips_per_channel) + 1 = np.nr_pages_per_block) := by
      rintro ⟨e1, e2⟩
      have := (succ_mod_div_eq n _ e1).2
      have h3 : (n + 1) / (np.nr_channels * np.nr_chips_per_channel) < np.nr_pages_per_block :=
        Nat.div_lt_of_lt_mul hn
      omega
    obtain ⟨hr, hqe⟩ := hc hnot
    subst hr
    simp only
    rw [hqe]
    by_cases e1 : n % (np.nr_channels * np.nr_chips_per_channel) + 1 =
        np.nr_channels * np.nr_chips_per_channel
    · obtain ⟨a1, a2⟩ := succ_mod_div_eq n _ e1
      simp only [e1, if_true, a1, a2]
    · have hlt : n % (np.nr_channels * np.nr_chips_per_channel) + 1 <
          np.nr_channels * np.nr_chips_per_channel := by omega
      obtain ⟨a1, a2⟩ := succ_mod_div_lt n _ hlt
      simp only [e1, if_false, a1, a2]


/-- A call of the compaction stream under the cursor `(m, q)`. -/
theorem cmp_step (np : bdbm_device_params_t) (p : bdbm_fgm_ftl_private_t)
    (hN : p.nr_punits = np.nr_channels * np.nr_chips_per_channel)
    (hN64 : np.nr_channels * np.nr_chips_per_channel < 18446744073709551616)
    (hP64 : np.nr_pages_per_block < 18446744073709551616)
    (hb : bab_per_die np p.bai p.ac_bab_cmp)
    (hm : p.curr_puid_cmp < np.nr_channels * np.nr_chips_per_channel)
    (hq : p.curr_page_ofs_cmp < np.nr_pages_per_block) :
    ∃ (ret : Nat) (q : bdbm_fgm_ftl_private_t) (ppa : bdbm_phyaddr_t),
      __bdbm_fgm_ftl_get_free_ppa_cmp np p = some (ret, q, ppa) ∧
      bab_addr np p.bai p.ac_bab_cmp (p.curr_puid_cmp % np.nr_channels) (p.curr_puid_cmp / np.nr_channels)
        p.curr_page_ofs_cmp ppa ∧
      (¬ (p.curr_puid_cmp + 1 = np.nr_channels * np.nr_chips_per_channel ∧
          p.curr_page_ofs_cmp + 1 = np.nr_pages_per_block) →
        ret = 0 ∧
        q = { p with
              curr_puid_cmp :=
                if p.curr_puid_cmp + 1 = np.nr_channels * np.nr_chips_per_channel then 0
                else p.curr_puid_cmp + 1,
              curr_page_ofs_cmp :=
                if p.curr_puid_cmp + 1 = np.nr_channels * np.nr_chips_per_channel
                then p.curr_page_ofs_cmp + 1 else p.curr_page_ofs_cmp }) := by
  obtain ⟨ppa, hs, ha⟩ := stream_ppa_at np p.bai p.ac_bab_cmp p.curr_puid_cmp p.curr_page_ofs_cmp hb hm hq
  unfold __bdbm_fgm_ftl_get_free_ppa_cmp
  rw [hs]
  simp only
  rw [Nat.mod_eq_of_lt (by omega : p.curr_puid_cmp + 1 < 18446744073709551616),
    Nat.mod_eq_of_lt (by omega : p.curr_page_ofs_cmp + 1 < 18446744073709551616), hN]
  by_cases h1 : p.curr_puid_cmp + 1 = np.nr_channels * np.nr_chips_per_channel
  · rw [if_pos h1]
    by_cases h2 : p.curr_page_ofs_cmp + 1 = np.nr_pages_per_block
    · rw [if_pos h2]
      split_ifs
      · exact ⟨_, _, _, rfl, ha, fun hn => absurd ⟨h1, h2⟩ hn⟩
      · exact ⟨_, _, _, rfl, ha, fun hn => absurd ⟨h1, h2⟩ hn⟩
    · rw [if_neg h2]
      refine ⟨_, _, _, rfl, ha, fun _ => ⟨rfl, ?_⟩⟩
      rw [if_pos h1, if_pos h1]
  · rw [if_neg h1]
    refine ⟨_, _, _, rfl, ha, fun _ => ⟨rfl, ?_⟩⟩
    rw [if_neg h1, if_neg h1]

/-- The cursor of the compaction stream after `n` calls from `(0, 0)`. -/
theorem cmp_calls_cursor (np : bdbm_device_params_t) (p : bdbm_fgm_ftl_private_t)
    (hN : p.nr_punits = np.nr_channels * np.nr_chips_per_channel)
    (hN64 : np.nr_channels * np.nr_chips_per_channel < 18446744073709551616)
    (hP64 : np.nr_pages_per_block < 18446744073709551616)
    (hb : bab_per_die np p.bai p.ac_bab_cmp)
    (h0 : p.curr_puid_cmp = 0) (h0' : p.curr_page_ofs_cmp = 0) :
    ∀ n : Nat, n < np.nr_channels * np.nr_chips_per_channel * np.nr_pages_per_block →
      cmp_calls np n p =
        some { p with curr_puid_cmp := n % (np.nr_channels * np.nr_chips_per_channel),
                      curr_page_ofs_cmp := n / (np.nr_channels * np.nr_chips_per_channel) } := by
  intro n
  induction n with
  | zero =>
    intro _
    unfold cmp_calls
    rw [Nat.zero_mod, Nat.zero_div]
    cases p
    simp only at h0 h0'
    subst h0
    subst h0'
    rfl
  | succ n ih =>
    intro hn
    have hNpos : 0 < np.nr_channels * np.nr_chips_per_channel := by
      rcases Nat.eq_zero_or_pos (np.nr_channels * np.nr_chips_per_channel) with h | h
      · rw [h, Nat.zero_mul] at hn; omega
      · exact h
    have hm := Nat.mod_lt n hNpos
    have hq : n / (np.nr_channels * np.nr_chips_per_channel) < np.nr_pages_per_block :=
      Nat.div_lt_of_lt_mul (by omega)
    unfold cmp_calls
    rw [ih (by omega)]
    simp only
    obtain ⟨ret, q, ppa, he, _, hc⟩ := cmp_step np
      { p with curr_puid_cmp := n % (np.nr_channels * np.nr_chips_per_channel),
               curr_page_ofs_cmp := n / (np.nr_channels * np.nr_chips_per_channel) }
      hN hN64 hP64 hb hm hq
    rw [he]
    have hnot : ¬ (n % (np.nr_channels * np.nr_chips_per_channel) + 1 =
          np.nr_channels * np.nr_chips_per_channel ∧
        n / (np.nr_channels * np.nr_chips_per_channel) + 1 = np.nr_pages_per_block) := by
      rintro ⟨e1, e2⟩
      have := (succ_mod_div_eq n _ e1).2
      have h3 : (n + 1) / (np.nr_channels * np.nr_chips_per_channel) < np.nr_pages_per_block :=
        Nat.div_lt_of_lt_mul hn
      omega
    obtain ⟨hr, hqe⟩ := hc hnot
    subst hr
    simp only
    rw [hqe]
    by_cases e1 : n % (np.nr_channels * np.nr_chips_per_channel) + 1 =
        np.nr_channels * np.nr_chips_per_channel
    · obtain ⟨a1, a2⟩ := succ_mod_div_eq n _ e1
      simp only [e1, if_true, a1, a2]
    · have hlt : n % (np.nr_channels * np.nr_chips_per_channel) + 1 <
          np.nr_channels * np.nr_chips_per_channel := by omega
      obtain ⟨a1, a2⟩ := succ_mod_div_lt n _ hlt
      simp only [e1, if_false, a1, a2]


/-- A residue `t` below `N` is met within any `N` consecutive numbers. -/
theorem residue_in_window (s N t : Nat) (ht : t < N) :
    ∃ n, s ≤ n ∧ n < s + N ∧ n % N = t ∧ n / N * N + t = n := by
  have hs := Nat.div_add_mod s N
  have hr := Nat.mod_lt s (by omega : N > 0)
  by_cases h : s % N ≤ t
  · refine ⟨N * (s / N) + t, by omega, by omega, ?_, ?_⟩
    · rw [Nat.mul_add_mod, Nat.mod_eq_of_lt ht]
    · rw [Nat.mul_add_div (by omega), Nat.div_eq_of_lt ht, Nat.add_zero, Nat.mul_comm]
  · have e : N * (s / N + 1) = N * (s / N) + N := by rw [Nat.mul_add, Nat.mul_one]
    refine ⟨N * (s / N + 1) + t, by omega, by omega, ?_, ?_⟩
    · rw [Nat.mul_add_mod, Nat.mod_eq_of_lt ht]
    · rw [Nat.mul_add_div (by omega), Nat.div_eq_of_lt ht, Nat.add_zero, Nat.mul_comm]

/-- The striping of a stream follows from the address and the cursor of each
call. -/
theorem stream_striped_of_calls (np : bdbm_device_params_t) (bai : bdbm_abm_info_t)
    (bab : List (Option Nat))
    (call : Nat → Option (Nat × bdbm_fgm_ftl_private_t × bdbm_phyaddr_t))
    (cursor : bdbm_fgm_ftl_private_t → Nat × Nat)
    (hcall : ∀ n : Nat,
      n < np.nr_channels * np.nr_chips_per_channel * np.nr_pages_per_block →
      ∃ (ret : Nat) (q : bdbm_fgm_ftl_private_t) (ppa : bdbm_phyaddr_t),
        call n = some (ret, q, ppa) ∧
        bab_addr np bai bab
          (n % (np.nr_channels * np.nr_chips_per_channel) % np.nr_channels)
          (n % (np.nr_channels * np.nr_chips_per_channel) / np.nr_channels)
          (n / (np.nr_channels * np.nr_chips_per_channel)) ppa ∧
        (n + 1 < np.nr_channels * np.nr_chips_per_channel * np.nr_pages_per_block →
          ret = 0 ∧
          cursor q =
            if n % (np.nr_channels * np.nr_chips_per_channel) + 1 =
                np.nr_channels * np.nr_chips_per_channel
            then (0, n / (np.nr_channels * np.nr_chips_per_channel) + 1)
            else (n % (np.nr_channels * np.nr_chips_per_channel) + 1,
                  n / (np.nr_channels * np.nr_chips_per_channel)))) :
    stream_striped np bai bab call cursor := by
  refine ⟨hcall, ?_, ?_⟩
  · intro n1 n2 r1 r2 h1 h2 e1 e2 hc hh hp
    obtain ⟨_, _, ppa1, c1, a1, _⟩ := hcall n1 h1
    obtain ⟨_, _, ppa2, c2, a2, _⟩ := hcall n2 h2
    rw [c1] at e1
    rw [c2] at e2
    cases e1
    cases e2
    simp only at hc hh hp
    obtain ⟨x1, y1, z1, _⟩ := a1
    obtain ⟨x2, y2, z2, _⟩ := a2
    rw [x1, x2] at hc
    rw [y1, y2] at hh
    rw [z1, z2] at hp
    have m1 := Nat.mod_add_div (n1 % (np.nr_channels * np.nr_chips_per_channel)) np.nr_channels
    have m2 := Nat.mod_add_div (n2 % (np.nr_channels * np.nr_chips_per_channel)) np.nr_channels
    rw [hc, hh] at m1
    have hmod : n1 % (np.nr_channels * np.nr_chips_per_channel) =
        n2 % (np.nr_channels * np.nr_chips_per_channel) := by rw [← m1, m2]
    have d1 := Nat.mod_add_div n1 (np.nr_channels * np.nr_chips_per_channel)
    have d2 := Nat.mod_add_div n2 (np.nr_channels * np.nr_chips_per_channel)
    rw [hmod, hp] at d1
    rw [← d1, d2]
  · intro s c h hs hc hh
    have ht : h * np.nr_channels + c < np.nr_channels * np.nr_chips_per_channel := by
      have : (h + 1) * np.nr_channels ≤ np.nr_chips_per_channel * np.nr_channels :=
        Nat.mul_le_mul_right _ hh
      rw [Nat.succ_mul, Nat.mul_comm np.nr_chips_per_channel] at this
      omega
    obtain ⟨n, h1, h2, h3, _⟩ := residue_in_window s _ _ ht
    obtain ⟨ret, q, ppa, e, a, _⟩ := hcall n (by omega)
    refine ⟨n, _, h1, h2, e, ?_, ?_⟩
    · rw [a.1, h3, Nat.mul_add_mod_of_lt hc]
    · rw [a.2.1, h3, Nat.mul_comm, Nat.mul_add_div (by omega), Nat.div_eq_of_lt hc, Nat.add_zero]


/-- Striping of the normal stream from the cursor `(0, 0)`. -/
theorem normal_striped (np : bdbm_device_params_t) (p : bdbm_fgm_ftl_private_t)
    (hN : p.nr_punits = np.nr_channels * np.nr_chips_per_channel)
    (hN64 : np.nr_channels * np.nr_chips_per_channel < 18446744073709551616)
    (hP64 : np.nr_pages_per_block < 18446744073709551616)
    (hb : bab_per_die np p.bai p.ac_bab)
    (h0 : p.curr_puid = 0) (h0' : p.curr_page_ofs = 0) :
    stream_striped np p.bai p.ac_bab (normal_call np p)
      (fun q => (q.curr_puid, q.curr_page_ofs)) := by
  apply stream_striped_of_calls
  intro n hn
  have hNpos : 0 < np.nr_channels * np.nr_chips_per_channel := by
    rcases Nat.eq_zero_or_pos (np.nr_channels * np.nr_chips_per_channel) with h | h
    · rw [h, Nat.zero_mul] at hn; omega
    · exact h
  have hm := Nat.mod_lt n hNpos
  have hq : n / (np.nr_channels * np.nr_chips_per_channel) < np.nr_pages_per_block :=
    Nat.div_lt_of_lt_mul hn
  unfold normal_call
  rw [normal_calls_cursor np p hN hN64 hP64 hb h0 h0' n hn]
  simp only
  obtain ⟨ret, q, ppa, he, ha, hc⟩ := normal_step np
    { p with curr_puid := n % (np.nr_channels * np.nr_chips_per_channel),
             curr_page_ofs := n / (np.nr_channels * np.nr_chips_per_channel) }
    hN hN64 hP64 hb hm hq
  refine ⟨ret, q, ppa, he, ha, fun h1 => ?_⟩
  have hnot : ¬ (n % (np.nr_channels * np.nr_chips_per_channel) + 1 =
        np.nr_channels * np.nr_chips_per_channel ∧
      n / (np.nr_channels * np.nr_chips_per_channel) + 1 = np.nr_pages_per_block) := by
    rintro ⟨e1, e2⟩
    have := (succ_mod_div_eq n _ e1).2
    have h3 : (n + 1) / (np.nr_channels * np.nr_chips_per_channel) < np.nr_pages_per_block :=
      Nat.div_lt_of_lt_mul h1
    omega
  obtain ⟨hr, hqe⟩ := hc hnot
  refine ⟨hr, ?_⟩
  rw [hqe]
  simp only
  split_ifs <;> rfl

/-- Striping of the compaction stream from the cursor `(0, 0)`. -/
theorem cmp_striped (np : bdbm_device_params_t) (p : bdbm_fgm_ftl_private_t)
    (hN : p.nr_punits = np.nr_channels * np.nr_chips_per_channel)
    (hN64 : np.nr_channels * np.nr_chips_per_channel < 18446744073709551616)
    (hP64 : np.nr_pages_per_block < 18446744073709551616)
    (hb : bab_per_die np p.bai p.ac_bab_cmp)
    (h0 : p.curr_puid_cmp = 0) (h0' : p.curr_page_ofs_cmp = 0) :
    stream_striped np p.bai p.ac_bab_cmp (cmp_call np p)
      (fun q => (q.curr_puid_cmp, q.curr_page_ofs_cmp)) := by
  apply stream_striped_of_calls
  intro n hn
  have hNpos : 0 < np.nr_channels * np.nr_chips_per_channel := by
    rcases Nat.eq_zero_or_pos (np.nr_channels * np.nr_chips_per_channel) with h | h
    · rw [h, Nat.zero_mul] at hn; omega
    · exact h
  have hm := Nat.mod_lt n hNpos
  have hq : n / (np.nr_channels * np.nr_chips_per_channel) < np.nr_pages_per_block :=
    Nat.div_lt_of_lt_mul hn
  unfold cmp_call
  rw [cmp_calls_cursor np p hN hN64 hP64 hb h0 h0' n hn]
  simp only
  obtain ⟨ret, q, ppa, he, ha, hc⟩ := cmp_step np
    { p with curr_puid_cmp := n % (np.nr_channels * np.nr_chips_per_channel),
             curr_page_ofs_cmp := n / (np.nr_channels * np.nr_chips_per_channel) }
    hN hN64 hP64 hb hm hq
  refine ⟨ret, q, ppa, he, ha, fun h1 => ?_⟩
  have hnot : ¬ (n % (np.nr_channels * np.nr_chips_per_channel) + 1 =
        np.nr_channels * np.nr_chips_per_channel ∧
      n / (np.nr_channels * np.nr_chips_per_channel) + 1 = np.nr_pages_per_block) := by
    rintro ⟨e1, e2⟩
    have := (succ_mod_div_eq n _ e1).2
    have h3 : (n + 1) / (np.nr_channels * np.nr_chips_per_channel) < np.nr_pages_per_block :=
      Nat.div_lt_of_lt_mul h1
    omega
  obtain ⟨hr, hqe⟩ := hc hnot
  refine ⟨hr, ?_⟩
  rw [hqe]
  simp only
  split_ifs <;> rfl

/-- Claim C20.  Parallel-unit striping of the normal and of the compaction
stream.  From the cursor `(0, 0)`, with `nr_punits` the number of dies and an
active-block vector that holds, at index `channel * nr_chips_per_channel +
chip`, a block of die `(channel, chip)`: for every
`n < nr_punits * nr_pages_per_block` the call that follows `n` calls returns,
with `page_no = n / nr_punits` on die
`(channel = (n mod nr_punits) mod nr_channels,
chip = (n mod nr_punits) / nr_channels)` in the active block of that die; all
but the last of these calls return 0 and move the cursor to the next unit,
the page offset advancing exactly when the unit wraps from `nr_punits - 1` to
0; no two of these calls hand out the same page of the same die; and any
`nr_punits` consecutive calls among them reach every `(channel, chip)`. -/
theorem C20_striping (np : bdbm_device_params_t) (p : bdbm_fgm_ftl_private_t)
    (hN : p.nr_punits = np.nr_channels * np.nr_chips_per_channel)
    (hN64 : np.nr_channels * np.nr_chips_per_channel < 18446744073709551616)
    (hP64 : np.nr_pages_per_block < 18446744073709551616)
    (hb : bab_per_die np p.bai p.ac_bab) (hbc : bab_per_die np p.bai p.ac_bab_cmp)
    (h0 : p.curr_puid = 0 ∧ p.curr_page_ofs = 0)
    (hc0 : p.curr_puid_cmp = 0 ∧ p.curr_page_ofs_cmp = 0) :
    stream_striped np p.bai p.ac_bab (normal_call np p)
      (fun q => (q.curr_puid, q.curr_page_ofs)) ∧
    stream_striped np p.bai p.ac_bab_cmp (cmp_call np p)
      (fun q => (q.curr_puid_cmp, q.curr_page_ofs_cmp)) :=
  ⟨normal_striped np p hN hN64 hP64 hb h0.1 h0.2,
   cmp_striped np p hN hN64 hP64 hbc hc0.1 hc0.2⟩

/-- Witness of C20: the freshly created FTL of the geometry with two channels
of two chips; its fourth call of the normal stream returns page 0 of the
block of die (channel 1, chip 1) and wraps the cursor to unit 0, page 1. -/
theorem C20_striping_witness :
    (stream_striped ex_np4 ex_fresh4.bai ex_fresh4.ac_bab (normal_call ex_np4 ex_fresh4)
      (fun q => (q.curr_puid, q.curr_page_ofs)) ∧
     stream_striped ex_np4 ex_fresh4.bai ex_fresh4.ac_bab_cmp (cmp_call ex_np4 ex_fresh4)
      (fun q => (q.curr_puid_cmp, q.curr_page_ofs_cmp))) ∧
    (normal_call ex_np4 ex_fresh4 3).map (fun r => (r.1, r.2.2, r.2.1.curr_puid,
        r.2.1.curr_page_ofs)) =
      some (0, { punit_id := 3, channel_no := 1, chip_no := 1, block_no := 0, page_no := 0 },
            0, 1) :=
  ⟨C20_striping ex_np4 ex_fresh4 (by decide) (by decide) (by decide) (by decide) (by decide)
     (by decide) (by decide),
   by decide⟩

/-! ## The refresh of the fine stream -/

/-- Claim C16, as stated, fails on the code.  After nine host writes of 4KB
on the small geometry the fine stream stands on the last page of its block
with five dirty-4KB blocks against a cap of four.  The next call returns 0
with page 1 of block 6 and has entered the recycle engine, which reuses block
1 and relocates the one live sub-page of its first column through the fine
stream: when the call returns, the page offset of the fine stream is 1, not
0.  And in the state `ex_recycle`, whose reusable block is in its last
column, the call returns 0 after the recycle engine has taken the fresh FREE
block 7 for the fine stream. -/
theorem C16_counterexample :
    (ex_filled.curr_puid_4kb + 1 = ex_filled.nr_punits ∧
     ex_filled.curr_page_ofs_4kb + 1 = ex_np.nr_pages_per_block ∧
     ex_filled.bai.nr_dirty_4kb_blks > ex_filled.nr_max_dirty_4kb_blks) ∧
    (bdbm_fgm_ftl_get_free_ppa ex_env_run ex_np 1 ex_filled (ex_la4 8)).map
        (fun r => (r.1, r.2.2, r.2.1.curr_puid_4kb, r.2.1.curr_page_ofs_4kb, r.2.1.ac_bab_4kb)) =
      some (0, ex_ppa 6 1, 0, 1, [some 1]) ∧
    (bdbm_fgm_ftl_get_free_ppa ex_env_dev ex_np 1 ex_recycle (ex_la4 20)).map
        (fun r => (r.1, r.2.1.ac_bab_4kb,
          decide (abm_call_t.get_free_block_commit 7 ∈ r.2.1.bai.calls))) =
      some (0, [some 7], true) := by
  refine ⟨⟨by decide, by decide, by decide⟩, by decide, by decide⟩


/-- The two branches of the refresh of the fine stream, taken when its
parallel-unit cursor wraps and its page offset reaches `nr_pages_per_block`:
the recycle engine with `nr_dirty_4kb_blks` above `nr_max_dirty_4kb_blks`,
`__bdbm_fgm_ftl_get_active_blocks` otherwise. -/
theorem fine_refresh_branches (np : bdbm_device_params_t)
    (recycle : bdbm_fgm_ftl_private_t → Option (Nat × bdbm_fgm_ftl_private_t))
    (p : bdbm_fgm_ftl_private_t) (ppa : bdbm_phyaddr_t)
    (hs : stream_ppa np p.bai p.ac_bab_4kb p.curr_puid_4kb p.curr_page_ofs_4kb = some ppa)
    (h1 : (p.curr_puid_4kb + 1) % 18446744073709551616 = p.nr_punits)
    (h2 : (p.curr_page_ofs_4kb + 1) % 18446744073709551616 = np.nr_pages_per_block) :
    (p.bai.nr_dirty_4kb_blks > p.nr_max_dirty_4kb_blks →
      __bdbm_fgm_ftl_get_free_ppa_4kb np recycle p =
        (recycle { p with curr_puid_4kb := 0, curr_page_ofs_4kb := 0 }).map
          (fun r => (0, r.2, ppa))) ∧
    (p.bai.nr_dirty_4kb_blks ≤ p.nr_max_dirty_4kb_blks →
      __bdbm_fgm_ftl_get_free_ppa_4kb np recycle p =
        if (__bdbm_fgm_ftl_get_active_blocks np p.bai p.ac_bab_4kb).1 ≠ 0 then
          some (1, { p with
                     curr_puid_4kb := 0,
                     curr_page_ofs_4kb := np.nr_pages_per_block,
                     bai := (__bdbm_fgm_ftl_get_active_blocks np p.bai p.ac_bab_4kb).2.1,
                     ac_bab_4kb := (__bdbm_fgm_ftl_get_active_blocks np p.bai p.ac_bab_4kb).2.2 },
                ppa)
        else
          some (0, { p with
                     curr_puid_4kb := 0,
                     curr_page_ofs_4kb := 0,
                     bai := (__bdbm_fgm_ftl_get_active_blocks np p.bai p.ac_bab_4kb).2.1,
                     ac_bab_4kb := (__bdbm_fgm_ftl_get_active_blocks np p.bai p.ac_bab_4kb).2.2 },
                ppa)) := by
  constructor
  · intro h3
    unfold __bdbm_fgm_ftl_get_free_ppa_4kb
    rw [hs]
    simp only
    rw [if_pos h1, if_pos h2, if_pos h3]
    cases recycle { p with curr_puid_4kb := 0, curr_page_ofs_4kb := 0 } <;> rfl
  · intro h3
    unfold __bdbm_fgm_ftl_get_free_ppa_4kb
    rw [hs]
    simp only
    rw [if_pos h1, if_pos h2, if_neg (by omega)]
    split_ifs
    · rw [h2]
    · rfl

/-- Claim C16, amended.  When the parallel-unit cursor of the fine stream
wraps and its page offset reaches `nr_pages_per_block`: with
`nr_dirty_4kb_blks` above `nr_max_dirty_4kb_blks` the allocator sets the
cursor to `(0, 0)` and, without calling `__bdbm_fgm_ftl_get_active_blocks`
itself, runs the recycle engine, returning 0 with the state the engine
leaves; otherwise (`nr_dirty_4kb_blks <= nr_max_dirty_4kb_blks`) it does not
run the recycle engine and calls `__bdbm_fgm_ftl_get_active_blocks` on the
vector of the fine stream, returning 1 when a die has no free block and else
0 with the cursor at `(0, 0)`.  In both cases the address returned is the one
read under the cursor before it moved. -/
theorem C16_fine_refresh (np : bdbm_device_params_t)
    (recycle : bdbm_fgm_ftl_private_t → Option (Nat × bdbm_fgm_ftl_private_t))
    (p : bdbm_fgm_ftl_private_t) (ppa : bdbm_phyaddr_t)
    (hs : stream_ppa np p.bai p.ac_bab_4kb p.curr_puid_4kb p.curr_page_ofs_4kb = some ppa)
    (h1 : (p.curr_puid_4kb + 1) % 18446744073709551616 = p.nr_punits)
    (h2 : (p.curr_page_ofs_4kb + 1) % 18446744073709551616 = np.nr_pages_per_block) :
    (p.bai.nr_dirty_4kb_blks > p.nr_max_dirty_4kb_blks →
      __bdbm_fgm_ftl_get_free_ppa_4kb np recycle p =
        (recycle { p with curr_puid_4kb := 0, curr_page_ofs_4kb := 0 }).map
          (fun r => (0, r.2, ppa))) ∧
    (p.bai.nr_dirty_4kb_blks ≤ p.nr_max_dirty_4kb_blks →
      __bdbm_fgm_ftl_get_free_ppa_4kb np recycle p =
        if (__bdbm_fgm_ftl_get_active_blocks np p.bai p.ac_bab_4kb).1 ≠ 0 then
          some (1, { p with
                     curr_puid_4kb := 0,
                     curr_page_ofs_4kb := np.nr_pages_per_block,
                     bai := (__bdbm_fgm_ftl_get_active_blocks np p.bai p.ac_bab_4kb).2.1,
                     ac_bab_4kb := (__bdbm_fgm_ftl_get_active_blocks np p.bai p.ac_bab_4kb).2.2 },
                ppa)
        else
          some (0, { p with
                     curr_puid_4kb := 0,
                     curr_page_ofs_4kb := 0,
                     bai := (__bdbm_fgm_ftl_get_active_blocks np p.bai p.ac_bab_4kb).2.1,
                     ac_bab_4kb := (__bdbm_fgm_ftl_get_active_blocks np p.bai p.ac_bab_4kb).2.2 },
                ppa)) :=
  fine_refresh_branches np recycle p ppa hs h1 h2

/-- Witness of C16: the recycle branch in the state after nine host writes,
and the branch of the fresh blocks in the state after one host write, where
the fine stream moves on to block 3. -/
theorem C16_fine_refresh_witness :
    (ex_filled.bai.nr_dirty_4kb_blks > ex_filled.nr_max_dirty_4kb_blks ∧
     __bdbm_fgm_ftl_get_free_ppa_4kb ex_np
        (bdbm_fgm_ftl_get_reusable_active_blks ex_env_run ex_np
          (bdbm_fgm_ftl_get_free_ppa ex_env_run ex_np 0)) ex_filled =
      ((bdbm_fgm_ftl_get_reusable_active_blks ex_env_run ex_np
          (bdbm_fgm_ftl_get_free_ppa ex_env_run ex_np 0))
        { ex_filled with curr_puid_4kb := 0, curr_page_ofs_4kb := 0 }).map
        (fun r => (0, r.2, ex_ppa 6 1))) ∧
    (ex_written1.bai.nr_dirty_4kb_blks ≤ ex_written1.nr_max_dirty_4kb_blks ∧
     (__bdbm_fgm_ftl_get_free_ppa_4kb ex_np (fun _ => none) ex_written1).map
        (fun r => (r.1, r.2.2, r.2.1.curr_puid_4kb, r.2.1.curr_page_ofs_4kb, r.2.1.ac_bab_4kb)) =
      some (0, ex_ppa 1 1, 0, 0, [some 3])) :=
  ⟨⟨by decide,
    (C16_fine_refresh ex_np _ ex_filled (ex_ppa 6 1) (by decide) (by decide) (by decide)).1
      (by decide)⟩,
   ⟨by decide, by
    rw [(C16_fine_refresh ex_np (fun _ => none) ex_written1 (ex_ppa 1 1) (by decide)
      (by decide) (by decide)).2 (by decide)]
    decide⟩⟩

/-! ## Properties of the LLM gate -/

/-- The gate invariant: on every parallel unit the number of outstanding
requests is 1 when its lock is held and 0 otherwise. -/
theorem llm_noq_run_inv (np : bdbm_device_params_t) (dm_make_req : bdbm_llm_req_t → Nat)
    (cs : List llm_noq_call_t) :
    ∀ (p : bdbm_llm_noq_private) (out : List bdbm_llm_req_t)
      (p' : bdbm_llm_noq_private) (out' : List bdbm_llm_req_t),
      (∀ i : Nat, llm_noq_outstanding np out i =
        if p.punit_locks[i]? = some true then 1 else 0) →
      llm_noq_run np dm_make_req cs (p, out) = some (p', out') →
      ∀ i : Nat, llm_noq_outstanding np out' i =
        if p'.punit_locks[i]? = some true then 1 else 0 := by
  induction cs with
  | nil =>
    intro p out p' out' hinv hrun
    unfold llm_noq_run at hrun
    cases hrun
    exact hinv
  | cons c cs ih =>
    intro p out p' out' hinv hrun
    cases c with
    | make_req r =>
      unfold llm_noq_run at hrun
      cases hm : llm_noq_make_req np dm_make_req p r with
      | none => rw [hm] at hrun; cases hrun
      | some res =>
        obtain ⟨ret, p1⟩ := res
        rw [hm] at hrun
        simp only at hrun
        refine ih p1 _ p' out' ?_ hrun
        unfold llm_noq_make_req at hm
        simp only at hm
        unfold bdbm_mutex_lock at hm
        cases hl : p.punit_locks[llm_noq_punit_id np r]? with
        | none => rw [hl] at hm; cases hm
        | some b =>
          cases b with
          | true => rw [hl] at hm; cases hm
          | false =>
            rw [hl] at hm
            simp only at hm
            have hlt : llm_noq_punit_id np r < p.punit_locks.length :=
              (List.getElem?_eq_some.1 hl).1
            by_cases hret : dm_make_req r = 0
            · rw [if_neg (by omega)] at hm
              cases hm
              rw [if_pos hret]
              intro i
              unfold llm_noq_outstanding
              rw [List.countP_append]
              simp only [List.countP_cons, List.countP_nil, Nat.zero_add]
              have h0 := hinv i
              unfold llm_noq_outstanding at h0
              by_cases hi : llm_noq_punit_id np r = i
              · subst hi
                rw [hl] at h0
                simp only [Option.some.injEq, Bool.false_eq_true, if_false] at h0
                rw [h0, List.getElem?_set_self hlt]
                simp
              · rw [h0, List.getElem?_set_ne hi]
                simp [hi]
            · rw [if_pos hret] at hm
              unfold bdbm_mutex_unlock at hm
              rw [List.getElem?_set_self hlt] at hm
              simp only [Option.some.injEq, Prod.mk.injEq] at hm
              obtain ⟨hr, hp⟩ := hm
              subst hp
              rw [if_neg (by omega)]
              intro i
              rw [hinv i]
              simp only [List.set_set]
              by_cases hi : llm_noq_punit_id np r = i
              · subst hi
                rw [hl, List.getElem?_set_self hlt]
              · rw [List.getElem?_set_ne hi]
    | end_req r =>
      unfold llm_noq_run at hrun
      by_cases hmem : r ∈ out
      · rw [if_pos hmem] at hrun
        cases he : llm_noq_end_req np p r with
        | none => rw [he] at hrun; cases hrun
        | some p1 =>
          rw [he] at hrun
          simp only at hrun
          refine ih p1 _ p' out' ?_ hrun
          unfold llm_noq_end_req at he
          simp only at he
          unfold bdbm_mutex_unlock at he
          cases hl : p.punit_locks[llm_noq_punit_id np r]? with
          | none => rw [hl] at he; cases he
          | some b =>
            rw [hl] at he
            simp only [Option.some.injEq] at he
            subst he
            have hlt : llm_noq_punit_id np r < p.punit_locks.length :=
              (List.getElem?_eq_some.1 hl).1
            intro i
            have h0 := hinv i
            unfold llm_noq_outstanding at h0 ⊢
            have hperm := (List.perm_cons_erase hmem).countP_eq
              (fun x => decide (llm_noq_punit_id np x = i))
            rw [List.countP_cons] at hperm
            simp only
            by_cases hi : llm_noq_punit_id np r = i
            · subst hi
              rw [List.getElem?_set_self hlt]
              simp only [decide_True, if_true] at hperm
              simp only [Option.some.injEq, Bool.false_eq_true, if_false]
              have hle : List.countP (fun x => decide (llm_noq_punit_id np x =
                  llm_noq_punit_id np r)) out ≤ 1 := by
                rw [h0]; split <;> omega
              omega
            · rw [List.getElem?_set_ne hi, ← h0, hperm]
              simp [hi]
      · rw [if_neg hmem] at hrun
        cases hrun


/-- Claim C18.  The LLM gate as a state machine over the locks of the
parallel units.  The index both functions compute from a request,
`channel_no * nr_chips_per_channel + chip_no`, is below `nr_punits`, the
number of locks, for every in-range channel and chip.  `llm_noq_make_req`
on a request whose die lock is free takes the lock, then calls the device
manager and returns its result; when that is non-zero it releases the lock
before it returns, otherwise the lock stays held; on a held lock it waits.
`llm_noq_end_req` releases the lock of the same index and then calls the
layer above.  In every run of `make_req` and `end_req` calls from the created
gate, in which `end_req` completes requests that were submitted, each
parallel unit has at most one request submitted and not yet ended, and has
one exactly when its lock is held. -/
theorem C18_gate (np : bdbm_device_params_t) (dm_make_req : bdbm_llm_req_t → Nat)
    (hN : np.nr_channels * np.nr_chips_per_channel < 18446744073709551616) :
    (∀ r : bdbm_llm_req_t, r.phyaddr.channel_no < np.nr_channels →
      r.phyaddr.chip_no < np.nr_chips_per_channel →
      llm_noq_punit_id np r = r.phyaddr.channel_no * np.nr_chips_per_channel + r.phyaddr.chip_no ∧
      llm_noq_punit_id np r < (llm_noq_create np).nr_punits ∧
      (llm_noq_create np).punit_locks[llm_noq_punit_id np r]? = some false) ∧
    (∀ (p : bdbm_llm_noq_private) (r : bdbm_llm_req_t),
      p.punit_locks[llm_noq_punit_id np r]? = some false →
      llm_noq_make_req np dm_make_req p r =
        some (dm_make_req r,
          { p with
            punit_locks :=
              if dm_make_req r ≠ 0 then p.punit_locks
              else p.punit_locks.set (llm_noq_punit_id np r) true,
            events := p.events ++
              ([llm_noq_event_t.mutex_lock (llm_noq_punit_id np r),
                llm_noq_event_t.dm_make_req r] ++
               if dm_make_req r ≠ 0 then [llm_noq_event_t.mutex_unlock (llm_noq_punit_id np r)]
               else []) })) ∧
    (∀ (p : bdbm_llm_noq_private) (r : bdbm_llm_req_t),
      p.punit_locks[llm_noq_punit_id np r]? = some true →
      llm_noq_make_req np dm_make_req p r = none) ∧
    (∀ (p : bdbm_llm_noq_private) (r : bdbm_llm_req_t),
      llm_noq_punit_id np r < p.punit_locks.length →
      llm_noq_end_req np p r =
        some { p with
          punit_locks := p.punit_locks.set (llm_noq_punit_id np r) false,
          events := p.events ++
            [llm_noq_event_t.mutex_unlock (llm_noq_punit_id np r),
             llm_noq_event_t.hlm_end_req r] }) ∧
    (∀ (cs : List llm_noq_call_t) (p : bdbm_llm_noq_private) (out : List bdbm_llm_req_t),
      llm_noq_run np dm_make_req cs (llm_noq_create np, []) = some (p, out) →
      ∀ i : Nat, llm_noq_outstanding np out i ≤ 1 ∧
        (llm_noq_outstanding np out i = 1 ↔ p.punit_locks[i]? = some true)) := by
  refine ⟨?_, ?_, ?_, ?_, ?_⟩
  · intro r hc hh
    have hlt : r.phyaddr.channel_no * np.nr_chips_per_channel + r.phyaddr.chip_no <
        np.nr_channels * np.nr_chips_per_channel := by
      have : (r.phyaddr.channel_no + 1) * np.nr_chips_per_channel ≤
          np.nr_channels * np.nr_chips_per_channel := Nat.mul_le_mul_right _ hc
      rw [Nat.succ_mul] at this
      omega
    have hid : llm_noq_punit_id np r =
        r.phyaddr.channel_no * np.nr_chips_per_channel + r.phyaddr.chip_no := by
      unfold llm_noq_punit_id
      exact Nat.mod_eq_of_lt (by omega)
    have hnp : BDBM_GET_NR_PUNITS np = np.nr_channels * np.nr_chips_per_channel := by
      unfold BDBM_GET_NR_PUNITS
      exact Nat.mod_eq_of_lt hN
    refine ⟨hid, ?_, ?_⟩
    · show llm_noq_punit_id np r < BDBM_GET_NR_PUNITS np
      rw [hid, hnp]; exact hlt
    · show (List.replicate (BDBM_GET_NR_PUNITS np) false)[llm_noq_punit_id np r]? = some false
      rw [List.getElem?_replicate, if_pos (by rw [hid, hnp]; exact hlt)]
  · intro p r hl
    have hlt : llm_noq_punit_id np r < p.punit_locks.length := (List.getElem?_eq_some.1 hl).1
    unfold llm_noq_make_req
    simp only
    unfold bdbm_mutex_lock
    rw [hl]
    simp only
    by_cases hret : dm_make_req r ≠ 0
    · rw [if_pos hret, if_pos hret, if_pos hret]
      unfold bdbm_mutex_unlock
      rw [List.getElem?_set_self hlt]
      simp only [List.set_set]
      have hsame : p.punit_locks.set (llm_noq_punit_id np r) false = p.punit_locks := by
        apply List.ext_getElem?
        intro j
        by_cases hj : llm_noq_punit_id np r = j
        · subst hj; rw [List.getElem?_set_self hlt, hl]
        · rw [List.getElem?_set_ne hj]
      rw [hsame]
      rfl
    · rw [if_neg hret, if_neg hret, if_neg hret]
      rfl
  · intro p r hl
    unfold llm_noq_make_req
    simp only
    unfold bdbm_mutex_lock
    rw [hl]
  · intro p r hlt
    unfold llm_noq_end_req
    simp only
    unfold bdbm_mutex_unlock
    rw [List.getElem?_eq_getElem hlt]
  · intro cs p out hrun i
    have hinv := llm_noq_run_inv np dm_make_req cs (llm_noq_create np) [] p out
      (fun j => by
        unfold llm_noq_outstanding
        show List.countP _ [] =
          if (List.replicate (BDBM_GET_NR_PUNITS np) false)[j]? = some true then 1 else 0
        rw [List.getElem?_replicate, List.countP_nil]
        split_ifs with h1 h2 h3
        · cases h2
        · rfl
        · cases h3
        · rfl) hrun i
    rw [hinv]
    by_cases h : p.punit_locks[i]? = some true
    · rw [if_pos h]
      exact ⟨Nat.le_refl _, fun _ => h, fun _ => rfl⟩
    · rw [if_neg h]
      exact ⟨Nat.zero_le _, fun h1 => absurd h1 (by decide), fun h1 => absurd h1 h⟩

/-- Witness of C18: on the geometry with two channels of two chips, requests
on the dies (0, 1) and (1, 1) are submitted and the first is ended; the lock
of parallel unit 3 is held for the one request still outstanding. -/
theorem C18_gate_witness :
    llm_noq_run ex_np4 ex_dm_make_req
        [llm_noq_call_t.make_req (ex_req 0 1), llm_noq_call_t.make_req (ex_req 1 1),
         llm_noq_call_t.end_req (ex_req 0 1)] (llm_noq_create ex_np4, []) =
      some ({ nr_punits := 4, punit_locks := [false, false, false, true],
              events :=
                [llm_noq_event_t.mutex_lock 1, llm_noq_event_t.dm_make_req (ex_req 0 1),
                 llm_noq_event_t.mutex_lock 3, llm_noq_event_t.dm_make_req (ex_req 1 1),
                 llm_noq_event_t.mutex_unlock 1, llm_noq_event_t.hlm_end_req (ex_req 0 1)] },
            [ex_req 1 1]) ∧
    llm_noq_run ex_np4 ex_dm_make_req
        [llm_noq_call_t.make_req (ex_req 0 1), llm_noq_call_t.make_req (ex_req 0 1)]
        (llm_noq_create ex_np4, []) = none ∧
    ∀ i : Nat, llm_noq_outstanding ex_np4 [ex_req 1 1] i ≤ 1 :=
  ⟨by decide, by decide,
   fun i => ((C18_gate ex_np4 ex_dm_make_req (by decide)).2.2.2.2 _ _ _
     (by decide :
       llm_noq_run ex_np4 ex_dm_make_req
        [llm_noq_call_t.make_req (ex_req 0 1), llm_noq_call_t.make_req (ex_req 1 1),
         llm_noq_call_t.end_req (ex_req 0 1)] (llm_noq_create ex_np4, []) =
      some ({ nr_punits := 4, punit_locks := [false, false, false, true],
              events :=
                [llm_noq_event_t.mutex_lock 1, llm_noq_event_t.dm_make_req (ex_req 0 1),
                 llm_noq_event_t.mutex_lock 3, llm_noq_event_t.dm_make_req (ex_req 1 1),
                 llm_noq_event_t.mutex_unlock 1, llm_noq_event_t.hlm_end_req (ex_req 0 1)] },
            [ex_req 1 1])) i).1⟩

/-! ## Properties of the block-I/O proxy -/

/-- Every sequence of handler calls keeps `ref_cnt` in `{0, 1}`. -/
theorem blockio_proxy_run_inv (cs : List blockio_proxy_call_t) :
    ∀ (s s' : blockio_proxy_state_t) (p : bdbm_blockio_proxy_t),
      s.bdi = some p → (p.ref_cnt = 0 ∨ p.ref_cnt = 1) →
      blockio_proxy_run cs s = some s' →
      ∃ p', s'.bdi = some p' ∧ (p'.ref_cnt = 0 ∨ p'.ref_cnt = 1) := by
  induction cs with
  | nil =>
    intro s s' p hs hp hrun
    unfold blockio_proxy_run at hrun
    cases hrun
    exact ⟨p, hs, hp⟩
  | cons c cs ih =>
    intro s s' p hs hp hrun
    cases c with
    | create filp =>
      unfold blockio_proxy_run at hrun
      unfold blockio_proxy_fops_create at hrun
      rw [hs] at hrun
      simp only at hrun
      split_ifs at hrun with h1 h2
      · exact ih s s' p hs hp hrun
      · exact ih s s' p hs hp hrun
      · refine ih _ s' { p with ref_cnt := p.ref_cnt + 1 } rfl ?_ hrun
        right
        show p.ref_cnt + 1 = 1
        omega
    | release filp =>
      unfold blockio_proxy_run at hrun
      unfold blockio_proxy_fops_release at hrun
      rw [hs] at hrun
      simp only at hrun
      split_ifs at hrun with h1 h2
      · exact ih s s' p hs hp hrun
      · refine ih _ s' { p with ref_cnt := p.ref_cnt - 1 } rfl ?_ hrun
        left
        show p.ref_cnt - 1 = 0
        omega

/-- Claim C19.  Exactly one attached client.  `blockio_proxy_fops_create`
returns `-EBUSY` and leaves the state (and `ref_cnt` with it) unchanged
whenever a client is attached (`ref_cnt > 0`) or the proxy is not created;
with the proxy created, `ref_cnt = 0` and a file whose `private_data` is
`NULL`, as on every `open`, it raises `ref_cnt` to 1 and returns 0.
`blockio_proxy_fops_release` on an attached file returns 0, leaves `ref_cnt`
as it is when it is 0 and lowers it by one when it is greater.  Over every
sequence of calls of the two handlers from a state with `ref_cnt` in
`{0, 1}`, `ref_cnt` stays in `{0, 1}`. -/
theorem C19_single_client :
    (∀ (s : blockio_proxy_state_t) (filp : struct_file),
      (s.bdi = none ∨ ∃ p, s.bdi = some p ∧ p.ref_cnt > 0) →
      blockio_proxy_fops_create s filp = (-EBUSY, s, filp)) ∧
    (∀ (s : blockio_proxy_state_t) (filp : struct_file) (p : bdbm_blockio_proxy_t),
      s.bdi = some p → p.ref_cnt = 0 → filp.private_data = false →
      blockio_proxy_fops_create s filp =
        (0, { bdi := some { ref_cnt := 1 } },
         { private_data := true, f_mode := filp.f_mode ||| FMODE_WRITE })) ∧
    (∀ (s : blockio_proxy_state_t) (filp : struct_file) (p : bdbm_blockio_proxy_t),
      s.bdi = some p → filp.private_data = true →
      (p.ref_cnt = 0 → blockio_proxy_fops_release s filp = some (0, s, filp)) ∧
      (p.ref_cnt > 0 →
        blockio_proxy_fops_release s filp =
          some (0, { bdi := some { ref_cnt := p.ref_cnt - 1 } },
                { filp with private_data := false }))) ∧
    (∀ (cs : List blockio_proxy_call_t) (s s' : blockio_proxy_state_t)
        (p : bdbm_blockio_proxy_t),
      s.bdi = some p → (p.ref_cnt = 0 ∨ p.ref_cnt = 1) →
      blockio_proxy_run cs s = some s' →
      blockio_proxy_ref_cnt s' = some 0 ∨ blockio_proxy_ref_cnt s' = some 1) := by
  refine ⟨?_, ?_, ?_, ?_⟩
  · intro s filp h
    unfold blockio_proxy_fops_create
    split_ifs with h1
    · rfl
    · rcases h with h | ⟨p, hp, hr⟩
      · rw [h]
      · rw [hp]
        simp only
        rw [if_pos hr]
  · intro s filp p hs hr hf
    unfold blockio_proxy_fops_create
    rw [hf, hs]
    simp only [Bool.false_eq_true, if_false]
    rw [if_neg (by omega), hr]
    rfl
  · intro s filp p hs hf
    unfold blockio_proxy_fops_release
    rw [hf, hs]
    simp only [if_true]
    constructor
    · intro hr
      rw [if_pos hr]
    · intro hr
      rw [if_neg (by omega)]
  · intro cs s s' p hs hp hrun
    obtain ⟨p', hs', hp'⟩ := blockio_proxy_run_inv cs s s' p hs hp hrun
    unfold blockio_proxy_ref_cnt
    rw [hs']
    rcases hp' with h | h
    · left; simp [h]
    · right; simp [h]

/-- Witness of C19: from the opened proxy, an `open`, a second `open`
(refused), the `release` of the attached file and another `open`. -/
theorem C19_single_client_witness :
    blockio_proxy_fops_create ex_proxy_opened ex_new_file =
      (0, { bdi := some { ref_cnt := 1 } }, ex_attached_file) ∧
    blockio_proxy_fops_create { bdi := some { ref_cnt := 1 } } ex_new_file =
      (-16, { bdi := some { ref_cnt := 1 } }, ex_new_file) ∧
    blockio_proxy_run
        [blockio_proxy_call_t.create ex_new_file, blockio_proxy_call_t.create ex_new_file,
         blockio_proxy_call_t.release ex_attached_file,
         blockio_proxy_call_t.create ex_new_file] ex_proxy_opened =
      some { bdi := some { ref_cnt := 1 } } ∧
    (blockio_proxy_ref_cnt { bdi := some { ref_cnt := 1 } } = some 0 ∨
      blockio_proxy_ref_cnt { bdi := some { ref_cnt := 1 } } = some 1) :=
  ⟨by decide, by decide, by decide,
   C19_single_client.2.2.2
     [blockio_proxy_call_t.create ex_new_file, blockio_proxy_call_t.create ex_new_file,
      blockio_proxy_call_t.release ex_attached_file, blockio_proxy_call_t.create ex_new_file]
     ex_proxy_opened { bdi := some { ref_cnt := 1 } } { ref_cnt := 0 } rfl (Or.inl rfl)
     (by decide)⟩

/-! ## Scenario S3: the fill of the first active blocks of the fine stream -/

/-- An ABM keeps its own blocks. -/
theorem abm_blocks_kept_refl (bai : bdbm_abm_info_t) : abm_blocks_kept bai bai :=
  ⟨rfl, fun _ b h => ⟨b, h, rfl, rfl, rfl, rfl, fun _ hj => hj⟩⟩

/-- Function `bdbm_abm_invalidate_page` keeps the blocks: it changes neither
the state nor the position of a block, nor a NOT_INVALID sub-page. -/
theorem abm_invalidate_page_kept (np : bdbm_device_params_t) (bai : bdbm_abm_info_t)
    (c h b pg sub : Nat) :
    abm_blocks_kept bai (bdbm_abm_invalidate_page np bai c h b pg sub) := by
  have hsame : ∀ bai1 : bdbm_abm_info_t, bai1.blocks = bai.blocks →
      bai1.nr_dirty_4kb_blks = bai.nr_dirty_4kb_blks → abm_blocks_kept bai bai1 := by
    intro bai1 e e2
    exact ⟨e2, fun i x hx => ⟨x, by rw [e]; exact hx, rfl, rfl, rfl, rfl, fun _ hj => hj⟩⟩
  unfold bdbm_abm_invalidate_page
  simp only
  split
  · exact hsame _ rfl rfl
  · rename_i i hi
    split
    · exact hsame _ rfl rfl
    · rename_i blk hblk
      split
      · rename_i hv
        refine ⟨rfl, ?_⟩
        intro i' x hx
        by_cases hii : i = i'
        · subst hii
          rw [hblk] at hx
          cases hx
          have hlt : i < bai.blocks.length := by
            rcases Nat.lt_or_ge i bai.blocks.length with h1 | h1
            · exact h1
            · rw [List.getElem?_eq_none h1] at hblk; cases hblk
          refine ⟨{ blk with
              pst := blk.pst.set (pg * np.nr_subpages_per_page + sub) bdbm_abm_subpage_t.INVALID,
              nr_invalid_subpages := blk.nr_invalid_subpages + 1 },
            by rw [List.getElem?_set_self hlt], rfl, rfl, rfl, rfl, ?_⟩
          intro j hj
          by_cases hjo : pg * np.nr_subpages_per_page + sub = j
          · subst hjo
            rw [hv] at hj
            cases hj
          · rw [List.getElem?_set_ne hjo]
            exact hj
        · exact ⟨x, by rw [List.getElem?_set_ne hii]; exact hx, rfl, rfl, rfl, rfl,
            fun _ hj => hj⟩
      · exact hsame _ rfl rfl

/-- Function `bdbm_abm_validate_page_4kb` on a NOT_INVALID sub-page of a
block that is CLEAN or DIRTY_4KB: the sub-page turns VALID, the block is
DIRTY_4KB afterwards, and the dirty-4KB counter grows by one when the block
was CLEAN. -/
theorem abm_validate_page_4kb_at (np : bdbm_device_params_t) (bai : bdbm_abm_info_t)
    (c h blk pg sub i : Nat) (b : bdbm_abm_block_t)
    (hi : (c * np.nr_chips_per_channel + h) * np.nr_blocks_per_chip + blk = i)
    (hb : bai.blocks[i]? = some b)
    (hv : b.pst[pg * np.nr_subpages_per_page + sub]? = some bdbm_abm_subpage_t.NOT_INVALID)
    (hs : b.status = bdbm_abm_blk_status_t.CLEAN ∨ b.status = bdbm_abm_blk_status_t.DIRTY_4KB) :
    (bdbm_abm_validate_page_4kb np bai c h blk pg sub).nr_dirty_4kb_blks =
      bai.nr_dirty_4kb_blks + (if b.status = bdbm_abm_blk_status_t.DIRTY_4KB then 0 else 1) ∧
    (bdbm_abm_validate_page_4kb np bai c h blk pg sub).blocks =
      bai.blocks.set i { b with
        pst := b.pst.set (pg * np.nr_subpages_per_page + sub) bdbm_abm_subpage_t.VALID,
        status := bdbm_abm_blk_status_t.DIRTY_4KB } := by
  have hlt : i < bai.blocks.length := by
    rcases Nat.lt_or_ge i bai.blocks.length with h1 | h1
    · exact h1
    · rw [List.getElem?_eq_none h1] at hb; cases hb
  have hg : bdbm_abm_get_block np bai c h blk = some i := by
    unfold bdbm_abm_get_block
    simp only
    rw [hi, if_pos hlt]
  unfold bdbm_abm_validate_page_4kb
  simp only
  rw [hg]
  simp only
  rw [hb]
  simp only
  rw [if_pos hv]
  rcases hs with hs | hs
  · have h1 : ¬ (b.status = bdbm_abm_blk_status_t.DIRTY ∨
        b.status = bdbm_abm_blk_status_t.DIRTY_4KB) := by rw [hs]; simp
    have h2 : ¬ b.status = bdbm_abm_blk_status_t.DIRTY_4KB := by rw [hs]; simp
    rw [if_neg h1, if_neg h2]
    exact ⟨rfl, rfl⟩
  · have h1 : b.status = bdbm_abm_blk_status_t.DIRTY ∨
        b.status = bdbm_abm_blk_status_t.DIRTY_4KB := Or.inr hs
    rw [if_pos h1, if_pos hs]
    refine ⟨rfl, ?_⟩
    cases b
    simp only at hs
    subst hs
    rfl

/-- A call of the fine stream under a cursor that is not the last of the
active blocks: the recycle engine is not entered, the call returns 0 with the
address under the cursor, and the cursor moves on. -/
theorem fine_step (np : bdbm_device_params_t)
    (recycle : bdbm_fgm_ftl_private_t → Option (Nat × bdbm_fgm_ftl_private_t))
    (p : bdbm_fgm_ftl_private_t)
    (hN : p.nr_punits = np.nr_channels * np.nr_chips_per_channel)
    (hN64 : np.nr_channels * np.nr_chips_per_channel < 18446744073709551616)
    (hP64 : np.nr_pages_per_block < 18446744073709551616)
    (hb : bab_per_die np p.bai p.ac_bab_4kb)
    (hm : p.curr_puid_4kb < np.nr_channels * np.nr_chips_per_channel)
    (hq : p.curr_page_ofs_4kb < np.nr_pages_per_block)
    (hlast : ¬ (p.curr_puid_4kb + 1 = np.nr_channels * np.nr_chips_per_channel ∧
          p.curr_page_ofs_4kb + 1 = np.nr_pages_per_block)) :
    ∃ ppa : bdbm_phyaddr_t,
      __bdbm_fgm_ftl_get_free_ppa_4kb np recycle p =
        some (0, { p with
              curr_puid_4kb :=
                if p.curr_puid_4kb + 1 = np.nr_channels * np.nr_chips_per_channel then 0
                else p.curr_puid_4kb + 1,
              curr_page_ofs_4kb :=
                if p.curr_puid_4kb + 1 = np.nr_channels * np.nr_chips_per_channel
                then p.curr_page_ofs_4kb + 1 else p.curr_page_ofs_4kb }, ppa) ∧
      bab_addr np p.bai p.ac_bab_4kb (p.curr_puid_4kb % np.nr_channels)
        (p.curr_puid_4kb / np.nr_channels) p.curr_page_ofs_4kb ppa := by
  obtain ⟨ppa, hs, ha⟩ :=
    stream_ppa_at np p.bai p.ac_bab_4kb p.curr_puid_4kb p.curr_page_ofs_4kb hb hm hq
  refine ⟨ppa, ?_, ha⟩
  unfold __bdbm_fgm_ftl_get_free_ppa_4kb
  rw [hs]
  simp only
  rw [Nat.mod_eq_of_lt (by omega : p.curr_puid_4kb + 1 < 18446744073709551616),
    Nat.mod_eq_of_lt (by omega : p.curr_page_ofs_4kb + 1 < 18446744073709551616), hN]
  by_cases h1 : p.curr_puid_4kb + 1 = np.nr_channels * np.nr_chips_per_channel
  · rw [if_pos h1, if_neg (fun h2 => hlast ⟨h1, h2⟩), if_pos h1, if_pos h1]
  · rw [if_neg h1, if_neg h1, if_neg h1]

/-- The slot search finds slot 0 when the first sub-page of the page is
NOT_INVALID. -/
theorem map_4kb_find_slot_zero (pst : List bdbm_abm_subpage_t) (base K : Nat) (hK : 0 < K)
    (h : pst[base + 0]? = some bdbm_abm_subpage_t.NOT_INVALID) :
    map_4kb_find_slot pst base (List.range K) = some 0 := by
  obtain ⟨k, rfl⟩ : ∃ k, K = k + 1 := ⟨K - 1, by omega⟩
  rw [List.range_succ_eq_map]
  unfold map_4kb_find_slot
  rw [h]

/-- The fine commit of a request onto a page whose first sub-page is
NOT_INVALID, in a block that is CLEAN or DIRTY_4KB: it returns 0 with slot 0,
leaves the cursor, the cap and the active blocks of the fine stream as they
are, and writes that one sub-page. -/
theorem map_4kb_fresh_slot (np : bdbm_device_params_t) (p : bdbm_fgm_ftl_private_t)
    (la : bdbm_logaddr_t) (ppa : bdbm_phyaddr_t) (bi : Nat) (b : bdbm_abm_block_t)
    (hcg : la.lpa_cg = -1) (hl : to_u64 (la.lpa la.ofs) < np.nr_subpages_per_ssd)
    (hidx : (ppa.channel_no * np.nr_chips_per_channel + ppa.chip_no) * np.nr_blocks_per_chip
      + ppa.block_no = bi)
    (hblk : p.bai.blocks[bi]? = some b)
    (hK : 0 < np.nr_subpages_per_page)
    (hv : b.pst[ppa.page_no * np.nr_subpages_per_page + 0]? =
      some bdbm_abm_subpage_t.NOT_INVALID)
    (hs : b.status = bdbm_abm_blk_status_t.CLEAN ∨ b.status = bdbm_abm_blk_status_t.DIRTY_4KB) :
    ∃ q : bdbm_fgm_ftl_private_t,
      bdbm_fgm_ftl_map_lpa_to_ppa np p la ppa = some (0, q, 0) ∧
      q.nr_punits = p.nr_punits ∧ q.nr_max_dirty_4kb_blks = p.nr_max_dirty_4kb_blks ∧
      q.ac_bab_4kb = p.ac_bab_4kb ∧ q.curr_puid_4kb = p.curr_puid_4kb ∧
      q.curr_page_ofs_4kb = p.curr_page_ofs_4kb ∧
      abm_slot_written p.bai q.bai bi b (ppa.page_no * np.nr_subpages_per_page) := by
  have hlt : bi < p.bai.blocks.length := by
    rcases Nat.lt_or_ge bi p.bai.blocks.length with h1 | h1
    · exact h1
    · rw [List.getElem?_eq_none h1] at hblk; cases hblk
  have hg : bdbm_abm_get_block np p.bai ppa.channel_no ppa.chip_no ppa.block_no = some bi := by
    unfold bdbm_abm_get_block
    simp only
    rw [hidx, if_pos hlt]
  have hslot := map_4kb_find_slot_zero b.pst (ppa.page_no * np.nr_subpages_per_page)
    np.nr_subpages_per_page hK hv
  have key : ∀ bai1 : bdbm_abm_info_t, abm_blocks_kept p.bai bai1 →
      abm_slot_written p.bai (bdbm_abm_validate_page_4kb np bai1 ppa.channel_no ppa.chip_no
        ppa.block_no ppa.page_no 0) bi b (ppa.page_no * np.nr_subpages_per_page) := by
    intro bai1 hk
    obtain ⟨hk1, hk2⟩ := hk
    obtain ⟨b1, hb1, hs1, hc1, hh1, hn1, hp1⟩ := hk2 bi b hblk
    have hlt1 : bi < bai1.blocks.length := by
      rcases Nat.lt_or_ge bi bai1.blocks.length with h1 | h1
      · exact h1
      · rw [List.getElem?_eq_none h1] at hb1; cases hb1
    obtain ⟨hv1, hv2⟩ := abm_validate_page_4kb_at np bai1 ppa.channel_no ppa.chip_no
      ppa.block_no ppa.page_no 0 bi b1 hidx hb1 (hp1 _ hv) (by rw [hs1]; exact hs)
    refine ⟨by rw [hv1, hk1, hs1], ?_, ?_⟩
    · intro i x hi hx
      obtain ⟨x1, hx1, e1, e2, e3, e4, e5⟩ := hk2 i x hx
      exact ⟨x1, by rw [hv2, List.getElem?_set_ne (Ne.symm hi)]; exact hx1, e1, e2, e3, e4, e5⟩
    · refine ⟨{ b1 with
          pst := b1.pst.set (ppa.page_no * np.nr_subpages_per_page + 0)
            bdbm_abm_subpage_t.VALID,
          status := bdbm_abm_blk_status_t.DIRTY_4KB },
        by rw [hv2, List.getElem?_set_self hlt1], rfl, hc1, hh1, hn1, ?_⟩
      intro j hj hjv
      rw [List.getElem?_set_ne (by omega)]
      exact hp1 j hjv
  unfold bdbm_fgm_ftl_map_lpa_to_ppa
  rw [if_pos hcg]
  unfold __bdbm_fgm_ftl_map_lpa_to_ppa_4kb
  rw [if_neg (by omega), hg]
  simp only
  rw [hblk]
  simp only
  rw [hslot]
  simp only
  cases hf : find_lpa_4kb p (to_u64 (la.lpa la.ofs))
  · exact ⟨_, rfl, rfl, rfl, rfl, rfl, rfl, key _ (abm_blocks_kept_refl _)⟩
  · exact ⟨_, rfl, rfl, rfl, rfl, rfl, rfl, key _ (abm_invalidate_page_kept np p.bai _ _ _ _ _)⟩

/-- Slot `j` of page `a` is not the first slot of another page `b`. -/
theorem slot_ne (a b K j : Nat) (hj : j < K) (hab : a ≠ b) : a * K + j ≠ b * K := by
  intro h
  rcases Nat.lt_or_gt_of_ne hab with h1 | h1
  · have h2 : (a + 1) * K ≤ b * K := Nat.mul_le_mul_right K h1
    rw [Nat.add_mul, Nat.one_mul] at h2
    omega
  · have h2 : (b + 1) * K ≤ a * K := Nat.mul_le_mul_right K h1
    rw [Nat.add_mul, Nat.one_mul] at h2
    omega

/-- With fuel for one level of nesting, `bdbm_fgm_ftl_get_free_ppa` is the
dispatch over the recycle engine. -/
theorem get_free_ppa_one (env : fgm_env_t) (np : bdbm_device_params_t)
    (p : bdbm_fgm_ftl_private_t) (la : bdbm_logaddr_t) :
    bdbm_fgm_ftl_get_free_ppa env np 1 p la =
      get_free_ppa_dispatch np
        (bdbm_fgm_ftl_get_reusable_active_blks env np (bdbm_fgm_ftl_get_free_ppa env np 0))
        p la := rfl

/-- The vector of a fine stream that is being filled holds a block per die. -/
theorem fine_filled_bab (np : bdbm_device_params_t) (p0 p : bdbm_fgm_ftl_private_t) (n : Nat)
    (h : fine_filled np p0 p n) : bab_per_die np p.bai p.ac_bab_4kb := by
  intro c hc h' hh
  obtain ⟨_, _, _, _, _, _, hblks⟩ := h
  have hm : c + h' * np.nr_channels < np.nr_channels * np.nr_chips_per_channel := by
    have h1 : (h' + 1) * np.nr_channels ≤ np.nr_chips_per_channel * np.nr_channels :=
      Nat.mul_le_mul_right _ hh
    rw [Nat.add_mul, Nat.one_mul] at h1
    rw [Nat.mul_comm np.nr_channels]
    omega
  have e1 : (c + h' * np.nr_channels) % np.nr_channels = c := by
    rw [Nat.add_mul_mod_self_right, Nat.mod_eq_of_lt hc]
  have e2 : (c + h' * np.nr_channels) / np.nr_channels = h' := by
    rw [Nat.add_mul_div_right _ _ (by omega : 0 < np.nr_channels), Nat.div_eq_of_lt hc,
      Nat.zero_add]
  obtain ⟨bi, b, h1, h2, h3, h4, _⟩ := hblks _ hm
  rw [e1, e2] at h1
  rw [e1] at h3
  rw [e2] at h4
  unfold bab_die_ok
  rw [h1]
  simp only
  rw [h2]
  simp only
  exact decide_eq_true ⟨h3, h4⟩

/-- A fresh fine stream is a fine stream filled by no write. -/
theorem fine_fresh_filled (np : bdbm_device_params_t) (p : bdbm_fgm_ftl_private_t)
    (h : fine_fresh np p) : fine_filled np p p 0 := by
  obtain ⟨h1, h2, h3, h4⟩ := h
  refine ⟨h1, rfl, rfl, by rw [h2, Nat.zero_mod], by rw [h3, Nat.zero_div], by simp, ?_⟩
  intro m hm
  have h5 := h4 m hm
  unfold fine_block_fresh at h5
  split at h5
  · rename_i bi hbi
    split at h5
    · rename_i b hblk
      obtain ⟨g1, g2, g3, g4, g5⟩ := of_decide_eq_true h5
      refine ⟨bi, b, hbi, hblk, g1, g2, g3, ?_, ?_⟩
      · rw [if_neg (Nat.not_lt_zero m)]
        exact g4
      · intro q j hq hj _
        have h6 : (q + 1) * np.nr_subpages_per_page ≤
            np.nr_pages_per_block * np.nr_subpages_per_page := Nat.mul_le_mul_right _ hq
        rw [Nat.add_mul, Nat.one_mul] at h6
        rw [g5, List.getElem?_replicate, if_pos (by omega)]
    · cases h5
  · cases h5

/-- One host write of 4KB into a fine stream that is being filled, before
the last page of its active blocks: the write returns 0 on both calls and
the stream is filled by one write more. -/
theorem fine_write_step (env : fgm_env_t) (np : bdbm_device_params_t)
    (p0 p : bdbm_fgm_ftl_private_t) (n : Nat) (l : Int)
    (hN64 : np.nr_channels * np.nr_chips_per_channel < 18446744073709551616)
    (hP64 : np.nr_pages_per_block < 18446744073709551616)
    (hK : 0 < np.nr_subpages_per_page)
    (hinv : fine_filled np p0 p n)
    (hn : n + 1 < np.nr_channels * np.nr_chips_per_channel * np.nr_pages_per_block)
    (hl : to_u64 l < np.nr_subpages_per_ssd) :
    ∃ q : bdbm_fgm_ftl_private_t,
      fine_write env np p l = some q ∧ fine_filled np p0 q (n + 1) := by
  have hbab := fine_filled_bab np p0 p n hinv
  obtain ⟨hNp, hmax, hbab0, hcur, hofs, hcnt, hblks⟩ := hinv
  have hNpos : 0 < np.nr_channels * np.nr_chips_per_channel := by
    rcases Nat.eq_zero_or_pos (np.nr_channels * np.nr_chips_per_channel) with h | h
    · rw [h, Nat.zero_mul] at hn; omega
    · exact h
  have hCpos : 0 < np.nr_channels := by
    rcases Nat.eq_zero_or_pos np.nr_channels with h | h
    · rw [h, Nat.zero_mul] at hNpos; omega
    · exact h
  have hm : n % (np.nr_channels * np.nr_chips_per_channel) <
      np.nr_channels * np.nr_chips_per_channel := Nat.mod_lt _ hNpos
  have hq : n / (np.nr_channels * np.nr_chips_per_channel) < np.nr_pages_per_block :=
    Nat.div_lt_of_lt_mul (by omega)
  have hdm := Nat.mod_add_div n (np.nr_channels * np.nr_chips_per_channel)
  have hlast : ¬ (p.curr_puid_4kb + 1 = np.nr_channels * np.nr_chips_per_channel ∧
      p.curr_page_ofs_4kb + 1 = np.nr_pages_per_block) := by
    rw [hcur, hofs]
    rintro ⟨h1, h2⟩
    rw [← h2, Nat.mul_add, Nat.mul_one] at hn
    omega
  obtain ⟨ppa, hstep, haddr⟩ := fine_step np
    (bdbm_fgm_ftl_get_reusable_active_blks env np (bdbm_fgm_ftl_get_free_ppa env np 0)) p
    hNp hN64 hP64 hbab (by rw [hcur]; exact hm) (by rw [hofs]; exact hq) hlast
  have hstep1 : ∃ p1 : bdbm_fgm_ftl_private_t,
      __bdbm_fgm_ftl_get_free_ppa_4kb np
        (bdbm_fgm_ftl_get_reusable_active_blks env np (bdbm_fgm_ftl_get_free_ppa env np 0)) p =
        some (0, p1, ppa) ∧
      p1.bai = p.bai ∧ p1.ac_bab_4kb = p.ac_bab_4kb ∧ p1.nr_punits = p.nr_punits ∧
      p1.nr_max_dirty_4kb_blks = p.nr_max_dirty_4kb_blks ∧
      p1.curr_puid_4kb = (n + 1) % (np.nr_channels * np.nr_chips_per_channel) ∧
      p1.curr_page_ofs_4kb = (n + 1) / (np.nr_channels * np.nr_chips_per_channel) := by
    refine ⟨_, hstep, rfl, rfl, rfl, rfl, ?_, ?_⟩
    · simp only
      rw [hcur]
      by_cases h : n % (np.nr_channels * np.nr_chips_per_channel) + 1 =
          np.nr_channels * np.nr_chips_per_channel
      · rw [if_pos h, (succ_mod_div_eq n _ h).1]
      · rw [if_neg h, (succ_mod_div_lt n _ (by omega)).1]
    · simp only
      rw [hcur, hofs]
      by_cases h : n % (np.nr_channels * np.nr_chips_per_channel) + 1 =
          np.nr_channels * np.nr_chips_per_channel
      · rw [if_pos h, (succ_mod_div_eq n _ h).2]
      · rw [if_neg h, (succ_mod_div_lt n _ (by omega)).2]
  obtain ⟨p1, hstep2, f1, f2, f3, f4, f5, f6⟩ := hstep1
  rw [hcur, hofs] at haddr
  obtain ⟨ha1, ha2, ha3, _, bi', b', hb1, hb2, hb3⟩ := haddr
  obtain ⟨bi, b, g1, g2, g3, g4, g5, g6, g7⟩ := hblks _ hm
  have hbi : bi = bi' := Option.some.inj (Option.some.inj (g1.symm.trans hb1))
  subst hbi
  have hbb : b = b' := Option.some.inj (g2.symm.trans hb2)
  subst hbb
  have hsts : b.status = bdbm_abm_blk_status_t.CLEAN ∨
      b.status = bdbm_abm_blk_status_t.DIRTY_4KB := by
    by_cases h : n % (np.nr_channels * np.nr_chips_per_channel) < n
    · rw [if_pos h] at g6; exact Or.inr g6
    · rw [if_neg h] at g6; exact Or.inl g6
  obtain ⟨q, hmap, e1, e2, e3, e4, e5, hw1, hw2, hw3⟩ :=
    map_4kb_fresh_slot np p1 (ex_la4 l) ppa bi b rfl hl
      (by rw [ha1, ha2, hb3, ← g3, ← g4]; exact g5) (by rw [f1]; exact g2) hK
      (by rw [ha3]; exact g7 _ 0 hq hK (by rw [Nat.mul_comm]; omega)) hsts
  rw [f1] at hw1 hw2
  refine ⟨q, ?_, ?_⟩
  · unfold fine_write
    rw [get_free_ppa_one]
    unfold get_free_ppa_dispatch
    have hcg : (ex_la4 l).lpa_cg = -1 := rfl
    rw [if_pos hcg, hstep2]
    simp only
    rw [hmap]
  · refine ⟨by rw [e1, f3, hNp], by rw [e2, f4, hmax], by rw [e3, f2, hbab0],
      by rw [e4, f5], by rw [e5, f6], ?_, ?_⟩
    · rw [hw1, hcnt]
      by_cases h : n % (np.nr_channels * np.nr_chips_per_channel) < n
      · rw [if_pos h] at g6
        rw [if_pos g6]
        have h2 : np.nr_channels * np.nr_chips_per_channel ≤ n := by
          rcases Nat.lt_or_ge n (np.nr_channels * np.nr_chips_per_channel) with h3 | h3
          · rw [Nat.mod_eq_of_lt h3] at h; omega
          · exact h3
        omega
      · rw [if_neg h] at g6
        rw [if_neg (by rw [g6]; simp)]
        have h2 : n % (np.nr_channels * np.nr_chips_per_channel) ≤ n := Nat.mod_le _ _
        omega
    · intro m' hm'
      obtain ⟨bi2, b2, k1, k2, k3, k4, k5, k6, k7⟩ := hblks m' hm'
      by_cases hmm : m' = n % (np.nr_channels * np.nr_chips_per_channel)
      · subst hmm
        have hbi : bi = bi2 := Option.some.inj (Option.some.inj (g1.symm.trans k1))
        subst hbi
        have hbb : b = b2 := Option.some.inj (g2.symm.trans k2)
        subst hbb
        obtain ⟨b3, r1, r2, r3, r4, r5, r6⟩ := hw3
        refine ⟨bi, b3, by rw [e3, f2]; exact g1, r1, by rw [r3]; exact g3,
          by rw [r4]; exact g4, by rw [r3, r4, r5]; exact g5, ?_, ?_⟩
        · have h2 : n % (np.nr_channels * np.nr_chips_per_channel) ≤ n := Nat.mod_le _ _
          rw [if_pos (by omega)]
          exact r2
        · intro q' j hq' hj hn'
          have hne : q' ≠ n / (np.nr_channels * np.nr_chips_per_channel) := by
            intro h
            rw [h, Nat.mul_comm] at hn'
            omega
          exact r6 _ (slot_ne _ _ _ _ hj (by rw [ha3]; exact hne)) (g7 q' j hq' hj (by omega))
      · have hbne : bi2 ≠ bi := by
          intro h
          rw [h] at k2
          have hbb : b = b2 := Option.some.inj (g2.symm.trans k2)
          subst hbb
          apply hmm
          have h1 := Nat.mod_add_div m' np.nr_channels
          have h2 := Nat.mod_add_div (n % (np.nr_channels * np.nr_chips_per_channel))
            np.nr_channels
          rw [← k3, ← k4] at h1
          rw [← g3, ← g4] at h2
          omega
        obtain ⟨b3, r1, r2, r3, r4, r5, r6⟩ := hw2 bi2 b2 hbne k2
        refine ⟨bi2, b3, by rw [e3, f2]; exact k1, r1, by rw [r3]; exact k3,
          by rw [r4]; exact k4, by rw [r3, r4, r5]; exact k5, ?_, ?_⟩
        · rw [r2]
          have hiff : m' < n + 1 ↔ m' < n := by
            constructor
            · intro h
              rcases Nat.lt_or_ge m' n with h3 | h3
              · exact h3
              · have h4 : m' = n := by omega
                rw [h4] at hmm hm'
                rw [Nat.mod_eq_of_lt hm'] at hmm
                exact absurd rfl hmm
            · intro h; omega
          by_cases h : m' < n
          · rw [if_pos h] at k6
            rw [if_pos (hiff.2 h)]
            exact k6
          · rw [if_neg h] at k6
            rw [if_neg (fun h' => h (hiff.1 h'))]
            exact k6
        · intro q' j hq' hj hn'
          exact r6 _ (k7 q' j hq' hj (by omega))

/-- A run of host writes of 4KB into a fine stream that is being filled,
ending before the last page of its active blocks: every write returns 0 on
both calls. -/
theorem fine_fill_run (env : fgm_env_t) (np : bdbm_device_params_t)
    (p0 : bdbm_fgm_ftl_private_t)
    (hN64 : np.nr_channels * np.nr_chips_per_channel < 18446744073709551616)
    (hP64 : np.nr_pages_per_block < 18446744073709551616)
    (hK : 0 < np.nr_subpages_per_page) :
    ∀ (n k l : Nat) (p : bdbm_fgm_ftl_private_t), fine_filled np p0 p k →
      k + n < np.nr_channels * np.nr_chips_per_channel * np.nr_pages_per_block →
      l + n ≤ np.nr_subpages_per_ssd →
      ∃ q : bdbm_fgm_ftl_private_t,
        fine_fill env np n l p = some q ∧ fine_filled np p0 q (k + n) := by
  intro n
  induction n with
  | zero =>
    intro k l p hinv _ _
    exact ⟨p, rfl, hinv⟩
  | succ n ih =>
    intro k l p hinv hk hl
    have hl1 : to_u64 (l : Int) < np.nr_subpages_per_ssd := by
      have := to_u64_natCast_le l
      omega
    obtain ⟨p1, hw, hinv1⟩ := fine_write_step env np p0 p k (l : Int) hN64 hP64 hK hinv
      (by omega) hl1
    obtain ⟨q, hq, hinv2⟩ := ih (k + 1) (l + 1) p1 hinv1 (by omega) (by omega)
    refine ⟨q, ?_, ?_⟩
    · unfold fine_fill
      rw [hw]
      exact hq
    · have e : k + (n + 1) = k + 1 + n := by omega
      rw [e]
      exact hinv2

/-- The fill of the active blocks of a fresh fine stream up to their last
page: every write returns 0 on both calls, each die has had its active block
turned DIRTY_4KB once, the cap is the one the stream started with, and the
cursor stands on the last page of the last die. -/
theorem fine_fill_last (env : fgm_env_t) (np : bdbm_device_params_t)
    (p0 : bdbm_fgm_ftl_private_t)
    (hN64 : np.nr_channels * np.nr_chips_per_channel < 18446744073709551616)
    (hP64 : np.nr_pages_per_block < 18446744073709551616)
    (hK : 0 < np.nr_subpages_per_page)
    (hN : 0 < np.nr_channels * np.nr_chips_per_channel)
    (hP : 2 ≤ np.nr_pages_per_block)
    (hsp : np.nr_channels * np.nr_chips_per_channel * np.nr_pages_per_block ≤
      np.nr_subpages_per_ssd + 1)
    (hf : fine_fresh np p0) :
    ∃ (q : bdbm_fgm_ftl_private_t) (ppa : bdbm_phyaddr_t),
      fine_fill env np
        (np.nr_channels * np.nr_chips_per_channel * np.nr_pages_per_block - 1) 0 p0 = some q ∧
      q.bai.nr_dirty_4kb_blks =
        p0.bai.nr_dirty_4kb_blks + np.nr_channels * np.nr_chips_per_channel ∧
      q.nr_max_dirty_4kb_blks = p0.nr_max_dirty_4kb_blks ∧
      q.nr_punits = np.nr_channels * np.nr_chips_per_channel ∧
      q.curr_puid_4kb + 1 = np.nr_channels * np.nr_chips_per_channel ∧
      q.curr_page_ofs_4kb + 1 = np.nr_pages_per_block ∧
      stream_ppa np q.bai q.ac_bab_4kb q.curr_puid_4kb q.curr_page_ofs_4kb = some ppa := by
  have e : np.nr_channels * np.nr_chips_per_channel * np.nr_pages_per_block =
      np.nr_channels * np.nr_chips_per_channel * (np.nr_pages_per_block - 1) +
        np.nr_channels * np.nr_chips_per_channel := by
    have h := Nat.mul_add (np.nr_channels * np.nr_chips_per_channel)
      (np.nr_pages_per_block - 1) 1
    rw [Nat.sub_add_cancel (by omega), Nat.mul_one] at h
    exact h
  have h1 : np.nr_channels * np.nr_chips_per_channel * 1 ≤
      np.nr_channels * np.nr_chips_per_channel * (np.nr_pages_per_block - 1) :=
    Nat.mul_le_mul_left _ (by omega)
  rw [Nat.mul_one] at h1
  have e2 : np.nr_channels * np.nr_chips_per_channel * np.nr_pages_per_block - 1 =
      (np.nr_channels * np.nr_chips_per_channel - 1) +
        np.nr_channels * np.nr_chips_per_channel * (np.nr_pages_per_block - 1) := by
    omega
  obtain ⟨q, hq, hinv⟩ := fine_fill_run env np p0 hN64 hP64 hK
    (np.nr_channels * np.nr_chips_per_channel * np.nr_pages_per_block - 1) 0 0 p0
    (fine_fresh_filled np p0 hf) (by omega) (by omega)
  have hbab := fine_filled_bab np p0 q _ hinv
  obtain ⟨g1, g2, _, g4, g5, g6, _⟩ := hinv
  rw [Nat.zero_add, e2, Nat.add_mul_mod_self_left, Nat.mod_eq_of_lt (by omega)] at g4
  rw [Nat.zero_add, e2, Nat.add_mul_div_left _ _ hN, Nat.div_eq_of_lt (by omega),
    Nat.zero_add] at g5
  obtain ⟨ppa, hs, _⟩ := stream_ppa_at np q.bai q.ac_bab_4kb q.curr_puid_4kb
    q.curr_page_ofs_4kb hbab (by omega) (by omega)
  exact ⟨q, ppa, hq, by rw [g6]; omega, g2, g1, by omega, by omega, hs⟩

/-- The FTL created for the geometry of scenario S3 has a fresh fine
stream. -/
theorem s3_fresh_fine : fine_fresh s3_np s3_fresh := by decide!

/-- The FTL of scenario S3 is created, with no DIRTY_4KB block and the
default cap, 60% of its 128 blocks. -/
theorem s3_fresh_counters :
    (bdbm_fgm_ftl_create ex_env s3_np).isSome = true ∧
    s3_fresh.bai.nr_dirty_4kb_blks = 0 ∧
    s3_fresh.nr_max_dirty_4kb_blks = 60 * s3_np.nr_blocks_per_ssd / 100 := by decide!

/-- Claim C17, refuted as stated.  The FTL is created for the geometry of
scenario S3 with the default cap, which is `60 * 128 / 100 = 76`; the 4095
fine writes that precede the refresh of the active blocks all return 0 and
leave `nr_dirty_4kb_blks = 32`, which does not exceed the cap, and the
allocation that follows returns without the recycle engine, which aborts
here when it is entered. -/
theorem C17_counterexample :
    (bdbm_fgm_ftl_create ex_env s3_np).isSome = true ∧
    s3_fresh.nr_max_dirty_4kb_blks = 60 * s3_np.nr_blocks_per_ssd / 100 ∧
    (fine_fill ex_env s3_np 4095 0 s3_fresh).map (fun q =>
        (q.bai.nr_dirty_4kb_blks, q.nr_max_dirty_4kb_blks, q.curr_puid_4kb, q.curr_page_ofs_4kb,
          decide (q.bai.nr_dirty_4kb_blks > q.nr_max_dirty_4kb_blks))) =
      some (32, 76, 31, 127, false) ∧
    ((fine_fill ex_env s3_np 4095 0 s3_fresh).bind (fun q =>
        __bdbm_fgm_ftl_get_free_ppa_4kb s3_np (fun _ => none) q)).isSome = true := by
  obtain ⟨q, ppa, h1, h2, h3, h4, h5, h6, h7⟩ := fine_fill_last ex_env s3_np s3_fresh
    (by decide) (by decide) (by decide) (by decide) (by decide) (by decide) s3_fresh_fine
  have e0 : s3_fresh.bai.nr_dirty_4kb_blks = 0 := s3_fresh_counters.2.1
  have e1 : s3_fresh.nr_max_dirty_4kb_blks = 76 := s3_fresh_counters.2.2
  have e2 : s3_np.nr_channels * s3_np.nr_chips_per_channel = 32 := by decide
  have e3 : s3_np.nr_pages_per_block = 128 := rfl
  have e4 : s3_np.nr_channels * s3_np.nr_chips_per_channel * s3_np.nr_pages_per_block - 1 =
      4095 := by decide
  rw [e4] at h1
  rw [e0, e2] at h2
  rw [e1] at h3
  rw [e2] at h4 h5
  rw [e3] at h6
  have h5' : q.curr_puid_4kb = 31 := by omega
  have h6' : q.curr_page_ofs_4kb = 127 := by omega
  refine ⟨s3_fresh_counters.1, s3_fresh_counters.2.2, ?_, ?_⟩
  · rw [h1, Option.map_some', h2, h3, h5', h6']
    rfl
  · rw [h1, Option.some_bind,
      (fine_refresh_branches s3_np (fun _ => none) q ppa h7 (by rw [h5', h4]) (by rw [h6']; rfl)).2
        (by rw [h2, h3]; decide)]
    split_ifs <;> rfl

/-- Claim C17, amended.  Scenario S3, on every geometry of 4 channels of 8
chips with 128 pages per block and `K = 4`, from a state with a fresh fine
stream, no DIRTY_4KB block and the default cap
`60 * nr_blocks_per_ssd / 100`: the 4095 fine writes of distinct logical
sub-pages that precede the refresh of the 32 active blocks all return 0 and
leave `nr_dirty_4kb_blks = 32`, the cap unchanged and the cursor on the last
page of the last die.  The allocation that follows refreshes the active
blocks: with at least 54 blocks in the device the cap is at least 32 and the
call takes fresh FREE blocks through `__bdbm_fgm_ftl_get_active_blocks`,
whatever the recycle engine is; only with fewer than 54 blocks is
`nr_dirty_4kb_blks > nr_max_dirty_4kb_blks` and the recycle engine run. -/
theorem C17_s3_refresh (env : fgm_env_t) (np : bdbm_device_params_t)
    (p0 : bdbm_fgm_ftl_private_t)
    (hC : np.nr_channels = 4) (hH : np.nr_chips_per_channel = 8)
    (hP : np.nr_pages_per_block = 128) (hK : np.nr_subpages_per_page = 4)
    (hsp : 4095 ≤ np.nr_subpages_per_ssd)
    (hf : fine_fresh np p0) (hd : p0.bai.nr_dirty_4kb_blks = 0)
    (hcap : p0.nr_max_dirty_4kb_blks = 60 * np.nr_blocks_per_ssd / 100) :
    ∃ (q : bdbm_fgm_ftl_private_t) (ppa : bdbm_phyaddr_t),
      fine_fill env np 4095 0 p0 = some q ∧
      q.bai.nr_dirty_4kb_blks = 32 ∧
      q.nr_max_dirty_4kb_blks = 60 * np.nr_blocks_per_ssd / 100 ∧
      q.curr_puid_4kb = 31 ∧ q.curr_page_ofs_4kb = 127 ∧
      ∀ recycle : bdbm_fgm_ftl_private_t → Option (Nat × bdbm_fgm_ftl_private_t),
        (54 ≤ np.nr_blocks_per_ssd →
          q.bai.nr_dirty_4kb_blks ≤ q.nr_max_dirty_4kb_blks ∧
          __bdbm_fgm_ftl_get_free_ppa_4kb np recycle q =
            if (__bdbm_fgm_ftl_get_active_blocks np q.bai q.ac_bab_4kb).1 ≠ 0 then
              some (1, { q with
                         curr_puid_4kb := 0,
                         curr_page_ofs_4kb := np.nr_pages_per_block,
                         bai := (__bdbm_fgm_ftl_get_active_blocks np q.bai q.ac_bab_4kb).2.1,
                         ac_bab_4kb :=
                           (__bdbm_fgm_ftl_get_active_blocks np q.bai q.ac_bab_4kb).2.2 },
                    ppa)
            else
              some (0, { q with
                         curr_puid_4kb := 0,
                         curr_page_ofs_4kb := 0,
                         bai := (__bdbm_fgm_ftl_get_active_blocks np q.bai q.ac_bab_4kb).2.1,
                         ac_bab_4kb :=
                           (__bdbm_fgm_ftl_get_active_blocks np q.bai q.ac_bab_4kb).2.2 },
                    ppa)) ∧
        (np.nr_blocks_per_ssd < 54 →
          q.bai.nr_dirty_4kb_blks > q.nr_max_dirty_4kb_blks ∧
          __bdbm_fgm_ftl_get_free_ppa_4kb np recycle q =
            (recycle { q with curr_puid_4kb := 0, curr_page_ofs_4kb := 0 }).map
              (fun r => (0, r.2, ppa))) := by
  have e2 : np.nr_channels * np.nr_chips_per_channel = 32 := by rw [hC, hH]
  have e4 : np.nr_channels * np.nr_chips_per_channel * np.nr_pages_per_block - 1 = 4095 := by
    rw [e2, hP]
  obtain ⟨q, ppa, h1, h2, h3, h4, h5, h6, h7⟩ := fine_fill_last env np p0
    (by rw [e2]; decide) (by rw [hP]; decide) (by rw [hK]; decide) (by rw [e2]; decide)
    (by rw [hP]; decide) (by rw [e2, hP]; omega) hf
  rw [e4] at h1
  rw [hd, e2, Nat.zero_add] at h2
  rw [hcap] at h3
  rw [e2] at h4 h5
  rw [hP] at h6
  have h5' : q.curr_puid_4kb = 31 := by omega
  have h6' : q.curr_page_ofs_4kb = 127 := by omega
  have hb := fun recycle => fine_refresh_branches np recycle q ppa h7
    (by rw [h5', h4]) (by rw [h6', hP])
  refine ⟨q, ppa, h1, h2, h3, h5', h6', fun recycle => ⟨fun hB => ?_, fun hB => ?_⟩⟩
  · have hle : q.bai.nr_dirty_4kb_blks ≤ q.nr_max_dirty_4kb_blks := by
      rw [h2, h3]; omega
    exact ⟨hle, (hb recycle).2 hle⟩
  · have hgt : q.bai.nr_dirty_4kb_blks > q.nr_max_dirty_4kb_blks := by
      rw [h2, h3]; omega
    exact ⟨hgt, (hb recycle).1 hgt⟩

/-- Witness of C17: the FTL created for the geometry of scenario S3 with four
blocks per chip, 128 blocks in all and the cap 76. -/
theorem C17_s3_refresh_witness :
    fine_fresh s3_np s3_fresh ∧ s3_fresh.bai.nr_dirty_4kb_blks = 0 ∧
    s3_fresh.nr_max_dirty_4kb_blks = 60 * s3_np.nr_blocks_per_ssd / 100 ∧
    ∃ (q : bdbm_fgm_ftl_private_t) (ppa : bdbm_phyaddr_t),
      fine_fill ex_env s3_np 4095 0 s3_fresh = some q ∧
      q.bai.nr_dirty_4kb_blks = 32 ∧
      q.nr_max_dirty_4kb_blks = 60 * s3_np.nr_blocks_per_ssd / 100 ∧
      q.curr_puid_4kb = 31 ∧ q.curr_page_ofs_4kb = 127 ∧
      ∀ recycle : bdbm_fgm_ftl_private_t → Option (Nat × bdbm_fgm_ftl_private_t),
        (54 ≤ s3_np.nr_blocks_per_ssd →
          q.bai.nr_dirty_4kb_blks ≤ q.nr_max_dirty_4kb_blks ∧
          __bdbm_fgm_ftl_get_free_ppa_4kb s3_np recycle q =
            if (__bdbm_fgm_ftl_get_active_blocks s3_np q.bai q.ac_bab_4kb).1 ≠ 0 then
              some (1, { q with
                         curr_puid_4kb := 0,
                         curr_page_ofs_4kb := s3_np.nr_pages_per_block,
                         bai := (__bdbm_fgm_ftl_get_active_blocks s3_np q.bai q.ac_bab_4kb).2.1,
                         ac_bab_4kb :=
                           (__bdbm_fgm_ftl_get_active_blocks s3_np q.bai q.ac_bab_4kb).2.2 },
                    ppa)
            else
              some (0, { q with
                         curr_puid_4kb := 0,
                         curr_page_ofs_4kb := 0,
                         bai := (__bdbm_fgm_ftl_get_active_blocks s3_np q.bai q.ac_bab_4kb).2.1,
                         ac_bab_4kb :=
                           (__bdbm_fgm_ftl_get_active_blocks s3_np q.bai q.ac_bab_4kb).2.2 },
                    ppa)) ∧
        (s3_np.nr_blocks_per_ssd < 54 →
          q.bai.nr_dirty_4kb_blks > q.nr_max_dirty_4kb_blks ∧
          __bdbm_fgm_ftl_get_free_ppa_4kb s3_np recycle q =
            (recycle { q with curr_puid_4kb := 0, curr_page_ofs_4kb := 0 }).map
              (fun r => (0, r.2, ppa))) :=
  ⟨s3_fresh_fine, s3_fresh_counters.2.1, s3_fresh_counters.2.2,
   C17_s3_refresh ex_env s3_np s3_fresh rfl rfl rfl rfl (by decide) s3_fresh_fine
     s3_fresh_counters.2.1 s3_fresh_counters.2.2⟩

/-! ## Properties of the bad-block scan -/

/-- The reset loop of the bad-block scan keeps the length of the table. -/
theorem badblock_scan_reset_loop_some (is : List Nat) :
    ∀ me : List bdbm_fgm_mapping_entry_t,
      (∀ i ∈ is, i < me.length) →
      ∃ me', badblock_scan_reset_loop is me = some me' ∧ me'.length = me.length := by
  induction is with
  | nil => intro me _; exact ⟨me, rfl, rfl⟩
  | cons i is ih =>
    intro me h
    have hi : i < me.length := h i (List.mem_cons_self _ _)
    unfold badblock_scan_reset_loop
    rw [List.getElem?_eq_getElem hi]
    simp only
    obtain ⟨me', h1, h2⟩ := ih (me.set i (badblock_scan_reset_entry me[i])) (by
      intro j hj
      rw [List.length_set]
      exact h j (List.mem_cons_of_mem _ hj))
    exact ⟨me', h1, by rw [h2, List.length_set]⟩

/-- The reset loop of the bad-block scan stops at an index beyond the
table. -/
theorem badblock_scan_reset_loop_none (is : List Nat) :
    ∀ me : List bdbm_fgm_mapping_entry_t,
      (∃ i ∈ is, me.length ≤ i) → badblock_scan_reset_loop is me = none := by
  induction is with
  | nil => intro me h; obtain ⟨i, hi, _⟩ := h; cases hi
  | cons i is ih =>
    intro me h
    unfold badblock_scan_reset_loop
    rcases Nat.lt_or_ge i me.length with hi | hi
    · rw [List.getElem?_eq_getElem hi]
      simp only
      apply ih
      obtain ⟨j, hj, hjl⟩ := h
      rcases List.mem_cons.1 hj with e | hj'
      · omega
      · exact ⟨j, hj', by rw [List.length_set]; exact hjl⟩
    · rw [List.getElem?_eq_none hi]

/-- The table of a created FTL is the one
`__bdbm_fgm_ftl_create_mapping_table` returns. -/
theorem create_mapping_table_of_create (env : fgm_env_t) (np : bdbm_device_params_t)
    (p : bdbm_fgm_ftl_private_t) (h : bdbm_fgm_ftl_create env np = some p) :
    p.ptr_mapping_table = __bdbm_fgm_ftl_create_mapping_table np := by
  unfold bdbm_fgm_ftl_create at h
  simp only at h
  split_ifs at h
  cases h
  rfl

/-- Claim C28, on the code.  Step 1 of `bdbm_fgm_badblock_scan` resets the
entries `0 .. nr_subpages_per_ssd - 1`: it stays inside the table exactly
when the table has at least `nr_subpages_per_ssd` entries.  The table
`__bdbm_fgm_ftl_create_mapping_table` allocates has
`nr_subpages_per_ssd / nr_subpages_per_page` entries, so on a created FTL
with `K >= 2` and a non-empty logical space the loop stores beyond the end of
the table; with `K = 1` it stays inside.  On the small geometry (`K = 4`, 64
sub-pages) the table has 16 entries, the stores `0 .. 15` stay inside and the
store at index 16 is the first beyond it. -/
theorem C28_badblock_scan_reset :
    (∀ (np : bdbm_device_params_t) (p : bdbm_fgm_ftl_private_t),
      (badblock_scan_reset np p).isSome = true ↔
        np.nr_subpages_per_ssd ≤ p.ptr_mapping_table.length) ∧
    (∀ np : bdbm_device_params_t,
      (__bdbm_fgm_ftl_create_mapping_table np).length =
        np.nr_subpages_per_ssd / np.nr_subpages_per_page) ∧
    (∀ (env : fgm_env_t) (np : bdbm_device_params_t) (p : bdbm_fgm_ftl_private_t),
      bdbm_fgm_ftl_create env np = some p → 2 ≤ np.nr_subpages_per_page →
      0 < np.nr_subpages_per_ssd → badblock_scan_reset np p = none) ∧
    (∀ (env : fgm_env_t) (np : bdbm_device_params_t) (p : bdbm_fgm_ftl_private_t),
      bdbm_fgm_ftl_create env np = some p → np.nr_subpages_per_page = 1 →
      (badblock_scan_reset np p).isSome = true) ∧
    (ex_fresh.ptr_mapping_table.length = 16 ∧
     (badblock_scan_reset_loop (List.range 16) ex_fresh.ptr_mapping_table).isSome = true ∧
     badblock_scan_reset_loop (List.range 17) ex_fresh.ptr_mapping_table = none ∧
     badblock_scan_reset ex_np ex_fresh = none) := by
  have hiff : ∀ (np : bdbm_device_params_t) (p : bdbm_fgm_ftl_private_t),
      (badblock_scan_reset np p).isSome = true ↔
        np.nr_subpages_per_ssd ≤ p.ptr_mapping_table.length := by
    intro np p
    unfold badblock_scan_reset
    rcases Nat.lt_or_ge p.ptr_mapping_table.length np.nr_subpages_per_ssd with h | h
    · rw [badblock_scan_reset_loop_none _ _
        ⟨p.ptr_mapping_table.length, List.mem_range.2 h, Nat.le_refl _⟩]
      constructor
      · intro h1; cases h1
      · intro h1; omega
    · obtain ⟨me', h1, _⟩ := badblock_scan_reset_loop_some
        (List.range np.nr_subpages_per_ssd) p.ptr_mapping_table (by
          intro i hi
          have := List.mem_range.1 hi
          omega)
      rw [h1]
      exact ⟨fun _ => h, fun _ => rfl⟩
  have hlen : ∀ np : bdbm_device_params_t,
      (__bdbm_fgm_ftl_create_mapping_table np).length =
        np.nr_subpages_per_ssd / np.nr_subpages_per_page := by
    intro np
    unfold __bdbm_fgm_ftl_create_mapping_table
    rw [List.length_map, List.length_range]
  refine ⟨hiff, hlen, ?_, ?_, by decide, by decide, by decide, by decide⟩
  · intro env np p hp hK hS
    have h1 : ¬ (badblock_scan_reset np p).isSome = true := by
      rw [hiff, create_mapping_table_of_create env np p hp, hlen]
      have := Nat.div_lt_self hS hK
      omega
    cases h2 : badblock_scan_reset np p with
    | none => rfl
    | some q => rw [h2] at h1; exact absurd rfl h1
  · intro env np p hp hK
    rw [hiff, create_mapping_table_of_create env np p hp, hlen, hK, Nat.div_one]

/-! ## Properties of the reusable-block selection -/

/-- Function `compare_blks` returns 1 on the pair `(0, 3)` and, the pair
`(3, 0)` apart, when its left argument is the greater. -/
theorem compare_blks_eq_one (l r : Int) :
    compare_blks l r = 1 ↔ ((l = 0 ∧ r = 3) ∨ (r < l ∧ ¬ (l = 3 ∧ r = 0))) := by
  unfold compare_blks
  split_ifs with h1 h2 h3 h4
  · constructor
    · intro h; exact absurd h (by decide)
    · rintro (⟨a, b⟩ | ⟨a, b⟩)
      · omega
      · exact absurd h1 b
  · constructor
    · intro _; exact Or.inl h2
    · intro _; rfl
  · constructor
    · intro h; exact absurd h (by decide)
    · rintro (⟨a, b⟩ | ⟨a, b⟩)
      · exact absurd ⟨a, b⟩ h2
      · omega
  · constructor
    · intro _; exact Or.inr ⟨h4, h1⟩
    · intro _; rfl
  · constructor
    · intro h; exact absurd h (by decide)
    · rintro (⟨a, b⟩ | ⟨a, b⟩)
      · exact absurd ⟨a, b⟩ h2
      · exact absurd a h4

/-- Function `compare_blks` returns -1 on the pair `(3, 0)` and, the pair
`(0, 3)` apart, when its left argument is the smaller. -/
theorem compare_blks_eq_neg_one (l r : Int) :
    compare_blks l r = -1 ↔ ((l = 3 ∧ r = 0) ∨ (l < r ∧ ¬ (l = 0 ∧ r = 3))) := by
  unfold compare_blks
  split_ifs with h1 h2 h3 h4
  · constructor
    · intro _; exact Or.inl h1
    · intro _; rfl
  · constructor
    · intro h; exact absurd h (by decide)
    · rintro (⟨a, b⟩ | ⟨a, b⟩)
      · exact absurd ⟨a, b⟩ h1
      · exact absurd h2 b
  · constructor
    · intro _; exact Or.inr ⟨h3, h2⟩
    · intro _; rfl
  · constructor
    · intro h; exact absurd h (by decide)
    · rintro (⟨a, b⟩ | ⟨a, b⟩)
      · exact absurd ⟨a, b⟩ h1
      · exact absurd a h3
  · constructor
    · intro h; exact absurd h (by decide)
    · rintro (⟨a, b⟩ | ⟨a, b⟩)
      · exact absurd ⟨a, b⟩ h1
      · exact absurd a h3

/-- Function `compare_blks` returns 0 on equal arguments only. -/
theorem compare_blks_eq_zero (l r : Int) : compare_blks l r = 0 ↔ l = r := by
  unfold compare_blks
  split_ifs with h1 h2 h3 h4
  · constructor
    · intro h; exact absurd h (by decide)
    · intro h; omega
  · constructor
    · intro h; exact absurd h (by decide)
    · intro h; omega
  · constructor
    · intro h; exact absurd h (by decide)
    · intro h; omega
  · constructor
    · intro h; exact absurd h (by decide)
    · intro h; omega
  · constructor
    · intro _; omega
    · intro _; rfl

/-- Function `compare_blks` returns -1, 0 or 1. -/
theorem compare_blks_range (l r : Int) :
    compare_blks l r = -1 ∨ compare_blks l r = 0 ∨ compare_blks l r = 1 := by
  unfold compare_blks
  split_ifs <;> simp

/-- One step of the loop of `__bdbm_fgm_ftl_reusable_blk_selection_greedy`:
the block `bi`, in column `col` with `inv` invalid pages there, replaces the
block chosen so far when it is the first of the list, when `compare_blks`
returns 1, or when `compare_blks` returns 0 and it has more invalid pages. -/
theorem reusable_blk_selection_step (np : bdbm_device_params_t) (bai : bdbm_abm_info_t)
    (bi : Nat) (rest : List Nat) (st : reusable_sel_t) (b : bdbm_abm_block_t) (col inv : Nat)
    (hb : bai.blocks[bi]? = some b) (hP : np.nr_pages_per_block ≠ 0)
    (hc : reusable_blk_column np b = some (col, inv)) :
    reusable_blk_selection_loop np bai (bi :: rest) st =
      reusable_blk_selection_loop np bai rest
        (if st.cnt = 0 ∨ (st.proper_column_idx = 0 ∧ col = 3) ∨
            (col < st.proper_column_idx ∧ ¬ (st.proper_column_idx = 3 ∧ col = 0)) ∨
            (col = st.proper_column_idx ∧ st.max_nr_invalid < inv)
         then { cnt := st.cnt + 1, v := some bi, max_nr_invalid := inv,
                proper_column_idx := col }
         else { st with cnt := st.cnt + 1 }) := by
  rw [reusable_blk_selection_loop, hb]
  simp only
  rw [if_neg hP, hc]
  simp only
  by_cases h0 : st.cnt = 0
  · rw [if_pos (by omega : st.cnt + 1 = 1), if_pos (Or.inl h0)]
  · rw [if_neg (by omega : ¬ st.cnt + 1 = 1)]
    by_cases h1 : compare_blks (st.proper_column_idx : Int) (col : Int) = -1
    · rw [if_pos h1]
      have h2 := (compare_blks_eq_neg_one _ _).1 h1
      rw [if_neg (by omega)]
    · rw [if_neg h1]
      have h1' := fun h => h1 ((compare_blks_eq_neg_one _ _).2 h)
      by_cases h3 : compare_blks (st.proper_column_idx : Int) (col : Int) = 1
      · rw [if_pos h3]
        have h4 := (compare_blks_eq_one _ _).1 h3
        rw [if_pos (by omega)]
      · rw [if_neg h3]
        have h5 : col = st.proper_column_idx := by
          have h7 : (st.proper_column_idx : Int) = (col : Int) := by
            rcases compare_blks_range (st.proper_column_idx : Int) (col : Int) with h | h | h
            · exact absurd h h1
            · exact (compare_blks_eq_zero _ _).1 h
            · exact absurd h h3
          omega
        by_cases h6 : st.max_nr_invalid < inv
        · rw [if_pos h6, if_pos (Or.inr (Or.inr (Or.inr ⟨h5, h6⟩)))]
        · rw [if_neg h6, if_neg (by omega)]

/-- Claim C25, refuted as stated.  `compare_blks` called with the column of
the block chosen so far on the left returns 1 (take the new block) for the
pair `(0, 3)` and -1 (keep the old one) for the pair `(3, 0)`: on the small
geometry, between block 0 in column 0 and block 2 in column 3 = `K - 1`, the
selection returns block 2 in either list order. -/
theorem C25_counterexample :
    compare_blks 0 3 = 1 ∧ compare_blks 3 0 = -1 ∧
    ((ex_sel [0, 2]).bai.blocks[0]?.bind (reusable_blk_column ex_np),
     (ex_sel [0, 2]).bai.blocks[2]?.bind (reusable_blk_column ex_np)) =
      (some (0, 1), some (3, 1)) ∧
    __bdbm_fgm_ftl_reusable_blk_selection_greedy ex_np (ex_sel [0, 2]) 0 0 = some (some 2) ∧
    __bdbm_fgm_ftl_reusable_blk_selection_greedy ex_np (ex_sel [2, 0]) 0 0 = some (some 2) := by
  decide

/-- Claim C25, amended.  In the loop of
`__bdbm_fgm_ftl_reusable_blk_selection_greedy` a block of the list replaces
the block chosen so far exactly when it is the first block, or its column is
3 and that of the chosen block is 0, or its column is the smaller one and the
pair is not (column 0 against a chosen block in column 3), or the columns are
equal and it has more invalid pages in the column; exact ties keep the
earlier block.  So the smaller column is preferred except that a block in
column 3 wins over a block in column 0, and `compare_blks` tests the literal
3, which is `K - 1` for `K = 4` only. -/
theorem C25_reusable_ordering :
    (∀ l r : Int, compare_blks l r = 1 ↔ ((l = 0 ∧ r = 3) ∨ (r < l ∧ ¬ (l = 3 ∧ r = 0)))) ∧
    (∀ l r : Int, compare_blks l r = -1 ↔ ((l = 3 ∧ r = 0) ∨ (l < r ∧ ¬ (l = 0 ∧ r = 3)))) ∧
    (∀ l r : Int, compare_blks l r = 0 ↔ l = r) ∧
    (∀ (np : bdbm_device_params_t) (bai : bdbm_abm_info_t) (bi : Nat) (rest : List Nat)
        (st : reusable_sel_t) (b : bdbm_abm_block_t) (col inv : Nat),
      bai.blocks[bi]? = some b → np.nr_pages_per_block ≠ 0 →
      reusable_blk_column np b = some (col, inv) →
      reusable_blk_selection_loop np bai (bi :: rest) st =
        reusable_blk_selection_loop np bai rest
          (if st.cnt = 0 ∨ (st.proper_column_idx = 0 ∧ col = 3) ∨
              (col < st.proper_column_idx ∧ ¬ (st.proper_column_idx = 3 ∧ col = 0)) ∨
              (col = st.proper_column_idx ∧ st.max_nr_invalid < inv)
           then { cnt := st.cnt + 1, v := some bi, max_nr_invalid := inv,
                  proper_column_idx := col }
           else { st with cnt := st.cnt + 1 })) :=
  ⟨compare_blks_eq_one, compare_blks_eq_neg_one, compare_blks_eq_zero,
   reusable_blk_selection_step⟩

/-- Claim C30, refuted as stated.  `compare_blks` is not transitive on the
column indices: it prefers 0 to 1 and 1 to 3, and 3 to 0.  On the small
geometry, with a block in each of the columns 0, 1 and 3 on the dirty_4kb
list of the die, the selection returns the block in column 3 for the list
order 0, 1, 3 and the block in column 0 for the list order 1, 3, 0. -/
theorem C30_counterexample :
    compare_blks 0 1 = -1 ∧ compare_blks 1 3 = -1 ∧ compare_blks 0 3 = 1 ∧
    ((ex_sel [0, 1, 2]).bai.blocks.map (reusable_blk_column ex_np)) =
      [some (0, 1), some (1, 1), some (3, 1)] ∧
    __bdbm_fgm_ftl_reusable_blk_selection_greedy ex_np (ex_sel [0, 1, 2]) 0 0 =
      some (some 2) ∧
    __bdbm_fgm_ftl_reusable_blk_selection_greedy ex_np (ex_sel [1, 2, 0]) 0 0 =
      some (some 0) := by
  decide

/-- The order by smaller column first and more invalid pages second is
transitive. -/
theorem reusable_key_le_trans (a b c : Nat × Nat) (h1 : reusable_key_le a b)
    (h2 : reusable_key_le b c) : reusable_key_le a c := by
  unfold reusable_key_le at *
  omega

/-- Two pairs each at least as good as the other are equal. -/
theorem reusable_key_le_antisymm (a b : Nat × Nat) (h1 : reusable_key_le a b)
    (h2 : reusable_key_le b a) : a = b := by
  unfold reusable_key_le at *
  have e1 : a.1 = b.1 := by omega
  have e2 : a.2 = b.2 := by omega
  exact Prod.ext e1 e2

/-- The loop of the reusable-block selection, past its first block and on
blocks whose columns do not include both 0 and 3, ends with the best pair
among the pair it started with and those of the blocks of the list. -/
theorem reusable_blk_selection_loop_best (np : bdbm_device_params_t) (bai : bdbm_abm_info_t)
    (hP : np.nr_pages_per_block ≠ 0) (z : Nat) (hz : z = 0 ∨ z = 3) :
    ∀ (l : List Nat) (st : reusable_sel_t), st.cnt ≠ 0 →
      (∀ bi ∈ l, ∃ k, reusable_blk_key np bai bi = some k ∧ k.1 ≠ z) →
      st.proper_column_idx ≠ z →
      ∃ st' : reusable_sel_t, reusable_blk_selection_loop np bai l st = some st' ∧
        reusable_key_le (st'.proper_column_idx, st'.max_nr_invalid)
          (st.proper_column_idx, st.max_nr_invalid) ∧
        (∀ bi ∈ l, ∀ k, reusable_blk_key np bai bi = some k →
          reusable_key_le (st'.proper_column_idx, st'.max_nr_invalid) k) ∧
        ((st'.proper_column_idx, st'.max_nr_invalid) =
            (st.proper_column_idx, st.max_nr_invalid) ∨
          ∃ bi ∈ l, reusable_blk_key np bai bi =
            some (st'.proper_column_idx, st'.max_nr_invalid)) := by
  intro l
  induction l with
  | nil =>
    intro st _ _ _
    refine ⟨st, rfl, Or.inr ⟨rfl, Nat.le_refl _⟩, ?_, Or.inl rfl⟩
    intro bi hbi
    cases hbi
  | cons bi rest ih =>
    intro st hcnt hl hst
    obtain ⟨k, hk, hkz⟩ := hl bi (List.mem_cons_self _ _)
    have hk' := hk
    unfold reusable_blk_key at hk'
    split at hk'
    · cases hk'
    · rename_i b hb
      have hstep := reusable_blk_selection_step np bai bi rest st b k.1 k.2 hb hP hk'
      rw [hstep]
      have hrest : ∀ bj ∈ rest, ∃ k, reusable_blk_key np bai bj = some k ∧ k.1 ≠ z :=
        fun bj hbj => hl bj (List.mem_cons_of_mem _ hbj)
      by_cases hc : st.cnt = 0 ∨ (st.proper_column_idx = 0 ∧ k.1 = 3) ∨
          (k.1 < st.proper_column_idx ∧ ¬ (st.proper_column_idx = 3 ∧ k.1 = 0)) ∨
          (k.1 = st.proper_column_idx ∧ st.max_nr_invalid < k.2)
      · rw [if_pos hc]
        obtain ⟨st', h1, h2, h3, h4⟩ := ih
          { cnt := st.cnt + 1, v := some bi, max_nr_invalid := k.2, proper_column_idx := k.1 }
          (Nat.succ_ne_zero _) hrest hkz
        have hbetter : reusable_key_le (k.1, k.2)
            (st.proper_column_idx, st.max_nr_invalid) := by
          unfold reusable_key_le
          simp only
          omega
        refine ⟨st', h1, reusable_key_le_trans _ _ _ h2 hbetter, ?_, ?_⟩
        · intro bj hbj kj hkj
          rcases List.mem_cons.1 hbj with e | hbj'
          · rw [e, hk] at hkj
            cases hkj
            exact h2
          · exact h3 bj hbj' kj hkj
        · right
          rcases h4 with e | ⟨bj, hbj, hkj⟩
          · exact ⟨bi, List.mem_cons_self _ _, by rw [hk, e]⟩
          · exact ⟨bj, List.mem_cons_of_mem _ hbj, hkj⟩
      · rw [if_neg hc]
        obtain ⟨st', h1, h2, h3, h4⟩ := ih { st with cnt := st.cnt + 1 }
          (Nat.succ_ne_zero _) hrest hst
        have hworse : reusable_key_le (st.proper_column_idx, st.max_nr_invalid) (k.1, k.2) := by
          unfold reusable_key_le
          simp only
          omega
        refine ⟨st', h1, h2, ?_, ?_⟩
        · intro bj hbj kj hkj
          rcases List.mem_cons.1 hbj with e | hbj'
          · rw [e, hk] at hkj
            cases hkj
            exact reusable_key_le_trans _ _ _ h2 hworse
          · exact h3 bj hbj' kj hkj
        · rcases h4 with e | ⟨bj, hbj, hkj⟩
          · exact Or.inl e
          · exact Or.inr ⟨bj, List.mem_cons_of_mem _ hbj, hkj⟩

/-- On a non-empty list of blocks whose columns do not include both 0 and 3
the reusable-block selection ends with the pair of a block of the list that
is at least as good as the pair of every block of the list. -/
theorem reusable_blk_selection_min (np : bdbm_device_params_t) (bai : bdbm_abm_info_t)
    (hP : np.nr_pages_per_block ≠ 0) (z : Nat) (hz : z = 0 ∨ z = 3)
    (l : List Nat) (hne : l ≠ [])
    (hl : ∀ bi ∈ l, ∃ k, reusable_blk_key np bai bi = some k ∧ k.1 ≠ z) :
    ∃ st : reusable_sel_t, reusable_blk_selection_loop np bai l reusable_sel_init = some st ∧
      (∃ bi ∈ l, reusable_blk_key np bai bi =
        some (st.proper_column_idx, st.max_nr_invalid)) ∧
      ∀ bi ∈ l, ∀ k, reusable_blk_key np bai bi = some k →
        reusable_key_le (st.proper_column_idx, st.max_nr_invalid) k := by
  cases l with
  | nil => exact absurd rfl hne
  | cons bi rest =>
    obtain ⟨k, hk, hkz⟩ := hl bi (List.mem_cons_self _ _)
    have hk' := hk
    unfold reusable_blk_key at hk'
    split at hk'
    · cases hk'
    · rename_i b hb
      have h0 : reusable_sel_init.cnt = 0 := rfl
      rw [reusable_blk_selection_step np bai bi rest reusable_sel_init b k.1 k.2 hb hP hk',
        if_pos (Or.inl h0)]
      obtain ⟨st', h1, h2, h3, h4⟩ := reusable_blk_selection_loop_best np bai hP z hz rest
        { cnt := reusable_sel_init.cnt + 1, v := some bi, max_nr_invalid := k.2,
          proper_column_idx := k.1 }
        (Nat.succ_ne_zero _) (fun bj hbj => hl bj (List.mem_cons_of_mem _ hbj)) hkz
      refine ⟨st', h1, ?_, ?_⟩
      · rcases h4 with e | ⟨bj, hbj, hkj⟩
        · exact ⟨bi, List.mem_cons_self _ _, by rw [hk, e]⟩
        · exact ⟨bj, List.mem_cons_of_mem _ hbj, hkj⟩
      · intro bj hbj kj hkj
        rcases List.mem_cons.1 hbj with e | hbj'
        · rw [e, hk] at hkj
          cases hkj
          exact h2
        · exact h3 bj hbj' kj hkj

/-- Two orderings of a list of blocks whose columns do not include both 0
and 3 give the reusable-block selection the same column and the same count
of invalid pages. -/
theorem reusable_blk_selection_perm (np : bdbm_device_params_t) (bai : bdbm_abm_info_t)
    (hP : np.nr_pages_per_block ≠ 0) (z : Nat) (hz : z = 0 ∨ z = 3)
    (l l' : List Nat) (hperm : l.Perm l')
    (hl : ∀ bi ∈ l, ∃ k, reusable_blk_key np bai bi = some k ∧ k.1 ≠ z) :
    ∃ st st' : reusable_sel_t,
      reusable_blk_selection_loop np bai l reusable_sel_init = some st ∧
      reusable_blk_selection_loop np bai l' reusable_sel_init = some st' ∧
      st.proper_column_idx = st'.proper_column_idx ∧
      st.max_nr_invalid = st'.max_nr_invalid := by
  by_cases hne : l = []
  · subst hne
    have e : l' = [] := List.Perm.eq_nil (List.Perm.symm hperm)
    subst e
    exact ⟨reusable_sel_init, reusable_sel_init, rfl, rfl, rfl, rfl⟩
  · have hne' : l' ≠ [] := by
      intro e
      rw [e] at hperm
      exact hne (List.Perm.eq_nil hperm)
    have hl' : ∀ bi ∈ l', ∃ k, reusable_blk_key np bai bi = some k ∧ k.1 ≠ z :=
      fun bi hbi => hl bi ((List.Perm.mem_iff hperm).2 hbi)
    obtain ⟨st, h1, ⟨bi, hbi, hk⟩, h3⟩ := reusable_blk_selection_min np bai hP z hz l hne hl
    obtain ⟨st', h1', ⟨bi', hbi', hk'⟩, h3'⟩ :=
      reusable_blk_selection_min np bai hP z hz l' hne' hl'
    have e := reusable_key_le_antisymm _ _
      (h3 bi' ((List.Perm.mem_iff hperm).2 hbi') _ hk')
      (h3' bi ((List.Perm.mem_iff hperm).1 hbi) _ hk)
    exact ⟨st, st', h1, h1', congrArg Prod.fst e, congrArg Prod.snd e⟩

/-- Claim C30, amended.  `compare_blks` is antisymmetric, and 0 exactly on
equal arguments; it is the usual order of the integers with the pair 0, 3
reversed, so it is transitive on every triple that does not hold both 0 and
3, and cyclic through that pair (0 before 1 before 3 before 0).  On lists of
blocks whose columns do not include both 0 and 3, every ordering of the list
gives the loop of `__bdbm_fgm_ftl_reusable_blk_selection_greedy` the same
column and the same count of invalid pages; with both columns in the list
the block chosen depends on the list order. -/
theorem C30_compare_blks_order :
    (∀ a b : Int, compare_blks a b = - compare_blks b a) ∧
    (∀ a b : Int, compare_blks a b = 0 ↔ a = b) ∧
    (∀ a b c : Int, compare_blks a b = -1 → compare_blks b c = -1 →
      ¬ ((a = 0 ∨ b = 0 ∨ c = 0) ∧ (a = 3 ∨ b = 3 ∨ c = 3)) → compare_blks a c = -1) ∧
    (∀ (np : bdbm_device_params_t) (bai : bdbm_abm_info_t) (z : Nat) (l l' : List Nat),
      np.nr_pages_per_block ≠ 0 → z = 0 ∨ z = 3 → l.Perm l' →
      (∀ bi ∈ l, ∃ k, reusable_blk_key np bai bi = some k ∧ k.1 ≠ z) →
      ∃ st st' : reusable_sel_t,
        reusable_blk_selection_loop np bai l reusable_sel_init = some st ∧
        reusable_blk_selection_loop np bai l' reusable_sel_init = some st' ∧
        st.proper_column_idx = st'.proper_column_idx ∧
        st.max_nr_invalid = st'.max_nr_invalid) := by
  refine ⟨?_, compare_blks_eq_zero, ?_, ?_⟩
  · intro a b
    rcases compare_blks_range a b with h | h | h
    · have h1 := (compare_blks_eq_neg_one a b).1 h
      have h2 : compare_blks b a = 1 := (compare_blks_eq_one b a).2 (by omega)
      rw [h, h2]
    · have h1 := (compare_blks_eq_zero a b).1 h
      have h2 : compare_blks b a = 0 := (compare_blks_eq_zero b a).2 h1.symm
      rw [h, h2]
      rfl
    · have h1 := (compare_blks_eq_one a b).1 h
      have h2 : compare_blks b a = -1 := (compare_blks_eq_neg_one b a).2 (by omega)
      rw [h, h2]
      rfl
  · intro a b c h1 h2 h3
    have g1 := (compare_blks_eq_neg_one a b).1 h1
    have g2 := (compare_blks_eq_neg_one b c).1 h2
    exact (compare_blks_eq_neg_one a c).2 (by omega)
  · intro np bai z l l' hP hz hperm hl
    exact reusable_blk_selection_perm np bai hP z hz l l' hperm hl

/-! ## The threshold of the recycle compaction -/

/-- The test of the validity ratio compares the truncated percentage with 95:
it holds exactly from 96% on. -/
theorem rec_compaction_due_eq (np : bdbm_device_params_t) (nr_reusable_blks nr_llm_reqs : Nat)
    (hT : 0 < np.nr_pages_per_block * nr_reusable_blks)
    (hT64 : np.nr_pages_per_block * nr_reusable_blks < 18446744073709551616)
    (hn64 : nr_llm_reqs * 100 < 18446744073709551616) :
    rec_compaction_due np nr_reusable_blks nr_llm_reqs =
      some (decide (96 * (np.nr_pages_per_block * nr_reusable_blks) ≤ 100 * nr_llm_reqs)) := by
  unfold rec_compaction_due
  rw [Nat.mod_eq_of_lt hT64, Nat.mod_eq_of_lt hn64, if_neg (by omega)]
  congr 1
  apply decide_eq_decide.2
  rw [gt_iff_lt, Nat.lt_iff_add_one_le, Nat.le_div_iff_mul_le hT]
  omega

/-- The write phase of the recycle engine runs the compaction pass from a
validity ratio of 96% on and the one-for-one pass below. -/
theorem rec_write_phase_eq (env : fgm_env_t) (np : bdbm_device_params_t)
    (get_free_ppa : bdbm_fgm_ftl_private_t → bdbm_logaddr_t →
      Option (Nat × bdbm_fgm_ftl_private_t × bdbm_phyaddr_t))
    (column_idx : Int) (nr_reusable_blks nr_llm_reqs : Nat) (p : bdbm_fgm_ftl_private_t)
    (hT : 0 < np.nr_pages_per_block * nr_reusable_blks)
    (hT64 : np.nr_pages_per_block * nr_reusable_blks < 18446744073709551616)
    (hn64 : nr_llm_reqs * 100 < 18446744073709551616) :
    rec_write_phase env np get_free_ppa column_idx nr_reusable_blks nr_llm_reqs p =
      rec_write_submit env
        (if 96 * (np.nr_pages_per_block * nr_reusable_blks) ≤ 100 * nr_llm_reqs then
          rec_cmp_build env np get_free_ppa p
         else rec_one_build env np get_free_ppa column_idx nr_llm_reqs p) := by
  unfold rec_write_phase
  rw [rec_compaction_due_eq np nr_reusable_blks nr_llm_reqs hT hT64 hn64]
  simp only [decide_eq_true_eq]

/-- Claim C26, refuted as stated.  On the geometry of the scenarios, with 32
reusable blocks of 128 pages and 3900 VALID pages in the column, the
validity ratio is above 95% (`100 * 3900 > 95 * 4096`) and the test of the
engine fails, `390000 / 4096 = 95`: the write phase runs the one-for-one
pass, whatever the state and the column. -/
theorem C26_counterexample :
    100 * 3900 > 95 * (s3_np.nr_pages_per_block * 32) ∧
    rec_compaction_due s3_np 32 3900 = some false ∧
    (∀ (get_free_ppa : bdbm_fgm_ftl_private_t → bdbm_logaddr_t →
          Option (Nat × bdbm_fgm_ftl_private_t × bdbm_phyaddr_t))
        (column_idx : Int) (p : bdbm_fgm_ftl_private_t),
      rec_write_phase ex_env s3_np get_free_ppa column_idx 32 3900 p =
        rec_write_submit ex_env (rec_one_build ex_env s3_np get_free_ppa column_idx 3900 p)) := by
  refine ⟨by decide, by decide, ?_⟩
  intro get_free_ppa column_idx p
  rw [rec_write_phase_eq ex_env s3_np get_free_ppa column_idx 32 3900 p (by decide) (by decide)
    (by decide), if_neg (by decide)]

/-- Claim C26, amended.  With `n` the number of VALID pages found in the
chosen column and `T = nr_pages_per_block * nr_reusable_blks > 0` (both, and
`100 * n`, inside `uint64_t`), the recycle engine runs the compaction pass if
and only if the truncated percentage `100 * n / T` is greater than 95, that
is if and only if `100 * n >= 96 * T`; otherwise it builds one write for each
read, one-for-one, into the column.  Either way the writes built are
submitted afterwards. -/
theorem C26_compaction_threshold (env : fgm_env_t) (np : bdbm_device_params_t)
    (get_free_ppa : bdbm_fgm_ftl_private_t → bdbm_logaddr_t →
      Option (Nat × bdbm_fgm_ftl_private_t × bdbm_phyaddr_t))
    (column_idx : Int) (nr_reusable_blks nr_llm_reqs : Nat) (p : bdbm_fgm_ftl_private_t)
    (hT : 0 < np.nr_pages_per_block * nr_reusable_blks)
    (hT64 : np.nr_pages_per_block * nr_reusable_blks < 18446744073709551616)
    (hn64 : nr_llm_reqs * 100 < 18446744073709551616) :
    rec_compaction_due np nr_reusable_blks nr_llm_reqs =
      some (decide (96 * (np.nr_pages_per_block * nr_reusable_blks) ≤ 100 * nr_llm_reqs)) ∧
    (96 * (np.nr_pages_per_block * nr_reusable_blks) ≤ 100 * nr_llm_reqs ↔
      100 * nr_llm_reqs / (np.nr_pages_per_block * nr_reusable_blks) > 95) ∧
    rec_write_phase env np get_free_ppa column_idx nr_reusable_blks nr_llm_reqs p =
      rec_write_submit env
        (if 96 * (np.nr_pages_per_block * nr_reusable_blks) ≤ 100 * nr_llm_reqs then
          rec_cmp_build env np get_free_ppa p
         else rec_one_build env np get_free_ppa column_idx nr_llm_reqs p) := by
  refine ⟨rec_compaction_due_eq np nr_reusable_blks nr_llm_reqs hT hT64 hn64, ?_,
    rec_write_phase_eq env np get_free_ppa column_idx nr_reusable_blks nr_llm_reqs p hT hT64
      hn64⟩
  rw [gt_iff_lt, Nat.lt_iff_add_one_le, Nat.le_div_iff_mul_le hT]

/-- Witness of C26: the geometry of the scenarios with 32 reusable blocks;
3932 VALID pages are the first count from which the compaction pass runs
(`393200 >= 96 * 4096 = 393216` fails for 3932, holds for 3933). -/
theorem C26_compaction_threshold_witness :
    (0 < s3_np.nr_pages_per_block * 32 ∧
     s3_np.nr_pages_per_block * 32 < 18446744073709551616 ∧
     3933 * 100 < 18446744073709551616) ∧
    (rec_compaction_due s3_np 32 3933 =
      some (decide (96 * (s3_np.nr_pages_per_block * 32) ≤ 100 * 3933)) ∧
     (96 * (s3_np.nr_pages_per_block * 32) ≤ 100 * 3933 ↔
       100 * 3933 / (s3_np.nr_pages_per_block * 32) > 95) ∧
     rec_write_phase ex_env s3_np (bdbm_fgm_ftl_get_free_ppa ex_env s3_np 0) 0 32 3933 s3_fresh =
       rec_write_submit ex_env
         (if 96 * (s3_np.nr_pages_per_block * 32) ≤ 100 * 3933 then
           rec_cmp_build ex_env s3_np (bdbm_fgm_ftl_get_free_ppa ex_env s3_np 0) s3_fresh
          else rec_one_build ex_env s3_np (bdbm_fgm_ftl_get_free_ppa ex_env s3_np 0) 0 3933
            s3_fresh)) ∧
    rec_compaction_due s3_np 32 3932 = some false ∧
    rec_compaction_due s3_np 32 3933 = some true :=
  ⟨⟨by decide, by decide, by decide⟩,
   C26_compaction_threshold ex_env s3_np (bdbm_fgm_ftl_get_free_ppa ex_env s3_np 0) 0 32 3933
     s3_fresh (by decide) (by decide) (by decide),
   by decide, by decide⟩

/-! ## The cursor of a stream across a failed refresh -/

/-- No address is read under a cursor whose page offset has reached
`nr_pages_per_block`: the block pointer is `NULL` or one of the three
`bdbm_bug_on` checks fails. -/
theorem stream_ppa_beyond (np : bdbm_device_params_t) (bai : bdbm_abm_info_t)
    (bab : List (Option Nat)) (m q : Nat) (h : np.nr_pages_per_block ≤ q) :
    stream_ppa np bai bab m q = none := by
  unfold stream_ppa
  split_ifs
  · rfl
  · simp only
    split
    · rfl
    · rfl
    · split
      · rfl
      · rw [if_pos (Or.inr (Or.inr h))]

/-- A call of the normal stream that returns non-zero leaves the page offset
at `nr_pages_per_block`, and the next call of the stream aborts. -/
theorem get_free_ppa_normal_failed (np : bdbm_device_params_t) (p : bdbm_fgm_ftl_private_t)
    (r : Nat × bdbm_fgm_ftl_private_t × bdbm_phyaddr_t)
    (h : __bdbm_fgm_ftl_get_free_ppa np p = some r) (h1 : r.1 ≠ 0) :
    r.2.1.curr_puid = 0 ∧ r.2.1.curr_page_ofs = np.nr_pages_per_block ∧
      __bdbm_fgm_ftl_get_free_ppa np r.2.1 = none := by
  have key : r.2.1.curr_puid = 0 ∧ r.2.1.curr_page_ofs = np.nr_pages_per_block := by
    unfold __bdbm_fgm_ftl_get_free_ppa at h
    cases hs : stream_ppa np p.bai p.ac_bab p.curr_puid p.curr_page_ofs with
    | none => rw [hs] at h; cases h
    | some ppa =>
      rw [hs] at h
      simp only at h
      split_ifs at h with g1 g2 g3 <;> cases h
      · exact ⟨rfl, g2⟩
      · exact absurd rfl h1
      · exact absurd rfl h1
      · exact absurd rfl h1
  refine ⟨key.1, key.2, ?_⟩
  unfold __bdbm_fgm_ftl_get_free_ppa
  rw [stream_ppa_beyond np _ _ _ _ (Nat.le_of_eq key.2.symm)]

/-- A call of the compaction stream that returns non-zero leaves the page
offset at `nr_pages_per_block`, and the next call of the stream aborts. -/
theorem get_free_ppa_cmp_failed (np : bdbm_device_params_t) (p : bdbm_fgm_ftl_private_t)
    (r : Nat × bdbm_fgm_ftl_private_t × bdbm_phyaddr_t)
    (h : __bdbm_fgm_ftl_get_free_ppa_cmp np p = some r) (h1 : r.1 ≠ 0) :
    r.2.1.curr_puid_cmp = 0 ∧ r.2.1.curr_page_ofs_cmp = np.nr_pages_per_block ∧
      __bdbm_fgm_ftl_get_free_ppa_cmp np r.2.1 = none := by
  have key : r.2.1.curr_puid_cmp = 0 ∧ r.2.1.curr_page_ofs_cmp = np.nr_pages_per_block := by
    unfold __bdbm_fgm_ftl_get_free_ppa_cmp at h
    cases hs : stream_ppa np p.bai p.ac_bab_cmp p.curr_puid_cmp p.curr_page_ofs_cmp with
    | none => rw [hs] at h; cases h
    | some ppa =>
      rw [hs] at h
      simp only at h
      split_ifs at h with g1 g2 g3 <;> cases h
      · exact ⟨rfl, g2⟩
      · exact absurd rfl h1
      · exact absurd rfl h1
      · exact absurd rfl h1
  refine ⟨key.1, key.2, ?_⟩
  unfold __bdbm_fgm_ftl_get_free_ppa_cmp
  rw [stream_ppa_beyond np _ _ _ _ (Nat.le_of_eq key.2.symm)]

/-- A call of the fine stream that returns non-zero leaves the page offset at
`nr_pages_per_block`, and the next call of the stream aborts. -/
theorem get_free_ppa_4kb_failed (np : bdbm_device_params_t)
    (recycle recycle' : bdbm_fgm_ftl_private_t → Option (Nat × bdbm_fgm_ftl_private_t))
    (p : bdbm_fgm_ftl_private_t) (r : Nat × bdbm_fgm_ftl_private_t × bdbm_phyaddr_t)
    (h : __bdbm_fgm_ftl_get_free_ppa_4kb np recycle p = some r) (h1 : r.1 ≠ 0) :
    r.2.1.curr_puid_4kb = 0 ∧ r.2.1.curr_page_ofs_4kb = np.nr_pages_per_block ∧
      __bdbm_fgm_ftl_get_free_ppa_4kb np recycle' r.2.1 = none := by
  have key : r.2.1.curr_puid_4kb = 0 ∧ r.2.1.curr_page_ofs_4kb = np.nr_pages_per_block := by
    unfold __bdbm_fgm_ftl_get_free_ppa_4kb at h
    cases hs : stream_ppa np p.bai p.ac_bab_4kb p.curr_puid_4kb p.curr_page_ofs_4kb with
    | none => rw [hs] at h; cases h
    | some ppa =>
      rw [hs] at h
      simp only at h
      by_cases g1 : (p.curr_puid_4kb + 1) % 18446744073709551616 = p.nr_punits
      · rw [if_pos g1] at h
        by_cases g2 : (p.curr_page_ofs_4kb + 1) % 18446744073709551616 = np.nr_pages_per_block
        · rw [if_pos g2] at h
          by_cases g3 : p.bai.nr_dirty_4kb_blks > p.nr_max_dirty_4kb_blks
          · rw [if_pos g3] at h
            cases hr : recycle { p with curr_puid_4kb := 0, curr_page_ofs_4kb := 0 } with
            | none => simp only [hr] at h; cases h
            | some q => simp only [hr] at h; cases h; exact absurd rfl h1
          · rw [if_neg g3] at h
            split_ifs at h <;> cases h
            · exact ⟨rfl, g2⟩
            · exact absurd rfl h1
        · rw [if_neg g2] at h
          cases h
          exact absurd rfl h1
      · rw [if_neg g1] at h
        cases h
        exact absurd rfl h1
  refine ⟨key.1, key.2, ?_⟩
  unfold __bdbm_fgm_ftl_get_free_ppa_4kb
  rw [stream_ppa_beyond np _ _ _ _ (Nat.le_of_eq key.2.symm)]

/-- A call of the normal stream that returns 0 keeps its cursor inside the
active blocks. -/
theorem get_free_ppa_normal_cursor (np : bdbm_device_params_t) (p : bdbm_fgm_ftl_private_t)
    (r : Nat × bdbm_fgm_ftl_private_t × bdbm_phyaddr_t)
    (h : __bdbm_fgm_ftl_get_free_ppa np p = some r) (h0 : r.1 = 0)
    (hN : p.nr_punits < 18446744073709551616)
    (hP : np.nr_pages_per_block < 18446744073709551616)
    (hm : p.curr_puid < p.nr_punits) (hq : p.curr_page_ofs < np.nr_pages_per_block) :
    r.2.1.nr_punits = p.nr_punits ∧ r.2.1.curr_puid < p.nr_punits ∧
      r.2.1.curr_page_ofs < np.nr_pages_per_block := by
  unfold __bdbm_fgm_ftl_get_free_ppa at h
  cases hs : stream_ppa np p.bai p.ac_bab p.curr_puid p.curr_page_ofs with
  | none => rw [hs] at h; cases h
  | some ppa =>
    rw [hs] at h
    simp only at h
    rw [Nat.mod_eq_of_lt (by omega : p.curr_puid + 1 < 18446744073709551616),
      Nat.mod_eq_of_lt (by omega : p.curr_page_ofs + 1 < 18446744073709551616)] at h
    split_ifs at h with g1 g2 g3 <;> cases h
    · simp only at h0
      omega
    · refine ⟨rfl, ?_, ?_⟩ <;> simp only <;> omega
    · refine ⟨rfl, ?_, ?_⟩ <;> simp only <;> omega
    · refine ⟨rfl, ?_, ?_⟩ <;> simp only <;> omega

/-- A call of the compaction stream that returns 0 keeps its cursor inside
the active blocks. -/
theorem get_free_ppa_cmp_cursor (np : bdbm_device_params_t) (p : bdbm_fgm_ftl_private_t)
    (r : Nat × bdbm_fgm_ftl_private_t × bdbm_phyaddr_t)
    (h : __bdbm_fgm_ftl_get_free_ppa_cmp np p = some r) (h0 : r.1 = 0)
    (hN : p.nr_punits < 18446744073709551616)
    (hP : np.nr_pages_per_block < 18446744073709551616)
    (hm : p.curr_puid_cmp < p.nr_punits) (hq : p.curr_page_ofs_cmp < np.nr_pages_per_block) :
    r.2.1.nr_punits = p.nr_punits ∧ r.2.1.curr_puid_cmp < p.nr_punits ∧
      r.2.1.curr_page_ofs_cmp < np.nr_pages_per_block := by
  unfold __bdbm_fgm_ftl_get_free_ppa_cmp at h
  cases hs : stream_ppa np p.bai p.ac_bab_cmp p.curr_puid_cmp p.curr_page_ofs_cmp with
  | none => rw [hs] at h; cases h
  | some ppa =>
    rw [hs] at h
    simp only at h
    rw [Nat.mod_eq_of_lt (by omega : p.curr_puid_cmp + 1 < 18446744073709551616),
      Nat.mod_eq_of_lt (by omega : p.curr_page_ofs_cmp + 1 < 18446744073709551616)] at h
    split_ifs at h with g1 g2 g3 <;> cases h
    · simp only at h0
      omega
    · refine ⟨rfl, ?_, ?_⟩ <;> simp only <;> omega
    · refine ⟨rfl, ?_, ?_⟩ <;> simp only <;> omega
    · refine ⟨rfl, ?_, ?_⟩ <;> simp only <;> omega

/-- Claim C21, on the code.  A call of a stream that returns 0 without
entering the recycle engine keeps the cursor of the stream inside the active
blocks.  A call that returns non-zero, because the refresh found a die
without a free block, has set `curr_puid` to 0 and has left `curr_page_ofs`
at `nr_pages_per_block`: the invariant is broken, and the next call of the
stream aborts at the read of the address under the cursor.  On the small
geometry the twelfth allocation on the normal stream after creation returns
1 with the cursor at `(0, 2)`, two pages per block, and the thirteenth
aborts. -/
theorem C21_cursor_invariant :
    (∀ (np : bdbm_device_params_t) (p : bdbm_fgm_ftl_private_t)
        (r : Nat × bdbm_fgm_ftl_private_t × bdbm_phyaddr_t),
      __bdbm_fgm_ftl_get_free_ppa np p = some r → r.1 = 0 →
      p.nr_punits < 18446744073709551616 → np.nr_pages_per_block < 18446744073709551616 →
      p.curr_puid < p.nr_punits → p.curr_page_ofs < np.nr_pages_per_block →
      r.2.1.nr_punits = p.nr_punits ∧ r.2.1.curr_puid < p.nr_punits ∧
        r.2.1.curr_page_ofs < np.nr_pages_per_block) ∧
    (∀ (np : bdbm_device_params_t) (p : bdbm_fgm_ftl_private_t)
        (r : Nat × bdbm_fgm_ftl_private_t × bdbm_phyaddr_t),
      __bdbm_fgm_ftl_get_free_ppa_cmp np p = some r → r.1 = 0 →
      p.nr_punits < 18446744073709551616 → np.nr_pages_per_block < 18446744073709551616 →
      p.curr_puid_cmp < p.nr_punits → p.curr_page_ofs_cmp < np.nr_pages_per_block →
      r.2.1.nr_punits = p.nr_punits ∧ r.2.1.curr_puid_cmp < p.nr_punits ∧
        r.2.1.curr_page_ofs_cmp < np.nr_pages_per_block) ∧
    (∀ (np : bdbm_device_params_t) (p : bdbm_fgm_ftl_private_t)
        (r : Nat × bdbm_fgm_ftl_private_t × bdbm_phyaddr_t),
      __bdbm_fgm_ftl_get_free_ppa np p = some r → r.1 ≠ 0 →
      r.2.1.curr_puid = 0 ∧ r.2.1.curr_page_ofs = np.nr_pages_per_block ∧
        __bdbm_fgm_ftl_get_free_ppa np r.2.1 = none) ∧
    (∀ (np : bdbm_device_params_t) (p : bdbm_fgm_ftl_private_t)
        (r : Nat × bdbm_fgm_ftl_private_t × bdbm_phyaddr_t),
      __bdbm_fgm_ftl_get_free_ppa_cmp np p = some r → r.1 ≠ 0 →
      r.2.1.curr_puid_cmp = 0 ∧ r.2.1.curr_page_ofs_cmp = np.nr_pages_per_block ∧
        __bdbm_fgm_ftl_get_free_ppa_cmp np r.2.1 = none) ∧
    (∀ (np : bdbm_device_params_t)
        (recycle recycle' : bdbm_fgm_ftl_private_t → Option (Nat × bdbm_fgm_ftl_private_t))
        (p : bdbm_fgm_ftl_private_t) (r : Nat × bdbm_fgm_ftl_private_t × bdbm_phyaddr_t),
      __bdbm_fgm_ftl_get_free_ppa_4kb np recycle p = some r → r.1 ≠ 0 →
      r.2.1.curr_puid_4kb = 0 ∧ r.2.1.curr_page_ofs_4kb = np.nr_pages_per_block ∧
        __bdbm_fgm_ftl_get_free_ppa_4kb np recycle' r.2.1 = none) ∧
    ((normal_calls ex_np 11 ex_fresh).isSome = true ∧
     (ex_exhausted.curr_puid, ex_exhausted.curr_page_ofs, ex_exhausted.nr_punits,
       ex_exhausted.bai.list_head_free) = (0, 1, 1, [[]]) ∧
     (__bdbm_fgm_ftl_get_free_ppa ex_np ex_exhausted).map
        (fun r => (r.1, r.2.1.curr_puid, r.2.1.curr_page_ofs, r.2.2)) =
       some (1, 0, 2, ex_ppa 7 1) ∧
     (__bdbm_fgm_ftl_get_free_ppa ex_np ex_exhausted).bind
        (fun r => __bdbm_fgm_ftl_get_free_ppa ex_np r.2.1) = none ∧
     (bdbm_fgm_ftl_get_free_ppa ex_env ex_np 1 ex_exhausted (ex_la16 0)).bind
        (fun r => bdbm_fgm_ftl_get_free_ppa ex_env ex_np 1 r.2.1 (ex_la16 0)) = none) := by
  refine ⟨?_, ?_, ?_, ?_, ?_, by decide, by decide, by decide, by decide, by decide⟩
  · intro np p r h h0 hN hP hm hq
    exact get_free_ppa_normal_cursor np p r h h0 hN hP hm hq
  · intro np p r h h0 hN hP hm hq
    exact get_free_ppa_cmp_cursor np p r h h0 hN hP hm hq
  · intro np p r h h1
    exact get_free_ppa_normal_failed np p r h h1
  · intro np p r h h1
    exact get_free_ppa_cmp_failed np p r h h1
  · intro np recycle recycle' p r h h1
    exact get_free_ppa_4kb_failed np recycle recycle' p r h h1

/-! ## Range of the invalidation of logical pages -/

/-- The loop of the victim selection, from a victim `v` that is the first
maximum of the candidates `cd` walked so far and is not fully invalid, ends
with the first maximum of all candidates. -/
theorem victim_selection_loop_first_max (np : bdbm_device_params_t) (bai : bdbm_abm_info_t)
    (a c : Option Nat) :
    ∀ (l cd : List Nat) (v : Option Nat),
      (∀ bi ∈ victim_candidates a c l, bi < bai.blocks.length ∧
        blk_nr_invalid bai bi ≤ np.nr_subpages_per_block) →
      first_max_invalid bai cd v →
      (∀ vi, v = some vi → vi < bai.blocks.length ∧
        blk_nr_invalid bai vi < np.nr_subpages_per_block) →
      ∃ r, victim_selection_loop np bai a c l v = some r ∧
        first_max_invalid bai (cd ++ victim_candidates a c l) r := by
  intro l
  induction l with
  | nil =>
    intro cd v _ hv _
    refine ⟨v, rfl, ?_⟩
    unfold victim_candidates
    rw [List.filter_nil, List.append_nil]
    exact hv
  | cons bi rest ih =>
    intro cd v hl hv hvb
    unfold victim_selection_loop
    by_cases h1 : a = some bi
    · rw [if_pos h1]
      have e : victim_candidates a c (bi :: rest) = victim_candidates a c rest := by
        unfold victim_candidates
        rw [List.filter_cons_of_neg (by simp [h1])]
      rw [e] at hl ⊢
      exact ih cd v hl hv hvb
    · rw [if_neg h1]
      by_cases h2 : c = some bi
      · rw [if_pos h2]
        have e : victim_candidates a c (bi :: rest) = victim_candidates a c rest := by
          unfold victim_candidates
          rw [List.filter_cons_of_neg (by simp [h2])]
        rw [e] at hl ⊢
        exact ih cd v hl hv hvb
      · rw [if_neg h2]
        have e : victim_candidates a c (bi :: rest) = bi :: victim_candidates a c rest := by
          unfold victim_candidates
          rw [List.filter_cons_of_pos (by simp [h1, h2])]
        rw [e] at hl ⊢
        have hbi := hl bi (List.mem_cons_self _ _)
        have hrest : ∀ x ∈ victim_candidates a c rest, x < bai.blocks.length ∧
            blk_nr_invalid bai x ≤ np.nr_subpages_per_block :=
          fun x hx => hl x (List.mem_cons_of_mem _ hx)
        obtain ⟨b, hb⟩ : ∃ b, bai.blocks[bi]? = some b :=
          ⟨_, List.getElem?_eq_getElem hbi.1⟩
        have hinv : blk_nr_invalid bai bi = b.nr_invalid_subpages := by
          unfold blk_nr_invalid
          rw [hb]
        rw [hb]
        simp only
        by_cases h3 : b.nr_invalid_subpages = np.nr_subpages_per_block
        · rw [if_pos h3]
          refine ⟨some bi, rfl, cd, victim_candidates a c rest, rfl, ?_, ?_⟩
          · intro x hx
            rw [hinv, h3]
            cases v with
            | none =>
              have hcd : cd = [] := hv
              rw [hcd] at hx
              cases hx
            | some vi =>
              obtain ⟨pre, post, e1, e2, e3⟩ := hv
              have hvi := (hvb vi rfl).2
              rw [e1] at hx
              rcases List.mem_append.1 hx with hx1 | hx1
              · have := e2 x hx1
                omega
              · rcases List.mem_cons.1 hx1 with e4 | hx2
                · rw [e4]; exact hvi
                · have := e3 x hx2
                  omega
          · intro x hx
            rw [hinv, h3]
            exact (hrest x hx).2
        · rw [if_neg h3]
          have hlt : blk_nr_invalid bai bi < np.nr_subpages_per_block := by
            have := hbi.2
            omega
          have happ : ∀ X : List Nat, (cd ++ [bi]) ++ X = cd ++ bi :: X := by
            intro X
            rw [List.append_assoc, List.singleton_append]
          have hnew : ∀ vj, some bi = some vj → vj < bai.blocks.length ∧
              blk_nr_invalid bai vj < np.nr_subpages_per_block := by
            intro vj h
            cases h
            exact ⟨hbi.1, hlt⟩
          cases v with
          | none =>
            simp only
            have hcd : cd = [] := hv
            have hfm : first_max_invalid bai (cd ++ [bi]) (some bi) := by
              refine ⟨[], [], by rw [hcd], ?_, ?_⟩
              · intro x hx; cases hx
              · intro x hx; cases hx
            obtain ⟨r, hr1, hr2⟩ := ih (cd ++ [bi]) (some bi) hrest hfm hnew
            rw [happ] at hr2
            exact ⟨r, hr1, hr2⟩
          | some vi =>
            simp only
            obtain ⟨pre, post, e1, e2, e3⟩ := hv
            obtain ⟨hvi1, hvi2⟩ := hvb vi rfl
            obtain ⟨vb, hvb'⟩ : ∃ vb, bai.blocks[vi]? = some vb :=
              ⟨_, List.getElem?_eq_getElem hvi1⟩
            have hinvv : blk_nr_invalid bai vi = vb.nr_invalid_subpages := by
              unfold blk_nr_invalid
              rw [hvb']
            rw [hvb']
            simp only
            by_cases h4 : b.nr_invalid_subpages > vb.nr_invalid_subpages
            · rw [if_pos h4]
              have hfm : first_max_invalid bai (cd ++ [bi]) (some bi) := by
                refine ⟨cd, [], rfl, ?_, ?_⟩
                · intro x hx
                  rw [e1] at hx
                  rcases List.mem_append.1 hx with hx1 | hx1
                  · have := e2 x hx1
                    omega
                  · rcases List.mem_cons.1 hx1 with e4 | hx2
                    · rw [e4]; omega
                    · have := e3 x hx2
                      omega
                · intro x hx; cases hx
              obtain ⟨r, hr1, hr2⟩ := ih (cd ++ [bi]) (some bi) hrest hfm hnew
              rw [happ] at hr2
              exact ⟨r, hr1, hr2⟩
            · rw [if_neg h4]
              have hfm : first_max_invalid bai (cd ++ [bi]) (some vi) := by
                refine ⟨pre, post ++ [bi], by rw [e1, List.append_assoc, List.cons_append],
                  e2, ?_⟩
                intro x hx
                rcases List.mem_append.1 hx with hx1 | hx1
                · exact e3 x hx1
                · rw [List.mem_singleton.1 hx1]
                  omega
              obtain ⟨r, hr1, hr2⟩ := ih (cd ++ [bi]) (some vi) hrest hfm hvb
              rw [happ] at hr2
              exact ⟨r, hr1, hr2⟩

/-- Claim C22.  For a die whose dirty-list blocks other than the two active
blocks exist and have `nr_invalid_subpages <= nr_subpages_per_block`,
`__bdbm_fgm_ftl_victim_selection_greedy` returns; it returns `NULL` if and
only if the dirty list holds no block other than the active block of the
normal stream and that of the compaction stream, and otherwise the first
block in list order, among those other blocks, whose `nr_invalid_subpages`
is maximal: every candidate before it has fewer invalid sub-pages and none
after it has more. -/
theorem C22_victim_selection_greedy (np : bdbm_device_params_t) (p : bdbm_fgm_ftl_private_t)
    (channel_no chip_no : Nat) (a c : Option Nat)
    (ha : p.ac_bab[channel_no * np.nr_chips_per_channel + chip_no]? = some a)
    (hc : p.ac_bab_cmp[channel_no * np.nr_chips_per_channel + chip_no]? = some c)
    (hl : ∀ bi ∈ victim_candidates a c
        (p.bai.list_head_dirty.getD (abm_die np channel_no chip_no) []),
      bi < p.bai.blocks.length ∧ blk_nr_invalid p.bai bi ≤ np.nr_subpages_per_block) :
    ∃ v : Option Nat,
      __bdbm_fgm_ftl_victim_selection_greedy np p channel_no chip_no = some v ∧
      (v = none ↔ victim_candidates a c
        (p.bai.list_head_dirty.getD (abm_die np channel_no chip_no) []) = []) ∧
      ∀ vi, v = some vi →
        ∃ pre post : List Nat,
          victim_candidates a c
            (p.bai.list_head_dirty.getD (abm_die np channel_no chip_no) []) =
              pre ++ vi :: post ∧
          (∀ x ∈ pre, blk_nr_invalid p.bai x < blk_nr_invalid p.bai vi) ∧
          (∀ x ∈ post, blk_nr_invalid p.bai x ≤ blk_nr_invalid p.bai vi) := by
  obtain ⟨r, hr1, hr2⟩ := victim_selection_loop_first_max np p.bai a c
    (p.bai.list_head_dirty.getD (abm_die np channel_no chip_no) []) [] none hl rfl
    (fun vi h => by cases h)
  rw [List.nil_append] at hr2
  refine ⟨r, ?_, ?_, ?_⟩
  · unfold __bdbm_fgm_ftl_victim_selection_greedy
    rw [ha, hc]
    exact hr1
  · cases r with
    | none => exact ⟨fun _ => hr2, fun _ => rfl⟩
    | some vi =>
      obtain ⟨pre, post, e1, _, _⟩ := hr2
      constructor
      · intro h; cases h
      · intro h
        rw [h] at e1
        exact absurd e1 (by simp)
  · intro vi hvi
    rw [hvi] at hr2
    exact hr2

/-- Witness of C22: on the small geometry with the dirty list 2, 3, 4, 5, 0,
where block 0 is the active block of the normal stream, the blocks 3 and 4
tie at 6 invalid sub-pages and the selection returns block 3, the first of
the two. -/
theorem C22_victim_selection_greedy_witness :
    (ex_victims.ac_bab[0 * ex_np.nr_chips_per_channel + 0]? = some (some 0) ∧
     ex_victims.ac_bab_cmp[0 * ex_np.nr_chips_per_channel + 0]? = some (some 1) ∧
     victim_candidates (some 0) (some 1)
       (ex_victims.bai.list_head_dirty.getD (abm_die ex_np 0 0) []) = [2, 3, 4, 5]) ∧
    __bdbm_fgm_ftl_victim_selection_greedy ex_np ex_victims 0 0 = some (some 3) ∧
    ∃ v : Option Nat,
      __bdbm_fgm_ftl_victim_selection_greedy ex_np ex_victims 0 0 = some v ∧
      (v = none ↔ victim_candidates (some 0) (some 1)
        (ex_victims.bai.list_head_dirty.getD (abm_die ex_np 0 0) []) = []) ∧
      ∀ vi, v = some vi →
        ∃ pre post : List Nat,
          victim_candidates (some 0) (some 1)
            (ex_victims.bai.list_head_dirty.getD (abm_die ex_np 0 0) []) =
              pre ++ vi :: post ∧
          (∀ x ∈ pre, blk_nr_invalid ex_victims.bai x < blk_nr_invalid ex_victims.bai vi) ∧
          (∀ x ∈ post, blk_nr_invalid ex_victims.bai x ≤ blk_nr_invalid ex_victims.bai vi) :=
  ⟨⟨by decide, by decide, by decide⟩, by decide,
   C22_victim_selection_greedy ex_np ex_victims 0 0 (some 0) (some 1) (by decide) (by decide)
     (by decide)⟩

/-! ## The write requests of the GC engine -/

/-- Slot `k` of a list after the stores `l[k] = f k` for the indices of
`ks`. -/
theorem foldl_set_getElem? {α : Type} (f : Nat → α) (ks : List Nat) :
    ∀ (l : List α) (k : Nat),
      (ks.foldl (fun l k => l.set k (f k)) l)[k]? =
        if k ∈ ks ∧ k < l.length then some (f k) else l[k]? := by
  induction ks with
  | nil =>
    intro l k
    rw [List.foldl_nil, if_neg (by simp)]
  | cons k0 rest ih =>
    intro l k
    rw [List.foldl_cons, ih, List.length_set]
    by_cases h1 : k ∈ rest ∧ k < l.length
    · rw [if_pos h1, if_pos ⟨List.mem_cons_of_mem _ h1.1, h1.2⟩]
    · rw [if_neg h1]
      by_cases h2 : k0 = k
      · subst h2
        by_cases h3 : k0 < l.length
        · rw [List.getElem?_set_self h3, if_pos ⟨List.mem_cons_self _ _, h3⟩]
        · rw [List.getElem?_eq_none (by rw [List.length_set]; omega),
            if_neg (fun h => h3 h.2), List.getElem?_eq_none (by omega)]
      · rw [List.getElem?_set_ne h2]
        have h4 : ¬ (k ∈ k0 :: rest ∧ k < l.length) := by
          rintro ⟨h5, h6⟩
          rcases List.mem_cons.1 h5 with e | h7
          · exact h2 e.symm
          · exact h1 ⟨h7, h6⟩
        rw [if_neg h4]

/-- The length of a list after the stores for the indices of `ks`. -/
theorem foldl_set_length {α : Type} (f : Nat → α) (ks : List Nat) :
    ∀ l : List α, (ks.foldl (fun l k => l.set k (f k)) l).length = l.length := by
  induction ks with
  | nil => intro l; rfl
  | cons k0 rest ih =>
    intro l
    rw [List.foldl_cons, ih, List.length_set]

/-- The slot loop of the FULL-VALID writes in closed form: the stores into
the four per-slot arrays of the write, and the count of the slots whose tag
equals that of the next slot. -/
theorem gc_copy_slots_eq (K : Nat) (rr : bdbm_llm_req_t) (ks : List Nat) :
    ∀ (r : bdbm_llm_req_t) (n : Nat),
      gc_copy_slots K rr ks (r, n) =
        ({ r with
           kp_stt := ks.foldl (fun l k => l.set k kp_stt_t.KP_STT_DATA) r.kp_stt,
           kp_ptr := ks.foldl (fun l k => l.set k (rr.kp_ptr.getD k 0)) r.kp_ptr,
           lpa := ks.foldl (fun l k => l.set k (rr.foob.getD k 0)) r.lpa,
           foob := ks.foldl (fun l k => l.set k (rr.foob.getD k 0)) r.foob },
         n + ks.countP (fun k => decide (rr.foob.getD k 0 = rr.foob.getD ((k + 1) % K) 0))) := by
  induction ks with
  | nil => intro r n; rfl
  | cons k0 rest ih =>
    intro r n
    rw [gc_copy_slots, ih]
    simp only [List.foldl_cons, List.countP_cons]
    by_cases h : rr.foob.getD k0 0 = rr.foob.getD ((k0 + 1) % K) 0
    · simp only [h, if_true, decide_True, Nat.add_assoc, Nat.add_comm 1]
    · simp only [h, if_false, decide_False, Bool.false_eq_true, Nat.add_zero]

/-- The tags of all `K` slots are equal exactly when each equals that of the
next slot, cyclically. -/
theorem tags_cyclic_iff (K : Nat) (t : Nat → Int) :
    (∀ k, k < K → t k = t ((k + 1) % K)) ↔ (∀ k, k < K → t k = t 0) := by
  constructor
  · intro h k
    induction k with
    | zero => intro _; rfl
    | succ k ih =>
      intro hk
      have h1 := h k (by omega)
      rw [Nat.mod_eq_of_lt hk] at h1
      rw [← h1]
      exact ih (by omega)
  · intro h k hk
    rw [h k hk]
    have hK : 0 < K := by omega
    exact (h ((k + 1) % K) (Nat.mod_lt _ hK)).symm

/-- The write the GC engine builds from a FULL-VALID read carries every slot
of the read, and is tagged with `lpa[0]` when all tags of the read are equal
and with `-2` otherwise. -/
theorem gc_build_write_spec (env : fgm_env_t) (np : bdbm_device_params_t)
    (r rr : bdbm_llm_req_t)
    (hstt : np.nr_subpages_per_page ≤
      (env.hlm_reqs_pool_reset_logaddr (env.hlm_reqs_pool_reset_fmain
        { r with req_type := reqtype_t.REQTYPE_GC_WRITE })).kp_stt.length)
    (hptr : np.nr_subpages_per_page ≤
      (env.hlm_reqs_pool_reset_logaddr (env.hlm_reqs_pool_reset_fmain
        { r with req_type := reqtype_t.REQTYPE_GC_WRITE })).kp_ptr.length)
    (hlpa : np.nr_subpages_per_page ≤
      (env.hlm_reqs_pool_reset_logaddr (env.hlm_reqs_pool_reset_fmain
        { r with req_type := reqtype_t.REQTYPE_GC_WRITE })).lpa.length)
    (hfoob : np.nr_subpages_per_page ≤
      (env.hlm_reqs_pool_reset_logaddr (env.hlm_reqs_pool_reset_fmain
        { r with req_type := reqtype_t.REQTYPE_GC_WRITE })).foob.length)
    (hK : 0 < np.nr_subpages_per_page) :
    (∀ k, k < np.nr_subpages_per_page →
      (gc_build_write env np r rr).kp_stt[k]? = some kp_stt_t.KP_STT_DATA ∧
      (gc_build_write env np r rr).kp_ptr[k]? = some (rr.kp_ptr.getD k 0) ∧
      (gc_build_write env np r rr).lpa[k]? = some (rr.foob.getD k 0) ∧
      (gc_build_write env np r rr).foob[k]? = some (rr.foob.getD k 0)) ∧
    ((∀ k, k < np.nr_subpages_per_page → rr.foob.getD k 0 = rr.foob.getD 0 0) →
      (gc_build_write env np r rr).lpa_cg = rr.foob.getD 0 0 ∧
      (gc_build_write env np r rr).ofs = 0) ∧
    (¬ (∀ k, k < np.nr_subpages_per_page → rr.foob.getD k 0 = rr.foob.getD 0 0) →
      (gc_build_write env np r rr).lpa_cg = -2) := by
  have hcount : (List.range np.nr_subpages_per_page).countP (fun k =>
      decide (rr.foob.getD k 0 = rr.foob.getD ((k + 1) % np.nr_subpages_per_page) 0)) =
        np.nr_subpages_per_page ↔
      ∀ k, k < np.nr_subpages_per_page → rr.foob.getD k 0 = rr.foob.getD 0 0 := by
    rw [← tags_cyclic_iff np.nr_subpages_per_page (fun k => rr.foob.getD k 0)]
    have h1 : (List.range np.nr_subpages_per_page).countP (fun k =>
        decide (rr.foob.getD k 0 = rr.foob.getD ((k + 1) % np.nr_subpages_per_page) 0)) =
          (List.range np.nr_subpages_per_page).length ↔
        ∀ a ∈ List.range np.nr_subpages_per_page,
          decide (rr.foob.getD a 0 = rr.foob.getD ((a + 1) % np.nr_subpages_per_page) 0) =
            true := List.countP_eq_length
    rw [List.length_range] at h1
    rw [h1]
    constructor
    · intro h k hk
      exact of_decide_eq_true (h k (List.mem_range.2 hk))
    · intro h k hk
      exact decide_eq_true (h k (List.mem_range.1 hk))
  unfold gc_build_write
  simp only
  rw [gc_copy_slots_eq]
  simp only [Nat.zero_add]
  refine ⟨?_, ?_, ?_⟩
  · intro k hk
    have hm : k ∈ List.range np.nr_subpages_per_page := List.mem_range.2 hk
    split_ifs <;> simp only <;>
      refine ⟨?_, ?_, ?_, ?_⟩ <;> rw [foldl_set_getElem?] <;>
      rw [if_pos ⟨hm, by omega⟩]
  · intro h
    rw [if_pos (hcount.2 h)]
    refine ⟨?_, rfl⟩
    simp only
    rw [List.getD_eq_getElem?_getD, foldl_set_getElem?,
      if_pos ⟨List.mem_range.2 hK, by omega⟩]
    rfl
  · intro h
    rw [if_neg (fun h' => h (hcount.1 h'))]

/-- Claim C24, refuted as stated.  On the small geometry (`K = 4`) the write
built from a FULL-VALID read with the tags 8, 9, 10, 11 of logical page 2
carries the four tags and is tagged `lpa_cg = -2`, so it is allocated from
the compaction stream; the write built from a read whose four tags are all 2
is tagged `lpa_cg = 2`, which is `lpa[0]` and not `lpa[0] / K`, and is
allocated from the normal stream. -/
theorem C24_counterexample :
    ((gc_build_write ex_env ex_np (zero_llm_req 4) (ex_gc_read [8, 9, 10, 11])).lpa,
     (gc_build_write ex_env ex_np (zero_llm_req 4) (ex_gc_read [8, 9, 10, 11])).lpa_cg) =
      ([8, 9, 10, 11], -2) ∧
    get_free_ppa_dispatch ex_np (fun _ => none) ex_fresh
        (req_logaddr (gc_build_write ex_env ex_np (zero_llm_req 4)
          (ex_gc_read [8, 9, 10, 11]))) =
      __bdbm_fgm_ftl_get_free_ppa_cmp ex_np ex_fresh ∧
    ((gc_build_write ex_env ex_np (zero_llm_req 4) (ex_gc_read [2, 2, 2, 2])).lpa,
     (gc_build_write ex_env ex_np (zero_llm_req 4) (ex_gc_read [2, 2, 2, 2])).lpa_cg,
     (gc_build_write ex_env ex_np (zero_llm_req 4) (ex_gc_read [2, 2, 2, 2])).ofs) =
      ([2, 2, 2, 2], 2, 0) ∧
    get_free_ppa_dispatch ex_np (fun _ => none) ex_fresh
        (req_logaddr (gc_build_write ex_env ex_np (zero_llm_req 4)
          (ex_gc_read [2, 2, 2, 2]))) =
      __bdbm_fgm_ftl_get_free_ppa ex_np ex_fresh := by
  refine ⟨by decide, ?_, by decide, ?_⟩
  · have h : (req_logaddr (gc_build_write ex_env ex_np (zero_llm_req 4)
        (ex_gc_read [8, 9, 10, 11]))).lpa_cg = -2 := by decide
    unfold get_free_ppa_dispatch
    rw [h, if_neg (by decide), if_pos rfl]
  · have h : (req_logaddr (gc_build_write ex_env ex_np (zero_llm_req 4)
        (ex_gc_read [2, 2, 2, 2]))).lpa_cg = 2 := by decide
    unfold get_free_ppa_dispatch
    rw [h, if_neg (by decide), if_neg (by decide)]

/-- Claim C24, amended.  The write `bdbm_fgm_ftl_do_gc` builds from a
FULL-VALID read carries over, slot by slot, the buffer and the out-of-band
tag of all `K` slots of the read.  It takes the coarse case exactly when the
`K` tags are all equal: then `lpa_cg = lpa[0]`, that common tag, with
`ofs = 0`, and the write is allocated from the normal stream (the tag being
neither -1 nor -2).  For every other combination of tags, in particular for
the tags `L * K + 0 .. L * K + (K - 1)` of a logical page when `K >= 2`, the
write is tagged `lpa_cg = -2` and allocated from the compaction stream. -/
theorem C24_gc_coarse_detection (env : fgm_env_t) (np : bdbm_device_params_t)
    (r rr : bdbm_llm_req_t)
    (hstt : np.nr_subpages_per_page ≤
      (env.hlm_reqs_pool_reset_logaddr (env.hlm_reqs_pool_reset_fmain
        { r with req_type := reqtype_t.REQTYPE_GC_WRITE })).kp_stt.length)
    (hptr : np.nr_subpages_per_page ≤
      (env.hlm_reqs_pool_reset_logaddr (env.hlm_reqs_pool_reset_fmain
        { r with req_type := reqtype_t.REQTYPE_GC_WRITE })).kp_ptr.length)
    (hlpa : np.nr_subpages_per_page ≤
      (env.hlm_reqs_pool_reset_logaddr (env.hlm_reqs_pool_reset_fmain
        { r with req_type := reqtype_t.REQTYPE_GC_WRITE })).lpa.length)
    (hfoob : np.nr_subpages_per_page ≤
      (env.hlm_reqs_pool_reset_logaddr (env.hlm_reqs_pool_reset_fmain
        { r with req_type := reqtype_t.REQTYPE_GC_WRITE })).foob.length)
    (hK : 0 < np.nr_subpages_per_page) :
    (∀ k, k < np.nr_subpages_per_page →
      (gc_build_write env np r rr).kp_stt[k]? = some kp_stt_t.KP_STT_DATA ∧
      (gc_build_write env np r rr).kp_ptr[k]? = some (rr.kp_ptr.getD k 0) ∧
      (gc_build_write env np r rr).lpa[k]? = some (rr.foob.getD k 0) ∧
      (gc_build_write env np r rr).foob[k]? = some (rr.foob.getD k 0)) ∧
    ((∀ k, k < np.nr_subpages_per_page → rr.foob.getD k 0 = rr.foob.getD 0 0) →
      (gc_build_write env np r rr).lpa_cg = rr.foob.getD 0 0 ∧
      (gc_build_write env np r rr).ofs = 0 ∧
      (rr.foob.getD 0 0 ≠ -1 → rr.foob.getD 0 0 ≠ -2 →
        ∀ (recycle : bdbm_fgm_ftl_private_t → Option (Nat × bdbm_fgm_ftl_private_t))
          (p : bdbm_fgm_ftl_private_t),
          get_free_ppa_dispatch np recycle p (req_logaddr (gc_build_write env np r rr)) =
            __bdbm_fgm_ftl_get_free_ppa np p)) ∧
    (¬ (∀ k, k < np.nr_subpages_per_page → rr.foob.getD k 0 = rr.foob.getD 0 0) →
      (gc_build_write env np r rr).lpa_cg = -2 ∧
      ∀ (recycle : bdbm_fgm_ftl_private_t → Option (Nat × bdbm_fgm_ftl_private_t))
        (p : bdbm_fgm_ftl_private_t),
        get_free_ppa_dispatch np recycle p (req_logaddr (gc_build_write env np r rr)) =
          __bdbm_fgm_ftl_get_free_ppa_cmp np p) ∧
    (∀ L : Int, 2 ≤ np.nr_subpages_per_page →
      (∀ k, k < np.nr_subpages_per_page →
        rr.foob.getD k 0 = L * (np.nr_subpages_per_page : Int) + (k : Int)) →
      (gc_build_write env np r rr).lpa_cg = -2) := by
  obtain ⟨h1, h2, h3⟩ := gc_build_write_spec env np r rr hstt hptr hlpa hfoob hK
  have hdisp : ∀ (x : Int)
      (recycle : bdbm_fgm_ftl_private_t → Option (Nat × bdbm_fgm_ftl_private_t))
      (p : bdbm_fgm_ftl_private_t), (gc_build_write env np r rr).lpa_cg = x →
      get_free_ppa_dispatch np recycle p (req_logaddr (gc_build_write env np r rr)) =
        if x = -1 then __bdbm_fgm_ftl_get_free_ppa_4kb np recycle p
        else if x = -2 then __bdbm_fgm_ftl_get_free_ppa_cmp np p
        else __bdbm_fgm_ftl_get_free_ppa np p := by
    intro x recycle p hx
    unfold get_free_ppa_dispatch req_logaddr
    simp only
    rw [hx]
  refine ⟨h1, ?_, ?_, ?_⟩
  · intro h
    obtain ⟨e1, e2⟩ := h2 h
    refine ⟨e1, e2, ?_⟩
    intro n1 n2 recycle p
    rw [hdisp _ recycle p e1, if_neg n1, if_neg n2]
  · intro h
    have e := h3 h
    refine ⟨e, ?_⟩
    intro recycle p
    rw [hdisp _ recycle p e, if_neg (by decide), if_pos rfl]
  · intro L hK2 ht
    apply h3
    intro h
    have e0 := ht 0 (by omega)
    have e1 := ht 1 (by omega)
    have e2 := h 1 (by omega)
    rw [e0, e1] at e2
    omega

/-- Witness of C24 on the small geometry: a read with four equal tags. -/
theorem C24_gc_coarse_detection_witness :
    (gc_build_write ex_env ex_np (zero_llm_req 4) (ex_gc_read [2, 2, 2, 2])).lpa_cg = 2 ∧
    (gc_build_write ex_env ex_np (zero_llm_req 4) (ex_gc_read [2, 2, 2, 2])).ofs = 0 ∧
    (gc_build_write ex_env ex_np (zero_llm_req 4) (ex_gc_read [2, 2, 2, 2])).kp_ptr[3]? =
      some 103 :=
  ⟨((C24_gc_coarse_detection ex_env ex_np (zero_llm_req 4) (ex_gc_read [2, 2, 2, 2])
      (by decide) (by decide) (by decide) (by decide) (by decide)).2.1 (by decide)).1,
   ((C24_gc_coarse_detection ex_env ex_np (zero_llm_req 4) (ex_gc_read [2, 2, 2, 2])
      (by decide) (by decide) (by decide) (by decide) (by decide)).2.1 (by decide)).2.1,
   ((C24_gc_coarse_detection ex_env ex_np (zero_llm_req 4) (ex_gc_read [2, 2, 2, 2])
      (by decide) (by decide) (by decide) (by decide) (by decide)).1 3 (by decide)).2.1⟩

/-! ## Properties of the fix-up of the last output of the packer -/

/-- The loop bound `k < K - 1` never examines slot `K - 1`: on a last output
whose slots 0 and 3 are DATA (not packed left-first) both fix-up loops leave
the pool and the number of records as they are. -/
theorem fixup_loop_skips_last_slot :
    ∀ loop, loop ∈ [rec_fixup_loop, gc_fixup_loop] →
      loop 0 (List.range' 1 (4 - 1 - 1))
        ([{ ex_packed with kp_stt := [kp_stt_t.KP_STT_DATA, kp_stt_t.KP_STT_HOLE,
            kp_stt_t.KP_STT_HOLE, kp_stt_t.KP_STT_DATA] }, zero_llm_req 4], 1) =
      some ([{ ex_packed with kp_stt := [kp_stt_t.KP_STT_DATA, kp_stt_t.KP_STT_HOLE,
            kp_stt_t.KP_STT_HOLE, kp_stt_t.KP_STT_DATA] }, zero_llm_req 4], 1) := by
  intro loop hloop
  simp only [List.mem_cons, List.mem_singleton, List.not_mem_nil, or_false] at hloop
  rcases hloop with h | h <;> subst h <;> rfl

/-! ## Properties of the read classification of the GC engine -/

/-- The slot loop of one page in closed form, `g k` being the state read for
slot `k`: the stores into `lpa` and `kp_stt` of both descriptors, the flag
`has_valid` and the count `is_coarse`. -/
theorem gc_scan_slots_eq (pst : List bdbm_abm_subpage_t) (base : Nat)
    (g : Nat → bdbm_abm_subpage_t) (ks : List Nat) :
    ∀ (r rc : bdbm_llm_req_t) (hv : Bool) (ic : Nat),
      (∀ k ∈ ks, pst[(base + k) % 18446744073709551616]? = some (g k)) →
      gc_scan_slots pst base ks (r, rc, hv, ic) =
        some
          ({ r with
             lpa := ks.foldl (fun l k => l.set k (-1)) r.lpa,
             kp_stt := ks.foldl (fun l k => l.set k
               (if g k ≠ bdbm_abm_subpage_t.INVALID
                then kp_stt_t.KP_STT_DATA else kp_stt_t.KP_STT_HOLE)) r.kp_stt },
           { rc with
             lpa := ks.foldl (fun l k => l.set k (-1)) rc.lpa,
             kp_stt := ks.foldl (fun l k => l.set k
               (if g k ≠ bdbm_abm_subpage_t.INVALID
                then kp_stt_t.KP_STT_DATA else kp_stt_t.KP_STT_HOLE)) rc.kp_stt },
           hv || decide (0 < ks.countP (fun k => decide (g k ≠ bdbm_abm_subpage_t.INVALID))),
           ic + ks.countP (fun k => decide (g k ≠ bdbm_abm_subpage_t.INVALID))) := by
  induction ks with
  | nil =>
    intro r rc hv ic _
    simp [gc_scan_slots]
  | cons k0 rest ih =>
    intro r rc hv ic h
    have hv0 := h k0 (List.mem_cons_self _ _)
    rw [gc_scan_slots, hv0]
    simp only
    have hrest : ∀ k ∈ rest, pst[(base + k) % 18446744073709551616]? = some (g k) :=
      fun k hk => h k (List.mem_cons_of_mem _ hk)
    by_cases hvi : g k0 = bdbm_abm_subpage_t.INVALID
    · rw [if_neg (by rw [hvi]; exact fun h => h rfl), ih _ _ _ _ hrest]
      simp only [List.foldl_cons, List.countP_cons, hvi, ne_eq, not_true_eq_false,
        if_false, decide_False, Bool.false_eq_true, Nat.add_zero]
    · rw [if_pos hvi, ih _ _ _ _ hrest]
      simp only [List.foldl_cons, List.countP_cons, hvi, ne_eq, not_false_eq_true,
        if_true, decide_True]
      simp
      omega

/-- The read `pst[(j * K) mod 2^64 + k) mod 2^64]` of the slot loop is the
state of sub-page `k` of page `j` when `pst` holds the page. -/
theorem gc_page_pst_read (np : bdbm_device_params_t) (b : bdbm_abm_block_t) (j : Nat)
    (hpst : (j + 1) * np.nr_subpages_per_page ≤ b.pst.length)
    (hw : b.pst.length < 18446744073709551616) :
    ∀ k ∈ List.range np.nr_subpages_per_page,
      b.pst[((j * np.nr_subpages_per_page) % 18446744073709551616 + k) %
        18446744073709551616]? = some (gc_page_pst np b j k) := by
  intro k hk
  have hk1 := List.mem_range.1 hk
  have e : (j + 1) * np.nr_subpages_per_page =
      j * np.nr_subpages_per_page + np.nr_subpages_per_page := by
    rw [Nat.add_mul, Nat.one_mul]
  have h1 : j * np.nr_subpages_per_page + k < b.pst.length := by omega
  rw [Nat.mod_eq_of_lt (by omega), Nat.mod_eq_of_lt (by omega),
    List.getElem?_eq_getElem h1]
  unfold gc_page_pst
  rw [List.getD_eq_getElem?_getD, List.getElem?_eq_getElem h1, Option.getD_some]

/-- One page of the read-building loop in closed form: the page is queued
into the GC-read batch when none of its sub-pages is INVALID, into the
compaction-read batch when some but not all of them are INVALID, and into
neither when all are. -/
theorem gc_build_read_eq (env : fgm_env_t) (np : bdbm_device_params_t) (b : bdbm_abm_block_t)
    (j : Nat) (st : gc_reads_t) (r0 rc0 : bdbm_llm_req_t)
    (hr : st.gc_reqs[st.nr_llm_reqs]? = some r0)
    (hrc : st.cmp_reqs[st.nr_llm_reqs_cmp]? = some rc0)
    (hpst : (j + 1) * np.nr_subpages_per_page ≤ b.pst.length)
    (hw : b.pst.length < 18446744073709551616) :
    gc_build_read env np b j st =
      some
        (if 0 < gc_page_live np b j then
          if gc_page_live np b j = np.nr_subpages_per_page then
            { st with
              gc_reqs := st.gc_reqs.set st.nr_llm_reqs
                { gc_page_desc np b j
                    (env.hlm_reqs_pool_reset_logaddr (env.hlm_reqs_pool_reset_fmain r0)) with
                  req_type := reqtype_t.REQTYPE_GC_READ, phyaddr := gc_page_addr np b j,
                  ret := 0 },
              cmp_reqs := st.cmp_reqs.set st.nr_llm_reqs_cmp
                (gc_page_desc np b j
                  (env.hlm_reqs_pool_reset_logaddr (env.hlm_reqs_pool_reset_fmain rc0))),
              nr_llm_reqs := st.nr_llm_reqs + 1 }
          else
            { st with
              gc_reqs := st.gc_reqs.set st.nr_llm_reqs
                (gc_page_desc np b j
                  (env.hlm_reqs_pool_reset_logaddr (env.hlm_reqs_pool_reset_fmain r0))),
              cmp_reqs := st.cmp_reqs.set st.nr_llm_reqs_cmp
                { gc_page_desc np b j
                    (env.hlm_reqs_pool_reset_logaddr (env.hlm_reqs_pool_reset_fmain rc0)) with
                  req_type := reqtype_t.REQTYPE_GC_READ, phyaddr := gc_page_addr np b j,
                  ret := 0 },
              nr_llm_reqs_cmp := st.nr_llm_reqs_cmp + 1 }
        else
          { st with
            gc_reqs := st.gc_reqs.set st.nr_llm_reqs
              (gc_page_desc np b j
                (env.hlm_reqs_pool_reset_logaddr (env.hlm_reqs_pool_reset_fmain r0))),
            cmp_reqs := st.cmp_reqs.set st.nr_llm_reqs_cmp
              (gc_page_desc np b j
                (env.hlm_reqs_pool_reset_logaddr (env.hlm_reqs_pool_reset_fmain rc0))) }) := by
  unfold gc_build_read
  rw [hr, hrc]
  simp only
  rw [gc_scan_slots_eq b.pst _ (gc_page_pst np b j) _ _ _ _ _ (gc_page_pst_read np b j hpst hw)]
  simp only [Bool.false_or, Nat.zero_add, decide_eq_true_eq]
  unfold gc_page_live
  split_ifs <;> rfl

/-- The count of the live sub-pages of a page is `K` exactly when no sub-page
of the page is INVALID. -/
theorem gc_page_live_eq_K (np : bdbm_device_params_t) (b : bdbm_abm_block_t) (j : Nat) :
    gc_page_live np b j = np.nr_subpages_per_page ↔
      ∀ k, k < np.nr_subpages_per_page → gc_page_pst np b j k ≠ bdbm_abm_subpage_t.INVALID := by
  have h1 : (List.range np.nr_subpages_per_page).countP
        (fun k => decide (gc_page_pst np b j k ≠ bdbm_abm_subpage_t.INVALID)) =
        (List.range np.nr_subpages_per_page).length ↔
      ∀ k ∈ List.range np.nr_subpages_per_page,
        (fun k => decide (gc_page_pst np b j k ≠ bdbm_abm_subpage_t.INVALID)) k = true :=
    List.countP_eq_length
  rw [List.length_range] at h1
  unfold gc_page_live
  rw [h1]
  constructor
  · intro h k hk
    exact of_decide_eq_true (h k (List.mem_range.2 hk))
  · intro h k hk
    exact decide_eq_true (h k (List.mem_range.1 hk))

/-- The count of the live sub-pages of a page is zero exactly when every
sub-page of the page is INVALID. -/
theorem gc_page_live_eq_zero (np : bdbm_device_params_t) (b : bdbm_abm_block_t) (j : Nat) :
    gc_page_live np b j = 0 ↔
      ∀ k, k < np.nr_subpages_per_page → gc_page_pst np b j k = bdbm_abm_subpage_t.INVALID := by
  unfold gc_page_live
  rw [List.countP_eq_zero]
  constructor
  · intro h k hk
    have := h k (List.mem_range.2 hk)
    simpa using this
  · intro h k hk
    have := h k (List.mem_range.1 hk)
    simpa using this

/-- The count of the live sub-pages of a page is at most `K`. -/
theorem gc_page_live_le (np : bdbm_device_params_t) (b : bdbm_abm_block_t) (j : Nat) :
    gc_page_live np b j ≤ np.nr_subpages_per_page := by
  unfold gc_page_live
  have := List.countP_le_length
    (fun k => decide (gc_page_pst np b j k ≠ bdbm_abm_subpage_t.INVALID))
    (l := List.range np.nr_subpages_per_page)
  rw [List.length_range] at this
  exact this

/-- Slot `k` of the descriptor after the slot loop of a page. -/
theorem gc_page_desc_stt (np : bdbm_device_params_t) (b : bdbm_abm_block_t) (j : Nat)
    (r : bdbm_llm_req_t) (hk : np.nr_subpages_per_page ≤ r.kp_stt.length) :
    ∀ k, k < np.nr_subpages_per_page →
      (gc_page_desc np b j r).kp_stt[k]? =
        some (if gc_page_pst np b j k ≠ bdbm_abm_subpage_t.INVALID
          then kp_stt_t.KP_STT_DATA else kp_stt_t.KP_STT_HOLE) := by
  intro k hk1
  unfold gc_page_desc
  simp only
  rw [foldl_set_getElem? (fun k => if gc_page_pst np b j k ≠ bdbm_abm_subpage_t.INVALID
    then kp_stt_t.KP_STT_DATA else kp_stt_t.KP_STT_HOLE),
    if_pos ⟨List.mem_range.2 hk1, by omega⟩]

/-- One page of the read-building loop of `bdbm_fgm_ftl_do_gc`, `c` being the
number of its sub-pages that are not INVALID: the loop step returns; the page
is queued into the GC-read batch, all `K` slots DATA, exactly when `c = K`
with `0 < c`, into the compaction-read batch, DATA for the slots not INVALID
and HOLE for the others, exactly when `0 < c < K`, and into neither when
`c = 0`; no other descriptor of either pool changes. -/
theorem gc_build_read_class (env : fgm_env_t) (np : bdbm_device_params_t)
    (b : bdbm_abm_block_t) (j : Nat) (st : gc_reads_t) (r0 rc0 : bdbm_llm_req_t)
    (hr : st.gc_reqs[st.nr_llm_reqs]? = some r0)
    (hrc : st.cmp_reqs[st.nr_llm_reqs_cmp]? = some rc0)
    (hpst : (j + 1) * np.nr_subpages_per_page ≤ b.pst.length)
    (hw : b.pst.length < 18446744073709551616)
    (hk : np.nr_subpages_per_page ≤
      (env.hlm_reqs_pool_reset_logaddr (env.hlm_reqs_pool_reset_fmain r0)).kp_stt.length)
    (hkc : np.nr_subpages_per_page ≤
      (env.hlm_reqs_pool_reset_logaddr (env.hlm_reqs_pool_reset_fmain rc0)).kp_stt.length) :
    ∃ st1 : gc_reads_t, gc_build_read env np b j st = some st1 ∧
      st1.nr_llm_reqs = st.nr_llm_reqs +
        (if 0 < gc_page_live np b j ∧ gc_page_live np b j = np.nr_subpages_per_page
          then 1 else 0) ∧
      st1.nr_llm_reqs_cmp = st.nr_llm_reqs_cmp +
        (if 0 < gc_page_live np b j ∧ gc_page_live np b j < np.nr_subpages_per_page
          then 1 else 0) ∧
      (0 < gc_page_live np b j → gc_page_live np b j = np.nr_subpages_per_page →
        ∃ rq : bdbm_llm_req_t, st1.gc_reqs[st.nr_llm_reqs]? = some rq ∧
          rq.req_type = reqtype_t.REQTYPE_GC_READ ∧ rq.phyaddr = gc_page_addr np b j ∧
          ∀ k, k < np.nr_subpages_per_page → rq.kp_stt[k]? = some kp_stt_t.KP_STT_DATA) ∧
      (0 < gc_page_live np b j → gc_page_live np b j < np.nr_subpages_per_page →
        ∃ rq : bdbm_llm_req_t, st1.cmp_reqs[st.nr_llm_reqs_cmp]? = some rq ∧
          rq.req_type = reqtype_t.REQTYPE_GC_READ ∧ rq.phyaddr = gc_page_addr np b j ∧
          ∀ k, k < np.nr_subpages_per_page → rq.kp_stt[k]? =
            some (if gc_page_pst np b j k ≠ bdbm_abm_subpage_t.INVALID
              then kp_stt_t.KP_STT_DATA else kp_stt_t.KP_STT_HOLE)) ∧
      (∀ i, i ≠ st.nr_llm_reqs → st1.gc_reqs[i]? = st.gc_reqs[i]?) ∧
      (∀ i, i ≠ st.nr_llm_reqs_cmp → st1.cmp_reqs[i]? = st.cmp_reqs[i]?) := by
  have hlen : st.nr_llm_reqs < st.gc_reqs.length := by
    rcases Nat.lt_or_ge st.nr_llm_reqs st.gc_reqs.length with h | h
    · exact h
    · rw [List.getElem?_eq_none h] at hr; cases hr
  have hlenc : st.nr_llm_reqs_cmp < st.cmp_reqs.length := by
    rcases Nat.lt_or_ge st.nr_llm_reqs_cmp st.cmp_reqs.length with h | h
    · exact h
    · rw [List.getElem?_eq_none h] at hrc; cases hrc
  have hle := gc_page_live_le np b j
  refine ⟨_, gc_build_read_eq env np b j st r0 rc0 hr hrc hpst hw, ?_⟩
  by_cases h1 : 0 < gc_page_live np b j
  · by_cases h2 : gc_page_live np b j = np.nr_subpages_per_page
    · rw [if_pos h1, if_pos h2, if_pos ⟨h1, h2⟩, if_neg (by omega)]
      refine ⟨rfl, rfl, ?_, ?_, ?_, ?_⟩
      · intro _ _
        refine ⟨_, List.getElem?_set_self hlen, rfl, rfl, ?_⟩
        intro k hk1
        have h3 := gc_page_desc_stt np b j _ hk k hk1
        rw [if_pos ((gc_page_live_eq_K np b j).1 h2 k hk1)] at h3
        exact h3
      · intro _ h4
        omega
      · intro i hi
        exact List.getElem?_set_ne (fun e => hi e.symm)
      · intro i hi
        exact List.getElem?_set_ne (fun e => hi e.symm)
    · rw [if_pos h1, if_neg h2, if_neg (fun h => h2 h.2), if_pos ⟨h1, by omega⟩]
      refine ⟨rfl, rfl, ?_, ?_, ?_, ?_⟩
      · intro _ h4
        exact absurd h4 h2
      · intro _ _
        exact ⟨_, List.getElem?_set_self hlenc, rfl, rfl, gc_page_desc_stt np b j _ hkc⟩
      · intro i hi
        exact List.getElem?_set_ne (fun e => hi e.symm)
      · intro i hi
        exact List.getElem?_set_ne (fun e => hi e.symm)
  · rw [if_neg h1, if_neg (fun h => h1 h.1), if_neg (fun h => h1 h.1)]
    refine ⟨rfl, rfl, ?_, ?_, ?_, ?_⟩
    · intro h3 _
      exact absurd h3 h1
    · intro h3 _
      exact absurd h3 h1
    · intro i hi
      exact List.getElem?_set_ne (fun e => hi e.symm)
    · intro i hi
      exact List.getElem?_set_ne (fun e => hi e.symm)

/-- The relation `gc_reads_grow` holds between a state and itself. -/
theorem gc_reads_grow_refl (n : Nat) (st : gc_reads_t) : gc_reads_grow n st st :=
  ⟨rfl, rfl, Nat.le_refl _, Nat.le_refl _, Nat.le_add_right _ _, fun _ _ => rfl,
    fun _ _ => rfl⟩

/-- The relation `gc_reads_grow` composes. -/
theorem gc_reads_grow_trans (n m : Nat) (st st1 st2 : gc_reads_t)
    (h1 : gc_reads_grow n st st1) (h2 : gc_reads_grow m st1 st2) :
    gc_reads_grow (n + m) st st2 := by
  obtain ⟨a1, a2, a3, a4, a5, a6, a7⟩ := h1
  obtain ⟨b1, b2, b3, b4, b5, b6, b7⟩ := h2
  refine ⟨by rw [b1, a1], by rw [b2, a2], by omega, by omega, by omega, ?_, ?_⟩
  · intro i hi
    rw [b6 i (by omega), a6 i hi]
  · intro i hi
    rw [b7 i (by omega), a7 i hi]

/-- One page of the read-building loop returns whenever both pools have the
descriptor at their fill count and `pst` holds the page, and it queues at
most one request. -/
theorem gc_build_read_grow (env : fgm_env_t) (np : bdbm_device_params_t)
    (b : bdbm_abm_block_t) (j : Nat) (st : gc_reads_t)
    (hlen : st.nr_llm_reqs < st.gc_reqs.length)
    (hlenc : st.nr_llm_reqs_cmp < st.cmp_reqs.length)
    (hpst : (j + 1) * np.nr_subpages_per_page ≤ b.pst.length)
    (hw : b.pst.length < 18446744073709551616) :
    ∃ st1 : gc_reads_t, gc_build_read env np b j st = some st1 ∧ gc_reads_grow 1 st st1 := by
  refine ⟨_, gc_build_read_eq env np b j st _ _ (List.getElem?_eq_getElem hlen)
    (List.getElem?_eq_getElem hlenc) hpst hw, ?_⟩
  have hg : ∀ i, i < st.nr_llm_reqs → ∀ x : bdbm_llm_req_t,
      (st.gc_reqs.set st.nr_llm_reqs x)[i]? = st.gc_reqs[i]? :=
    fun i hi x => List.getElem?_set_ne (by omega)
  have hc : ∀ i, i < st.nr_llm_reqs_cmp → ∀ x : bdbm_llm_req_t,
      (st.cmp_reqs.set st.nr_llm_reqs_cmp x)[i]? = st.cmp_reqs[i]? :=
    fun i hi x => List.getElem?_set_ne (by omega)
  unfold gc_reads_grow
  split_ifs
  · exact ⟨List.length_set _ _ _, List.length_set _ _ _, by simp only; omega,
      by simp only; omega, by simp only; omega, fun i hi => hg i hi _, fun i hi => hc i hi _⟩
  · exact ⟨List.length_set _ _ _, List.length_set _ _ _, by simp only; omega,
      by simp only; omega, by simp only; omega, fun i hi => hg i hi _, fun i hi => hc i hi _⟩
  · exact ⟨List.length_set _ _ _, List.length_set _ _ _, by simp only; omega,
      by simp only; omega, by simp only; omega, fun i hi => hg i hi _, fun i hi => hc i hi _⟩

/-- The pages `js` of one victim: the loop returns whenever both pools have
`js.length` descriptors from their fill count on and `pst` holds the pages,
and it queues at most `js.length` requests. -/
theorem gc_build_reads_blk_grow (env : fgm_env_t) (np : bdbm_device_params_t)
    (b : bdbm_abm_block_t) (hw : b.pst.length < 18446744073709551616) :
    ∀ (js : List Nat) (st : gc_reads_t),
      (∀ j ∈ js, (j + 1) * np.nr_subpages_per_page ≤ b.pst.length) →
      st.nr_llm_reqs + js.length ≤ st.gc_reqs.length →
      st.nr_llm_reqs_cmp + js.length ≤ st.cmp_reqs.length →
      ∃ st1 : gc_reads_t, gc_build_reads_blk env np b js st = some st1 ∧
        gc_reads_grow js.length st st1 := by
  intro js
  induction js with
  | nil =>
    intro st _ _ _
    exact ⟨st, rfl, gc_reads_grow_refl _ st⟩
  | cons j rest ih =>
    intro st hp h1 h2
    rw [List.length_cons] at h1 h2
    obtain ⟨st1, e1, g1⟩ := gc_build_read_grow env np b j st (by omega) (by omega)
      (hp j (List.mem_cons_self _ _)) hw
    have g1c := g1
    obtain ⟨a1, a2, a3, a4, a5, _, _⟩ := g1c
    obtain ⟨st2, e2, g2⟩ := ih st1 (fun j hj => hp j (List.mem_cons_of_mem _ hj))
      (by omega) (by omega)
    refine ⟨st2, ?_, ?_⟩
    · rw [gc_build_reads_blk, e1]
      exact e2
    · rw [List.length_cons, Nat.add_comm]
      exact gc_reads_grow_trans 1 rest.length st st1 st2 g1 g2

/-- The read-building loop over the victims: it returns whenever every victim
is a block whose `pst` holds its pages and both pools have
`nr_pages_per_block` descriptors per victim from their fill count on, and it
queues at most `nr_pages_per_block` requests per victim, leaving the requests
queued before as they were. -/
theorem gc_build_reads_grow (env : fgm_env_t) (np : bdbm_device_params_t)
    (bai : bdbm_abm_info_t) :
    ∀ (gc_bab : List (Option Nat)) (st : gc_reads_t),
      gc_victims_ok np bai gc_bab = true →
      st.nr_llm_reqs + gc_bab.length * np.nr_pages_per_block ≤ st.gc_reqs.length →
      st.nr_llm_reqs_cmp + gc_bab.length * np.nr_pages_per_block ≤ st.cmp_reqs.length →
      ∃ st1 : gc_reads_t, gc_build_reads env np bai gc_bab st = some st1 ∧
        gc_reads_grow (gc_bab.length * np.nr_pages_per_block) st st1 := by
  intro gc_bab
  induction gc_bab with
  | nil =>
    intro st _ _ _
    exact ⟨st, rfl, gc_reads_grow_refl _ st⟩
  | cons x rest ih =>
    intro st hok h1 h2
    cases x with
    | none => exact ⟨st, rfl, gc_reads_grow_refl _ st⟩
    | some bi =>
      unfold gc_victims_ok at hok
      rw [List.all_cons, Bool.and_eq_true] at hok
      obtain ⟨hb, hrest⟩ := hok
      simp only at hb
      rw [List.length_cons, Nat.add_mul, Nat.one_mul] at h1 h2
      rw [gc_build_reads]
      cases hbl : bai.blocks[bi]? with
      | none =>
        rw [hbl] at hb
        exact absurd hb Bool.false_ne_true
      | some b =>
        rw [hbl] at hb
        simp only [decide_eq_true_eq] at hb
        obtain ⟨hb1, hb2⟩ := hb
        obtain ⟨st1, e1, g1⟩ := gc_build_reads_blk_grow env np b hb2
          (List.range np.nr_pages_per_block) st
          (by
            intro j hj
            have hj1 := List.mem_range.1 hj
            exact Nat.le_trans
              (Nat.mul_le_mul_right _ (Nat.succ_le_of_lt hj1)) hb1)
          (by rw [List.length_range]; omega) (by rw [List.length_range]; omega)
        rw [List.length_range] at g1
        have g1c := g1
        obtain ⟨a1, a2, a3, a4, a5, _, _⟩ := g1c
        obtain ⟨st2, e2, g2⟩ := ih st1 hrest (by omega) (by omega)
        refine ⟨st2, ?_, ?_⟩
        · simp only
          rw [e1]
          exact e2
        · rw [List.length_cons, Nat.add_mul, Nat.one_mul, Nat.add_comm]
          exact gc_reads_grow_trans _ _ st st1 st2 g1 g2

/-- The victim-selection loop of `bdbm_fgm_ftl_do_gc` takes at most one
victim per die. -/
theorem gc_select_loop_le (np : bdbm_device_params_t) :
    ∀ (dies : List (Nat × Nat)) (n : Nat) (p : bdbm_fgm_ftl_private_t) (n1 : Nat)
      (p1 : bdbm_fgm_ftl_private_t),
      gc_select_loop np dies n p = some (n1, p1) → n1 ≤ n + dies.length := by
  intro dies
  induction dies with
  | nil =>
    intro n p n1 p1 h
    rw [gc_select_loop] at h
    cases h
    exact Nat.le_refl _
  | cons d rest ih =>
    intro n p n1 p1 h
    obtain ⟨i, j⟩ := d
    rw [gc_select_loop] at h
    rw [List.length_cons]
    cases hv : __bdbm_fgm_ftl_victim_selection_greedy np p i j with
    | none => rw [hv] at h; cases h
    | some v =>
      rw [hv] at h
      cases v with
      | none =>
        have := ih _ _ _ _ h
        omega
      | some b =>
        have := ih _ _ _ _ h
        omega

/-- Counterexample to claim C23 as stated.  Page 1 of the dirty block 5 of
`ex_gc_state` was never written (its four sub-pages are NOT_INVALID) and
sub-page 3 of page 0 was never written either, yet the read-building loop
queues one request in each batch, and `bdbm_fgm_ftl_do_gc` submits first a
GC read of page 1 with all four slots DATA, from the GC-read batch, and then
a GC read of page 0 with the slots 2 and 3 DATA, from the compaction-read
batch. -/
theorem C23_counterexample :
    (∀ k, k < 4 → gc_page_pst ex_np ex_gc_blk 1 k = bdbm_abm_subpage_t.NOT_INVALID) ∧
    gc_page_pst ex_np ex_gc_blk 0 2 = bdbm_abm_subpage_t.VALID ∧
    gc_page_pst ex_np ex_gc_blk 0 3 = bdbm_abm_subpage_t.NOT_INVALID ∧
    (gc_build_reads ex_env ex_np ex_gc_state.bai [some 5] ex_gc_reads).map
      (fun s => (s.nr_llm_reqs, s.nr_llm_reqs_cmp)) = some (1, 1) ∧
    (bdbm_fgm_ftl_do_gc ex_env ex_np (bdbm_fgm_ftl_get_free_ppa ex_env ex_np 3)
        ex_gc_state).map
      (fun x => (x.2.llm_reqs_made.take 2).map
        (fun r => (r.req_type, r.phyaddr.block_no, r.phyaddr.page_no, r.kp_stt))) =
      some [(reqtype_t.REQTYPE_GC_READ, 5, 1,
              [kp_stt_t.KP_STT_DATA, kp_stt_t.KP_STT_DATA, kp_stt_t.KP_STT_DATA,
               kp_stt_t.KP_STT_DATA]),
            (reqtype_t.REQTYPE_GC_READ, 5, 0,
              [kp_stt_t.KP_STT_HOLE, kp_stt_t.KP_STT_HOLE, kp_stt_t.KP_STT_DATA,
               kp_stt_t.KP_STT_DATA])] := by
  refine ⟨by decide, by decide, by decide, by decide, by decide⟩

/-- Claim C23, amended.  The read-building loop of `bdbm_fgm_ftl_do_gc`
classifies a page by its sub-pages that are not INVALID (VALID or
NOT_INVALID), `gc_page_live` being their number.  For page `j` of a victim
`b`, both pools having the descriptor at their fill count and `pst` holding
the page: the count is `K` exactly when no sub-page is INVALID and zero
exactly when all are; the loop step returns; the page is queued into the
GC-read batch, as a GC read of the page with all `K` slots DATA, exactly when
the count is `K` (and positive), into the compaction-read batch, as a GC read
with DATA for the slots not INVALID and HOLE for the INVALID ones, exactly
when the count is positive and below `K`, and into neither batch when the
count is zero; no request queued elsewhere in the pools changes.  The loop
over the dies takes at most one victim per die, and the whole read-building
loop over a list of victims returns and queues, in both batches together, at
most `nr_pages_per_block` requests per victim, the requests queued before
staying as they were. -/
theorem C23_gc_read_classification (env : fgm_env_t) (np : bdbm_device_params_t)
    (b : bdbm_abm_block_t) (j : Nat) (st : gc_reads_t) (r0 rc0 : bdbm_llm_req_t)
    (hr : st.gc_reqs[st.nr_llm_reqs]? = some r0)
    (hrc : st.cmp_reqs[st.nr_llm_reqs_cmp]? = some rc0)
    (hpst : (j + 1) * np.nr_subpages_per_page ≤ b.pst.length)
    (hw : b.pst.length < 18446744073709551616)
    (hk : np.nr_subpages_per_page ≤
      (env.hlm_reqs_pool_reset_logaddr (env.hlm_reqs_pool_reset_fmain r0)).kp_stt.length)
    (hkc : np.nr_subpages_per_page ≤
      (env.hlm_reqs_pool_reset_logaddr (env.hlm_reqs_pool_reset_fmain rc0)).kp_stt.length) :
    (gc_page_live np b j = np.nr_subpages_per_page ↔
      ∀ k, k < np.nr_subpages_per_page →
        gc_page_pst np b j k ≠ bdbm_abm_subpage_t.INVALID) ∧
    (gc_page_live np b j = 0 ↔
      ∀ k, k < np.nr_subpages_per_page →
        gc_page_pst np b j k = bdbm_abm_subpage_t.INVALID) ∧
    (∃ st1 : gc_reads_t, gc_build_read env np b j st = some st1 ∧
      st1.nr_llm_reqs = st.nr_llm_reqs +
        (if 0 < gc_page_live np b j ∧ gc_page_live np b j = np.nr_subpages_per_page
          then 1 else 0) ∧
      st1.nr_llm_reqs_cmp = st.nr_llm_reqs_cmp +
        (if 0 < gc_page_live np b j ∧ gc_page_live np b j < np.nr_subpages_per_page
          then 1 else 0) ∧
      (0 < gc_page_live np b j → gc_page_live np b j = np.nr_subpages_per_page →
        ∃ rq : bdbm_llm_req_t, st1.gc_reqs[st.nr_llm_reqs]? = some rq ∧
          rq.req_type = reqtype_t.REQTYPE_GC_READ ∧ rq.phyaddr = gc_page_addr np b j ∧
          ∀ k, k < np.nr_subpages_per_page → rq.kp_stt[k]? = some kp_stt_t.KP_STT_DATA) ∧
      (0 < gc_page_live np b j → gc_page_live np b j < np.nr_subpages_per_page →
        ∃ rq : bdbm_llm_req_t, st1.cmp_reqs[st.nr_llm_reqs_cmp]? = some rq ∧
          rq.req_type = reqtype_t.REQTYPE_GC_READ ∧ rq.phyaddr = gc_page_addr np b j ∧
          ∀ k, k < np.nr_subpages_per_page → rq.kp_stt[k]? =
            some (if gc_page_pst np b j k ≠ bdbm_abm_subpage_t.INVALID
              then kp_stt_t.KP_STT_DATA else kp_stt_t.KP_STT_HOLE)) ∧
      (∀ i, i ≠ st.nr_llm_reqs → st1.gc_reqs[i]? = st.gc_reqs[i]?) ∧
      (∀ i, i ≠ st.nr_llm_reqs_cmp → st1.cmp_reqs[i]? = st.cmp_reqs[i]?)) ∧
    (∀ (p p1 : bdbm_fgm_ftl_private_t) (n : Nat),
      gc_select_loop np (die_list np) 0 p = some (n, p1) →
        n ≤ np.nr_channels * np.nr_chips_per_channel) ∧
    (∀ (bai : bdbm_abm_info_t) (gc_bab : List (Option Nat)) (st0 : gc_reads_t),
      gc_victims_ok np bai gc_bab = true →
      st0.nr_llm_reqs + gc_bab.length * np.nr_pages_per_block ≤ st0.gc_reqs.length →
      st0.nr_llm_reqs_cmp + gc_bab.length * np.nr_pages_per_block ≤ st0.cmp_reqs.length →
      ∃ st1 : gc_reads_t, gc_build_reads env np bai gc_bab st0 = some st1 ∧
        st1.nr_llm_reqs + st1.nr_llm_reqs_cmp ≤
          st0.nr_llm_reqs + st0.nr_llm_reqs_cmp + gc_bab.length * np.nr_pages_per_block ∧
        (∀ i, i < st0.nr_llm_reqs → st1.gc_reqs[i]? = st0.gc_reqs[i]?) ∧
        (∀ i, i < st0.nr_llm_reqs_cmp → st1.cmp_reqs[i]? = st0.cmp_reqs[i]?)) := by
  refine ⟨gc_page_live_eq_K np b j, gc_page_live_eq_zero np b j,
    gc_build_read_class env np b j st r0 rc0 hr hrc hpst hw hk hkc, ?_, ?_⟩
  · intro p p1 n h
    have := gc_select_loop_le np (die_list np) 0 p n p1 h
    rw [die_list_length] at this
    omega
  · intro bai gc_bab st0 hok h1 h2
    obtain ⟨st1, e, _, _, _, _, g5, g6, g7⟩ := gc_build_reads_grow env np bai gc_bab st0 hok h1 h2
    exact ⟨st1, e, g5, g6, g7⟩

/-- Witness of claim C23 on page 0 of the block `ex_gc_blk` (sub-pages 0 and
1 INVALID, sub-page 2 VALID, sub-page 3 NOT_INVALID) from the empty batches of
`ex_gc_state`: the page has two sub-pages that are not INVALID and is queued
into the compaction-read batch with the slots 2 and 3 DATA. -/
theorem C23_gc_read_classification_witness :
    (ex_gc_reads.gc_reqs[ex_gc_reads.nr_llm_reqs]? = some (zero_llm_req 4) ∧
      ex_gc_reads.cmp_reqs[ex_gc_reads.nr_llm_reqs_cmp]? = some (zero_llm_req 4) ∧
      (0 + 1) * ex_np.nr_subpages_per_page ≤ ex_gc_blk.pst.length ∧
      ex_gc_blk.pst.length < 18446744073709551616 ∧
      ex_np.nr_subpages_per_page ≤
        (ex_env.hlm_reqs_pool_reset_logaddr
          (ex_env.hlm_reqs_pool_reset_fmain (zero_llm_req 4))).kp_stt.length) ∧
    gc_page_live ex_np ex_gc_blk 0 = 2 ∧
    ∃ st1 : gc_reads_t, gc_build_read ex_env ex_np ex_gc_blk 0 ex_gc_reads = some st1 ∧
      st1.nr_llm_reqs = 0 ∧ st1.nr_llm_reqs_cmp = 1 ∧
      ∃ rq : bdbm_llm_req_t, st1.cmp_reqs[0]? = some rq ∧
        rq.req_type = reqtype_t.REQTYPE_GC_READ ∧
        rq.phyaddr = gc_page_addr ex_np ex_gc_blk 0 ∧
        ∀ k, k < 4 → rq.kp_stt[k]? =
          some (if gc_page_pst ex_np ex_gc_blk 0 k ≠ bdbm_abm_subpage_t.INVALID
            then kp_stt_t.KP_STT_DATA else kp_stt_t.KP_STT_HOLE) := by
  have hl : gc_page_live ex_np ex_gc_blk 0 = 2 := by decide
  obtain ⟨_, _, ⟨st1, e, c1, c2, _, c4, _, _⟩, _, _⟩ :=
    C23_gc_read_classification ex_env ex_np ex_gc_blk 0 ex_gc_reads (zero_llm_req 4)
      (zero_llm_req 4) (by decide) (by decide) (by decide) (by decide) (by decide) (by decide)
  rw [hl] at c1 c2 c4
  exact ⟨⟨by decide, by decide, by decide, by decide, by decide⟩, hl, st1, e, c1, c2,
    c4 (by decide) (by decide)⟩

end BdbmFgm
